import Mathlib

/-!
# Transmission peer-swarm core: announcer, UDP tracker transport, peer manager

A shallow embedding of parts of `libtransmission/announcer-udp.cc`,
`libtransmission/announcer.cc` and `libtransmission/peer-mgr.cc`, with the
properties proved about them.

Conventions: a byte is a `Nat` below 256; an unsigned machine integer of width
`w` is a `Nat` reduced `% 2^w` where it is stored; `int` and `time_t` are `Int`;
a heap pointer is a `Nat` identity and `Option` marks a nullable pointer.
-/

namespace Transmission

/-! ## Byte buffers (`evbuffer`) -/

/-- The `n` low-order bytes of `v`, most significant first: the bytes that
`evbuffer_add_hton_16/32/64` append for an unsigned value (the conversion to the
`n`-byte unsigned type truncates). -/
def hton : Nat → Nat → List Nat
  | 0, _ => []
  | n + 1, v => (v / 256 ^ n) % 256 :: hton n v

/-- Reading a big-endian unsigned integer back from its bytes
(`ntohs`, `ntohl`, `tr_ntohll` on what `evbuffer_remove` copied). -/
def ntoh (bytes : List Nat) : Nat :=
  bytes.foldl (fun acc b => acc * 256 + b) 0

/-- Conversion of a C `int` to `uint32_t` (value modulo `2^32`). -/
def toU32 (v : Int) : Nat := (v % 4294967296).toNat

def evbuffer_add (buf : List Nat) (data : List Nat) : List Nat := buf ++ data

def evbuffer_add_hton_16 (buf : List Nat) (v : Nat) : List Nat := buf ++ hton 2 v

def evbuffer_add_hton_32 (buf : List Nat) (v : Nat) : List Nat := buf ++ hton 4 v

def evbuffer_add_hton_64 (buf : List Nat) (v : Nat) : List Nat := buf ++ hton 8 v

/-- The bytes `[off, off + len)` of a buffer. -/
def slice (off len : Nat) (buf : List Nat) : List Nat := (buf.drop off).take len

/-! ## Announce events -/

/-- Type `tr_announce_event`, declared in this order by `announcer-common.h`. -/
inductive tr_announce_event where
  | TR_ANNOUNCE_EVENT_NONE
  | TR_ANNOUNCE_EVENT_COMPLETED
  | TR_ANNOUNCE_EVENT_STARTED
  | TR_ANNOUNCE_EVENT_STOPPED
  deriving DecidableEq, Repr

open tr_announce_event

/-- The enumerators of `tau_announce_event`. -/
def TAU_ANNOUNCE_EVENT_NONE : Nat := 0

def TAU_ANNOUNCE_EVENT_COMPLETED : Nat := 1

def TAU_ANNOUNCE_EVENT_STARTED : Nat := 2

def TAU_ANNOUNCE_EVENT_STOPPED : Nat := 3

def get_tau_announce_event : tr_announce_event → Nat
  | TR_ANNOUNCE_EVENT_COMPLETED => TAU_ANNOUNCE_EVENT_COMPLETED
  | TR_ANNOUNCE_EVENT_STARTED => TAU_ANNOUNCE_EVENT_STARTED
  | TR_ANNOUNCE_EVENT_STOPPED => TAU_ANNOUNCE_EVENT_STOPPED
  | _ => TAU_ANNOUNCE_EVENT_NONE

/-! ## UDP tracker requests (`announcer-udp.cc`) -/

def TAU_ACTION_CONNECT : Nat := 0

def TAU_ACTION_ANNOUNCE : Nat := 1

def TAU_ACTION_SCRAPE : Nat := 2

def TAU_ACTION_ERROR : Nat := 3

/-- The fields of `tr_announce_request` that `announce_request_new` fills
(without the log name). `info_hash` is a `tr_sha1_digest_t` and `peer_id` a
`tr_peer_id_t`, both arrays of 20 bytes; `port`, `key` and `numwant` are `int`;
the byte counts are `uint64_t`; `announce_url` is a `tr_quark`. -/
structure tr_announce_request where
  event : tr_announce_event
  port : Int
  key : Int
  numwant : Int
  up : Nat
  down : Nat
  leftUntilComplete : Nat
  info_hash : List Nat
  peer_id : List Nat
  announce_url : Nat
  corrupt : Nat := 0
  tracker_id_str : Option (List Nat) := none
  partial_seed : Bool := false
  deriving DecidableEq, Repr

/-- The payload built by `tau_announce_request_new` for transaction id
`transaction_id` (drawn by `tau_transaction_new`). -/
def tau_announce_request_payload (req : tr_announce_request) (transaction_id : Nat) : List Nat :=
  let buf : List Nat := []
  let buf := evbuffer_add_hton_32 buf TAU_ACTION_ANNOUNCE
  let buf := evbuffer_add_hton_32 buf transaction_id
  let buf := evbuffer_add buf req.info_hash
  let buf := evbuffer_add buf req.peer_id
  let buf := evbuffer_add_hton_64 buf req.down
  let buf := evbuffer_add_hton_64 buf req.leftUntilComplete
  let buf := evbuffer_add_hton_64 buf req.up
  let buf := evbuffer_add_hton_32 buf (get_tau_announce_event req.event)
  let buf := evbuffer_add_hton_32 buf 0
  let buf := evbuffer_add_hton_32 buf (toU32 req.key)
  let buf := evbuffer_add_hton_32 buf (toU32 req.numwant)
  let buf := evbuffer_add_hton_16 buf (toU32 req.port)
  buf

/-- The datagram handed to `tau_sendto` by `tau_tracker_send_request`: the
tracker's connection id, then the request payload. -/
def tau_tracker_send_request (connection_id : Nat) (payload : List Nat) : List Nat :=
  let buf : List Nat := []
  let buf := evbuffer_add_hton_64 buf connection_id
  let buf := evbuffer_add buf payload
  buf

/-! ## Addresses (`net.cc`) and compact peer lists (`peer-mgr.cc`) -/

inductive tr_address_type where
  | TR_AF_INET
  | TR_AF_INET6
  deriving DecidableEq, Repr

open tr_address_type

/-- Type `tr_address`. `addr` is the number whose big-endian bytes are the
address bytes in network order (4 bytes for `TR_AF_INET`, 16 for
`TR_AF_INET6`), so that `memcmp` on the bytes is the order of the numbers. -/
structure tr_address where
  type : tr_address_type
  addr : Nat
  deriving DecidableEq, Repr

/-- Type `tr_pex`. `port` is the 16-bit port whose bytes, in network order, are
the two bytes copied from the wire. -/
structure tr_pex where
  addr : tr_address
  port : Nat
  flags : Nat := 0
  deriving DecidableEq, Repr

/-- The loop of `tr_peerMgrCompactToPex`: `n` entries read from `walk`, index
`i` being the entry's position (for `added_f[i]`). -/
def compactToPexLoop (added_f : Option (List Nat)) (added_f_len total : Nat) :
    Nat → Nat → List Nat → List tr_pex
  | 0, _, _ => []
  | n + 1, i, walk =>
    let addr : tr_address := { type := TR_AF_INET, addr := ntoh (walk.take 4) }
    let walk := walk.drop 4
    let port := ntoh (walk.take 2)
    let walk := walk.drop 2
    let flags :=
      match added_f with
      | some f => if total = added_f_len then f.getD i 0 else 0
      | none => 0
    { addr := addr, port := port, flags := flags }
      :: compactToPexLoop added_f added_f_len total n (i + 1) walk

/-- Function `tr_peerMgrCompactToPex`; `pexCount` is the length of the result. -/
def tr_peerMgrCompactToPex (compact : List Nat) (compactLen : Nat) (added_f : Option (List Nat))
    (added_f_len : Nat) : List tr_pex :=
  let n := compactLen / 6
  compactToPexLoop added_f added_f_len n n 0 compact

/-! ## UDP tracker transport state (`announcer-udp.cc`) -/

/-- Conversion of a `uint32_t` to `int` (two's complement). -/
def toI32 (v : Nat) : Int :=
  if v % 4294967296 < 2147483648 then (v % 4294967296 : Nat) else (v % 4294967296 : Nat) - 4294967296

/-- Function `evbuffer_read_ntoh_32`: `evbuffer_remove` copies at most 4 bytes
into a zeroed `uint32_t`, which `ntohl` converts. Returns the value and the
drained buffer. -/
def evbuffer_read_ntoh_32 (buf : List Nat) : Nat × List Nat :=
  let got := buf.take 4
  (ntoh (got ++ List.replicate (4 - got.length) 0), buf.drop 4)

/-- Function `evbuffer_read_ntoh_64`. -/
def evbuffer_read_ntoh_64 (buf : List Nat) : Nat × List Nat :=
  let got := buf.take 8
  (ntoh (got ++ List.replicate (8 - got.length) 0), buf.drop 8)

def TauConnectionTtlSecs : Int := 60

def TauRequestTtl : Int := 60

/-- Function `is_tau_response_message`. -/
def is_tau_response_message (action : Nat) (msglen : Nat) : Bool :=
  if action = TAU_ACTION_CONNECT then msglen == 16
  else if action = TAU_ACTION_ANNOUNCE then decide (msglen ≥ 20)
  else if action = TAU_ACTION_SCRAPE then decide (msglen ≥ 20)
  else if action = TAU_ACTION_ERROR then decide (msglen ≥ 8)
  else false

/-- A C string made of the bytes of a literal. -/
def cstr (s : String) : List Nat := s.toList.map Char.toNat

/-- Function `tr_strndup` on a byte buffer: at most `n` bytes, stopping at a NUL. -/
def tr_strndup (bytes : List Nat) (n : Nat) : List Nat :=
  (bytes.take n).takeWhile (fun b => b != 0)

/-- The fields of `tr_announce_response` set by the UDP transport. A request
object is value-initialised, so unset fields are zero or null. -/
structure tr_announce_response where
  info_hash : List Nat := []
  did_connect : Bool := false
  did_timeout : Bool := false
  interval : Int := 0
  min_interval : Int := 0
  seeders : Int := 0
  leechers : Int := 0
  downloads : Int := 0
  pex : List tr_pex := []
  errmsg : Option (List Nat) := none
  deriving DecidableEq, Repr

structure tr_scrape_response_row where
  info_hash : List Nat := []
  seeders : Int := 0
  leechers : Int := 0
  downloads : Int := 0
  downloaders : Int := 0
  deriving DecidableEq, Repr

/-- Type `tr_scrape_response`; `row_count` is the length of `rows`. -/
structure tr_scrape_response where
  did_connect : Bool := false
  did_timeout : Bool := false
  rows : List tr_scrape_response_row := []
  scrape_url : Nat := 0
  errmsg : List Nat := []
  min_request_interval : Int := 0
  deriving DecidableEq, Repr

/-- Type `tau_announce_request`. `callback` is the identity of the response
function with its user data, `none` for a null callback. -/
structure tau_announce_request where
  payload : List Nat := []
  created_at : Int := 0
  sent_at : Int := 0
  transaction_id : Nat := 0
  response : tr_announce_response := {}
  callback : Option Nat := none
  deriving DecidableEq, Repr

structure tau_scrape_request where
  payload : List Nat := []
  sent_at : Int := 0
  created_at : Int := 0
  transaction_id : Nat := 0
  response : tr_scrape_response := {}
  callback : Option Nat := none
  deriving DecidableEq, Repr

/-- What the transport does to the outside: a datagram handed to `sendto` for
the tracker with the given key, a response callback invoked, a DNS lookup
started. -/
inductive tau_effect where
  | sendto (tracker_key : Nat) (datagram : List Nat)
  | announce_callback (callback : Nat) (response : tr_announce_response)
  | scrape_callback (callback : Nat) (response : tr_scrape_response)
  | dns_lookup (tracker_key : Nat)
  deriving DecidableEq, Repr

/-- Type `tau_tracker`. `addr` is the resolved address family, `none` while
there is no address; `dns_request` tells whether a lookup is in flight. -/
structure tau_tracker where
  key : Nat
  host : Nat := 0
  port : Int := 0
  dns_request : Bool := false
  addr : Option tr_address_type := none
  addr_expiration_time : Int := 0
  connecting_at : Int := 0
  connection_expiration_time : Int := 0
  connection_id : Nat := 0
  connection_transaction_id : Nat := 0
  close_at : Int := 0
  announces : List tau_announce_request := []
  scrapes : List tau_scrape_request := []
  deriving DecidableEq, Repr

/-- What the transport reads from its environment during one call: the cached
clock `tr_time()`, the wall clock `time(nullptr)`, the next value of
`tau_transaction_new()`, and whether the session has its IPv4 and IPv6 UDP
sockets. -/
structure tau_env where
  tr_time : Int
  time : Int
  transaction_new : Nat
  udp_socket : Bool := true
  udp6_socket : Bool := true

/-- Function `tau_sendto`: nothing is sent when the session has no socket of the
address's family. -/
def tau_sendto (env : tau_env) (tracker : tau_tracker) (buf : List Nat) : List tau_effect :=
  match tracker.addr with
  | some TR_AF_INET => if env.udp_socket then [tau_effect.sendto tracker.key buf] else []
  | some TR_AF_INET6 => if env.udp6_socket then [tau_effect.sendto tracker.key buf] else []
  | none => []

def tau_scrape_request_finished (request : tau_scrape_request) : List tau_effect :=
  match request.callback with
  | some cb => [tau_effect.scrape_callback cb request.response]
  | none => []

def tau_scrape_request_fail (request : tau_scrape_request) (did_connect did_timeout : Bool)
    (errmsg : Option (List Nat)) : tau_scrape_request × List tau_effect :=
  let request := { request with response := { request.response with
    did_connect := did_connect, did_timeout := did_timeout, errmsg := errmsg.getD [] } }
  (request, tau_scrape_request_finished request)

/-- The row loop of `on_scrape_response`. -/
def on_scrape_response_rows : List tr_scrape_response_row → List Nat → List tr_scrape_response_row
  | [], _ => []
  | row :: rows, buf =>
    if buf.length < 12 then row :: rows
    else
      let (seeders, buf) := evbuffer_read_ntoh_32 buf
      let (downloads, buf) := evbuffer_read_ntoh_32 buf
      let (leechers, buf) := evbuffer_read_ntoh_32 buf
      { row with seeders := toI32 seeders, downloads := toI32 downloads, leechers := toI32 leechers }
        :: on_scrape_response_rows rows buf

def on_scrape_response (request : tau_scrape_request) (action : Nat) (buf : List Nat) :
    tau_scrape_request × List tau_effect :=
  let request := { request with response := { request.response with
    did_connect := true, did_timeout := false } }
  if action = TAU_ACTION_SCRAPE then
    let request := { request with response := { request.response with
      rows := on_scrape_response_rows request.response.rows buf } }
    (request, tau_scrape_request_finished request)
  else
    let buflen := buf.length
    let errmsg := if action = TAU_ACTION_ERROR ∧ buflen > 0 then tr_strndup buf buflen
      else cstr "Unknown error"
    tau_scrape_request_fail request true false (some errmsg)

def tau_announce_request_finished (request : tau_announce_request) : List tau_effect :=
  match request.callback with
  | some cb => [tau_effect.announce_callback cb request.response]
  | none => []

def tau_announce_request_fail (request : tau_announce_request) (did_connect did_timeout : Bool)
    (errmsg : Option (List Nat)) : tau_announce_request × List tau_effect :=
  let request := { request with response := { request.response with
    did_connect := did_connect, did_timeout := did_timeout, errmsg := errmsg } }
  (request, tau_announce_request_finished request)

def on_announce_response (request : tau_announce_request) (action : Nat) (buf : List Nat) :
    tau_announce_request × List tau_effect :=
  let buflen := buf.length
  let request := { request with response := { request.response with
    did_connect := true, did_timeout := false } }
  if action = TAU_ACTION_ANNOUNCE ∧ buflen ≥ 3 * 4 then
    let (interval, buf) := evbuffer_read_ntoh_32 buf
    let (leechers, buf) := evbuffer_read_ntoh_32 buf
    let (seeders, buf) := evbuffer_read_ntoh_32 buf
    let request := { request with response := { request.response with
      interval := toI32 interval, leechers := toI32 leechers, seeders := toI32 seeders,
      pex := tr_peerMgrCompactToPex buf buf.length none 0 } }
    (request, tau_announce_request_finished request)
  else
    let errmsg := if action = TAU_ACTION_ERROR ∧ buflen > 0 then tr_strndup buf buflen
      else cstr "Unknown error"
    tau_announce_request_fail request true false (some errmsg)

/-- Function `tau_tracker_fail_all`: every pending scrape, then every pending
announce, is failed (its callback invoked when it has one) and freed. -/
def tau_tracker_fail_all (tracker : tau_tracker) (did_connect did_timeout : Bool)
    (errmsg : Option (List Nat)) : tau_tracker × List tau_effect :=
  let e1 := (tracker.scrapes.map
    (fun req => (tau_scrape_request_fail req did_connect did_timeout errmsg).2)).flatten
  let tracker := { tracker with scrapes := [] }
  let e2 := (tracker.announces.map
    (fun req => (tau_announce_request_fail req did_connect did_timeout errmsg).2)).flatten
  let tracker := { tracker with announces := [] }
  (tracker, e1 ++ e2)

/-- The loop of `tau_tracker_send_reqs` over the announces: an unsent request is
stamped and sent, and dropped at once when it has no callback. -/
def tau_tracker_send_announces (env : tau_env) (tracker : tau_tracker) (now : Int) :
    List tau_announce_request → List tau_announce_request × List tau_effect
  | [] => ([], [])
  | req :: reqs =>
    let (rest, e) := tau_tracker_send_announces env tracker now reqs
    if req.sent_at = 0 then
      let req := { req with sent_at := now }
      let sent := tau_sendto env tracker (tau_tracker_send_request tracker.connection_id req.payload)
      if req.callback = none then (rest, sent ++ e) else (req :: rest, sent ++ e)
    else (req :: rest, e)

def tau_tracker_send_scrapes (env : tau_env) (tracker : tau_tracker) (now : Int) :
    List tau_scrape_request → List tau_scrape_request × List tau_effect
  | [] => ([], [])
  | req :: reqs =>
    let (rest, e) := tau_tracker_send_scrapes env tracker now reqs
    if req.sent_at = 0 then
      let req := { req with sent_at := now }
      let sent := tau_sendto env tracker (tau_tracker_send_request tracker.connection_id req.payload)
      if req.callback = none then (rest, sent ++ e) else (req :: rest, sent ++ e)
    else (req :: rest, e)

def tau_tracker_send_reqs (env : tau_env) (tracker : tau_tracker) : tau_tracker × List tau_effect :=
  let now := env.tr_time
  let (announces, e1) := tau_tracker_send_announces env tracker now tracker.announces
  let tracker := { tracker with announces := announces }
  let (scrapes, e2) := tau_tracker_send_scrapes env tracker now tracker.scrapes
  let tracker := { tracker with scrapes := scrapes }
  (tracker, e1 ++ e2)

/-- Function `on_tracker_connection_response`; `upkeep` is the call of
`tau_tracker_upkeep` that ends it, `buf` is `none` for a null buffer. -/
def on_tracker_connection_response
    (upkeep : tau_tracker → Option (tau_tracker × List tau_effect)) (env : tau_env)
    (tracker : tau_tracker) (action : Nat) (buf : Option (List Nat)) :
    Option (tau_tracker × List tau_effect) :=
  let now := env.tr_time
  let tracker := { tracker with connecting_at := 0, connection_transaction_id := 0 }
  let (tracker, e1) :=
    if action = TAU_ACTION_CONNECT then
      ({ tracker with
          connection_id := (evbuffer_read_ntoh_64 (buf.getD [])).1,
          connection_expiration_time := now + TauConnectionTtlSecs }, [])
    else
      let buflen := match buf with
        | some b => b.length
        | none => 0
      let errmsg := if action = TAU_ACTION_ERROR ∧ buflen > 0 then tr_strndup (buf.getD []) buflen
        else cstr "Connection failed"
      tau_tracker_fail_all tracker true false (some errmsg)
  match upkeep tracker with
  | some (tracker, e2) => some (tracker, e1 ++ e2)
  | none => none

/-- The loop of `tau_tracker_timeout_reqs` over the announces. -/
def tau_tracker_timeout_announces (cancel_all : Bool) (now : Int) :
    List tau_announce_request → List tau_announce_request × List tau_effect
  | [] => ([], [])
  | req :: reqs =>
    let (rest, e) := tau_tracker_timeout_announces cancel_all now reqs
    if cancel_all ∨ req.created_at + TauRequestTtl < now then
      (rest, (tau_announce_request_fail req false true none).2 ++ e)
    else (req :: rest, e)

def tau_tracker_timeout_scrapes (cancel_all : Bool) (now : Int) :
    List tau_scrape_request → List tau_scrape_request × List tau_effect
  | [] => ([], [])
  | req :: reqs =>
    let (rest, e) := tau_tracker_timeout_scrapes cancel_all now reqs
    if cancel_all ∨ req.created_at + TauRequestTtl < now then
      (rest, (tau_scrape_request_fail req false true none).2 ++ e)
    else (req :: rest, e)

/-- Function `tau_tracker_timeout_reqs`; `upkeep` is the call of
`tau_tracker_upkeep` made by `on_tracker_connection_response`. -/
def tau_tracker_timeout_reqs
    (upkeep : tau_tracker → Option (tau_tracker × List tau_effect)) (env : tau_env)
    (tracker : tau_tracker) : Option (tau_tracker × List tau_effect) :=
  let now := env.time
  let cancel_all : Bool := tracker.close_at ≠ 0 ∧ tracker.close_at ≤ now
  let r :=
    if tracker.connecting_at ≠ 0 ∧ tracker.connecting_at + TauRequestTtl < now then
      on_tracker_connection_response upkeep env tracker TAU_ACTION_ERROR none
    else some (tracker, [])
  match r with
  | none => none
  | some (tracker, e0) =>
    let (announces, e1) := tau_tracker_timeout_announces cancel_all now tracker.announces
    let tracker := { tracker with announces := announces }
    let (scrapes, e2) := tau_tracker_timeout_scrapes cancel_all now tracker.scrapes
    let tracker := { tracker with scrapes := scrapes }
    some (tracker, e0 ++ e1 ++ e2)

def tau_tracker_is_idle (tracker : tau_tracker) : Bool :=
  tracker.announces.isEmpty && tracker.scrapes.isEmpty && !tracker.dns_request

/-- Function `tau_tracker_upkeep_ex`. It calls itself through
`tau_tracker_timeout_reqs` and `on_tracker_connection_response`; the first
argument bounds the depth of that recursion (`none` when it is exhausted). -/
def tau_tracker_upkeep_ex : Nat → tau_env → tau_tracker → Bool →
    Option (tau_tracker × List tau_effect)
  | 0, _, _, _ => none
  | fuel + 1, env, tracker, timeout_reqs =>
    let now := env.tr_time
    let closing : Bool := tracker.close_at ≠ 0
    let tracker :=
      if tracker.addr ≠ none ∧ (closing ∨ tracker.addr_expiration_time ≤ now) then
        { tracker with addr := none }
      else tracker
    if tau_tracker_is_idle tracker then some (tracker, [])
    else if ¬ closing ∧ tracker.addr = none ∧ tracker.dns_request = false then
      some ({ tracker with dns_request := true }, [tau_effect.dns_lookup tracker.key])
    else if tracker.addr ≠ none ∧ tracker.connection_expiration_time ≤ now
        ∧ tracker.connecting_at = 0 then
      let tracker := { tracker with
        connecting_at := now, connection_transaction_id := env.transaction_new }
      let buf : List Nat := []
      let buf := evbuffer_add_hton_64 buf 0x41727101980
      let buf := evbuffer_add_hton_32 buf TAU_ACTION_CONNECT
      let buf := evbuffer_add_hton_32 buf tracker.connection_transaction_id
      some (tracker, tau_sendto env tracker buf)
    else
      let r :=
        if timeout_reqs then
          tau_tracker_timeout_reqs (fun t => tau_tracker_upkeep_ex fuel env t true) env tracker
        else some (tracker, [])
      match r with
      | none => none
      | some (tracker, e1) =>
        if tracker.addr ≠ none ∧ tracker.connection_expiration_time > now then
          let (tracker, e2) := tau_tracker_send_reqs env tracker
          some (tracker, e1 ++ e2)
        else some (tracker, e1)

/-- Function `tau_tracker_upkeep`. The recursion never goes deeper than two
calls: the nested call runs with `connecting_at = 0`. -/
def tau_tracker_upkeep (env : tau_env) (tracker : tau_tracker) :
    Option (tau_tracker × List tau_effect) :=
  tau_tracker_upkeep_ex 2 env tracker true

/-- Type `tr_announcer_udp`. -/
structure tr_announcer_udp where
  trackers : List tau_tracker := []
  deriving DecidableEq, Repr

/-- The first element satisfying `p`, and the list without it
(`tr_ptrArrayRemove` at the index where a scan stops). -/
def removeFirst {α : Type} (p : α → Bool) : List α → Option (α × List α)
  | [] => none
  | x :: xs =>
    if p x then some (x, xs)
    else match removeFirst p xs with
      | some (y, ys) => some (y, x :: ys)
      | none => none

/-- The loop of `tau_handle_message` over the trackers; `pre` holds the
trackers already examined. -/
def tau_handle_message_trackers (env : tau_env) (action_id transaction_id : Nat)
    (buf : List Nat) : List tau_tracker → List tau_tracker →
    Option (Bool × List tau_tracker × List tau_effect)
  | pre, [] => some (false, pre, [])
  | pre, tracker :: rest =>
    if tracker.connecting_at ≠ 0 ∧ transaction_id = tracker.connection_transaction_id then
      match on_tracker_connection_response (tau_tracker_upkeep env) env tracker action_id
          (some buf) with
      | some (tracker, e) => some (true, pre ++ tracker :: rest, e)
      | none => none
    else
      match removeFirst (fun req : tau_announce_request =>
          decide (req.sent_at ≠ 0 ∧ transaction_id = req.transaction_id)) tracker.announces with
      | some (req, reqs) =>
        some (true, pre ++ { tracker with announces := reqs } :: rest,
          (on_announce_response req action_id buf).2)
      | none =>
        match removeFirst (fun req : tau_scrape_request =>
            decide (req.sent_at ≠ 0 ∧ transaction_id = req.transaction_id)) tracker.scrapes with
        | some (req, reqs) =>
          some (true, pre ++ { tracker with scrapes := reqs } :: rest,
            (on_scrape_response req action_id buf).2)
        | none => tau_handle_message_trackers env action_id transaction_id buf (pre ++ [tracker]) rest

/-- Function `tau_handle_message`, on `session->announcer_udp` (`none` when
null) and the message bytes; `msglen` is the length of `msg`. The result is the
returned flag, the transport afterwards and what it did. -/
def tau_handle_message (env : tau_env) (announcer_udp : Option tr_announcer_udp)
    (msg : List Nat) : Option (Bool × Option tr_announcer_udp × List tau_effect) :=
  match announcer_udp with
  | none => some (false, none, [])
  | some tau =>
    let msglen := msg.length
    if msglen < 4 * 2 then some (false, some tau, [])
    else
      let (action_id, buf) := evbuffer_read_ntoh_32 msg
      if ¬ is_tau_response_message action_id msglen then some (false, some tau, [])
      else
        let (transaction_id, buf) := evbuffer_read_ntoh_32 buf
        match tau_handle_message_trackers env action_id transaction_id buf [] tau.trackers with
        | some (ret, trackers, e) => some (ret, some { tau with trackers := trackers }, e)
        | none => none

/-! ## Matching a transaction id against the pending entries -/

def tau_connect_matches (transaction_id : Nat) (tracker : tau_tracker) : Bool :=
  decide (tracker.connecting_at ≠ 0 ∧ transaction_id = tracker.connection_transaction_id)

def tau_announce_matches (transaction_id : Nat) (req : tau_announce_request) : Bool :=
  decide (req.sent_at ≠ 0 ∧ transaction_id = req.transaction_id)

def tau_scrape_matches (transaction_id : Nat) (req : tau_scrape_request) : Bool :=
  decide (req.sent_at ≠ 0 ∧ transaction_id = req.transaction_id)

def tau_tracker_matches (transaction_id : Nat) (tracker : tau_tracker) : Bool :=
  tau_connect_matches transaction_id tracker
    || tracker.announces.any (tau_announce_matches transaction_id)
    || tracker.scrapes.any (tau_scrape_matches transaction_id)

/-! ## Sample inputs -/

def exampleAnnounceRequest : tr_announce_request :=
  { event := TR_ANNOUNCE_EVENT_STARTED, port := 51413, key := 305419896, numwant := 80,
    up := 1000, down := 2000, leftUntilComplete := 3000,
    info_hash := List.replicate 20 0xab, peer_id := List.replicate 20 0x2d, announce_url := 1 }

def sentRequest : tau_announce_request :=
  { transaction_id := 7, created_at := 50, sent_at := 50, callback := some 1,
    response := { seeders := -1, leechers := -1, downloads := -1 } }

def announceReply : List Nat :=
  hton 4 1 ++ hton 4 7 ++ hton 4 1800 ++ hton 4 3 ++ hton 4 7 ++ [192, 0, 2, 1, 26, 225]

def collidingTracker : tau_tracker :=
  { key := 1, addr := some TR_AF_INET, addr_expiration_time := 1000, connecting_at := 90,
    connection_transaction_id := 7, announces := [sentRequest] }

def plainTracker : tau_tracker :=
  { key := 1, addr := some TR_AF_INET, addr_expiration_time := 1000,
    connection_expiration_time := 150, announces := [sentRequest] }

def exampleEnv : tau_env := { tr_time := 100, time := 100, transaction_new := 99 }

/-! ## Tier announce-event queue (`announcer.cc`) -/

/-- The integer value of an event (`int{ e }`). -/
def tr_announce_event.toInt : tr_announce_event → Int
  | TR_ANNOUNCE_EVENT_NONE => 0
  | TR_ANNOUNCE_EVENT_COMPLETED => 1
  | TR_ANNOUNCE_EVENT_STARTED => 2
  | TR_ANNOUNCE_EVENT_STOPPED => 3

/-- Type `tr_quark`: an interned string, identified by its index. -/
abbrev tr_quark := Nat

def TR_KEY_NONE : tr_quark := 0

/-- Type `tr_tracker`, a row in a tier's list of trackers. `scrape_info` points
into the announcer's `scrape_info` map, whose entries are keyed by scrape URL:
it is the key of that entry, `none` for a null pointer. -/
structure tr_tracker where
  key : tr_quark := 0
  announce_url : tr_quark := 0
  scrape_info : Option tr_quark := none
  tracker_id_str : Option (List Nat) := none
  seederCount : Int := 0
  leecherCount : Int := 0
  downloadCount : Int := 0
  downloaderCount : Int := 0
  consecutiveFailures : Int := 0
  id : Nat := 0
  deriving DecidableEq, Repr

/-- Type `tr_tier`. `trackers` holds the tier's `tracker_count` trackers,
`currentTracker` is the index of the tracker pointed to (`none` for null),
`tor` identifies the torrent, and `announce_events` holds the first
`announce_event_count` entries of the C array. `byteCounts` is indexed by
`TR_ANN_UP`, `TR_ANN_DOWN`, `TR_ANN_CORRUPT`. -/
structure tr_tier where
  byteCounts : List Nat := [0, 0, 0]
  trackers : List tr_tracker := []
  currentTracker : Option Nat := none
  currentTrackerIndex : Int := 0
  tor : Nat := 0
  scrapeAt : Int := 0
  lastScrapeStartTime : Int := 0
  lastScrapeTime : Int := 0
  lastScrapeSucceeded : Bool := false
  lastScrapeTimedOut : Bool := false
  announceAt : Int := 0
  manualAnnounceAllowedAt : Int := 0
  lastAnnounceStartTime : Int := 0
  lastAnnounceTime : Int := 0
  lastAnnounceSucceeded : Bool := false
  lastAnnounceTimedOut : Bool := false
  announce_events : List tr_announce_event := []
  announce_event_priority : Int := 0
  key : Int := 0
  scrapeIntervalSec : Int := 0
  announceIntervalSec : Int := 0
  announceMinIntervalSec : Int := 0
  lastAnnouncePeerCount : Int := 0
  isRunning : Bool := false
  isAnnouncing : Bool := false
  isScraping : Bool := false
  wasCopied : Bool := false
  lastAnnounceStr : List Nat := []
  lastScrapeStr : List Nat := []
  deriving DecidableEq, Repr

def tier_update_announce_priority (tier : tr_tier) : tr_tier :=
  { tier with announce_event_priority :=
      tier.announce_events.foldl (fun priority e => max priority e.toInt) (-1) }

/-- Function `tier_announce_remove_trailing`: the count is lowered while the last
counted entry is `e`. -/
def tier_announce_remove_trailing (tier : tr_tier) (e : tr_announce_event) : tr_tier :=
  tier_update_announce_priority
    { tier with announce_events := tier.announce_events.rdropWhile (fun x => x == e) }

def tier_announce_event_push (tier : tr_tier) (e : tr_announce_event) (announceAt : Int) :
    tr_tier :=
  let tier :=
    if tier.announce_events.length > 0 then
      let tier :=
        if e = TR_ANNOUNCE_EVENT_STOPPED then
          let c := TR_ANNOUNCE_EVENT_COMPLETED
          let has_completed := tier.announce_events.any (fun x => c == x)
          let tier := { tier with announce_events := [] }
          if has_completed then
            tier_update_announce_priority { tier with announce_events := tier.announce_events ++ [c] }
          else tier
        else tier
      let tier := tier_announce_remove_trailing tier TR_ANNOUNCE_EVENT_NONE
      tier_announce_remove_trailing tier e
    else tier
  let tier := { tier with announceAt := announceAt }
  tier_update_announce_priority { tier with announce_events := tier.announce_events ++ [e] }

/-- Function `tier_announce_event_pull`; it reads `announce_events[0]`, so the
queue must not be empty (`none` otherwise). -/
def tier_announce_event_pull (tier : tr_tier) : Option (tr_announce_event × tr_tier) :=
  match tier.announce_events with
  | [] => none
  | e :: rest => some (e, tier_update_announce_priority { tier with announce_events := rest })

/-- One call on a tier's event queue. -/
inductive tier_queue_call where
  | push (e : tr_announce_event) (announceAt : Int)
  | pull
  deriving DecidableEq, Repr

/-- A sequence of queue calls, `none` when a pull meets an empty queue. -/
def tier_queue_run : tr_tier → List tier_queue_call → Option tr_tier
  | tier, [] => some tier
  | tier, tier_queue_call.push e announceAt :: calls =>
    tier_queue_run (tier_announce_event_push tier e announceAt) calls
  | tier, tier_queue_call.pull :: calls =>
    match tier_announce_event_pull tier with
    | some (_, tier) => tier_queue_run tier calls
    | none => none

/-! ## Scrape batching (`announcer.cc`) -/

def MaxScrapesPerUpkeep : Nat := 20

def TrMultiscrapeStep : Int := 5

/-- Modelled from the spec: `TR_MULTISCRAPE_MAX` is declared in
`announcer-common.h`, which is not among the sources; the spec gives the
per-URL `multiscrapeMax` as initially 64. -/
def TR_MULTISCRAPE_MAX : Int := 64

structure tr_scrape_info where
  scrape_url : tr_quark
  multiscrape_max : Int
  deriving DecidableEq, Repr

/-- Type `tr_announcer`. The `scrape_info` map
(`std::unordered_map<tr_quark, tr_scrape_info>`) has its entries created on first
use by `try_emplace(url, url, TR_MULTISCRAPE_MAX)` and never erased, so the map
is given by the `multiscrape_max` that the entry of each URL holds, or will hold
once created. `stops` is the `std::set` of pending stops, as the sequence in
which the set is iterated; `key` is the number drawn by `tr_rand_int` at start. -/
structure tr_announcer where
  scrape_info : tr_quark → Int
  stops : List tr_announce_request := []
  key : Int := 0

/-- Function `tr_announcerInit`: the map and the set of stops start empty. The
source draws `key` with `tr_rand_int`; the value drawn is taken to be 0. -/
def tr_announcerInit : tr_announcer := { scrape_info := fun _ => TR_MULTISCRAPE_MAX }

def tr_announcerGetScrapeInfo (announcer : tr_announcer) (url : tr_quark) :
    Option tr_scrape_info :=
  if url = TR_KEY_NONE then none
  else some { scrape_url := url, multiscrape_max := announcer.scrape_info url }

/-- Function `tr_strvContains`: `sv.find(key) != npos`. -/
def tr_strvContains (sv key : List Nat) : Bool :=
  sv.tails.any (fun t => key.isPrefixOf t)

def TooLongErrors : List (List Nat) :=
  [cstr "Bad Request", cstr "GET string too long", cstr "Request-URI Too Long"]

def multiscrape_too_big (errmsg : List Nat) : Bool :=
  TooLongErrors.any (fun tle => tr_strvContains errmsg tle)

def checkMultiscrapeMax (announcer : tr_announcer) (response : tr_scrape_response) :
    tr_announcer :=
  if ¬ multiscrape_too_big response.errmsg then announcer
  else
    let url := response.scrape_url
    match tr_announcerGetScrapeInfo announcer url with
    | none => announcer
    | some scrape_info =>
      let multiscrape_max := scrape_info.multiscrape_max
      if multiscrape_max < (response.rows.length : Int) then announcer
      else
        let n := max 1 (multiscrape_max - TrMultiscrapeStep)
        if multiscrape_max ≠ n then
          { announcer with scrape_info := Function.update announcer.scrape_info url n }
        else announcer

/-- Type `tr_scrape_request`; `info_hash_count` is the length of `info_hash`. -/
structure tr_scrape_request where
  scrape_url : tr_quark := 0
  info_hash : List (List Nat) := []
  deriving DecidableEq, Repr

/-- The tracker that `tier->currentTracker` points to. -/
def tier_currentTracker (tier : tr_tier) : Option tr_tracker :=
  match tier.currentTracker with
  | some i => tier.trackers[i]?
  | none => none

/-- The map entry that `tier->currentTracker->scrape_info` points to. -/
def tier_scrape_info (announcer : tr_announcer) (tier : tr_tier) : Option tr_scrape_info :=
  match tier_currentTracker tier with
  | some tracker =>
    match tracker.scrape_info with
    | some url => some { scrape_url := url, multiscrape_max := announcer.scrape_info url }
    | none => none
  | none => none

def tierNeedsToScrape (tier : tr_tier) (now : Int) : Bool :=
  !tier.isScraping && decide (tier.scrapeAt ≠ 0) && decide (tier.scrapeAt ≤ now)
    && (match tier_currentTracker tier with
        | some tracker => tracker.scrape_info.isSome
        | none => false)

/-- The inner loop of `multiscrape`: the first request with a free slot and the
tier's scrape URL takes the info-hash; `none` when there is none. -/
def multiscrape_use_slot (scrape_info : tr_scrape_info) (info_hash : List Nat) :
    List tr_scrape_request → Option (List tr_scrape_request)
  | [] => none
  | req :: requests =>
    if (req.info_hash.length : Int) ≥ scrape_info.multiscrape_max then
      (multiscrape_use_slot scrape_info info_hash requests).map (fun rs => req :: rs)
    else if scrape_info.scrape_url ≠ req.scrape_url then
      (multiscrape_use_slot scrape_info info_hash requests).map (fun rs => req :: rs)
    else some ({ req with info_hash := req.info_hash ++ [info_hash] } :: requests)

/-- The outer loop of `multiscrape` over the tiers, with the requests built so
far; the tiers come back with their scrape flags set. A tier without a current
tracker or scrape info would be a null dereference (`none`). -/
def multiscrape_batch (announcer : tr_announcer) (tr_torrentInfoHash : Nat → List Nat)
    (now : Int) : List tr_tier → List tr_scrape_request →
    Option (List tr_tier × List tr_scrape_request)
  | [], requests => some ([], requests)
  | tier :: tiers, requests =>
    match tier_scrape_info announcer tier with
    | none => none
    | some scrape_info =>
      let scraping := { tier with isScraping := true, lastScrapeStartTime := now }
      match multiscrape_use_slot scrape_info (tr_torrentInfoHash tier.tor) requests with
      | some requests =>
        (multiscrape_batch announcer tr_torrentInfoHash now tiers requests).map
          (fun r => (scraping :: r.1, r.2))
      | none =>
        if requests.length < MaxScrapesPerUpkeep then
          let req : tr_scrape_request :=
            { scrape_url := scrape_info.scrape_url, info_hash := [tr_torrentInfoHash tier.tor] }
          (multiscrape_batch announcer tr_torrentInfoHash now tiers (requests ++ [req])).map
            (fun r => (scraping :: r.1, r.2))
        else
          (multiscrape_batch announcer tr_torrentInfoHash now tiers requests).map
            (fun r => (tier :: r.1, r.2))

/-- Function `multiscrape`: the tiers afterwards and the requests handed, in
order, to `scrape_request_delegate`. -/
def multiscrape (announcer : tr_announcer) (tr_torrentInfoHash : Nat → List Nat) (now : Int)
    (tiers : List tr_tier) : Option (List tr_tier × List tr_scrape_request) :=
  multiscrape_batch announcer tr_torrentInfoHash now tiers []

/-- A tier due for scraping at time 100, on the scrape URL with key 9. -/
def dueTier (tor : Nat) : tr_tier :=
  { trackers := [{ scrape_info := some 9 }], currentTracker := some 0, tor := tor, scrapeAt := 10 }

def tooLongResponse : tr_scrape_response :=
  { did_connect := true, scrape_url := 9, errmsg := cstr "Request-URI Too Long" }

/-! ## Peer manager: data (`peer-mgr.cc`) -/

def MaxBadPiecesPerPeer : Nat := 5

def MyflagBanned : Nat := 1

def MyflagUnreachable : Nat := 2

def ADDED_F_ENCRYPTION_FLAG : Nat := 1

def ADDED_F_SEED_FLAG : Nat := 2

def ADDED_F_UTP_FLAGS : Nat := 4

def ADDED_F_HOLEPUNCH : Nat := 8

def ADDED_F_CONNECTABLE : Nat := 16

/-- Modelled from the spec: the peer sources are declared in `transmission.h`,
which is not among the sources; the spec ranks them, more trusted first, as
incoming, LTEP, tracker, DHT, PEX, resume, LPD. -/
def TR_PEER_FROM_INCOMING : Nat := 0

def TR_PEER_FROM_LTEP : Nat := 1

def TR_PEER_FROM_TRACKER : Nat := 2

def TR_PEER_FROM_DHT : Nat := 3

def TR_PEER_FROM_PEX : Nat := 4

def TR_PEER_FROM_RESUME : Nat := 5

def TR_PEER_FROM_LPD : Nat := 6

def TR_PEER_FROM__MAX : Nat := 7

/-- The sign of `memcmp` on two byte strings of equal length, each given by the
number it spells in big-endian. -/
def memcmp (a b : Nat) : Int :=
  if a < b then -1 else if a > b then 1 else 0

/-- Function `tr_address_compare` (`net.cc`). -/
def tr_address_compare (a b : tr_address) : Int :=
  if a.type ≠ b.type then (if a.type = TR_AF_INET then 1 else -1)
  else memcmp a.addr b.addr

/-- Type `peer_atom`. `ptr` is the identity of the allocation (what a
`peer_atom*` holds); `peer` is the `tr_peer*`, `none` when null. -/
structure peer_atom where
  ptr : Nat
  fromFirst : Nat := 0
  fromBest : Nat := 0
  flags : Nat := 0
  flags2 : Nat := 0
  blocklisted : Int := 0
  port : Nat := 0
  utp_failed : Bool := false
  numFails : Nat := 0
  time : Int := 0
  piece_data_time : Int := 0
  lastConnectionAttemptAt : Int := 0
  lastConnectionAt : Int := 0
  shelf_date : Int := 0
  peer : Option Nat := none
  addr : tr_address
  deriving DecidableEq, Repr

/-- Function `tr_isAtom`, without the null test. Every IPv4 or IPv6
`tr_address` is valid. -/
def tr_isAtom (atom : peer_atom) : Bool :=
  decide (atom.fromFirst < TR_PEER_FROM__MAX) && decide (atom.fromBest < TR_PEER_FROM__MAX)

/-- The fields of `tr_peer` and `tr_peerMsgs` that the peer manager uses.
`ptr` is the identity of the object, `atom` the `peer_atom*` it holds, `blame`
the pieces whose blame bit is set.

Modelled from the spec: `peer-common.h`, which declares `strikes`, is not among
the sources; the spec calls it a strike count that is incremented, so it is a
natural number here. `progress` is a `float` between 0 and 1, of which only the
comparison with 1 is used. -/
structure tr_peer where
  ptr : Nat
  atom : Nat
  client : tr_quark := 0
  doPurge : Bool := false
  strikes : Nat := 0
  blame : List Nat := []
  progress : Rat := 0
  deriving DecidableEq, Repr

/-- A handshake in progress, with what the peer manager reads of its `tr_peerIo`:
the peer's address and port, the direction, the torrent hash once known. -/
structure tr_handshake where
  ptr : Nat
  addr : tr_address
  port : Nat := 0
  isIncoming : Bool := false
  torrentHash : Option Nat := none
  isUtp : Bool := false
  deriving DecidableEq, Repr

/-- The fields of `tr_swarm_stats` kept by the peer manager. `peerFromCount` has
`TR_PEER_FROM__MAX` entries. -/
structure tr_swarm_stats where
  peerCount : Int := 0
  peerFromCount : List Int := List.replicate TR_PEER_FROM__MAX 0
  deriving DecidableEq, Repr

/-- Type `tr_swarm`. -/
structure tr_swarm where
  stats : tr_swarm_stats := {}
  outgoingHandshakes : List tr_handshake := []
  pool : List peer_atom := []
  peers : List tr_peer := []
  optimistic : Option Nat := none
  optimisticUnchokeTimeScaler : Int := 0
  poolIsAllSeeds : Bool := false
  poolIsAllSeedsDirty : Bool := true
  isRunning : Bool := false
  needsCompletenessCheck : Bool := true
  endgame : Bool := false
  interestedCount : Int := 0
  maxPeers : Int := 0
  lastCancel : Int := 0
  deriving DecidableEq, Repr

/-- Type `tr_priority_t`. -/
inductive tr_priority_t where
  | TR_PRI_LOW
  | TR_PRI_NORMAL
  | TR_PRI_HIGH
  deriving DecidableEq, Repr

/-- The fields of `tr_torrent` that the peer manager reads, and its swarm.
`hash` stands for the info-hash, `isSeed` for `tr_torrentIsSeed`, `allowsPex`
for `tr_torrentAllowsPex`, `priority` for `tr_torrentGetPriority`;
`tr_torrentGetPeerLimit` is `maxConnectedPeers`. -/
structure tr_torrent where
  hash : Nat
  isRunning : Bool := false
  maxConnectedPeers : Nat := 0
  isSeed : Bool := false
  allowsPex : Bool := true
  swarm : tr_swarm := {}
  priority : tr_priority_t := tr_priority_t.TR_PRI_NORMAL
  startDate : Int := 0
  deriving DecidableEq, Repr

/-- Type `tr_peerMgr`, with the parts of its `tr_session` that it uses: the
torrents, the blocklist (`tr_sessionIsAddressBlocked`), the session peer limit
and `tr_sessionIsUTPEnabled`. `next_ptr` is the identity that the next allocation receives. -/
structure tr_peerMgr where
  torrents : List tr_torrent := []
  incomingHandshakes : List tr_handshake := []
  blocklist : List tr_address := []
  peerLimit : Nat := 0
  isUTPEnabled : Bool := true
  next_ptr : Nat := 1
  deriving DecidableEq, Repr

/-! ## Peer manager: pointer arrays -/

/-- Modelled from the spec: `ptrarray.cc` is not among the sources; the spec
describes the pool, the peers and the handshakes as ordered containers keyed by
address. `tr_ptrArrayInsertSorted` puts `x` before the first element that does
not compare below it. -/
def tr_ptrArrayInsertSorted {α : Type} (compare : α → α → Int) (x : α) : List α → List α
  | [] => [x]
  | y :: ys =>
    if compare y x ≥ 0 then x :: y :: ys else y :: tr_ptrArrayInsertSorted compare x ys

/-- Modelled from the spec: `tr_ptrArrayFindSorted` returns the element that
compares equal to the key, null when there is none. -/
def tr_ptrArrayFindSorted {α κ : Type} (l : List α) (key : κ) (compare : α → κ → Int) :
    Option α :=
  l.find? (fun x => compare x key == 0)

/-- Modelled from the spec: `tr_ptrArrayRemoveSortedPointer` takes the given
pointer out of the array. -/
def tr_ptrArrayRemoveSortedPointer {α : Type} (ptrOf : α → Nat) (l : List α) (ptr : Nat) :
    List α :=
  l.eraseP (fun x => ptrOf x == ptr)

/-- Function `qsort`, as a stable insertion sort: C leaves the order of elements
that compare equal unspecified. -/
def qsort {α : Type} (compare : α → α → Int) (l : List α) : List α :=
  l.insertionSort (fun a b => compare a b ≤ 0)

/-- The atom that a `peer_atom*` points to. A pointer to no atom of the pool
(undefined behaviour in C) reads as a zeroed atom. -/
def atomAt (pool : List peer_atom) (ptr : Nat) : peer_atom :=
  (pool.find? (fun a => a.ptr == ptr)).getD
    { ptr := ptr, addr := { type := TR_AF_INET, addr := 0 } }

/-- A write through a `peer_atom*`. -/
def atomUpdate (pool : List peer_atom) (ptr : Nat) (f : peer_atom → peer_atom) :
    List peer_atom :=
  pool.map (fun a => if a.ptr = ptr then f a else a)

/-! ## Peer manager: atoms and handshakes -/

def handshakeCompareToAddr (a : tr_handshake) (b : tr_address) : Int :=
  tr_address_compare a.addr b

def handshakeCompare (a b : tr_handshake) : Int :=
  handshakeCompareToAddr a b.addr

def getExistingHandshake (handshakes : List tr_handshake) (addr : tr_address) :
    Option tr_handshake :=
  if handshakes.isEmpty then none
  else tr_ptrArrayFindSorted handshakes addr handshakeCompareToAddr

def comparePeerAtomToAddress (a : peer_atom) (b : tr_address) : Int :=
  tr_address_compare a.addr b

def compareAtomsByAddress (a b : peer_atom) : Int :=
  comparePeerAtomToAddress a b.addr

def tr_peerAddress (pool : List peer_atom) (peer : tr_peer) : tr_address :=
  (atomAt pool peer.atom).addr

def peerCompare (pool : List peer_atom) (a b : tr_peer) : Int :=
  tr_address_compare (tr_peerAddress pool a) (tr_peerAddress pool b)

def getExistingAtom (s : tr_swarm) (addr : tr_address) : Option peer_atom :=
  tr_ptrArrayFindSorted s.pool addr comparePeerAtomToAddress

/-- Function `peerIsInUse`; `incomingHandshakes` is the manager's set. -/
def peerIsInUse (incomingHandshakes : List tr_handshake) (s : tr_swarm) (atom : peer_atom) :
    Bool :=
  atom.peer.isSome || (getExistingHandshake s.outgoingHandshakes atom.addr).isSome
    || (getExistingHandshake incomingHandshakes atom.addr).isSome

def getDefaultShelfLife (src : Nat) : Int :=
  if src = TR_PEER_FROM_INCOMING then 60 * 60 * 6
  else if src = TR_PEER_FROM_LTEP then 60 * 60 * 6
  else if src = TR_PEER_FROM_TRACKER then 60 * 60 * 3
  else if src = TR_PEER_FROM_DHT then 60 * 60 * 3
  else if src = TR_PEER_FROM_PEX then 60 * 60 * 2
  else if src = TR_PEER_FROM_RESUME then 60 * 60
  else if src = TR_PEER_FROM_LPD then 10 * 60
  else 60 * 60

/-- Function `ensureAtomExists`. `now` is `tr_time()`, `jitter` the value of
`tr_rand_int_weak(60 * 10)`, `ptr` the identity of the atom if one is allocated.
Returns the swarm and the pointer to the atom. -/
def ensureAtomExists (s : tr_swarm) (addr : tr_address) (port : Nat) (flags : Nat) (src : Nat)
    (now : Int) (jitter : Int) (ptr : Nat) : tr_swarm × Nat :=
  match getExistingAtom s addr with
  | none =>
    let a : peer_atom :=
      { ptr := ptr, addr := addr, port := port, flags := flags, fromFirst := src, fromBest := src,
        shelf_date := now + getDefaultShelfLife src + jitter, blocklisted := -1 }
    ({ s with pool := tr_ptrArrayInsertSorted compareAtomsByAddress a s.pool,
              poolIsAllSeedsDirty := true }, a.ptr)
  | some a =>
    ({ s with
        pool := atomUpdate s.pool a.ptr (fun a =>
          { a with fromBest := if src < a.fromBest then src else a.fromBest,
                   flags := a.flags ||| flags }),
        poolIsAllSeedsDirty := true }, a.ptr)

def getMaxPeerCount (tor : tr_torrent) : Int := tor.maxConnectedPeers

def getPeerCount (s : tr_swarm) : Int := s.peers.length

/-- Function `createBitTorrentPeer`, for the atom at `atom` and a new peer of
identity `ptr`. -/
def createBitTorrentPeer (s : tr_swarm) (atom : Nat) (client : tr_quark) (ptr : Nat) :
    tr_swarm :=
  let peer : tr_peer := { ptr := ptr, atom := atom, client := client }
  let pool := atomUpdate s.pool atom (fun a => { a with peer := some peer.ptr })
  let peers := tr_ptrArrayInsertSorted (peerCompare pool) peer s.peers
  let src := (atomAt pool atom).fromFirst
  { s with
    pool := pool
    peers := peers
    stats := { s.stats with
      peerCount := s.stats.peerCount + 1
      peerFromCount := s.stats.peerFromCount.modify (fun n => n + 1) src } }
/-! ## Peer manager: life and death of peers -/

def atomIsSeed (atom : peer_atom) : Bool :=
  (atom.flags &&& ADDED_F_SEED_FLAG) != 0

def tr_peerIsSeed (pool : List peer_atom) (peer : tr_peer) : Bool :=
  decide (peer.progress ≥ 1) || atomIsSeed (atomAt pool peer.atom)

/-- Function `removePeer`; `now` is `tr_time()`. Deleting the peer clears the
back-pointer of its atom (`tr_peer::~tr_peer`). -/
def removePeer (s : tr_swarm) (peer : tr_peer) (now : Int) : tr_swarm :=
  let atom := peer.atom
  let pool := atomUpdate s.pool atom (fun a => { a with time := now })
  let peers := tr_ptrArrayRemoveSortedPointer (fun p : tr_peer => p.ptr) s.peers peer.ptr
  let src := (atomAt pool atom).fromFirst
  let stats := { s.stats with
    peerCount := s.stats.peerCount - 1
    peerFromCount := s.stats.peerFromCount.modify (fun n => n - 1) src }
  let pool := atomUpdate pool peer.atom (fun a => { a with peer := none })
  { s with pool := pool, peers := peers, stats := stats }

/-- Function `closePeer`. `numFails` is a `uint16_t`. -/
def closePeer (s : tr_swarm) (peer : tr_peer) (now : Int) : tr_swarm :=
  let atom := atomAt s.pool peer.atom
  let pool :=
    if atom.piece_data_time ≠ 0 then
      atomUpdate s.pool peer.atom (fun a => { a with numFails := 0 })
    else
      atomUpdate s.pool peer.atom (fun a => { a with numFails := (a.numFails + 1) % 65536 })
  removePeer { s with pool := pool } peer now

/-- Function `removeAllPeers`: the peers are copied first, then removed one by
one. -/
def removeAllPeers (s : tr_swarm) (now : Int) : tr_swarm :=
  s.peers.foldl (fun s peer => removePeer s peer now) s

def MinUploadIdleSecs : Int := 60

def MaxUploadIdleSecs : Int := 60 * 5

/-- Function `shouldPeerBeClosed`. The idle limit is computed in floating
point from the torrent's peer limit and the peer count; `uploadIdleLimit`
stands for that computation. -/
def shouldPeerBeClosed (uploadIdleLimit : Int → Int → Int) (tor : tr_torrent) (peer : tr_peer)
    (peerCount : Int) (now : Int) : Bool :=
  let atom := atomAt tor.swarm.pool peer.atom
  if peer.doPurge then true
  else if tor.isSeed && tr_peerIsSeed tor.swarm.pool peer then
    !tor.allowsPex || decide (now - atom.time ≥ 30)
  else
    let limit := uploadIdleLimit (getMaxPeerCount tor) peerCount
    let idleTime := now - max atom.time atom.piece_data_time
    decide (idleTime > limit)

def getPeersToClose (uploadIdleLimit : Int → Int → Int) (tor : tr_torrent) (now_sec : Int) :
    List tr_peer :=
  let peerCount : Int := tor.swarm.peers.length
  tor.swarm.peers.filter (fun peer => shouldPeerBeClosed uploadIdleLimit tor peer peerCount now_sec)

def closeBadPeers (uploadIdleLimit : Int → Int → Int) (tor : tr_torrent) (now_sec : Int) :
    tr_torrent :=
  let peers := getPeersToClose uploadIdleLimit tor now_sec
  { tor with swarm := peers.foldl (fun s peer => closePeer s peer now_sec) tor.swarm }

/-- Method `ComparePeerByActivity::compare`, on a peer and the atom it points
to. -/
def ComparePeerByActivity_compare (a b : tr_peer × peer_atom) : Int :=
  if a.1.doPurge ≠ b.1.doPurge then (if a.1.doPurge then 1 else -1)
  else if a.2.piece_data_time ≠ b.2.piece_data_time then
    (if a.2.piece_data_time > b.2.piece_data_time then -1 else 1)
  else if a.2.time ≠ b.2.time then (if a.2.time > b.2.time then -1 else 1)
  else 0

/-- Function `std::partial_sort` as used here: the first `middle` places receive
the least elements in order. The standard leaves open the order of the rest and
of elements that compare equal; here the whole range is sorted stably. -/
def std_partial_sort {α : Type} (compare : α → α → Int) (l : List α) (middle : Nat) : List α :=
  let sorted := l.insertionSort (fun a b => ¬ compare b a < 0)
  sorted.take middle ++ sorted.drop middle

/-- Function `enforceTorrentPeerLimit`; `now` is the `tr_time()` read by
`removePeer`. -/
def enforceTorrentPeerLimit (tor : tr_torrent) (now : Int) : tr_torrent :=
  let n := tor.swarm.peers.length
  let max := tor.maxConnectedPeers
  if n ≤ max then tor
  else
    let peers := tor.swarm.peers.map (fun p => (p, atomAt tor.swarm.pool p.atom))
    let peers := std_partial_sort ComparePeerByActivity_compare peers max
    { tor with swarm := (peers.drop max).foldl (fun s p => closePeer s p.1 now) tor.swarm }

/-- The swarm of the first torrent with the given hash is rewritten
(`tr_torrentFindFromHash`, then a write through `tor->swarm`). -/
def swarmModify (torrents : List tr_torrent) (hash : Nat) (f : tr_torrent → tr_swarm) :
    List tr_torrent :=
  match torrents with
  | [] => []
  | tor :: rest =>
    if tor.hash = hash then { tor with swarm := f tor } :: rest
    else tor :: swarmModify rest hash f

/-- Function `enforceSessionPeerLimit`. Each peer is listed with the position of
its torrent in the session (`peer->swarm`) and the atom it points to. -/
def enforceSessionPeerLimit (torrents : List tr_torrent) (peerLimit : Nat) (now : Int) :
    List tr_torrent :=
  let n_peers := (torrents.map (fun tor => tor.swarm.peers.length)).sum
  let max := peerLimit
  if n_peers ≤ max then torrents
  else
    let peers := (torrents.enum.map (fun tor =>
      tor.2.swarm.peers.map (fun p => (tor.1, p, atomAt tor.2.swarm.pool p.atom)))).flatten
    let peers := std_partial_sort
      (fun a b : Nat × tr_peer × peer_atom => ComparePeerByActivity_compare a.2 b.2) peers max
    (peers.drop max).foldl
      (fun torrents p => torrents.modify
        (fun tor => { tor with swarm := closePeer tor.swarm p.2.1 now }) p.1)
      torrents

/-! ## Peer manager: atom garbage collection -/

def compareAtomPtrsByAddress (a b : peer_atom) : Int :=
  tr_address_compare a.addr b.addr

/-- Function `compareAtomPtrsByShelfDate`; `tr_now` is `tr_time()`. -/
def compareAtomPtrsByShelfDate (tr_now : Int) (a b : peer_atom) : Int :=
  let data_time_cutoff_secs : Int := 60 * 60
  let atime := if a.piece_data_time + data_time_cutoff_secs < tr_now then 0 else a.piece_data_time
  let btime := if b.piece_data_time + data_time_cutoff_secs < tr_now then 0 else b.piece_data_time
  if atime ≠ btime then (if atime > btime then -1 else 1)
  else if a.shelf_date ≠ b.shelf_date then (if a.shelf_date > b.shelf_date then -1 else 1)
  else 0

def getMaxAtomCount (tor : tr_torrent) : Int :=
  min 50 ((tor.maxConnectedPeers : Int) * 3)

/-- The body of the loop of `atomPulse` for one torrent. -/
def atomPulse_torrent (incomingHandshakes : List tr_handshake) (tr_now : Int)
    (tor : tr_torrent) : tr_torrent :=
  let s := tor.swarm
  let maxAtomCount := getMaxAtomCount tor
  let atoms := s.pool
  let atomCount : Int := atoms.length
  if atomCount > maxAtomCount then
    let keep := atoms.filter (fun atom => peerIsInUse incomingHandshakes s atom)
    let test := atoms.filter (fun atom => !peerIsInUse incomingHandshakes s atom)
    let keep :=
      if (keep.length : Int) < maxAtomCount then
        let test := qsort (compareAtomPtrsByShelfDate tr_now) test
        keep ++ test.take (maxAtomCount - keep.length).toNat
      else keep
    { tor with swarm := { s with pool := qsort compareAtomPtrsByAddress keep } }
  else tor

/-! ## Peer manager: bad pieces -/

/-- Function `addStrike`, on the peer and the pool that holds its atom. -/
def addStrike (pool : List peer_atom) (peer : tr_peer) : List peer_atom × tr_peer :=
  let peer := { peer with strikes := peer.strikes + 1 }
  if peer.strikes ≥ MaxBadPiecesPerPeer then
    (atomUpdate pool peer.atom (fun a => { a with flags2 := a.flags2 ||| MyflagBanned }),
     { peer with doPurge := true })
  else (pool, peer)

/-- The loop of `tr_peerMgrGotBadPiece` over the peers. -/
def gotBadPiece_peers (pieceIndex : Nat) : List peer_atom → List tr_peer →
    List peer_atom × List tr_peer
  | pool, [] => (pool, [])
  | pool, peer :: peers =>
    if peer.blame.contains pieceIndex then
      let (pool, peer) := addStrike pool peer
      let (pool, peers) := gotBadPiece_peers pieceIndex pool peers
      (pool, peer :: peers)
    else
      let (pool, peers) := gotBadPiece_peers pieceIndex pool peers
      (pool, peer :: peers)

/-- Function `tr_peerMgrGotBadPiece`, on the torrent's swarm (the byte count
goes to the announcer). -/
def tr_peerMgrGotBadPiece (s : tr_swarm) (pieceIndex : Nat) : tr_swarm :=
  let (pool, peers) := gotBadPiece_peers pieceIndex s.pool s.peers
  { s with pool := pool, peers := peers }
/-! ## Peer manager: handshakes -/

/-- Type `tr_handshake_result`: the handshake with its `tr_peerIo`, and the
outcome. -/
structure tr_handshake_result where
  handshake : tr_handshake
  isConnected : Bool
  readAnythingFromPeer : Bool
  peer_id : Option (List Nat) := none
  deriving DecidableEq, Repr

def getExistingSwarm (manager : tr_peerMgr) (hash : Nat) : Option tr_torrent :=
  manager.torrents.find? (fun tor => tor.hash == hash)

def tr_sessionIsAddressBlocked (manager : tr_peerMgr) (addr : tr_address) : Bool :=
  manager.blocklist.contains addr

/-- The part of `on_handshake_done` that works on the swarm found for the
handshake's torrent hash. `now` is `tr_time()`, `jitter` the random part of a
new atom's shelf date, `client` the quark made from the peer id, `atom_ptr` and
`peer_ptr` the identities of the atom and of the peer if they are allocated.
Returns the swarm and `success`. -/
def on_handshake_done_swarm (tor : tr_torrent) (result : tr_handshake_result) (now jitter : Int)
    (client : tr_quark) (atom_ptr peer_ptr : Nat) : tr_swarm × Bool :=
  let io := result.handshake
  let ok := result.isConnected
  let s := tor.swarm
  let outgoing :=
    tr_ptrArrayRemoveSortedPointer (fun h : tr_handshake => h.ptr) s.outgoingHandshakes io.ptr
  let s := if io.isIncoming then s else { s with outgoingHandshakes := outgoing }
  let addr := io.addr
  let port := io.port
  if !ok || !s.isRunning then
    match getExistingAtom s addr with
    | some atom =>
      let pool := atomUpdate s.pool atom.ptr (fun a =>
        { a with numFails := (a.numFails + 1) % 65536 })
      let pool :=
        if !result.readAnythingFromPeer then
          atomUpdate pool atom.ptr (fun a => { a with flags2 := a.flags2 ||| MyflagUnreachable })
        else pool
      ({ s with pool := pool }, false)
    | none => (s, false)
  else
    let (s, atom) := ensureAtomExists s addr port 0 TR_PEER_FROM_INCOMING now jitter atom_ptr
    let pool := atomUpdate s.pool atom (fun a =>
      { a with time := now, piece_data_time := 0, lastConnectionAt := now })
    let pool :=
      if !io.isIncoming then
        atomUpdate pool atom (fun a =>
          { a with flags := a.flags ||| ADDED_F_CONNECTABLE,
                   flags2 := a.flags2 &&& (255 - MyflagUnreachable) })
      else pool
    let pool :=
      if io.isUtp then atomUpdate pool atom (fun a => { a with flags := a.flags ||| ADDED_F_UTP_FLAGS })
      else pool
    let s := { s with pool := pool }
    if ((atomAt s.pool atom).flags2 &&& MyflagBanned) ≠ 0 then (s, false)
    else if io.isIncoming && decide (getPeerCount s ≥ getMaxPeerCount tor) then (s, false)
    else if (atomAt s.pool atom).peer ≠ none then (s, false)
    else (createBitTorrentPeer s atom client peer_ptr, true)

/-- Function `on_handshake_done`. Returns the manager and `success`. -/
def on_handshake_done (manager : tr_peerMgr) (result : tr_handshake_result) (now jitter : Int)
    (client : tr_quark) : tr_peerMgr × Bool :=
  let io := result.handshake
  let s : Option tr_torrent :=
    match io.torrentHash with
    | some hash => getExistingSwarm manager hash
    | none => none
  let incoming :=
    tr_ptrArrayRemoveSortedPointer (fun h : tr_handshake => h.ptr) manager.incomingHandshakes
      io.ptr
  let manager := if io.isIncoming then { manager with incomingHandshakes := incoming } else manager
  match s with
  | none => (manager, false)
  | some tor =>
    let r := on_handshake_done_swarm tor result now jitter client manager.next_ptr
      (manager.next_ptr + 1)
    let torrents := swarmModify manager.torrents tor.hash (fun _ => r.1)
    ({ manager with torrents := torrents, next_ptr := manager.next_ptr + 2 }, r.2)

/-- Function `tr_peerMgrAddIncoming`. -/
def tr_peerMgrAddIncoming (manager : tr_peerMgr) (addr : tr_address) (port : Nat)
    (isUtp : Bool) : tr_peerMgr :=
  if tr_sessionIsAddressBlocked manager addr then manager
  else if (getExistingHandshake manager.incomingHandshakes addr).isSome then manager
  else
    let handshake : tr_handshake :=
      { ptr := manager.next_ptr, addr := addr, port := port, isIncoming := true, isUtp := isUtp }
    let incoming := tr_ptrArrayInsertSorted handshakeCompare handshake manager.incomingHandshakes
    { manager with incomingHandshakes := incoming, next_ptr := manager.next_ptr + 1 }

/-- Function `initiateConnection`, on the torrent that owns the swarm.
`io_created` tells whether `tr_peerIoNewOutgoing` returned an object, `ptr` is
the identity of the handshake if one is made. -/
def initiateConnection (isUTPEnabled : Bool) (tor : tr_torrent) (atom : Nat) (now : Int)
    (io_created : Bool) (ptr : Nat) : tr_swarm :=
  let s := tor.swarm
  let a := atomAt s.pool atom
  let utp := isUTPEnabled && !a.utp_failed
  let utp := if a.fromFirst = TR_PEER_FROM_PEX then utp && ((a.flags &&& ADDED_F_UTP_FLAGS) != 0)
    else utp
  let s :=
    if !io_created then
      let pool := atomUpdate s.pool atom (fun a =>
        { a with flags2 := a.flags2 ||| MyflagUnreachable, numFails := (a.numFails + 1) % 65536 })
      { s with pool := pool }
    else
      let handshake : tr_handshake :=
        { ptr := ptr, addr := a.addr, port := a.port, isIncoming := false,
          torrentHash := some tor.hash, isUtp := utp }
      let outgoing := tr_ptrArrayInsertSorted handshakeCompare handshake s.outgoingHandshakes
      { s with outgoingHandshakes := outgoing }
  let pool := atomUpdate s.pool atom (fun a =>
    { a with lastConnectionAttemptAt := now, time := now })
  { s with pool := pool }

/-- Function `tr_peerMgrAddPex` for the entries that pass its tests
(`tr_isPex`, not blocked, `tr_address_is_valid_for_peers`); `jitter` and `ptr`
are those of the first entry, the next ones follow on. -/
def tr_peerMgrAddPex (s : tr_swarm) (src : Nat) (now : Int) : List tr_pex → Int → Nat → tr_swarm
  | [], _, _ => s
  | pex :: rest, jitter, ptr =>
    tr_peerMgrAddPex (ensureAtomExists s pex.addr pex.port pex.flags src now jitter ptr).1
      src now rest jitter (ptr + 1)

def tr_peerMgrStartTorrent (tor : tr_torrent) : tr_swarm :=
  { tor.swarm with isRunning := true, maxPeers := tor.maxConnectedPeers }

/-- Function `stopSwarm`: the peers are removed, then every outgoing handshake
is aborted, which runs `on_handshake_done` with a failed result. -/
def stopSwarm (tor : tr_torrent) (now : Int) (readAnythingFromPeer : Bool) : tr_swarm :=
  let s := { tor.swarm with isRunning := false }
  let s := removeAllPeers s now
  s.outgoingHandshakes.foldl
    (fun s handshake =>
      (on_handshake_done_swarm { tor with swarm := s }
        { handshake := handshake, isConnected := false,
          readAnythingFromPeer := readAnythingFromPeer } now 0 0 0 0).1)
    s

/-- The events of `peerCallbackFunc` that change an atom or a peer. -/
inductive tr_peer_event where
  | TR_PEER_PEER_GOT_PIECE_DATA
  | TR_PEER_CLIENT_GOT_PIECE_DATA
  | TR_PEER_CLIENT_GOT_PORT (port : Nat)
  | TR_PEER_ERROR (isProtocolError : Bool)
  deriving DecidableEq, Repr

/-- Function `peerCallbackFunc`, for the peer with identity `peer`; the other
events leave atoms and peers as they are. `isProtocolError` tells whether the
error is `ERANGE`, `EMSGSIZE` or `ENOTCONN`. -/
def peerCallbackFunc (s : tr_swarm) (peer : tr_peer) (e : tr_peer_event) (now : Int) :
    tr_swarm :=
  match e with
  | tr_peer_event.TR_PEER_PEER_GOT_PIECE_DATA =>
    { s with pool := atomUpdate s.pool peer.atom (fun a => { a with piece_data_time := now }) }
  | tr_peer_event.TR_PEER_CLIENT_GOT_PIECE_DATA =>
    { s with pool := atomUpdate s.pool peer.atom (fun a => { a with piece_data_time := now }) }
  | tr_peer_event.TR_PEER_CLIENT_GOT_PORT port =>
    { s with pool := atomUpdate s.pool peer.atom (fun a => { a with port := port }) }
  | tr_peer_event.TR_PEER_ERROR isProtocolError =>
    if isProtocolError then
      let peers := s.peers.map (fun p => if p.ptr = peer.ptr then { p with doPurge := true } else p)
      { s with peers := peers }
    else s
/-! ## Peer manager: choosing whom to connect to -/

def MinimumReconnectIntervalSecs : Int := 5

/-- Function `getReconnectIntervalSecs`. -/
def getReconnectIntervalSecs (atom : peer_atom) (now : Int) : Int :=
  let unreachable : Bool := (atom.flags2 &&& MyflagUnreachable) != 0
  if !unreachable && decide (now - atom.piece_data_time ≤ MinimumReconnectIntervalSecs * 2) then
    MinimumReconnectIntervalSecs
  else
    let step := atom.numFails
    let step := if unreachable then step + 2 else step
    match step with
    | 0 => 0
    | 1 => 10
    | 2 => 60 * 2
    | 3 => 60 * 15
    | 4 => 60 * 30
    | 5 => 60 * 60
    | _ => 60 * 120

/-- Function `isAtomBlocklisted`: the answer, and the value that the atom's
`blocklisted` cache holds afterwards. -/
def isAtomBlocklisted (manager : tr_peerMgr) (atom : peer_atom) : Bool × Int :=
  let blocklisted : Int :=
    if atom.blocklisted < 0 then (if tr_sessionIsAddressBlocked manager atom.addr then 1 else 0)
    else atom.blocklisted
  (blocklisted != 0, blocklisted)

/-- Function `isPeerCandidate` (its answer; the atom's `blocklisted` cache is
refreshed on the way). -/
def isPeerCandidate (manager : tr_peerMgr) (tor : tr_torrent) (atom : peer_atom) (now : Int) :
    Bool :=
  if tor.isSeed && atomIsSeed atom then false
  else if peerIsInUse manager.incomingHandshakes tor.swarm atom then false
  else if now - atom.time < getReconnectIntervalSecs atom now then false
  else if (isAtomBlocklisted manager atom).1 then false
  else if (atom.flags2 &&& MyflagBanned) != 0 then false
  else true

/-! ## Peer manager: what can happen to a manager -/

/-- The calls into the peer manager that change atoms, peers or handshakes.
A reconnect pulse is `removeAllPeers` or `closeBadPeers` for each torrent, then
`enforceTorrentPeerLimit`, `enforceSessionPeerLimit` and an
`initiateConnection` for each candidate chosen by `getPeerCandidates`. -/
inductive peerMgr_call where
  | addPex (hash : Nat) (src : Nat) (pex : List tr_pex) (now jitter : Int)
  | addIncoming (addr : tr_address) (port : Nat) (isUtp : Bool)
  | handshakeDone (handshake : Nat) (torrentHash : Option Nat)
      (isConnected readAnythingFromPeer : Bool) (now jitter : Int) (client : tr_quark)
  | peerEvent (hash : Nat) (peer : Nat) (e : tr_peer_event) (now : Int)
  | blame (hash : Nat) (peer : Nat) (pieceIndex : Nat)
  | updateProgress (hash : Nat) (peer : Nat) (progress : Rat)
  | gotBadPiece (hash : Nat) (pieceIndex : Nat)
  | startTorrent (hash : Nat)
  | stopTorrent (hash : Nat) (now : Int) (readAnythingFromPeer : Bool)
  | removeAllPeers (hash : Nat) (now : Int)
  | closeBadPeers (hash : Nat) (now : Int)
  | enforceTorrentPeerLimit (hash : Nat) (now : Int)
  | enforceSessionPeerLimit (now : Int)
  | initiateConnection (hash : Nat) (atom : Nat) (now : Int) (io_created : Bool)
  | atomPulse (now : Int)
  | setUtpSupported (hash : Nat) (addr : tr_address)
  | setUtpFailed (hash : Nat) (addr : tr_address) (failed : Bool)
  | setSwarmIsAllSeeds (hash : Nat)
  | onBlocklistChanged (blocklist : List tr_address)
  | cacheBlocklisted (hash : Nat) (atom : Nat)
  deriving DecidableEq, Repr

def atomSetSeed (s : tr_swarm) (atom : Nat) : tr_swarm :=
  let pool := atomUpdate s.pool atom (fun a => { a with flags := a.flags ||| ADDED_F_SEED_FLAG })
  { s with pool := pool, poolIsAllSeedsDirty := true }

/-- Function `tr_peerUpdateProgress`, given the progress computed from the
peer's bitfield. -/
def tr_peerUpdateProgress (s : tr_swarm) (peer : tr_peer) (progress : Rat) : tr_swarm :=
  let progress := max 0 (min progress 1)
  let peers := s.peers.map (fun p => if p.ptr = peer.ptr then { p with progress := progress } else p)
  let s := { s with peers := peers }
  if progress ≥ 1 then atomSetSeed s peer.atom else s

def tr_peerMgrSetUtpSupported (s : tr_swarm) (addr : tr_address) : tr_swarm :=
  match getExistingAtom s addr with
  | some atom =>
    let pool := atomUpdate s.pool atom.ptr (fun a => { a with flags := a.flags ||| ADDED_F_UTP_FLAGS })
    { s with pool := pool }
  | none => s

def tr_peerMgrSetUtpFailed (s : tr_swarm) (addr : tr_address) (failed : Bool) : tr_swarm :=
  match getExistingAtom s addr with
  | some atom =>
    let pool := atomUpdate s.pool atom.ptr (fun a => { a with utp_failed := failed })
    { s with pool := pool }
  | none => s

def tr_peerMgrSetSwarmIsAllSeeds (s : tr_swarm) : tr_swarm :=
  let pool := s.pool.map (fun a => { a with flags := a.flags ||| ADDED_F_SEED_FLAG })
  { s with pool := pool, poolIsAllSeeds := true, poolIsAllSeedsDirty := false }

/-- Function `tr_peerMgrOnBlocklistChanged`, with the new blocklist. -/
def tr_peerMgrOnBlocklistChanged (manager : tr_peerMgr) (blocklist : List tr_address) :
    tr_peerMgr :=
  let torrents := manager.torrents.map (fun tor =>
    { tor with swarm := { tor.swarm with pool := tor.swarm.pool.map (fun a =>
        { a with blocklisted := -1 }) } })
  { manager with torrents := torrents, blocklist := blocklist }

/-- The live peer with the given identity. -/
def peerAt (s : tr_swarm) (ptr : Nat) : Option tr_peer :=
  s.peers.find? (fun p => p.ptr == ptr)

/-- The handshake in progress with the given identity: an incoming one, or an
outgoing one of some torrent. -/
def handshakeAt (manager : tr_peerMgr) (ptr : Nat) : Option tr_handshake :=
  match manager.incomingHandshakes.find? (fun h => h.ptr == ptr) with
  | some h => some h
  | none =>
    (manager.torrents.map (fun tor => tor.swarm.outgoingHandshakes)).flatten.find?
      (fun h => h.ptr == ptr)

/-- One call into the peer manager. `uploadIdleLimit` stands for the floating
point computation of `shouldPeerBeClosed`. A call that names a torrent, peer,
atom or handshake that does not exist changes nothing, and so does `addPex`
with a source that its assertion `from < TR_PEER_FROM__MAX` excludes. -/
def peerMgr_step (uploadIdleLimit : Int → Int → Int) (manager : tr_peerMgr) :
    peerMgr_call → tr_peerMgr
  | peerMgr_call.addPex hash src pex now jitter =>
    if src < TR_PEER_FROM__MAX then
      let torrents := swarmModify manager.torrents hash (fun tor =>
        tr_peerMgrAddPex tor.swarm src now pex jitter manager.next_ptr)
      { manager with torrents := torrents, next_ptr := manager.next_ptr + pex.length }
    else manager
  | peerMgr_call.addIncoming addr port isUtp => tr_peerMgrAddIncoming manager addr port isUtp
  | peerMgr_call.handshakeDone ptr torrentHash isConnected readAnythingFromPeer now jitter client =>
    match handshakeAt manager ptr with
    | some h =>
      let h := if h.isIncoming then { h with torrentHash := torrentHash } else h
      (on_handshake_done manager
        { handshake := h, isConnected := isConnected,
          readAnythingFromPeer := readAnythingFromPeer } now jitter client).1
    | none => manager
  | peerMgr_call.peerEvent hash peer e now =>
    let torrents := swarmModify manager.torrents hash (fun tor =>
      match peerAt tor.swarm peer with
      | some p => peerCallbackFunc tor.swarm p e now
      | none => tor.swarm)
    { manager with torrents := torrents }
  | peerMgr_call.blame hash peer pieceIndex =>
    let torrents := swarmModify manager.torrents hash (fun tor =>
      let peers := tor.swarm.peers.map (fun p =>
        if p.ptr = peer then { p with blame := pieceIndex :: p.blame } else p)
      { tor.swarm with peers := peers })
    { manager with torrents := torrents }
  | peerMgr_call.updateProgress hash peer progress =>
    let torrents := swarmModify manager.torrents hash (fun tor =>
      match peerAt tor.swarm peer with
      | some p => tr_peerUpdateProgress tor.swarm p progress
      | none => tor.swarm)
    { manager with torrents := torrents }
  | peerMgr_call.gotBadPiece hash pieceIndex =>
    let torrents := swarmModify manager.torrents hash (fun tor =>
      tr_peerMgrGotBadPiece tor.swarm pieceIndex)
    { manager with torrents := torrents }
  | peerMgr_call.startTorrent hash =>
    let torrents := swarmModify manager.torrents hash tr_peerMgrStartTorrent
    { manager with torrents := torrents }
  | peerMgr_call.stopTorrent hash now readAnythingFromPeer =>
    let torrents := swarmModify manager.torrents hash (fun tor =>
      stopSwarm tor now readAnythingFromPeer)
    { manager with torrents := torrents }
  | peerMgr_call.removeAllPeers hash now =>
    let torrents := swarmModify manager.torrents hash (fun tor => removeAllPeers tor.swarm now)
    { manager with torrents := torrents }
  | peerMgr_call.closeBadPeers hash now =>
    let torrents := swarmModify manager.torrents hash (fun tor =>
      (closeBadPeers uploadIdleLimit tor now).swarm)
    { manager with torrents := torrents }
  | peerMgr_call.enforceTorrentPeerLimit hash now =>
    let torrents := swarmModify manager.torrents hash (fun tor =>
      (enforceTorrentPeerLimit tor now).swarm)
    { manager with torrents := torrents }
  | peerMgr_call.enforceSessionPeerLimit now =>
    { manager with torrents := enforceSessionPeerLimit manager.torrents manager.peerLimit now }
  | peerMgr_call.initiateConnection hash atom now io_created =>
    let torrents := swarmModify manager.torrents hash (fun tor =>
      match tor.swarm.pool.find? (fun a => a.ptr == atom) with
      | some a =>
        if tor.swarm.isRunning && isPeerCandidate manager tor a now then
          initiateConnection manager.isUTPEnabled tor atom now io_created manager.next_ptr
        else tor.swarm
      | none => tor.swarm)
    { manager with torrents := torrents, next_ptr := manager.next_ptr + 1 }
  | peerMgr_call.atomPulse now =>
    let torrents := manager.torrents.map (atomPulse_torrent manager.incomingHandshakes now)
    { manager with torrents := torrents }
  | peerMgr_call.setUtpSupported hash addr =>
    let torrents := swarmModify manager.torrents hash (fun tor =>
      tr_peerMgrSetUtpSupported tor.swarm addr)
    { manager with torrents := torrents }
  | peerMgr_call.setUtpFailed hash addr failed =>
    let torrents := swarmModify manager.torrents hash (fun tor =>
      tr_peerMgrSetUtpFailed tor.swarm addr failed)
    { manager with torrents := torrents }
  | peerMgr_call.setSwarmIsAllSeeds hash =>
    let torrents := swarmModify manager.torrents hash (fun tor =>
      tr_peerMgrSetSwarmIsAllSeeds tor.swarm)
    { manager with torrents := torrents }
  | peerMgr_call.onBlocklistChanged blocklist => tr_peerMgrOnBlocklistChanged manager blocklist
  | peerMgr_call.cacheBlocklisted hash atom =>
    let torrents := swarmModify manager.torrents hash (fun tor =>
      let pool := atomUpdate tor.swarm.pool atom (fun a =>
        { a with blocklisted := (isAtomBlocklisted manager a).2 })
      { tor.swarm with pool := pool })
    { manager with torrents := torrents }

/-- A sequence of calls. -/
def peerMgr_run (uploadIdleLimit : Int → Int → Int) (manager : tr_peerMgr)
    (calls : List peerMgr_call) : tr_peerMgr :=
  calls.foldl (peerMgr_step uploadIdleLimit) manager

/-! ## Sample swarms -/

def sampleAddr (n : Nat) : tr_address := { type := TR_AF_INET, addr := n }

/-- A torrent whose pool of five atoms is over the cap of three: two atoms have a
live peer, one an outgoing handshake, one (with `gcIncoming`) an incoming
handshake, one is idle. -/
def gcTorrent : tr_torrent :=
  { hash := 1, isRunning := true, maxConnectedPeers := 1,
    swarm :=
      { isRunning := true,
        pool := [{ ptr := 1, addr := sampleAddr 1, peer := some 11 },
                 { ptr := 2, addr := sampleAddr 2, peer := some 12 },
                 { ptr := 3, addr := sampleAddr 3 },
                 { ptr := 4, addr := sampleAddr 4 },
                 { ptr := 5, addr := sampleAddr 5, shelf_date := 900 }],
        peers := [{ ptr := 11, atom := 1 }, { ptr := 12, atom := 2 }],
        outgoingHandshakes := [{ ptr := 21, addr := sampleAddr 3, torrentHash := some 1 }],
        stats := { peerCount := 2, peerFromCount := [2, 0, 0, 0, 0, 0, 0] } } }

def gcIncoming : List tr_handshake := [{ ptr := 22, addr := sampleAddr 4, isIncoming := true }]

/-- Three live peers: the first two are blamed for piece 7, with 4 and 0 strikes,
the third is blamed for piece 9 only. -/
def strikeSwarm : tr_swarm :=
  { isRunning := true,
    pool := [{ ptr := 1, addr := sampleAddr 1, peer := some 11 },
             { ptr := 2, addr := sampleAddr 2, peer := some 12 },
             { ptr := 3, addr := sampleAddr 3, peer := some 13 }],
    peers := [{ ptr := 11, atom := 1, strikes := 4, blame := [7] },
              { ptr := 12, atom := 2, strikes := 0, blame := [7] },
              { ptr := 13, atom := 3, strikes := 2, blame := [9] }],
    stats := { peerCount := 3, peerFromCount := [3, 0, 0, 0, 0, 0, 0] } }

/-! ## Peer manager: consistency of a swarm -/

/-- The links between the pool, the live peers and the statistics of a swarm.
`n` bounds the identities handed out so far. -/
structure poolInv (n : Nat) (pool : List peer_atom) (peers : List tr_peer)
    (stats : tr_swarm_stats) : Prop where
  atom_ptrs : (pool.map (fun A => A.ptr)).Nodup
  atom_addrs : (pool.map (fun A => A.addr)).Nodup
  peer_ptrs : (peers.map (fun P => P.ptr)).Nodup
  peer_atom : ∀ P ∈ peers, ∃ A ∈ pool, A.ptr = P.atom ∧ A.peer = some P.ptr
  atom_peer : ∀ A ∈ pool, ∀ p, A.peer = some p → ∃ P ∈ peers, P.ptr = p ∧ P.atom = A.ptr
  atom_from : ∀ A ∈ pool, A.fromFirst < TR_PEER_FROM__MAX
  from_length : stats.peerFromCount.length = TR_PEER_FROM__MAX
  count : stats.peerCount = peers.length
  from_sum : stats.peerFromCount.sum = stats.peerCount
  atom_bound : ∀ A ∈ pool, A.ptr < n
  peer_bound : ∀ P ∈ peers, P.ptr < n

def swarmInv (n : Nat) (s : tr_swarm) : Prop := poolInv n s.pool s.peers s.stats

/-- Every swarm of the manager is consistent. -/
def mgrInv (manager : tr_peerMgr) : Prop :=
  ∀ tor ∈ manager.torrents, swarmInv manager.next_ptr tor.swarm

/-- A write to an atom that leaves its identity, address, first source and peer
pointer alone, and does not clear the banned bit. -/
structure keepsLinks (f : peer_atom → peer_atom) : Prop where
  ptr : ∀ a, (f a).ptr = a.ptr
  addr : ∀ a, (f a).addr = a.addr
  fromFirst : ∀ a, (f a).fromFirst = a.fromFirst
  peer : ∀ a, (f a).peer = a.peer
  ban : ∀ a, a.flags2 % 2 = 1 → (f a).flags2 % 2 = 1

/-- How a pool may change while identities from `n` on are handed out: an atom
of the new pool is a new allocation, or an atom of the old pool (same identity,
same address) whose banned bit, if it was set, still is. -/
def poolStep (n : Nat) (pool pool' : List peer_atom) : Prop :=
  ∀ B ∈ pool', n ≤ B.ptr ∨
    ∃ A ∈ pool, A.ptr = B.ptr ∧ A.addr = B.addr ∧ (A.flags2 % 2 = 1 → B.flags2 % 2 = 1)

/-- The relation between a torrent before and after a call into the peer
manager that starts with `n` as the next identity and ends with `m`. -/
def torStep (n m : Nat) (t t' : tr_torrent) : Prop :=
  t'.hash = t.hash ∧ swarmInv m t'.swarm ∧ poolStep n t.swarm.pool t'.swarm.pool

/-- The facts carried along a chain of writes to the atoms of a pool. -/
def poolChain (n m : Nat) (pool0 : List peer_atom) (peers : List tr_peer) (stats : tr_swarm_stats)
    (q : Nat) (pool : List peer_atom) : Prop :=
  poolInv m pool peers stats ∧ poolStep n pool0 pool ∧ ∃ A ∈ pool, A.ptr = q

/-- Function `swarmNew`: the constructor leaves every member at its default. -/
def swarmNew : tr_swarm := {}

/-- The two equations on the statistics of a swarm. -/
def statsOk (s : tr_swarm) : Prop :=
  s.stats.peerCount = s.peers.length ∧ s.stats.peerFromCount.sum = s.stats.peerCount

/-- Each atom of the pool has no live peer, or a live peer of the swarm whose
`atom` is that atom. -/
def backrefOk (s : tr_swarm) : Prop :=
  ∀ A ∈ s.pool, A.peer = none ∨ ∃ P ∈ s.peers, A.peer = some P.ptr ∧ P.atom = A.ptr

/-! ## A sample session -/

/-- A session with one torrent that allows a single peer, so that its pool is
capped at three atoms. -/
def banManager : tr_peerMgr :=
  { torrents := [{ hash := 1, isRunning := true, maxConnectedPeers := 1, swarm := swarmNew }],
    peerLimit := 10 }

def banIdle : Int → Int → Int := fun _ _ => 300

/-- The torrent starts, a peer connects from address 9 and is blamed for piece 7,
which fails its checksum five times. -/
def banCalls : List peerMgr_call :=
  [peerMgr_call.startTorrent 1,
   peerMgr_call.addIncoming (sampleAddr 9) 51413 false,
   peerMgr_call.handshakeDone 1 (some 1) true true 1000 0 0,
   peerMgr_call.blame 1 3 7,
   peerMgr_call.gotBadPiece 1 7,
   peerMgr_call.gotBadPiece 1 7,
   peerMgr_call.gotBadPiece 1 7,
   peerMgr_call.gotBadPiece 1 7,
   peerMgr_call.gotBadPiece 1 7]

/-- The purged peer is closed, a tracker announces three other peers, the atom
pulse runs, and the banned address connects again. -/
def forgetCalls : List peerMgr_call :=
  [peerMgr_call.closeBadPeers 1 1100,
   peerMgr_call.addPex 1 TR_PEER_FROM_TRACKER
     [{ addr := sampleAddr 1, port := 1, flags := 0 }, { addr := sampleAddr 2, port := 2, flags := 0 },
      { addr := sampleAddr 3, port := 3, flags := 0 }] 30000 0,
   peerMgr_call.atomPulse 30000,
   peerMgr_call.addIncoming (sampleAddr 9) 51413 false]

/-- A torrent that we are seeding, with one live peer that is a seed too and
whose atom was last touched at time 100. -/
def seedingTorrent (allowsPex : Bool) : tr_torrent :=
  { hash := 1, isSeed := true, allowsPex := allowsPex,
    swarm := { pool := [{ ptr := 1, addr := sampleAddr 1, time := 100, peer := some 2 }],
               peers := [{ ptr := 2, atom := 1, progress := 1 }],
               stats := { peerCount := 1, peerFromCount := [1, 0, 0, 0, 0, 0, 0] } } }

def seedPeer : tr_peer := { ptr := 2, atom := 1, progress := 1 }

/-- The order in which the peers of a torrent over its limit are ranked for
survival, in words: a peer not flagged `doPurge` before a flagged one, then the
more recent piece-data time, then the more recent atom time. Each peer comes
with the atom it points to. -/
def ranksStrictlyBetter (a b : tr_peer × peer_atom) : Prop :=
  (a.1.doPurge = false ∧ b.1.doPurge = true)
  ∨ (a.1.doPurge = b.1.doPurge
      ∧ (a.2.piece_data_time > b.2.piece_data_time
        ∨ (a.2.piece_data_time = b.2.piece_data_time ∧ a.2.time > b.2.time)))

/-- Two trackers' peers are connected to in one pulse, while the torrent allows
a single peer. -/
def crowdCalls : List peerMgr_call :=
  [peerMgr_call.startTorrent 1,
   peerMgr_call.addPex 1 TR_PEER_FROM_TRACKER
     [{ addr := sampleAddr 1, port := 1, flags := 0 }, { addr := sampleAddr 2, port := 2, flags := 0 }]
     1000 0,
   peerMgr_call.initiateConnection 1 1 1000 true,
   peerMgr_call.initiateConnection 1 2 1000 true,
   peerMgr_call.handshakeDone 3 none true true 1010 0 0,
   peerMgr_call.handshakeDone 4 none true true 1020 0 0]

def DefaultScrapeIntervalSec : Int := 60 * 30

def DefaultAnnounceIntervalSec : Int := 60 * 10

def DefaultAnnounceMinIntervalSec : Int := 60 * 2

/-- Function `tierIncrementTracker`. `%` is C's remainder, with `tracker_count`
the length of `trackers`; `currentTracker` receives `&tier->trackers[i]`. -/
def tierIncrementTracker (tier : tr_tier) : tr_tier :=
  let i : Int :=
    if tier.currentTracker = none then 0
    else Int.tmod (tier.currentTrackerIndex + 1) tier.trackers.length
  { tier with
    currentTrackerIndex := i
    currentTracker := some i.toNat
    scrapeIntervalSec := DefaultScrapeIntervalSec
    announceIntervalSec := DefaultAnnounceIntervalSec
    announceMinIntervalSec := DefaultAnnounceMinIntervalSec
    isAnnouncing := false
    isScraping := false
    lastAnnounceStartTime := 0
    lastScrapeStartTime := 0 }

/-- Function `getRetryInterval`; `rand` is the value of `tr_rand_int_weak(60)`. -/
def getRetryInterval (t : tr_tracker) (rand : Int) : Int :=
  if t.consecutiveFailures = 0 then 0
  else if t.consecutiveFailures = 1 then 20
  else if t.consecutiveFailures = 2 then rand + 60 * 5
  else if t.consecutiveFailures = 3 then rand + 60 * 15
  else if t.consecutiveFailures = 4 then rand + 60 * 30
  else if t.consecutiveFailures = 5 then rand + 60 * 60
  else rand + 60 * 120

/-- Function `tr_strlcpy` into a buffer of `siz` bytes: at most `siz - 1` bytes
are kept. -/
def tr_strlcpy (src : List Nat) (siz : Nat) : List Nat :=
  src.take (siz - 1)

/-- Function `on_announce_error`; `now` is `tr_time()`, `rand` the value of
`tr_rand_int_weak(60)`. After `tierIncrementTracker` the function reads
`tier->currentTracker`, which must point into the tier's trackers (`none`
otherwise). -/
def on_announce_error (tier : tr_tier) (err : List Nat) (e : tr_announce_event) (now rand : Int) :
    Option tr_tier :=
  let tier :=
    match tier.currentTracker with
    | some i =>
      let trackers := tier.trackers.modify
        (fun t : tr_tracker => { t with consecutiveFailures := t.consecutiveFailures + 1 }) i
      { tier with trackers := trackers }
    | none => tier
  let tier := { tier with lastAnnounceStr := tr_strlcpy err 128 }
  let tier := tierIncrementTracker tier
  match tier_currentTracker tier with
  | some tracker =>
    let interval := getRetryInterval tracker rand
    some (tier_announce_event_push tier e (now + interval))
  | none => none

/-- A tier with two trackers that have not failed yet, announcing to the
first. -/
def twoTrackerTier : tr_tier :=
  { trackers := [{ key := 1, announce_url := 1 }, { key := 2, announce_url := 2 }],
    currentTracker := some 0, currentTrackerIndex := 0, isRunning := true }

/-! ## Pending stops (`announcer.cc`) -/

def Numwant : Int := 80

/-- Function `StopsCompare::compare`. The volumes are sums of `uint64_t`;
`info_hash` is an array of bytes, compared lexicographically. -/
def StopsCompare_compare (a b : tr_announce_request) : Int :=
  let ax := (a.up + a.down) % 2 ^ 64
  let bx := (b.up + b.down) % 2 ^ 64
  if ax < bx then -1
  else if ax > bx then 1
  else if a.info_hash < b.info_hash then -1
  else if a.info_hash > b.info_hash then 1
  else if a.announce_url < b.announce_url then -1
  else if a.announce_url > b.announce_url then 1
  else 0

/-- The call operator of `StopsCompare` ("less than"). -/
def StopsCompare_less (a b : tr_announce_request) : Bool :=
  decide (StopsCompare_compare a b < 0)

/-- Function `std::set::count`: the elements equivalent to `x`, those that are
neither below nor above it. -/
def std_set_count {α : Type} (less : α → α → Bool) (set : List α) (x : α) : Nat :=
  set.countP (fun y => !less y x && !less x y)

/-- Function `std::set::insert`. The set is held as the sequence in which it is
iterated, from the least element up; an element equivalent to one already held
is not inserted. -/
def std_set_insert {α : Type} (less : α → α → Bool) (x : α) : List α → List α
  | [] => [x]
  | y :: ys =>
    if less x y then x :: y :: ys
    else if less y x then y :: std_set_insert less x ys
    else y :: ys

/-- What the announcer reads of its session and of the session's torrents, which
are named by their ids: the public peer port, the info-hash, the peer id, the
bytes left (`INT64_MAX` without metadata), whether the torrent is a partial seed
and whether it is a seed. -/
structure announcer_session where
  port : Int := 0
  tr_torrentInfoHash : Nat → List Nat
  tr_torrentGetPeerId : Nat → List Nat := fun _ => []
  leftUntilComplete : Nat → Nat := fun _ => 0
  partial_seed : Nat → Bool := fun _ => false
  tr_torrentIsSeed : Nat → Bool := fun _ => false

/-- Function `announce_request_new`; a tier without current tracker would be a
null dereference (`none`). -/
def announce_request_new (announcer : tr_announcer) (session : announcer_session) (tor : Nat)
    (tier : tr_tier) (event : tr_announce_event) : Option tr_announce_request :=
  match tier_currentTracker tier with
  | none => none
  | some currentTracker =>
    some
      { port := session.port
        announce_url := currentTracker.announce_url
        tracker_id_str := currentTracker.tracker_id_str
        info_hash := session.tr_torrentInfoHash tor
        peer_id := session.tr_torrentGetPeerId tor
        up := tier.byteCounts.getD 0 0
        down := tier.byteCounts.getD 1 0
        corrupt := tier.byteCounts.getD 2 0
        leftUntilComplete := session.leftUntilComplete tor
        event := event
        numwant := if event = TR_ANNOUNCE_EVENT_STOPPED then 0 else Numwant
        key := announcer.key
        partial_seed := session.partial_seed tor }

/-- The loop of `tr_announcerRemoveTorrent` over the tiers of the torrent. -/
def tr_announcerRemoveTorrent_tiers (session : announcer_session) (tor : Nat) :
    tr_announcer → List tr_tier → Option tr_announcer
  | announcer, [] => some announcer
  | announcer, tier :: tiers =>
    if tier.isRunning then
      let e := TR_ANNOUNCE_EVENT_STOPPED
      match announce_request_new announcer session tor tier e with
      | none => none
      | some req =>
        if std_set_count StopsCompare_less announcer.stops req ≠ 0 then
          tr_announcerRemoveTorrent_tiers session tor announcer tiers
        else
          let stops := std_set_insert StopsCompare_less req announcer.stops
          tr_announcerRemoveTorrent_tiers session tor { announcer with stops := stops } tiers
    else tr_announcerRemoveTorrent_tiers session tor announcer tiers

/-- Function `tr_announcerRemoveTorrent`; `tt` is `tor->tiers`, `none` when
null. The tiers are freed afterwards and `tor->tiers` is null. -/
def tr_announcerRemoveTorrent (announcer : tr_announcer) (session : announcer_session)
    (tor : Nat) (tt : Option (List tr_tier)) : Option tr_announcer :=
  match tt with
  | some tiers => tr_announcerRemoveTorrent_tiers session tor announcer tiers
  | none => some announcer

/-- Function `flushCloseMessages`: the announcer afterwards and the stops handed
to `announce_request_delegate`, in order. -/
def flushCloseMessages (announcer : tr_announcer) : tr_announcer × List tr_announce_request :=
  ({ announcer with stops := [] }, announcer.stops)

/-- A session of two torrents, with info-hashes of twenty bytes 1 and twenty
bytes 2. -/
def stopsSession : announcer_session :=
  { port := 51413, tr_torrentInfoHash := fun tor => List.replicate 20 tor }

/-- A running tier of torrent `tor` that has uploaded `up` and downloaded `down`
bytes. -/
def runningTier (tor up down : Nat) : tr_tier :=
  { byteCounts := [up, down, 0], trackers := [{ key := 1, announce_url := 1 }],
    currentTracker := some 0, tor := tor, isRunning := true }

/-! ## Upkeep: scrapes and announces (`announcer.cc`) -/

def MaxAnnouncesPerUpkeep : Nat := 20

/-- Function `get_next_scrape_time`; `now` is `tr_time()`. The loop steps to the
next multiple of ten. -/
def get_next_scrape_time (scrapePausedTorrents : Bool) (tier : tr_tier) (interval : Int)
    (now : Int) : Int :=
  if !tier.isRunning && !scrapePausedTorrents then 0
  else
    let ret := now + interval
    ret + (10 - ret % 10) % 10

/-- Function `tierConstruct`; `nextKey` is the value of the static counter. -/
def tierConstruct (nextKey : Int) (tor : Nat) (scrapePausedTorrents : Bool) (now : Int) :
    tr_tier :=
  let tier : tr_tier := {}
  let tier := { tier with key := nextKey, currentTrackerIndex := -1 }
  let tier := { tier with scrapeIntervalSec := DefaultScrapeIntervalSec }
  let tier := { tier with announceIntervalSec := DefaultAnnounceIntervalSec }
  let tier := { tier with announceMinIntervalSec := DefaultAnnounceMinIntervalSec }
  let tier := { tier with scrapeAt := get_next_scrape_time scrapePausedTorrents tier 0 now }
  { tier with tor := tor }

def tierNeedsToAnnounce (tier : tr_tier) (now : Int) : Bool :=
  !tier.isAnnouncing && !tier.isScraping && decide (tier.announceAt ≠ 0)
    && decide (tier.announceAt ≤ now) && decide (tier.announce_events.length > 0)

def countDownloaders (tier : tr_tier) : Int :=
  match tier_currentTracker tier with
  | none => 0
  | some tracker => tracker.downloaderCount + tracker.leecherCount

/-- Function `compareAnnounceTiers`. A tier comes with its address, which the
last comparison uses; the byte counts are `uint64_t`. -/
def compareAnnounceTiers (session : announcer_session) (a b : Nat × tr_tier) : Int :=
  let priority_a := a.2.announce_event_priority
  let priority_b := b.2.announce_event_priority
  if priority_a ≠ priority_b then (if priority_a > priority_b then -1 else 1)
  else
    let downloader_count_a := countDownloaders a.2
    let downloader_count_b := countDownloaders b.2
    if downloader_count_a ≠ downloader_count_b then
      (if downloader_count_a > downloader_count_b then -1 else 1)
    else
      let is_seed_a := session.tr_torrentIsSeed a.2.tor
      let is_seed_b := session.tr_torrentIsSeed b.2.tor
      if is_seed_a ≠ is_seed_b then (if is_seed_a then 1 else -1)
      else
        let xa := (a.2.byteCounts.getD 0 0 + a.2.byteCounts.getD 1 0) % 2 ^ 64
        let xb := (b.2.byteCounts.getD 0 0 + b.2.byteCounts.getD 1 0) % 2 ^ 64
        if xa ≠ xb then (if xa > xb then -1 else 1)
        else if a.2.announceAt ≠ b.2.announceAt then
          (if a.2.announceAt < b.2.announceAt then -1 else 1)
        else if a.1 < b.1 then -1 else 1

/-- Function `tierAnnounce`: the tier afterwards and the request handed to
`announce_request_delegate`; `now` is `tr_time()`. An empty queue or a tier
without current tracker would be undefined behaviour (`none`). -/
def tierAnnounce (announcer : tr_announcer) (session : announcer_session) (now : Int)
    (tier : tr_tier) : Option (tr_tier × tr_announce_request) :=
  let tor := tier.tor
  match tier_announce_event_pull tier with
  | none => none
  | some (announce_event, tier) =>
    match announce_request_new announcer session tor tier announce_event with
    | none => none
    | some req => some ({ tier with isAnnouncing := true, lastAnnounceStartTime := now }, req)

/-- The last loop of `scrapeAndAnnounceMore`: `tierAnnounce` on each selected
tier, in order, with the requests sent. -/
def scrapeAndAnnounceMore_announce (announcer : tr_announcer) (session : announcer_session)
    (now : Int) : List Nat → List tr_tier → Option (List tr_tier × List tr_announce_request)
  | [], tiers => some (tiers, [])
  | i :: announce_me, tiers =>
    match tiers[i]? with
    | none => none
    | some tier =>
      match tierAnnounce announcer session now tier with
      | none => none
      | some (tier, req) =>
        (scrapeAndAnnounceMore_announce announcer session now announce_me (tiers.set i tier)).map
          (fun r => (r.1, req :: r.2))

/-- Function `scrapeAndAnnounceMore`; `now` is `tr_time()`. `tiers` holds the
tiers of the session's torrents in the order in which the first loop visits
them; a `tr_tier*` is a position in this list, and `addr` gives the address that
it stands for. The result holds the tiers afterwards, the scrape requests and
the announce requests sent. -/
def scrapeAndAnnounceMore (announcer : tr_announcer) (session : announcer_session)
    (addr : Nat → Nat) (now : Int) (tiers : List tr_tier) :
    Option (List tr_tier × List tr_scrape_request × List tr_announce_request) :=
  let announce_me := (List.range tiers.length).filter
    (fun i => (tiers[i]?).any (fun tier => tierNeedsToAnnounce tier now))
  let scrape_me := (List.range tiers.length).filter
    (fun i => (tiers[i]?).any (fun tier => tierNeedsToScrape tier now))
  match multiscrape announcer session.tr_torrentInfoHash now
      (scrape_me.filterMap (fun i => tiers[i]?)) with
  | none => none
  | some (scraped, scrapes) =>
    let tiers := (scrape_me.zip scraped).foldl (fun ts p => ts.set p.1 p.2) tiers
    let compare := fun i j : Nat =>
      compareAnnounceTiers session (addr i, tiers.getD i {}) (addr j, tiers.getD j {})
    let announce_me :=
      if announce_me.length > MaxAnnouncesPerUpkeep then
        (std_partial_sort compare announce_me MaxAnnouncesPerUpkeep).take MaxAnnouncesPerUpkeep
      else announce_me
    match scrapeAndAnnounceMore_announce announcer session now announce_me tiers with
    | none => none
    | some (tiers, announces) => some (tiers, scrapes, announces)

/-- The tier of a torrent added at time 100 with one tracker
(`addTorrentToTier`) and started at the same time
(`tr_announcerTorrentStarted`), in a session that scrapes paused torrents. -/
def startedTier : tr_tier :=
  let tier := tierConstruct 1 1 true 100
  let tier := { tier with trackers := [{ key := 1, announce_url := 1, scrape_info := some 9 }] }
  let tier := tierIncrementTracker tier
  tier_announce_event_push tier TR_ANNOUNCE_EVENT_STARTED 100

/-- A running tier with an announce queued for time 101 and a scrape due at
time 110. -/
def queuedTier : tr_tier :=
  { trackers := [{ key := 1, announce_url := 1, scrape_info := some 9 }],
    currentTracker := some 0, tor := 1, isRunning := true, scrapeAt := 110,
    announceAt := 101, announce_events := [TR_ANNOUNCE_EVENT_NONE] }

/-! ## Peer manager: choking (`peer-mgr.cc`) -/

def OptimisticUnchokeMultiplier : Int := 4

/-- Direction `TR_CLIENT_TO_PEER` (`TR_UP`). -/
def TR_CLIENT_TO_PEER : Nat := 0

/-- Direction `TR_PEER_TO_CLIENT` (`TR_DOWN`). -/
def TR_PEER_TO_CLIENT : Nat := 1

def INT_MAX : Nat := 2147483647

/-- Type `ChokeData`; `msgs` is the identity of the peer. -/
structure ChokeData where
  isInterested : Bool
  wasChoked : Bool
  isChoked : Bool
  rate : Int
  salt : Int
  msgs : Nat
  deriving DecidableEq, Repr

def compareChoke (a b : ChokeData) : Int :=
  if a.rate ≠ b.rate then (if a.rate > b.rate then -1 else 1)
  else if a.wasChoked ≠ b.wasChoked then (if a.wasChoked then 1 else -1)
  else if a.salt ≠ b.salt then a.salt - b.salt
  else 0

/-- What one call of `rechokeUploads` reads outside the swarm: of the torrent
(`tr_torrentIsSeed`, `tr_torrentIsPrivate`, `tr_torrentIsPieceTransferAllowed`
for `TR_CLIENT_TO_PEER`, `isBandwidthMaxedOut` of its bandwidth for `TR_UP`), of
the session (`uploadSlotsPerTorrent`), of each peer's message layer, by the
identity of the peer (`is_peer_interested`, `is_peer_choked`,
`get_connection_age`, and the piece speed by peer pointer and direction), and
the values that the random number generator yields, in the order drawn. -/
structure rechoke_env where
  tr_torrentIsSeed : Bool := false
  tr_torrentIsPrivate : Bool := false
  tr_torrentIsPieceTransferAllowed : Bool := true
  isBandwidthMaxedOut : Bool := false
  uploadSlotsPerTorrent : Int := 0
  is_peer_interested : Nat → Bool := fun _ => false
  is_peer_choked : Nat → Bool := fun _ => true
  get_connection_age : Nat → Int := fun _ => 0
  tr_peerGetPieceSpeed_Bps : Option Nat → Nat → Nat := fun _ _ => 0
  rand : Nat → Nat := fun _ => 0

/-- Function `tr_rand_int_weak` for the draw number `k` of the call: a value
below `upper_bound`. -/
def tr_rand_int_weak (env : rechoke_env) (k : Nat) (upper_bound : Nat) : Nat :=
  env.rand k % upper_bound

/-- Function `isNew`; the peer is never null here. -/
def isNew (env : rechoke_env) (msgs : Nat) : Bool :=
  decide (env.get_connection_age msgs < 45)

/-- Function `getRate`; `Bps` is an `unsigned`, returned as `int`. -/
def getRate (env : rechoke_env) (pool : List peer_atom) (atom : Nat) : Int :=
  let peer := (atomAt pool atom).peer
  let Bps : Nat :=
    if env.tr_torrentIsSeed then env.tr_peerGetPieceSpeed_Bps peer TR_CLIENT_TO_PEER
    else if env.tr_torrentIsPrivate then
      env.tr_peerGetPieceSpeed_Bps peer TR_PEER_TO_CLIENT
        + env.tr_peerGetPieceSpeed_Bps peer TR_CLIENT_TO_PEER
    else env.tr_peerGetPieceSpeed_Bps peer TR_PEER_TO_CLIENT
  toI32 Bps

/-- The start of `rechokeUploads`: the optimistic state lasts for as many calls
as the scaler counts. -/
def rechokeUploads_expire (s : tr_swarm) : tr_swarm :=
  if s.optimisticUnchokeTimeScaler > 0 then
    { s with optimisticUnchokeTimeScaler := s.optimisticUnchokeTimeScaler - 1 }
  else { s with optimistic := none }

/-- The first loop of `rechokeUploads` over the peers, with the entries of
`choke` filled so far and the calls of `set_choke` made so far, each with the
identity of the peer and the argument; `chokeAll` is
`!tr_torrentIsPieceTransferAllowed`. -/
def rechokeUploads_collect (env : rechoke_env) (s : tr_swarm) :
    List tr_peer → List ChokeData → List (Nat × Bool) → List ChokeData × List (Nat × Bool)
  | [], choke, calls => (choke, calls)
  | peer :: peers, choke, calls =>
    if tr_peerIsSeed s.pool peer then
      rechokeUploads_collect env s peers choke (calls ++ [(peer.ptr, true)])
    else if !env.tr_torrentIsPieceTransferAllowed then
      rechokeUploads_collect env s peers choke (calls ++ [(peer.ptr, true)])
    else if some peer.ptr ≠ s.optimistic then
      let n : ChokeData :=
        { msgs := peer.ptr
          isInterested := env.is_peer_interested peer.ptr
          wasChoked := env.is_peer_choked peer.ptr
          rate := getRate env s.pool peer.atom
          salt := tr_rand_int_weak env choke.length INT_MAX
          isChoked := true }
      rechokeUploads_collect env s peers (choke ++ [n]) calls
    else rechokeUploads_collect env s peers choke calls

/-- The peers that `rechokeUploads` ranks: the entries of `choke` after the
first loop, for a swarm whose optimistic state has been brought up to date. -/
def rechokeUploads_candidates (env : rechoke_env) (s : tr_swarm) : List ChokeData :=
  (rechokeUploads_collect env (rechokeUploads_expire s) s.peers [] []).1

/-- The loop of `rechokeUploads` that unchokes the best entries, from the entry
at hand on, with `unchokedInterested` so far: the entries afterwards and by how
much `checkedChokeCount` grows. -/
def rechokeUploads_unchoke (isMaxedOut : Bool) (uploadSlotsPerTorrent : Int) :
    List ChokeData → Int → List ChokeData × Nat
  | [], _ => ([], 0)
  | c :: choke, unchokedInterested =>
    if unchokedInterested < uploadSlotsPerTorrent then
      let c := { c with isChoked := if isMaxedOut then c.wasChoked else false }
      let unchokedInterested := if c.isInterested then unchokedInterested + 1 else unchokedInterested
      let r := rechokeUploads_unchoke isMaxedOut uploadSlotsPerTorrent choke unchokedInterested
      (c :: r.1, r.2 + 1)
    else (c :: choke, 0)

/-- The pool of the optimistic unchoke: the positions in `choke`, from
`checkedChokeCount` on, of the interested entries, three times for a new
connection. -/
def rechokeUploads_randPool (env : rechoke_env) (choke : List ChokeData)
    (checkedChokeCount : Nat) : List Nat :=
  ((List.range choke.length).drop checkedChokeCount).flatMap (fun i =>
    match choke[i]? with
    | some c => if c.isInterested then List.replicate (if isNew env c.msgs then 3 else 1) i else []
    | none => [])

/-- Function `rechokeUploads`: the swarm afterwards and the calls of `set_choke`
in order, each with the identity of the peer and the argument. The entry drawn
from `randPool` is an entry of `choke` (the last case of the match is never
taken). -/
def rechokeUploads (env : rechoke_env) (s : tr_swarm) : tr_swarm × List (Nat × Bool) :=
  let isMaxedOut := env.isBandwidthMaxedOut
  let s := rechokeUploads_expire s
  let collected := rechokeUploads_collect env s s.peers [] []
  let size := collected.1.length
  let choke := qsort compareChoke collected.1
  let unchoked := rechokeUploads_unchoke isMaxedOut env.uploadSlotsPerTorrent choke 0
  let choke := unchoked.1
  let checkedChokeCount := unchoked.2
  let picked :=
    if s.optimistic = none ∧ isMaxedOut = false ∧ checkedChokeCount < size then
      let randPool := rechokeUploads_randPool env choke checkedChokeCount
      let n := randPool.length
      if n ≠ 0 then
        let c := randPool.getD (tr_rand_int_weak env size n) 0
        match choke[c]? with
        | some entry =>
          let choke := choke.modify (fun d : ChokeData => { d with isChoked := false }) c
          let s := { s with optimistic := some entry.msgs }
          ({ s with optimisticUnchokeTimeScaler := OptimisticUnchokeMultiplier }, choke)
        | none => (s, choke)
      else (s, choke)
    else (s, choke)
  (picked.1, collected.2 ++ picked.2.map (fun d => (d.msgs, d.isChoked)))

/-- Between two calls of `rechokeUploads` the swarm may change in any way that
leaves the optimistic peer and its scaler alone; no other function assigns to
them. -/
def optimisticKept (a b : tr_swarm) : Prop :=
  b.optimistic = a.optimistic ∧ b.optimisticUnchokeTimeScaler = a.optimisticUnchokeTimeScaler

/-- What one call of `rechokeUploads` reads in the sample swarm: two upload
slots, every peer interested, and peer 13 the fastest. -/
def chokeEnv : rechoke_env :=
  { uploadSlotsPerTorrent := 2, is_peer_interested := fun _ => true,
    get_connection_age := fun _ => 100,
    tr_peerGetPieceSpeed_Bps := fun peer _ => if peer = some 13 then 900 else if peer = some 12 then 500 else 100 }

/-- A swarm of four connected peers, none of them a seed. -/
def chokeSwarm : tr_swarm :=
  { pool := [{ ptr := 1, addr := sampleAddr 1, peer := some 11 },
             { ptr := 2, addr := sampleAddr 2, peer := some 12 },
             { ptr := 3, addr := sampleAddr 3, peer := some 13 },
             { ptr := 4, addr := sampleAddr 4, peer := some 14 }],
    peers := [{ ptr := 11, atom := 1 }, { ptr := 12, atom := 2 }, { ptr := 13, atom := 3 },
              { ptr := 14, atom := 4 }] }

/-- The sample swarm before its rechoke number `k`, when nothing else happens
to it. -/
def chokeRun : Nat → tr_swarm
  | 0 => chokeSwarm
  | k + 1 => (rechokeUploads chokeEnv (chokeRun k)).1

/-! ## Peer manager: candidate scores (`peer-mgr.cc`) -/

/-- Function `torrentWasRecentlyStarted`; `now` is `tr_time()`. -/
def torrentWasRecentlyStarted (tor : tr_torrent) (now : Int) : Bool :=
  decide (now - tor.startDate < 120)

/-- Function `addValToKey`, on `uint64_t`. -/
def addValToKey (value : Nat) (width : Nat) (addme : Nat) : Nat :=
  let value := (value <<< width) % 2 ^ 64
  let value := value ||| addme
  value

/-- Function `getPeerCandidateScore`; `now` is `tr_time()`. `salt` is a
`uint8_t`, and `lastConnectionAttemptAt` a `time_t` converted to `uint64_t`. -/
def getPeerCandidateScore (tor : tr_torrent) (atom : peer_atom) (salt : Nat) (now : Int) : Nat :=
  let score : Nat := 0
  let failed : Bool := decide (atom.lastConnectionAt < atom.lastConnectionAttemptAt)
  let i : Nat := if failed then 1 else 0
  let score := addValToKey score 1 i
  let i : Nat := (atom.lastConnectionAttemptAt % 2 ^ 64).toNat
  let score := addValToKey score 32 i
  let i : Nat :=
    match tor.priority with
    | tr_priority_t.TR_PRI_HIGH => 0
    | tr_priority_t.TR_PRI_NORMAL => 1
    | tr_priority_t.TR_PRI_LOW => 2
  let score := addValToKey score 4 i
  let i : Nat := if torrentWasRecentlyStarted tor now then 0 else 1
  let score := addValToKey score 1 i
  let i : Nat := if tor.isSeed then 1 else 0
  let score := addValToKey score 1 i
  let i : Nat := if (atom.flags &&& ADDED_F_CONNECTABLE) ≠ 0 then 0 else 1
  let score := addValToKey score 1 i
  let i : Nat := if (atom.flags &&& ADDED_F_SEED_FLAG) = 0 then 0 else 1
  let score := addValToKey score 1 i
  let score := addValToKey score 4 atom.fromBest
  let score := addValToKey score 8 (salt % 256)
  score

/-- The fields of a candidate in the order of the claim: last attempt failed,
`lastConnectionAttemptAt`, rank of the torrent's priority (0 for high, 1 for
normal, 2 for low), torrent not recently started, torrent is seeding, peer not
known connectable, peer seed flag, best source, salt. Lists of numbers are
ordered lexicographically. -/
def peerCandidateFields (tor : tr_torrent) (atom : peer_atom) (salt : Nat) (now : Int) :
    List Nat :=
  [if atom.lastConnectionAt < atom.lastConnectionAttemptAt then 1 else 0,
   atom.lastConnectionAttemptAt.toNat,
   match tor.priority with
   | tr_priority_t.TR_PRI_HIGH => 0
   | tr_priority_t.TR_PRI_NORMAL => 1
   | tr_priority_t.TR_PRI_LOW => 2,
   if now - tor.startDate < 120 then 0 else 1,
   if tor.isSeed then 1 else 0,
   if (atom.flags &&& ADDED_F_CONNECTABLE) ≠ 0 then 0 else 1,
   if (atom.flags &&& ADDED_F_SEED_FLAG) = 0 then 0 else 1,
   atom.fromBest,
   salt % 256]

/-- A candidate found by peer exchange and tried at time 500 without success. -/
def triedAtom : peer_atom :=
  { ptr := 1, addr := sampleAddr 1, fromFirst := 4, fromBest := 4, lastConnectionAttemptAt := 500,
    lastConnectionAt := 0 }

/-- A candidate from the tracker, known to be connectable, last tried at time
400 with success. -/
def connectedAtom : peer_atom :=
  { ptr := 2, addr := sampleAddr 2, fromFirst := 2, fromBest := 2, flags := 16,
    lastConnectionAttemptAt := 400, lastConnectionAt := 400 }

/-- A torrent of normal priority started at time 450. -/
def scoredTorrent : tr_torrent := { hash := 1, startDate := 450 }

/-- The calls on the queue of a tier whose torrent is started, completes, is
stopped and is started again. -/
def restartCalls : List tier_queue_call :=
  [tier_queue_call.push TR_ANNOUNCE_EVENT_STARTED 1,
   tier_queue_call.push TR_ANNOUNCE_EVENT_COMPLETED 2,
   tier_queue_call.push TR_ANNOUNCE_EVENT_STOPPED 3,
   tier_queue_call.push TR_ANNOUNCE_EVENT_STARTED 4]

/-- The tier after `restartCalls`. -/
def restartedTier : tr_tier :=
  { announce_events :=
      [TR_ANNOUNCE_EVENT_COMPLETED, TR_ANNOUNCE_EVENT_STOPPED, TR_ANNOUNCE_EVENT_STARTED],
    announceAt := 4, announce_event_priority := 3 }
/-- The calls on the queue of a tier whose torrent is started, is announced by
hand, completes, and is announced by hand again. -/
def manualCalls : List tier_queue_call :=
  [tier_queue_call.push TR_ANNOUNCE_EVENT_STARTED 1,
   tier_queue_call.push TR_ANNOUNCE_EVENT_NONE 2,
   tier_queue_call.push TR_ANNOUNCE_EVENT_COMPLETED 3,
   tier_queue_call.push TR_ANNOUNCE_EVENT_NONE 4]

/-- The tier after `manualCalls`. -/
def manualTier : tr_tier :=
  { announce_events :=
      [TR_ANNOUNCE_EVENT_STARTED, TR_ANNOUNCE_EVENT_COMPLETED, TR_ANNOUNCE_EVENT_NONE],
    announceAt := 4, announce_event_priority := 2 }

/-- The response to a scrape request of `n` info-hashes on the scrape URL with
key 9, failed by the tracker with "Bad Request". -/
def badRequestResponse (n : Nat) : tr_scrape_response :=
  { did_connect := true, scrape_url := 9, errmsg := cstr "Bad Request",
    rows := List.replicate n {} }
/-! ## The next manual announce (`announcer.cc`) -/

/-- Function `tr_announcerNextManualAnnounce`; `tt` is `tor->tiers`, `none` when
null. `time_t` is a signed integer, so that `~(time_t)0` is `-1`. -/
def tr_announcerNextManualAnnounce (tt : Option (List tr_tier)) : Int :=
  let ret : Int := -1
  match tt with
  | none => ret
  | some tiers =>
    tiers.foldl (fun ret tier => if tier.isRunning then min ret tier.manualAnnounceAllowedAt else ret)
      ret

/-- A running tier that allows a manual announce from the given time on. -/
def manualTierAt (manualAnnounceAllowedAt : Int) : tr_tier :=
  { trackers := [{ key := 1, announce_url := 1 }], currentTracker := some 0, tor := 1,
    isRunning := true, manualAnnounceAllowedAt := manualAnnounceAllowedAt }

/-! ## Quarks (`quark.cc`) -/

/-- The array `my_static` of the predefined keys, each as its bytes. -/
def my_static : List (List Nat) :=
  [cstr "",
   cstr "activeTorrentCount",
   cstr "activity-date",
   cstr "activityDate",
   cstr "added",
   cstr "added-date",
   cstr "added.f",
   cstr "added6",
   cstr "added6.f",
   cstr "addedDate",
   cstr "address",
   cstr "alt-speed-down",
   cstr "alt-speed-enabled",
   cstr "alt-speed-time-begin",
   cstr "alt-speed-time-day",
   cstr "alt-speed-time-enabled",
   cstr "alt-speed-time-end",
   cstr "alt-speed-up",
   cstr "announce",
   cstr "announce-list",
   cstr "announceState",
   cstr "anti-brute-force-enabled",
   cstr "anti-brute-force-threshold",
   cstr "arguments",
   cstr "bandwidth-priority",
   cstr "bandwidthPriority",
   cstr "bind-address-ipv4",
   cstr "bind-address-ipv6",
   cstr "bitfield",
   cstr "blocklist-date",
   cstr "blocklist-enabled",
   cstr "blocklist-size",
   cstr "blocklist-updates-enabled",
   cstr "blocklist-url",
   cstr "blocks",
   cstr "bytesCompleted",
   cstr "cache-size-mb",
   cstr "clientIsChoked",
   cstr "clientIsInterested",
   cstr "clientName",
   cstr "comment",
   cstr "comment_utf_8",
   cstr "compact-view",
   cstr "complete",
   cstr "config-dir",
   cstr "cookies",
   cstr "corrupt",
   cstr "corruptEver",
   cstr "created by",
   cstr "created by.utf-8",
   cstr "creation date",
   cstr "creator",
   cstr "cumulative-stats",
   cstr "current-stats",
   cstr "date",
   cstr "dateCreated",
   cstr "delete-local-data",
   cstr "desiredAvailable",
   cstr "destination",
   cstr "details-window-height",
   cstr "details-window-width",
   cstr "dht-enabled",
   cstr "display-name",
   cstr "dnd",
   cstr "done-date",
   cstr "doneDate",
   cstr "download-dir",
   cstr "download-dir-free-space",
   cstr "download-queue-enabled",
   cstr "download-queue-size",
   cstr "downloadCount",
   cstr "downloadDir",
   cstr "downloadLimit",
   cstr "downloadLimited",
   cstr "downloadSpeed",
   cstr "downloaded",
   cstr "downloaded-bytes",
   cstr "downloadedBytes",
   cstr "downloadedEver",
   cstr "downloaders",
   cstr "downloading-time-seconds",
   cstr "dropped",
   cstr "dropped6",
   cstr "e",
   cstr "editDate",
   cstr "encoding",
   cstr "encryption",
   cstr "error",
   cstr "errorString",
   cstr "eta",
   cstr "etaIdle",
   cstr "failure reason",
   cstr "fields",
   cstr "file-count",
   cstr "fileStats",
   cstr "filename",
   cstr "files",
   cstr "files-added",
   cstr "files-unwanted",
   cstr "files-wanted",
   cstr "filesAdded",
   cstr "filter-mode",
   cstr "filter-text",
   cstr "filter-trackers",
   cstr "flagStr",
   cstr "flags",
   cstr "format",
   cstr "fromCache",
   cstr "fromDht",
   cstr "fromIncoming",
   cstr "fromLpd",
   cstr "fromLtep",
   cstr "fromPex",
   cstr "fromTracker",
   cstr "hasAnnounced",
   cstr "hasScraped",
   cstr "hashString",
   cstr "have",
   cstr "haveUnchecked",
   cstr "haveValid",
   cstr "honorsSessionLimits",
   cstr "host",
   cstr "id",
   cstr "idle-limit",
   cstr "idle-mode",
   cstr "idle-seeding-limit",
   cstr "idle-seeding-limit-enabled",
   cstr "ids",
   cstr "incomplete",
   cstr "incomplete-dir",
   cstr "incomplete-dir-enabled",
   cstr "info",
   cstr "info_hash",
   cstr "inhibit-desktop-hibernation",
   cstr "interval",
   cstr "ip",
   cstr "ipv4",
   cstr "ipv6",
   cstr "isBackup",
   cstr "isDownloadingFrom",
   cstr "isEncrypted",
   cstr "isFinished",
   cstr "isIncoming",
   cstr "isPrivate",
   cstr "isStalled",
   cstr "isUTP",
   cstr "isUploadingTo",
   cstr "labels",
   cstr "lastAnnouncePeerCount",
   cstr "lastAnnounceResult",
   cstr "lastAnnounceStartTime",
   cstr "lastAnnounceSucceeded",
   cstr "lastAnnounceTime",
   cstr "lastAnnounceTimedOut",
   cstr "lastScrapeResult",
   cstr "lastScrapeStartTime",
   cstr "lastScrapeSucceeded",
   cstr "lastScrapeTime",
   cstr "lastScrapeTimedOut",
   cstr "leecherCount",
   cstr "leftUntilDone",
   cstr "length",
   cstr "location",
   cstr "lpd-enabled",
   cstr "m",
   cstr "magnet-info",
   cstr "magnetLink",
   cstr "main-window-height",
   cstr "main-window-is-maximized",
   cstr "main-window-layout-order",
   cstr "main-window-width",
   cstr "main-window-x",
   cstr "main-window-y",
   cstr "manualAnnounceTime",
   cstr "max-peers",
   cstr "maxConnectedPeers",
   cstr "memory-bytes",
   cstr "memory-units",
   cstr "message-level",
   cstr "metadataPercentComplete",
   cstr "metadata_size",
   cstr "metainfo",
   cstr "method",
   cstr "min interval",
   cstr "min_request_interval",
   cstr "move",
   cstr "msg_type",
   cstr "mtimes",
   cstr "name",
   cstr "name.utf-8",
   cstr "nextAnnounceTime",
   cstr "nextScrapeTime",
   cstr "nodes",
   cstr "nodes6",
   cstr "open-dialog-dir",
   cstr "p",
   cstr "path",
   cstr "path.utf-8",
   cstr "paused",
   cstr "pausedTorrentCount",
   cstr "peer-congestion-algorithm",
   cstr "peer-id-ttl-hours",
   cstr "peer-limit",
   cstr "peer-limit-global",
   cstr "peer-limit-per-torrent",
   cstr "peer-port",
   cstr "peer-port-random-high",
   cstr "peer-port-random-low",
   cstr "peer-port-random-on-start",
   cstr "peer-socket-tos",
   cstr "peerIsChoked",
   cstr "peerIsInterested",
   cstr "peers",
   cstr "peers2",
   cstr "peers2-6",
   cstr "peers6",
   cstr "peersConnected",
   cstr "peersFrom",
   cstr "peersGettingFromUs",
   cstr "peersSendingToUs",
   cstr "percentDone",
   cstr "pex-enabled",
   cstr "piece",
   cstr "piece length",
   cstr "pieceCount",
   cstr "pieceSize",
   cstr "pieces",
   cstr "play-download-complete-sound",
   cstr "port",
   cstr "port-forwarding-enabled",
   cstr "port-is-open",
   cstr "preallocation",
   cstr "prefetch-enabled",
   cstr "primary-mime-type",
   cstr "priorities",
   cstr "priority",
   cstr "priority-high",
   cstr "priority-low",
   cstr "priority-normal",
   cstr "private",
   cstr "progress",
   cstr "prompt-before-exit",
   cstr "queue-move-bottom",
   cstr "queue-move-down",
   cstr "queue-move-top",
   cstr "queue-move-up",
   cstr "queue-stalled-enabled",
   cstr "queue-stalled-minutes",
   cstr "queuePosition",
   cstr "rateDownload",
   cstr "rateToClient",
   cstr "rateToPeer",
   cstr "rateUpload",
   cstr "ratio-limit",
   cstr "ratio-limit-enabled",
   cstr "ratio-mode",
   cstr "recent-download-dir-1",
   cstr "recent-download-dir-2",
   cstr "recent-download-dir-3",
   cstr "recent-download-dir-4",
   cstr "recheckProgress",
   cstr "remote-session-enabled",
   cstr "remote-session-host",
   cstr "remote-session-password",
   cstr "remote-session-port",
   cstr "remote-session-requres-authentication",
   cstr "remote-session-username",
   cstr "removed",
   cstr "rename-partial-files",
   cstr "reqq",
   cstr "result",
   cstr "rpc-authentication-required",
   cstr "rpc-bind-address",
   cstr "rpc-enabled",
   cstr "rpc-host-whitelist",
   cstr "rpc-host-whitelist-enabled",
   cstr "rpc-password",
   cstr "rpc-port",
   cstr "rpc-url",
   cstr "rpc-username",
   cstr "rpc-version",
   cstr "rpc-version-minimum",
   cstr "rpc-version-semver",
   cstr "rpc-whitelist",
   cstr "rpc-whitelist-enabled",
   cstr "scrape",
   cstr "scrape-paused-torrents-enabled",
   cstr "scrapeState",
   cstr "script-torrent-added-enabled",
   cstr "script-torrent-added-filename",
   cstr "script-torrent-done-enabled",
   cstr "script-torrent-done-filename",
   cstr "seconds-active",
   cstr "secondsActive",
   cstr "secondsDownloading",
   cstr "secondsSeeding",
   cstr "seed-queue-enabled",
   cstr "seed-queue-size",
   cstr "seedIdleLimit",
   cstr "seedIdleMode",
   cstr "seedRatioLimit",
   cstr "seedRatioLimited",
   cstr "seedRatioMode",
   cstr "seederCount",
   cstr "seeding-time-seconds",
   cstr "session-count",
   cstr "session-id",
   cstr "sessionCount",
   cstr "show-backup-trackers",
   cstr "show-extra-peer-details",
   cstr "show-filterbar",
   cstr "show-notification-area-icon",
   cstr "show-options-window",
   cstr "show-statusbar",
   cstr "show-toolbar",
   cstr "show-tracker-scrapes",
   cstr "size-bytes",
   cstr "size-units",
   cstr "sizeWhenDone",
   cstr "sort-mode",
   cstr "sort-reversed",
   cstr "source",
   cstr "speed",
   cstr "speed-Bps",
   cstr "speed-bytes",
   cstr "speed-limit-down",
   cstr "speed-limit-down-enabled",
   cstr "speed-limit-up",
   cstr "speed-limit-up-enabled",
   cstr "speed-units",
   cstr "start-added-torrents",
   cstr "start-minimized",
   cstr "startDate",
   cstr "status",
   cstr "statusbar-stats",
   cstr "tag",
   cstr "tier",
   cstr "time-checked",
   cstr "torrent-added",
   cstr "torrent-added-notification-command",
   cstr "torrent-added-notification-enabled",
   cstr "torrent-complete-notification-command",
   cstr "torrent-complete-notification-enabled",
   cstr "torrent-complete-sound-command",
   cstr "torrent-complete-sound-enabled",
   cstr "torrent-duplicate",
   cstr "torrent-get",
   cstr "torrent-set",
   cstr "torrent-set-location",
   cstr "torrentCount",
   cstr "torrentFile",
   cstr "torrents",
   cstr "totalSize",
   cstr "total_size",
   cstr "tracker id",
   cstr "trackerAdd",
   cstr "trackerRemove",
   cstr "trackerReplace",
   cstr "trackerStats",
   cstr "trackers",
   cstr "trash-can-enabled",
   cstr "trash-original-torrent-files",
   cstr "umask",
   cstr "units",
   cstr "upload-slots-per-torrent",
   cstr "uploadLimit",
   cstr "uploadLimited",
   cstr "uploadRatio",
   cstr "uploadSpeed",
   cstr "upload_only",
   cstr "uploaded",
   cstr "uploaded-bytes",
   cstr "uploadedBytes",
   cstr "uploadedEver",
   cstr "url-list",
   cstr "use-global-speed-limit",
   cstr "use-speed-limit",
   cstr "user-has-given-informed-consent",
   cstr "ut_comment",
   cstr "ut_holepunch",
   cstr "ut_metadata",
   cstr "ut_pex",
   cstr "ut_recommend",
   cstr "utp-enabled",
   cstr "v",
   cstr "version",
   cstr "wanted",
   cstr "warning message",
   cstr "watch-dir",
   cstr "watch-dir-enabled",
   cstr "webseeds",
   cstr "webseedsSendingToUs"]

/-- The number of predefined keys (`static_assert(std::size(my_static) == TR_N_KEYS)`). -/
def TR_N_KEYS : Nat := 392

/-- The loop behind `static_assert(quarks_are_sorted)`, from a position on: no key
is greater than or equal to the next one. Byte strings are ordered
lexicographically. -/
def quarks_are_sorted_from : List (List Nat) → Bool
  | a :: b :: rest => if a ≥ b then false else quarks_are_sorted_from (b :: rest)
  | _ => true

def quarks_are_sorted : Bool := quarks_are_sorted_from my_static

/-- Function `std::lower_bound` on a sorted range: the first position whose element
is not less than `key`, the length of the range when there is none. -/
def std_lower_bound (range : List (List Nat)) (key : List Nat) : Nat :=
  range.findIdx (fun x => decide (¬ (x < key)))

/-- Function `std::find`: the first position whose element equals `key`, the
length of the range when there is none. -/
def std_find (range : List (List Nat)) (key : List Nat) : Nat :=
  range.findIdx (fun x => decide (x = key))

/-- Function `tr_quark_lookup`; `my_runtime` holds the keys added so far. -/
def tr_quark_lookup (my_runtime : List (List Nat)) (key : List Nat) : Option tr_quark :=
  let sit := std_lower_bound my_static key
  if sit ≠ my_static.length ∧ my_static[sit]? = some key then some sit
  else
    let rit := std_find my_runtime key
    if rit ≠ my_runtime.length then some (TR_N_KEYS + rit)
    else none

/-- Function `tr_quark_new`: the quark and `my_runtime` afterwards. The entry
added views `std::size(str)` bytes of the copy of that length that `tr_strndup`
makes (per its declaration in `utils.h`). -/
def tr_quark_new (my_runtime : List (List Nat)) (str : List Nat) :
    tr_quark × List (List Nat) :=
  match tr_quark_lookup my_runtime str with
  | some prior => (prior, my_runtime)
  | none =>
    let ret := TR_N_KEYS + my_runtime.length
    (ret, my_runtime ++ [str])

/-- Function `tr_quark_get_string_view`; an index outside both tables would be
undefined behaviour (`none`). -/
def tr_quark_get_string_view (my_runtime : List (List Nat)) (q : tr_quark) :
    Option (List Nat) :=
  if q < TR_N_KEYS then my_static[q]? else my_runtime[q - TR_N_KEYS]?

/-! ## UDP tracker transport: the calls from outside (`announcer-udp.cc`) -/

/-- Function `tau_announce_request_new`; `transaction_id` is the value drawn by
`tau_transaction_new()`, `callback` the response function with its user data. -/
def tau_announce_request_new (env : tau_env) (request : tr_announce_request)
    (callback : Option Nat) (transaction_id : Nat) : tau_announce_request :=
  { payload := tau_announce_request_payload request transaction_id
    created_at := env.tr_time
    transaction_id := transaction_id
    callback := callback
    response := { seeders := -1, leechers := -1, downloads := -1, info_hash := request.info_hash } }

/-- Function `tau_scrape_request_new`. -/
def tau_scrape_request_new (env : tau_env) (request : tr_scrape_request)
    (callback : Option Nat) (transaction_id : Nat) : tau_scrape_request :=
  let buf : List Nat := []
  let buf := evbuffer_add_hton_32 buf TAU_ACTION_SCRAPE
  let buf := evbuffer_add_hton_32 buf transaction_id
  let buf := request.info_hash.foldl evbuffer_add buf
  let rows : List tr_scrape_response_row := request.info_hash.map
    (fun h => { seeders := -1, leechers := -1, downloads := -1, info_hash := h })
  { payload := buf
    created_at := env.tr_time
    transaction_id := transaction_id
    callback := callback
    response := { scrape_url := request.scrape_url, rows := rows } }

/-- Function `tau_tracker_on_dns`; `strerror` is the text of
`evutil_gai_strerror(errcode)`, `addr` the family of the address found. -/
def tau_tracker_on_dns (env : tau_env) (errcode : Int) (addr : tr_address_type)
    (strerror : List Nat) (tracker : tau_tracker) : Option (tau_tracker × List tau_effect) :=
  let tracker := { tracker with dns_request := false }
  if errcode ≠ 0 then
    let errmsg := cstr "DNS Lookup failed: " ++ strerror
    some (tau_tracker_fail_all tracker false false (some errmsg))
  else
    let tracker := { tracker with addr := some addr, addr_expiration_time := env.tr_time + 60 * 60 }
    tau_tracker_upkeep env tracker

/-- A call on each tracker of `tau->trackers` in turn, with what the calls did. -/
def tau_trackers_foreach (f : tau_tracker → Option (tau_tracker × List tau_effect)) :
    List tau_tracker → Option (List tau_tracker × List tau_effect)
  | [] => some ([], [])
  | tracker :: trackers =>
    match f tracker with
    | none => none
    | some (tracker, e1) =>
      match tau_trackers_foreach f trackers with
      | none => none
      | some (trackers, e2) => some (tracker :: trackers, e1 ++ e2)

/-- Function `tau_session_get_tracker` followed by a call on the tracker found:
the tracker with the given key, or a new one appended to `tau->trackers`. -/
def tau_session_with_tracker (f : tau_tracker → Option (tau_tracker × List tau_effect))
    (key host : Nat) (port : Int) : List tau_tracker → Option (List tau_tracker × List tau_effect)
  | [] =>
    match f { key := key, host := host, port := port } with
    | none => none
    | some (tracker, e) => some ([tracker], e)
  | tmp :: trackers =>
    if tmp.key = key then
      match f tmp with
      | none => none
      | some (tracker, e) => some (tracker :: trackers, e)
    else
      match tau_session_with_tracker f key host port trackers with
      | none => none
      | some (trackers, e) => some (tmp :: trackers, e)

/-- Function `tr_tracker_udp_upkeep`. -/
def tr_tracker_udp_upkeep (env : tau_env) (announcer_udp : Option tr_announcer_udp) :
    Option (Option tr_announcer_udp × List tau_effect) :=
  match announcer_udp with
  | none => some (none, [])
  | some tau =>
    match tau_trackers_foreach (tau_tracker_upkeep env) tau.trackers with
    | none => none
    | some (trackers, e) => some (some { tau with trackers := trackers }, e)

/-- Function `tr_tracker_udp_close`: the trackers and their requests are freed,
no callback is invoked. -/
def tr_tracker_udp_close (announcer_udp : Option tr_announcer_udp) :
    Option (Option tr_announcer_udp × List tau_effect) :=
  match announcer_udp with
  | none => some (none, [])
  | some _ => some (none, [])

/-- Function `tr_tracker_udp_start_shutdown`. A lookup that is cancelled reports
its failure to `tau_tracker_on_dns` later. -/
def tr_tracker_udp_start_shutdown (env : tau_env) (announcer_udp : Option tr_announcer_udp) :
    Option (Option tr_announcer_udp × List tau_effect) :=
  let now := env.time
  match announcer_udp with
  | none => some (none, [])
  | some tau =>
    match tau_trackers_foreach
        (fun tracker => tau_tracker_upkeep env { tracker with close_at := now + 3 })
        tau.trackers with
    | none => none
    | some (trackers, e) => some (some { tau with trackers := trackers }, e)

/-- Function `tr_tracker_udp_announce`. `parsed` holds the tracker key, host and
port found in the announce URL, `none` when the URL does not parse;
`transaction_id` is the value drawn for the request. -/
def tr_tracker_udp_announce (env : tau_env) (announcer_udp : Option tr_announcer_udp)
    (parsed : Option (Nat × Nat × Int)) (request : tr_announce_request) (callback : Option Nat)
    (transaction_id : Nat) : Option (Option tr_announcer_udp × List tau_effect) :=
  let tau : tr_announcer_udp := announcer_udp.getD {}
  match parsed with
  | none => some (some tau, [])
  | some (key, host, port) =>
    let r := tau_announce_request_new env request callback transaction_id
    match tau_session_with_tracker
        (fun tracker =>
          tau_tracker_upkeep_ex 2 env { tracker with announces := tracker.announces ++ [r] } false)
        key host port tau.trackers with
    | none => none
    | some (trackers, e) => some (some { tau with trackers := trackers }, e)

/-- Function `tr_tracker_udp_scrape`. -/
def tr_tracker_udp_scrape (env : tau_env) (announcer_udp : Option tr_announcer_udp)
    (parsed : Option (Nat × Nat × Int)) (request : tr_scrape_request) (callback : Option Nat)
    (transaction_id : Nat) : Option (Option tr_announcer_udp × List tau_effect) :=
  let tau : tr_announcer_udp := announcer_udp.getD {}
  match parsed with
  | none => some (some tau, [])
  | some (key, host, port) =>
    let r := tau_scrape_request_new env request callback transaction_id
    match tau_session_with_tracker
        (fun tracker =>
          tau_tracker_upkeep_ex 2 env { tracker with scrapes := tracker.scrapes ++ [r] } false)
        key host port tau.trackers with
    | none => none
    | some (trackers, e) => some (some { tau with trackers := trackers }, e)

/-- The calls into the UDP transport: the upkeep timer, a datagram received, the
end of a DNS lookup for the tracker with the given key, the start of the
shutdown, the close, and a request handed in. -/
inductive tau_call where
  | upkeep
  | message (msg : List Nat)
  | on_dns (key : Nat) (errcode : Int) (addr : tr_address_type) (strerror : List Nat)
  | start_shutdown
  | close
  | announce (parsed : Option (Nat × Nat × Int)) (request : tr_announce_request)
      (callback : Option Nat) (transaction_id : Nat)
  | scrape (parsed : Option (Nat × Nat × Int)) (request : tr_scrape_request)
      (callback : Option Nat) (transaction_id : Nat)

/-- The end of a DNS lookup reaches the tracker that started it. -/
def tau_on_dns_at (f : tau_tracker → Option (tau_tracker × List tau_effect)) (key : Nat) :
    List tau_tracker → Option (List tau_tracker × List tau_effect)
  | [] => some ([], [])
  | tracker :: trackers =>
    if tracker.key = key then
      match f tracker with
      | none => none
      | some (tracker, e) => some (tracker :: trackers, e)
    else
      match tau_on_dns_at f key trackers with
      | none => none
      | some (trackers, e) => some (tracker :: trackers, e)

/-- One call into the transport, in the environment it finds: the transport
afterwards and what it did. -/
def tau_step (announcer_udp : Option tr_announcer_udp) (env : tau_env) :
    tau_call → Option (Option tr_announcer_udp × List tau_effect)
  | tau_call.upkeep => tr_tracker_udp_upkeep env announcer_udp
  | tau_call.message msg =>
    match tau_handle_message env announcer_udp msg with
    | none => none
    | some (_, announcer_udp, e) => some (announcer_udp, e)
  | tau_call.on_dns key errcode addr strerror =>
    match announcer_udp with
    | none => some (none, [])
    | some tau =>
      match tau_on_dns_at (tau_tracker_on_dns env errcode addr strerror) key tau.trackers with
      | none => none
      | some (trackers, e) => some (some { tau with trackers := trackers }, e)
  | tau_call.start_shutdown => tr_tracker_udp_start_shutdown env announcer_udp
  | tau_call.close => tr_tracker_udp_close announcer_udp
  | tau_call.announce parsed request callback transaction_id =>
    tr_tracker_udp_announce env announcer_udp parsed request callback transaction_id
  | tau_call.scrape parsed request callback transaction_id =>
    tr_tracker_udp_scrape env announcer_udp parsed request callback transaction_id

/-- A sequence of calls, each in its environment, with everything done. -/
def tau_run : Option tr_announcer_udp → List (tau_env × tau_call) →
    Option (Option tr_announcer_udp × List tau_effect)
  | announcer_udp, [] => some (announcer_udp, [])
  | announcer_udp, (env, call) :: calls =>
    match tau_step announcer_udp env call with
    | none => none
    | some (announcer_udp, e1) =>
      match tau_run announcer_udp calls with
      | none => none
      | some (announcer_udp, e2) => some (announcer_udp, e1 ++ e2)

/-- Whether an effect is the invocation of the response callback `k.2`, of a
scrape when `k.1` is set and of an announce otherwise. -/
def tau_callback_is (k : Bool × Nat) : tau_effect → Bool
  | tau_effect.announce_callback callback _ => !k.1 && callback == k.2
  | tau_effect.scrape_callback callback _ => k.1 && callback == k.2
  | _ => false

/-- How often the callback `k` is invoked. -/
def tau_invoked (k : Bool × Nat) (effects : List tau_effect) : Nat :=
  effects.countP (tau_callback_is k)

/-- How many of the announces hold the callback `k`. -/
def tau_pending_announces (k : Bool × Nat) (reqs : List tau_announce_request) : Nat :=
  if k.1 then 0 else reqs.countP (fun req => req.callback == some k.2)

/-- How many of the scrapes hold the callback `k`. -/
def tau_pending_scrapes (k : Bool × Nat) (reqs : List tau_scrape_request) : Nat :=
  if k.1 then reqs.countP (fun req => req.callback == some k.2) else 0

/-- How many requests with the callback `k` a tracker holds. -/
def tau_tracker_pending (k : Bool × Nat) (tracker : tau_tracker) : Nat :=
  tau_pending_announces k tracker.announces + tau_pending_scrapes k tracker.scrapes

/-- How many requests with the callback `k` the transport holds. -/
def tau_pending (k : Bool × Nat) (announcer_udp : Option tr_announcer_udp) : Nat :=
  match announcer_udp with
  | none => 0
  | some tau => (tau.trackers.map (tau_tracker_pending k)).sum

/-- How many requests with the callback `k` the calls hand to the transport. -/
def tau_handed (k : Bool × Nat) : List (tau_env × tau_call) → Nat
  | [] => 0
  | (_, tau_call.announce (some _) _ callback _) :: calls =>
    (if !k.1 && callback == some k.2 then 1 else 0) + tau_handed k calls
  | (_, tau_call.scrape (some _) _ callback _) :: calls =>
    (if k.1 && callback == some k.2 then 1 else 0) + tau_handed k calls
  | _ :: calls => tau_handed k calls

/-- The environment at a given time. -/
def envAt (now : Int) : tau_env := { tr_time := now, time := now, transaction_new := 1000 + now.toNat }

/-- An announce is handed in for a tracker not seen before; the lookup of its
host succeeds, the tracker answers the connect request, then the announce, and
the same announce response arrives once more; later the upkeep runs. -/
def announceCalls : List (tau_env × tau_call) :=
  [(envAt 10, tau_call.announce (some (1, 2, 6969)) exampleAnnounceRequest (some 5) 77),
   (envAt 11, tau_call.on_dns 1 0 TR_AF_INET []),
   (envAt 12, tau_call.message (hton 4 0 ++ hton 4 1011 ++ hton 8 123456789)),
   (envAt 13, tau_call.message (hton 4 1 ++ hton 4 77 ++ hton 4 1800 ++ hton 4 3 ++ hton 4 7)),
   (envAt 14, tau_call.message (hton 4 1 ++ hton 4 77 ++ hton 4 1800 ++ hton 4 3 ++ hton 4 7)),
   (envAt 100, tau_call.upkeep)]

/-! # Properties -/

/-! ## Lemmas on byte buffers -/

theorem hton_length (n v : Nat) : (hton n v).length = n := by
  induction n with
  | zero => rfl
  | succ k ih => simp [hton, ih]

theorem ntoh_foldl (bytes : List Nat) (acc : Nat) :
    bytes.foldl (fun a b => a * 256 + b) acc
      = acc * 256 ^ bytes.length + bytes.foldl (fun a b => a * 256 + b) 0 := by
  induction bytes generalizing acc with
  | nil => simp
  | cons b bs ih =>
    simp only [List.foldl_cons, List.length_cons]
    rw [ih (acc * 256 + b), ih (0 * 256 + b)]
    ring

theorem ntoh_cons (b : Nat) (bs : List Nat) :
    ntoh (b :: bs) = b * 256 ^ bs.length + ntoh bs := by
  unfold ntoh
  rw [List.foldl_cons, ntoh_foldl]
  simp

/-- Decoding undoes encoding, up to the truncation to `n` bytes. -/
theorem ntoh_hton (n v : Nat) : ntoh (hton n v) = v % 256 ^ n := by
  induction n with
  | zero => simp [hton, ntoh, Nat.mod_one]
  | succ k ih =>
    rw [hton, ntoh_cons, hton_length, ih, pow_succ, Nat.mod_mul, Nat.add_comm, Nat.mul_comm]

theorem slice_append_mid (p m s : List Nat) (off len : Nat) (hp : p.length = off)
    (hm : m.length = len) : slice off len (p ++ (m ++ s)) = m := by
  subst hp
  subst hm
  simp [slice]

theorem slice_skip (a rest : List Nat) (n off len : Nat) (h : a.length = n) :
    slice (n + off) len (a ++ rest) = slice off len rest := by
  subst h
  simp [slice, List.drop_append]

theorem slice_head (m s : List Nat) (len : Nat) (h : m.length = len) :
    slice 0 len (m ++ s) = m := by
  subst h
  simp [slice]

theorem slice_all (m : List Nat) (len : Nat) (h : m.length = len) : slice 0 len m = m := by
  subst h
  simp [slice]

theorem tau_announce_request_datagram_eq (cid tid : Nat) (req : tr_announce_request) :
    tau_tracker_send_request cid (tau_announce_request_payload req tid)
      = hton 8 cid ++ (hton 4 TAU_ACTION_ANNOUNCE ++ (hton 4 tid ++ (req.info_hash ++
        (req.peer_id ++ (hton 8 req.down ++ (hton 8 req.leftUntilComplete ++ (hton 8 req.up ++
        (hton 4 (get_tau_announce_event req.event) ++ (hton 4 0 ++ (hton 4 (toU32 req.key) ++
        (hton 4 (toU32 req.numwant) ++ hton 2 (toU32 req.port)))))))))))) := by
  simp [tau_tracker_send_request, tau_announce_request_payload,
    evbuffer_add, evbuffer_add_hton_16, evbuffer_add_hton_32, evbuffer_add_hton_64,
    List.append_assoc]

/-- The buffer `tau_tracker_send_request` builds from a connection id and the
payload of an announce request, field by field. -/
theorem tau_announce_request_datagram_fields (cid tid : Nat) (req : tr_announce_request)
    (hih : req.info_hash.length = 20) (hpid : req.peer_id.length = 20) :
    (tau_tracker_send_request cid (tau_announce_request_payload req tid)).length = 98
    ∧ ntoh (slice 0 8 (tau_tracker_send_request cid (tau_announce_request_payload req tid))) = cid % 2 ^ 64
    ∧ ntoh (slice 8 4 (tau_tracker_send_request cid (tau_announce_request_payload req tid))) = 1
    ∧ ntoh (slice 12 4 (tau_tracker_send_request cid (tau_announce_request_payload req tid))) = tid % 2 ^ 32
    ∧ slice 16 20 (tau_tracker_send_request cid (tau_announce_request_payload req tid)) = req.info_hash
    ∧ slice 36 20 (tau_tracker_send_request cid (tau_announce_request_payload req tid)) = req.peer_id
    ∧ ntoh (slice 56 8 (tau_tracker_send_request cid (tau_announce_request_payload req tid))) = req.down % 2 ^ 64
    ∧ ntoh (slice 64 8 (tau_tracker_send_request cid (tau_announce_request_payload req tid))) = req.leftUntilComplete % 2 ^ 64
    ∧ ntoh (slice 72 8 (tau_tracker_send_request cid (tau_announce_request_payload req tid))) = req.up % 2 ^ 64
    ∧ ntoh (slice 80 4 (tau_tracker_send_request cid (tau_announce_request_payload req tid)))
        = (match req.event with
           | TR_ANNOUNCE_EVENT_NONE => 0
           | TR_ANNOUNCE_EVENT_COMPLETED => 1
           | TR_ANNOUNCE_EVENT_STARTED => 2
           | TR_ANNOUNCE_EVENT_STOPPED => 3)
    ∧ ntoh (slice 84 4 (tau_tracker_send_request cid (tau_announce_request_payload req tid))) = 0
    ∧ ntoh (slice 88 4 (tau_tracker_send_request cid (tau_announce_request_payload req tid))) = toU32 req.key
    ∧ ntoh (slice 92 4 (tau_tracker_send_request cid (tau_announce_request_payload req tid))) = toU32 req.numwant
    ∧ ntoh (slice 96 2 (tau_tracker_send_request cid (tau_announce_request_payload req tid))) = toU32 req.port % 2 ^ 16 := by
  have hu32 : ∀ v : Int, toU32 v % 256 ^ 4 = toU32 v := by
    intro v
    apply Nat.mod_eq_of_lt
    unfold toU32
    omega
  rw [tau_announce_request_datagram_eq]
  refine ⟨?_, ?_, ?_, ?_, ?_, ?_, ?_, ?_, ?_, ?_, ?_, ?_, ?_, ?_⟩
  · simp [hton_length, hih, hpid]
  · rw [slice_head _ _ _ (hton_length _ _), ntoh_hton]
    norm_num
  · rw [slice_skip _ _ 8 0 _ (hton_length _ _), slice_head _ _ _ (hton_length _ _), ntoh_hton]
    rfl
  · rw [slice_skip _ _ 8 4 _ (hton_length _ _), slice_skip _ _ 4 0 _ (hton_length _ _),
      slice_head _ _ _ (hton_length _ _), ntoh_hton]
    norm_num
  · rw [slice_skip _ _ 8 8 _ (hton_length _ _), slice_skip _ _ 4 4 _ (hton_length _ _),
      slice_skip _ _ 4 0 _ (hton_length _ _), slice_head _ _ _ hih]
  · rw [slice_skip _ _ 8 28 _ (hton_length _ _), slice_skip _ _ 4 24 _ (hton_length _ _),
      slice_skip _ _ 4 20 _ (hton_length _ _), slice_skip _ _ 20 0 _ hih, slice_head _ _ _ hpid]
  · rw [slice_skip _ _ 8 48 _ (hton_length _ _), slice_skip _ _ 4 44 _ (hton_length _ _),
      slice_skip _ _ 4 40 _ (hton_length _ _), slice_skip _ _ 20 20 _ hih,
      slice_skip _ _ 20 0 _ hpid, slice_head _ _ _ (hton_length _ _), ntoh_hton]
    norm_num
  · rw [slice_skip _ _ 8 56 _ (hton_length _ _), slice_skip _ _ 4 52 _ (hton_length _ _),
      slice_skip _ _ 4 48 _ (hton_length _ _), slice_skip _ _ 20 28 _ hih,
      slice_skip _ _ 20 8 _ hpid, slice_skip _ _ 8 0 _ (hton_length _ _),
      slice_head _ _ _ (hton_length _ _), ntoh_hton]
    norm_num
  · rw [slice_skip _ _ 8 64 _ (hton_length _ _), slice_skip _ _ 4 60 _ (hton_length _ _),
      slice_skip _ _ 4 56 _ (hton_length _ _), slice_skip _ _ 20 36 _ hih,
      slice_skip _ _ 20 16 _ hpid, slice_skip _ _ 8 8 _ (hton_length _ _),
      slice_skip _ _ 8 0 _ (hton_length _ _), slice_head _ _ _ (hton_length _ _), ntoh_hton]
    norm_num
  · rw [slice_skip _ _ 8 72 _ (hton_length _ _), slice_skip _ _ 4 68 _ (hton_length _ _),
      slice_skip _ _ 4 64 _ (hton_length _ _), slice_skip _ _ 20 44 _ hih,
      slice_skip _ _ 20 24 _ hpid, slice_skip _ _ 8 16 _ (hton_length _ _),
      slice_skip _ _ 8 8 _ (hton_length _ _), slice_skip _ _ 8 0 _ (hton_length _ _),
      slice_head _ _ _ (hton_length _ _), ntoh_hton]
    cases req.event <;> rfl
  · rw [slice_skip _ _ 8 76 _ (hton_length _ _), slice_skip _ _ 4 72 _ (hton_length _ _),
      slice_skip _ _ 4 68 _ (hton_length _ _), slice_skip _ _ 20 48 _ hih,
      slice_skip _ _ 20 28 _ hpid, slice_skip _ _ 8 20 _ (hton_length _ _),
      slice_skip _ _ 8 12 _ (hton_length _ _), slice_skip _ _ 8 4 _ (hton_length _ _),
      slice_skip _ _ 4 0 _ (hton_length _ _), slice_head _ _ _ (hton_length _ _), ntoh_hton]
    rfl
  · rw [slice_skip _ _ 8 80 _ (hton_length _ _), slice_skip _ _ 4 76 _ (hton_length _ _),
      slice_skip _ _ 4 72 _ (hton_length _ _), slice_skip _ _ 20 52 _ hih,
      slice_skip _ _ 20 32 _ hpid, slice_skip _ _ 8 24 _ (hton_length _ _),
      slice_skip _ _ 8 16 _ (hton_length _ _), slice_skip _ _ 8 8 _ (hton_length _ _),
      slice_skip _ _ 4 4 _ (hton_length _ _), slice_skip _ _ 4 0 _ (hton_length _ _),
      slice_head _ _ _ (hton_length _ _), ntoh_hton, hu32]
  · rw [slice_skip _ _ 8 84 _ (hton_length _ _), slice_skip _ _ 4 80 _ (hton_length _ _),
      slice_skip _ _ 4 76 _ (hton_length _ _), slice_skip _ _ 20 56 _ hih,
      slice_skip _ _ 20 36 _ hpid, slice_skip _ _ 8 28 _ (hton_length _ _),
      slice_skip _ _ 8 20 _ (hton_length _ _), slice_skip _ _ 8 12 _ (hton_length _ _),
      slice_skip _ _ 4 8 _ (hton_length _ _), slice_skip _ _ 4 4 _ (hton_length _ _),
      slice_skip _ _ 4 0 _ (hton_length _ _), slice_head _ _ _ (hton_length _ _), ntoh_hton, hu32]
  · rw [slice_skip _ _ 8 88 _ (hton_length _ _), slice_skip _ _ 4 84 _ (hton_length _ _),
      slice_skip _ _ 4 80 _ (hton_length _ _), slice_skip _ _ 20 60 _ hih,
      slice_skip _ _ 20 40 _ hpid, slice_skip _ _ 8 32 _ (hton_length _ _),
      slice_skip _ _ 8 24 _ (hton_length _ _), slice_skip _ _ 8 16 _ (hton_length _ _),
      slice_skip _ _ 4 12 _ (hton_length _ _), slice_skip _ _ 4 8 _ (hton_length _ _),
      slice_skip _ _ 4 4 _ (hton_length _ _), slice_skip _ _ 4 0 _ (hton_length _ _),
      slice_all _ _ (hton_length _ _), ntoh_hton]
    norm_num

theorem tau_tracker_send_announces_cons (env : tau_env) (tracker : tau_tracker) (now : Int)
    (req : tau_announce_request) (reqs : List tau_announce_request) :
    (tau_tracker_send_announces env tracker now (req :: reqs)).2
      = (if req.sent_at = 0 then
          tau_sendto env tracker (tau_tracker_send_request tracker.connection_id req.payload)
        else [])
        ++ (tau_tracker_send_announces env tracker now reqs).2 := by
  simp only [tau_tracker_send_announces]
  split
  · split <;> rfl
  · rfl

theorem tau_tracker_send_announces_append (env : tau_env) (tracker : tau_tracker) (now : Int)
    (a b : List tau_announce_request) :
    (tau_tracker_send_announces env tracker now (a ++ b)).2
      = (tau_tracker_send_announces env tracker now a).2
        ++ (tau_tracker_send_announces env tracker now b).2 := by
  induction a with
  | nil => rfl
  | cons req a ih =>
    rw [List.cons_append, tau_tracker_send_announces_cons, tau_tracker_send_announces_cons, ih,
      List.append_assoc]

theorem tau_sendto_congr (env : tau_env) (t1 t2 : tau_tracker) (buf : List Nat)
    (haddr : t1.addr = t2.addr) (hkey : t1.key = t2.key) :
    tau_sendto env t1 buf = tau_sendto env t2 buf := by
  unfold tau_sendto
  rw [haddr, hkey]

theorem tau_tracker_send_scrapes_congr (env : tau_env) (t1 t2 : tau_tracker) (now : Int)
    (haddr : t1.addr = t2.addr) (hkey : t1.key = t2.key)
    (hid : t1.connection_id = t2.connection_id) (reqs : List tau_scrape_request) :
    tau_tracker_send_scrapes env t1 now reqs = tau_tracker_send_scrapes env t2 now reqs := by
  induction reqs with
  | nil => rfl
  | cons req reqs ih =>
    simp only [tau_tracker_send_scrapes]
    rw [ih, hid, tau_sendto_congr env t1 t2 _ haddr hkey]

theorem tau_tracker_send_reqs_effects (env : tau_env) (tracker : tau_tracker) :
    (tau_tracker_send_reqs env tracker).2
      = (tau_tracker_send_announces env tracker env.tr_time tracker.announces).2
        ++ (tau_tracker_send_scrapes env tracker env.tr_time tracker.scrapes).2 := by
  unfold tau_tracker_send_reqs
  dsimp only
  rw [tau_tracker_send_scrapes_congr env
    { tracker with
      announces := (tau_tracker_send_announces env tracker env.tr_time tracker.announces).1 }
    tracker env.tr_time rfl rfl rfl]

theorem tau_tracker_send_scrapes_cons (env : tau_env) (tracker : tau_tracker) (now : Int)
    (req : tau_scrape_request) (reqs : List tau_scrape_request) :
    (tau_tracker_send_scrapes env tracker now (req :: reqs)).2
      = (if req.sent_at = 0 then
          tau_sendto env tracker (tau_tracker_send_request tracker.connection_id req.payload)
        else [])
        ++ (tau_tracker_send_scrapes env tracker now reqs).2 := by
  simp only [tau_tracker_send_scrapes]
  split
  · split <;> rfl
  · rfl

theorem tau_tracker_send_announces_sent (env : tau_env) (tracker : tau_tracker) (now : Int)
    (reqs : List tau_announce_request) (h : ∀ req ∈ reqs, req.sent_at ≠ 0) :
    (tau_tracker_send_announces env tracker now reqs).2 = [] := by
  induction reqs with
  | nil => rfl
  | cons req reqs ih =>
    rw [tau_tracker_send_announces_cons, if_neg (h req (List.mem_cons_self _ _)),
      ih (fun r hr => h r (List.mem_cons_of_mem _ hr))]
    rfl

theorem tau_tracker_send_scrapes_sent (env : tau_env) (tracker : tau_tracker) (now : Int)
    (reqs : List tau_scrape_request) (h : ∀ req ∈ reqs, req.sent_at ≠ 0) :
    (tau_tracker_send_scrapes env tracker now reqs).2 = [] := by
  induction reqs with
  | nil => rfl
  | cons req reqs ih =>
    rw [tau_tracker_send_scrapes_cons, if_neg (h req (List.mem_cons_self _ _)),
      ih (fun r hr => h r (List.mem_cons_of_mem _ hr))]
    rfl

theorem tau_tracker_upkeep_ex_connected (fuel : Nat) (env : tau_env) (tracker : tau_tracker)
    (haddr : tracker.addr ≠ none) (hexp : env.tr_time < tracker.addr_expiration_time)
    (hclose : tracker.close_at = 0) (hconn : env.tr_time < tracker.connection_expiration_time)
    (hbusy : tracker.announces ≠ []) :
    tau_tracker_upkeep_ex (fuel + 1) env tracker false
      = some (tau_tracker_send_reqs env tracker) := by
  unfold tau_tracker_upkeep_ex
  lift_lets
  intro now closing t1 t2 buf0 buf1 buf2 buf3 r1
  have hclosing : closing = false := by
    show decide (tracker.close_at ≠ 0) = false
    rw [hclose]
    rfl
  have ht1 : t1 = tracker := by
    show (if _ then _ else _) = tracker
    rw [if_neg]
    rintro ⟨-, hc | hc⟩
    · rw [hclosing] at hc
      cases hc
    · exact absurd hexp (not_lt.mpr hc)
  have hr1 : r1 = some (tracker, []) := by
    show (if false = true then _ else _) = _
    rw [if_neg (by decide), ht1]
  rw [hr1, ht1]
  have hidle : tau_tracker_is_idle tracker = false := by
    unfold tau_tracker_is_idle
    cases hreqs : tracker.announces with
    | nil => exact absurd hreqs hbusy
    | cons req reqs => rfl
  rw [if_neg (by rw [hidle]; decide), if_neg (fun h => haddr h.2.1),
    if_neg (fun h => absurd hconn (not_lt.mpr h.2.1))]
  dsimp only
  rw [if_pos ⟨haddr, hconn⟩, List.nil_append]

theorem tau_session_with_tracker_found
    (f : tau_tracker → Option (tau_tracker × List tau_effect)) (host : Nat) (port : Int)
    (tracker : tau_tracker) (post : List tau_tracker) (r : tau_tracker × List tau_effect)
    (hf : f tracker = some r) (pre : List tau_tracker) (hpre : ∀ t ∈ pre, t.key ≠ tracker.key) :
    tau_session_with_tracker f tracker.key host port (pre ++ tracker :: post)
      = some (pre ++ r.1 :: post, r.2) := by
  induction pre with
  | nil =>
    rw [List.nil_append]
    unfold tau_session_with_tracker
    rw [if_pos rfl, hf]
    rfl
  | cons t pre ih =>
    rw [List.cons_append]
    unfold tau_session_with_tracker
    rw [if_neg (hpre t (List.mem_cons_self _ _)), ih (fun x hx => hpre x (List.mem_cons_of_mem _ hx))]
    rfl

/-- An announce handed to `tr_tracker_udp_announce` for a tracker that is
connected (address known and fresh, connection id not expired, not closing),
has a socket for its address family and holds no other unsent request: the
transport sends exactly one datagram, the tracker's connection id followed by
the payload of `tau_announce_request_new`. -/
theorem tr_tracker_udp_announce_sends (env : tau_env) (pre post : List tau_tracker)
    (tracker : tau_tracker) (host : Nat) (port : Int) (request : tr_announce_request)
    (callback : Option Nat) (transaction_id : Nat)
    (hpre : ∀ t ∈ pre, t.key ≠ tracker.key)
    (hsock : tracker.addr = some TR_AF_INET ∧ env.udp_socket = true
      ∨ tracker.addr = some TR_AF_INET6 ∧ env.udp6_socket = true)
    (hexp : env.tr_time < tracker.addr_expiration_time) (hclose : tracker.close_at = 0)
    (hconn : env.tr_time < tracker.connection_expiration_time)
    (hannounces : ∀ req ∈ tracker.announces, req.sent_at ≠ 0)
    (hscrapes : ∀ req ∈ tracker.scrapes, req.sent_at ≠ 0) :
    ∃ t : tau_tracker,
      tr_tracker_udp_announce env (some { trackers := pre ++ tracker :: post })
          (some (tracker.key, host, port)) request callback transaction_id
        = some (some { trackers := pre ++ t :: post },
            [tau_effect.sendto tracker.key (tau_tracker_send_request tracker.connection_id
              (tau_announce_request_new env request callback transaction_id).payload)]) := by
  have haddr : tracker.addr ≠ none := by
    rcases hsock with ⟨ha, -⟩ | ⟨ha, -⟩ <;> rw [ha] <;> exact Option.some_ne_none _
  obtain ⟨T, hT⟩ : ∃ T : tau_tracker, T = { tracker with announces := tracker.announces
      ++ [tau_announce_request_new env request callback transaction_id] } := ⟨_, rfl⟩
  have hTaddr : T.addr = tracker.addr := by rw [hT]
  have hTkey : T.key = tracker.key := by rw [hT]
  have hTid : T.connection_id = tracker.connection_id := by rw [hT]
  have hTscrapes : T.scrapes = tracker.scrapes := by rw [hT]
  have hTannounces : T.announces = tracker.announces
      ++ [tau_announce_request_new env request callback transaction_id] := by rw [hT]
  have hup : tau_tracker_upkeep_ex 2 env T false = some (tau_tracker_send_reqs env T) :=
    tau_tracker_upkeep_ex_connected 1 env T (hTaddr ▸ haddr) (by rw [hT]; exact hexp)
      (by rw [hT]; exact hclose) (by rw [hT]; exact hconn) (by rw [hTannounces]; simp)
  have hfound := tau_session_with_tracker_found
    (fun tracker => tau_tracker_upkeep_ex 2 env
      { tracker with announces := tracker.announces
          ++ [tau_announce_request_new env request callback transaction_id] } false)
    host port tracker post (tau_tracker_send_reqs env T) (by dsimp only; rw [← hT]; exact hup) pre hpre
  have hunsent : (tau_announce_request_new env request callback transaction_id).sent_at = 0 := rfl
  have hsendto : ∀ buf, tau_sendto env T buf = [tau_effect.sendto tracker.key buf] := by
    intro buf
    unfold tau_sendto
    rw [hTaddr, hTkey]
    rcases hsock with ⟨ha, hs⟩ | ⟨ha, hs⟩
    · rw [ha]
      dsimp only
      rw [if_pos hs]
    · rw [ha]
      dsimp only
      rw [if_pos hs]
  have heffects : (tau_tracker_send_reqs env T).2
      = [tau_effect.sendto tracker.key (tau_tracker_send_request tracker.connection_id
        (tau_announce_request_new env request callback transaction_id).payload)] := by
    rw [tau_tracker_send_reqs_effects, hTannounces, hTscrapes, tau_tracker_send_announces_append,
      tau_tracker_send_announces_cons, if_pos hunsent,
      tau_tracker_send_announces_sent env T _ _ hannounces,
      tau_tracker_send_scrapes_sent env T _ _ hscrapes, hsendto, hTid]
    rfl
  refine ⟨(tau_tracker_send_reqs env T).1, ?_⟩
  unfold tr_tracker_udp_announce
  dsimp only [Option.getD]
  rw [hfound]
  dsimp only
  rw [heffects]

/-- C1: an announce request built by `tau_announce_request_new` is unsent, and
for every tracker the send loop of `tau_tracker_send_reqs` hands `tau_sendto`
exactly one buffer `d` for it, wherever it stands among the pending announces:
the tracker's connection id followed by the request's payload. With a socket
for the address family that buffer is the datagram sent, and it is the one
datagram sent when `tr_tracker_udp_announce` hands the request to a connected
tracker that holds no other unsent request. The datagram is exactly 98 bytes,
laid out as connection id (8), action 1 (4), transaction id (4), info-hash (20),
peer id (20), downloaded (8), left (8), uploaded (8), event code (4), ip 0 (4),
key (4), numwant (4), port (2), each integer big-endian (read back by `ntoh`, as
the unsigned value the C conversion stores). -/
theorem tau_announce_request_sent_layout (env0 env : tau_env) (tracker : tau_tracker)
    (request : tr_announce_request) (callback : Option Nat) (transaction_id : Nat)
    (d : List Nat)
    (hih : request.info_hash.length = 20) (hpid : request.peer_id.length = 20)
    (hd : d = tau_tracker_send_request tracker.connection_id
      (tau_announce_request_new env0 request callback transaction_id).payload) :
    (tau_announce_request_new env0 request callback transaction_id).sent_at = 0
    ∧ (∀ (now : Int) (before after : List tau_announce_request),
        (tau_tracker_send_announces env tracker now
          (before ++ tau_announce_request_new env0 request callback transaction_id :: after)).2
        = (tau_tracker_send_announces env tracker now before).2 ++ tau_sendto env tracker d
          ++ (tau_tracker_send_announces env tracker now after).2)
    ∧ (∀ before after : List tau_announce_request,
        tracker.announces
          = before ++ tau_announce_request_new env0 request callback transaction_id :: after →
        (tau_tracker_send_reqs env tracker).2
        = (tau_tracker_send_announces env tracker env.tr_time before).2 ++ tau_sendto env tracker d
          ++ (tau_tracker_send_announces env tracker env.tr_time after).2
          ++ (tau_tracker_send_scrapes env tracker env.tr_time tracker.scrapes).2)
    ∧ (tracker.addr = some TR_AF_INET ∧ env.udp_socket = true
        ∨ tracker.addr = some TR_AF_INET6 ∧ env.udp6_socket = true →
        tau_sendto env tracker d = [tau_effect.sendto tracker.key d])
    ∧ (∀ (pre post : List tau_tracker) (host : Nat) (port : Int),
        (∀ t ∈ pre, t.key ≠ tracker.key) →
        (tracker.addr = some TR_AF_INET ∧ env.udp_socket = true
          ∨ tracker.addr = some TR_AF_INET6 ∧ env.udp6_socket = true) →
        env.tr_time < tracker.addr_expiration_time → tracker.close_at = 0 →
        env.tr_time < tracker.connection_expiration_time →
        (∀ req ∈ tracker.announces, req.sent_at ≠ 0) →
        (∀ req ∈ tracker.scrapes, req.sent_at ≠ 0) →
        ∃ t : tau_tracker,
          tr_tracker_udp_announce env (some { trackers := pre ++ tracker :: post })
              (some (tracker.key, host, port)) request callback transaction_id
            = some (some { trackers := pre ++ t :: post }, [tau_effect.sendto tracker.key d]))
    ∧ d.length = 98
    ∧ ntoh (slice 0 8 d) = tracker.connection_id % 2 ^ 64
    ∧ ntoh (slice 8 4 d) = 1
    ∧ ntoh (slice 12 4 d) = transaction_id % 2 ^ 32
    ∧ slice 16 20 d = request.info_hash
    ∧ slice 36 20 d = request.peer_id
    ∧ ntoh (slice 56 8 d) = request.down % 2 ^ 64
    ∧ ntoh (slice 64 8 d) = request.leftUntilComplete % 2 ^ 64
    ∧ ntoh (slice 72 8 d) = request.up % 2 ^ 64
    ∧ ntoh (slice 80 4 d)
        = (match request.event with
           | TR_ANNOUNCE_EVENT_NONE => 0
           | TR_ANNOUNCE_EVENT_COMPLETED => 1
           | TR_ANNOUNCE_EVENT_STARTED => 2
           | TR_ANNOUNCE_EVENT_STOPPED => 3)
    ∧ ntoh (slice 84 4 d) = 0
    ∧ ntoh (slice 88 4 d) = toU32 request.key
    ∧ ntoh (slice 92 4 d) = toU32 request.numwant
    ∧ ntoh (slice 96 2 d) = toU32 request.port % 2 ^ 16 := by
  subst hd
  have hunsent : (tau_announce_request_new env0 request callback transaction_id).sent_at = 0 :=
    rfl
  have hsend : ∀ (now : Int) (before after : List tau_announce_request),
      (tau_tracker_send_announces env tracker now
        (before ++ tau_announce_request_new env0 request callback transaction_id :: after)).2
      = (tau_tracker_send_announces env tracker now before).2
        ++ tau_sendto env tracker (tau_tracker_send_request tracker.connection_id
          (tau_announce_request_new env0 request callback transaction_id).payload)
        ++ (tau_tracker_send_announces env tracker now after).2 := by
    intro now before after
    rw [tau_tracker_send_announces_append, tau_tracker_send_announces_cons, if_pos hunsent,
      List.append_assoc]
  refine ⟨rfl, hsend, ?_, ?_, ?_, ?_⟩
  · intro before after hreqs
    rw [tau_tracker_send_reqs_effects, hreqs, hsend]
  · intro hsock
    unfold tau_sendto
    rcases hsock with ⟨ha, hs⟩ | ⟨ha, hs⟩
    · rw [ha]
      dsimp only
      rw [if_pos hs]
    · rw [ha]
      dsimp only
      rw [if_pos hs]
  · intro pre post host port hpre hsock hexp hclose hconn hannounces hscrapes
    exact tr_tracker_udp_announce_sends env pre post tracker host port request callback
      transaction_id hpre hsock hexp hclose hconn hannounces hscrapes
  · exact tau_announce_request_datagram_fields tracker.connection_id transaction_id request
      hih hpid

theorem tau_announce_request_sent_layout_witness :
    exampleAnnounceRequest.info_hash.length = 20 ∧ exampleAnnounceRequest.peer_id.length = 20
    ∧ ∃ d : List Nat,
        d = tau_tracker_send_request plainTracker.connection_id
          (tau_announce_request_new exampleEnv exampleAnnounceRequest (some 5) 77).payload
        ∧ d.length = 98
        ∧ ntoh (slice 12 4 d) = 77
        ∧ ntoh (slice 80 4 d) = 2
        ∧ ntoh (slice 96 2 d) = toU32 51413 % 2 ^ 16
        ∧ ∃ t : tau_tracker,
            tr_tracker_udp_announce exampleEnv (some { trackers := [] ++ plainTracker :: [] })
                (some (plainTracker.key, 2, 6969)) exampleAnnounceRequest (some 5) 77
              = some (some { trackers := [] ++ t :: [] },
                  [tau_effect.sendto plainTracker.key d]) :=
  have h := tau_announce_request_sent_layout exampleEnv exampleEnv plainTracker
    exampleAnnounceRequest (some 5) 77 _ (by decide) (by decide) rfl
  ⟨by decide, by decide, _, rfl, h.2.2.2.2.2.1, h.2.2.2.2.2.2.2.2.1,
    h.2.2.2.2.2.2.2.2.2.2.2.2.2.2.1, h.2.2.2.2.2.2.2.2.2.2.2.2.2.2.2.2.2.2,
    h.2.2.2.2.1 [] [] 2 6969 (by decide) (Or.inl (by decide)) (by decide) (by decide) (by decide)
      (by decide) (by decide)⟩

/-- The run of `announceCalls` from a transport not yet created: a DNS lookup,
the connect request, then the announce datagram with the connection id the
tracker gave. -/
theorem tau_run_announceCalls_sent :
    (tau_run none announceCalls).map (fun r => r.2.take 3)
      = some [tau_effect.dns_lookup 1,
          tau_effect.sendto 1 (hton 8 0x41727101980 ++ hton 4 0 ++ hton 4 1011),
          tau_effect.sendto 1 (tau_tracker_send_request 123456789
            (tau_announce_request_new (envAt 10) exampleAnnounceRequest (some 5) 77).payload)] := by
  decide

/-! ## Demultiplexing a tracker response -/

theorem removeFirst_append {α : Type} (p : α → Bool) (before : List α) (r : α) (after : List α)
    (hb : ∀ q ∈ before, p q = false) (hr : p r = true) :
    removeFirst p (before ++ r :: after) = some (r, before ++ after) := by
  induction before with
  | nil => simp [removeFirst, hr]
  | cons x xs ih =>
    have hx : p x = false := hb x (List.mem_cons_self _ _)
    have hxs : ∀ q ∈ xs, p q = false := fun q hq => hb q (List.mem_cons_of_mem _ hq)
    simp [removeFirst, hx, ih hxs]

theorem removeFirst_none {α : Type} (p : α → Bool) (l : List α) (h : ∀ q ∈ l, p q = false) :
    removeFirst p l = none := by
  induction l with
  | nil => rfl
  | cons x xs ih =>
    have hx : p x = false := h x (List.mem_cons_self _ _)
    have hxs : ∀ q ∈ xs, p q = false := fun q hq => h q (List.mem_cons_of_mem _ hq)
    simp [removeFirst, hx, ih hxs]

theorem compactToPexLoop_length (total n i : Nat) (walk : List Nat) :
    (compactToPexLoop none 0 total n i walk).length = n := by
  induction n generalizing i walk with
  | zero => rfl
  | succ k ih => simp [compactToPexLoop, ih]

theorem compactToPexLoop_get (total n i : Nat) (walk : List Nat) (k : Nat) (hk : k < n) :
    (compactToPexLoop none 0 total n i walk)[k]?
      = some { addr := { type := TR_AF_INET, addr := ntoh (slice (6 * k) 4 walk) },
               port := ntoh (slice (6 * k + 4) 2 walk), flags := 0 } := by
  induction n generalizing i walk k with
  | zero => omega
  | succ m ih =>
    cases k with
    | zero => simp [compactToPexLoop, slice]
    | succ j =>
      have hj : j < m := by omega
      simp only [compactToPexLoop, List.getElem?_cons_succ]
      rw [ih (i + 1) _ j hj]
      simp only [slice, List.drop_drop]
      have e1 : 6 * (j + 1) = 4 + 2 + 6 * j := by ring
      have e2 : 6 * (j + 1) + 4 = 4 + 2 + (6 * j + 4) := by ring
      rw [e2, e1]

theorem evbuffer_read_ntoh_32_of_le (buf : List Nat) (h : 4 ≤ buf.length) :
    evbuffer_read_ntoh_32 buf = (ntoh (buf.take 4), buf.drop 4) := by
  simp [evbuffer_read_ntoh_32, List.length_take, Nat.min_eq_left h]

theorem on_announce_response_announce (r : tau_announce_request) (buf : List Nat)
    (h : 12 ≤ buf.length) :
    on_announce_response r TAU_ACTION_ANNOUNCE buf
      = ({ r with response := { r.response with
            did_connect := true, did_timeout := false,
            interval := toI32 (ntoh (slice 0 4 buf)),
            leechers := toI32 (ntoh (slice 4 4 buf)),
            seeders := toI32 (ntoh (slice 8 4 buf)),
            pex := tr_peerMgrCompactToPex (buf.drop 12) (buf.length - 12) none 0 } },
         tau_announce_request_finished { r with response := { r.response with
            did_connect := true, did_timeout := false,
            interval := toI32 (ntoh (slice 0 4 buf)),
            leechers := toI32 (ntoh (slice 4 4 buf)),
            seeders := toI32 (ntoh (slice 8 4 buf)),
            pex := tr_peerMgrCompactToPex (buf.drop 12) (buf.length - 12) none 0 } }) := by
  have h1 : 4 ≤ buf.length := by omega
  have h2 : 4 ≤ (buf.drop 4).length := by simp; omega
  have h3 : 4 ≤ (buf.drop 8).length := by simp; omega
  have hc : (TAU_ACTION_ANNOUNCE = TAU_ACTION_ANNOUNCE ∧ buf.length ≥ 3 * 4) := ⟨rfl, by omega⟩
  simp only [on_announce_response, hc, and_self, if_true, evbuffer_read_ntoh_32_of_le _ h1,
    evbuffer_read_ntoh_32_of_le _ h2, slice, List.drop_drop,
    List.drop_zero, List.length_drop]
  simp [evbuffer_read_ntoh_32_of_le _ h3, Nat.sub_sub]

theorem tau_handle_message_trackers_skip (env : tau_env) (action_id tid : Nat) (buf : List Nat)
    (pre acc rest : List tau_tracker)
    (hpre : ∀ t ∈ pre, tau_tracker_matches tid t = false) :
    tau_handle_message_trackers env action_id tid buf acc (pre ++ rest)
      = tau_handle_message_trackers env action_id tid buf (acc ++ pre) rest := by
  induction pre generalizing acc with
  | nil => simp
  | cons t ts ih =>
    have ht := hpre t (List.mem_cons_self _ _)
    have hts : ∀ t ∈ ts, tau_tracker_matches tid t = false :=
      fun q hq => hpre q (List.mem_cons_of_mem _ hq)
    simp only [tau_tracker_matches, Bool.or_eq_false_iff, tau_connect_matches,
      decide_eq_false_iff_not, List.any_eq_false] at ht
    obtain ⟨⟨hc, ha⟩, hs⟩ := ht
    have ha2 : removeFirst (fun req : tau_announce_request =>
        decide (req.sent_at ≠ 0 ∧ tid = req.transaction_id)) t.announces = none := by
      apply removeFirst_none
      intro q hq
      have := ha q hq
      simpa [tau_announce_matches] using this
    have hs2 : removeFirst (fun req : tau_scrape_request =>
        decide (req.sent_at ≠ 0 ∧ tid = req.transaction_id)) t.scrapes = none := by
      apply removeFirst_none
      intro q hq
      have := hs q hq
      simpa [tau_scrape_matches] using this
    rw [List.cons_append, tau_handle_message_trackers, if_neg hc, ha2, hs2]
    simp only
    rw [ih _ hts]
    simp

/-- C2 (amended): a datagram of length at least 20 with action 1 whose
transaction id is that of a sent announce request, and of no pending connect or
request that `tau_handle_message` examines before it, is handed to that
request's callback as a response with `did_connect = true`,
`did_timeout = false`, interval, leechers and seeders read big-endian at
offsets 8, 12 and 16, and exactly `(L - 20) / 6` IPv4 peers, the i-th built from
the 4 address bytes and 2 port bytes at offset `20 + 6 * i`; the request leaves
the tracker's queue. -/
theorem tau_handle_message_announce_response (env : tau_env) (pre post : List tau_tracker)
    (t : tau_tracker) (before after : List tau_announce_request) (r : tau_announce_request)
    (cb : Nat) (msg : List Nat)
    (hlen : 20 ≤ msg.length)
    (haction : ntoh (slice 0 4 msg) = 1)
    (htid : ntoh (slice 4 4 msg) = r.transaction_id)
    (hsent : r.sent_at ≠ 0)
    (hcb : r.callback = some cb)
    (hann : t.announces = before ++ r :: after)
    (hpre : ∀ t' ∈ pre, tau_tracker_matches r.transaction_id t' = false)
    (hconn : tau_connect_matches r.transaction_id t = false)
    (hbefore : ∀ q ∈ before, tau_announce_matches r.transaction_id q = false) :
    ∃ resp : tr_announce_response,
      tau_handle_message env (some { trackers := pre ++ t :: post }) msg
        = some (true, some { trackers := pre ++ { t with announces := before ++ after } :: post },
            [tau_effect.announce_callback cb resp])
      ∧ resp.did_connect = true ∧ resp.did_timeout = false
      ∧ resp.interval = toI32 (ntoh (slice 8 4 msg))
      ∧ resp.leechers = toI32 (ntoh (slice 12 4 msg))
      ∧ resp.seeders = toI32 (ntoh (slice 16 4 msg))
      ∧ resp.pex.length = (msg.length - 20) / 6
      ∧ ∀ i, i < (msg.length - 20) / 6 →
          resp.pex[i]? = some { addr := { type := TR_AF_INET, addr := ntoh (slice (20 + 6 * i) 4 msg) },
                                port := ntoh (slice (20 + 6 * i + 4) 2 msg), flags := 0 } := by
  have h4 : 4 ≤ msg.length := by omega
  have h4b : 4 ≤ (msg.drop 4).length := by simp; omega
  have h12 : 12 ≤ (msg.drop 8).length := by simp; omega
  have hact : ntoh (msg.take 4) = TAU_ACTION_ANNOUNCE := by simpa [slice] using haction
  have htid2 : ntoh ((msg.drop 4).take 4) = r.transaction_id := by simpa [slice] using htid
  have hnot8 : ¬ msg.length < 4 * 2 := by omega
  have hisresp : is_tau_response_message TAU_ACTION_ANNOUNCE msg.length = true := by
    simp [is_tau_response_message, TAU_ACTION_ANNOUNCE, TAU_ACTION_CONNECT, hlen]
  have hconn2 : ¬ (t.connecting_at ≠ 0 ∧ r.transaction_id = t.connection_transaction_id) := by
    simpa [tau_connect_matches] using hconn
  have hrm : removeFirst (fun req : tau_announce_request =>
      decide (req.sent_at ≠ 0 ∧ r.transaction_id = req.transaction_id)) t.announces
      = some (r, before ++ after) := by
    rw [hann]
    apply removeFirst_append
    · intro q hq
      simpa [tau_announce_matches] using hbefore q hq
    · simp [hsent]
  refine ⟨{ r.response with
            did_connect := true, did_timeout := false,
            interval := toI32 (ntoh (slice 0 4 (msg.drop 8))),
            leechers := toI32 (ntoh (slice 4 4 (msg.drop 8))),
            seeders := toI32 (ntoh (slice 8 4 (msg.drop 8))),
            pex := tr_peerMgrCompactToPex ((msg.drop 8).drop 12) ((msg.drop 8).length - 12) none 0 },
          ?_, rfl, rfl, ?_, ?_, ?_, ?_, ?_⟩
  · simp only [tau_handle_message, if_neg hnot8, evbuffer_read_ntoh_32_of_le _ h4,
      evbuffer_read_ntoh_32_of_le _ h4b, hact, hisresp, htid2, not_true_eq_false, if_false,
      List.drop_drop]
    rw [tau_handle_message_trackers_skip env _ _ _ pre [] (t :: post) hpre]
    rw [tau_handle_message_trackers, if_neg hconn2, hrm]
    simp only [on_announce_response_announce r _ h12, tau_announce_request_finished, hcb,
      List.nil_append]
    simp [List.drop_drop]
  · simp [slice, List.drop_drop]
  · simp [slice, List.drop_drop]
  · simp [slice, List.drop_drop]
  · simp only [tr_peerMgrCompactToPex, compactToPexLoop_length, List.length_drop]
    have : msg.length - 8 - 12 = msg.length - 20 := by omega
    rw [this]
  · intro i hi
    simp only [tr_peerMgrCompactToPex]
    rw [compactToPexLoop_get]
    · simp only [slice, List.drop_drop]
      have e2 : 8 + 12 + (6 * i + 4) = 20 + 6 * i + 4 := by ring
      rw [e2]
    · simp only [List.length_drop]
      have : msg.length - 8 - 12 = msg.length - 20 := by omega
      rw [this]
      exact hi

/-- C2 (counterexample): the tracker awaits a connect response under the same
transaction id as a sent announce request. The datagram is taken for the
connect response, and the request's callback receives a failure response whose
interval, leechers and peer count are not those of the datagram. -/
theorem tau_handle_message_colliding_connect :
    20 ≤ announceReply.length
    ∧ ntoh (slice 0 4 announceReply) = 1
    ∧ ntoh (slice 4 4 announceReply) = sentRequest.transaction_id
    ∧ sentRequest.sent_at ≠ 0
    ∧ sentRequest ∈ collidingTracker.announces
    ∧ sentRequest.callback = some 1
    ∧ tau_handle_message exampleEnv (some { trackers := [collidingTracker] }) announceReply
        = some (true,
            some { trackers := [{ collidingTracker with
              connecting_at := 0, connection_transaction_id := 0, announces := [] }] },
            [tau_effect.announce_callback 1
              { sentRequest.response with
                did_connect := true, did_timeout := false,
                errmsg := some (cstr "Connection failed") }])
    ∧ sentRequest.response.leechers ≠ toI32 (ntoh (slice 12 4 announceReply))
    ∧ (0 : Int) ≠ toI32 (ntoh (slice 8 4 announceReply))
    ∧ ([] : List tr_pex).length ≠ (announceReply.length - 20) / 6 := by
  decide

theorem tau_handle_message_announce_response_witness :
    ∃ resp : tr_announce_response,
      tau_handle_message exampleEnv (some { trackers := [] ++ plainTracker :: [] }) announceReply
        = some (true, some { trackers := [] ++ { plainTracker with announces := [] ++ [] } :: [] },
            [tau_effect.announce_callback 1 resp])
      ∧ resp.did_connect = true ∧ resp.did_timeout = false
      ∧ resp.interval = toI32 (ntoh (slice 8 4 announceReply))
      ∧ resp.leechers = toI32 (ntoh (slice 12 4 announceReply))
      ∧ resp.seeders = toI32 (ntoh (slice 16 4 announceReply))
      ∧ resp.pex.length = (announceReply.length - 20) / 6
      ∧ ∀ i, i < (announceReply.length - 20) / 6 →
          resp.pex[i]? = some { addr := { type := TR_AF_INET,
                                          addr := ntoh (slice (20 + 6 * i) 4 announceReply) },
                                port := ntoh (slice (20 + 6 * i + 4) 2 announceReply), flags := 0 } :=
  tau_handle_message_announce_response exampleEnv [] [] plainTracker [] [] sentRequest 1
    announceReply (by decide) (by decide) (by decide) (by decide) rfl rfl
    (by simp) (by decide) (by simp)

/-! ## The announce-event queue -/

theorem tier_update_announce_priority_events (tier : tr_tier) :
    (tier_update_announce_priority tier).announce_events = tier.announce_events := rfl

theorem tier_announce_remove_trailing_events (tier : tr_tier) (e : tr_announce_event) :
    (tier_announce_remove_trailing tier e).announce_events
      = tier.announce_events.rdropWhile (fun x => x == e) := rfl

theorem tier_announce_event_push_events (tier : tr_tier) (e : tr_announce_event) (at_ : Int) :
    (tier_announce_event_push tier e at_).announce_events
      = (if tier.announce_events.length > 0 then
          ((if e = TR_ANNOUNCE_EVENT_STOPPED then
              (if tier.announce_events.any (fun x => TR_ANNOUNCE_EVENT_COMPLETED == x)
                then [TR_ANNOUNCE_EVENT_COMPLETED] else [])
            else tier.announce_events).rdropWhile
              (fun x => x == TR_ANNOUNCE_EVENT_NONE)).rdropWhile (fun x => x == e)
         else tier.announce_events) ++ [e] := by
  unfold tier_announce_event_push
  by_cases h0 : tier.announce_events.length > 0
  · by_cases hs : e = TR_ANNOUNCE_EVENT_STOPPED
    · by_cases hc : tier.announce_events.any (fun x => TR_ANNOUNCE_EVENT_COMPLETED == x) = true
      · simp [h0, hs, hc, tier_update_announce_priority_events,
          tier_announce_remove_trailing_events]
      · simp [h0, hs, hc, tier_update_announce_priority_events,
          tier_announce_remove_trailing_events]
    · simp [h0, hs, tier_update_announce_priority_events, tier_announce_remove_trailing_events]
  · simp [h0, tier_update_announce_priority_events]

theorem tier_announce_event_push_events_of (tier : tr_tier) (e : tr_announce_event) (at_ : Int)
    (q : List tr_announce_event) (h : tier.announce_events = q) :
    (tier_announce_event_push tier e at_).announce_events
      = (if q.length > 0 then
          ((if e = TR_ANNOUNCE_EVENT_STOPPED then
              (if q.any (fun x => TR_ANNOUNCE_EVENT_COMPLETED == x)
                then [TR_ANNOUNCE_EVENT_COMPLETED] else [])
            else q).rdropWhile
              (fun x => x == TR_ANNOUNCE_EVENT_NONE)).rdropWhile (fun x => x == e)
         else q) ++ [e] := by
  subst h
  exact tier_announce_event_push_events tier e at_

/-- C3: pushing `stopped` leaves the queue equal to `[completed, stopped]` when
it held a `completed` event and to `[stopped]` otherwise, whatever it held; and
pushing none, started, none, completed, none, stopped onto an empty queue ends
with exactly `[completed, stopped]`. -/
theorem tier_announce_event_push_stopped (tier : tr_tier) (announceAt : Int) :
    (tier_announce_event_push tier TR_ANNOUNCE_EVENT_STOPPED announceAt).announce_events
      = (if TR_ANNOUNCE_EVENT_COMPLETED ∈ tier.announce_events
          then [TR_ANNOUNCE_EVENT_COMPLETED, TR_ANNOUNCE_EVENT_STOPPED]
          else [TR_ANNOUNCE_EVENT_STOPPED])
    ∧ ∀ t1 t2 t3 t4 t5 t6 : Int,
        (tier_announce_event_push (tier_announce_event_push (tier_announce_event_push
          (tier_announce_event_push (tier_announce_event_push (tier_announce_event_push
            { tier with announce_events := [] }
            TR_ANNOUNCE_EVENT_NONE t1) TR_ANNOUNCE_EVENT_STARTED t2) TR_ANNOUNCE_EVENT_NONE t3)
            TR_ANNOUNCE_EVENT_COMPLETED t4) TR_ANNOUNCE_EVENT_NONE t5)
            TR_ANNOUNCE_EVENT_STOPPED t6).announce_events
          = [TR_ANNOUNCE_EVENT_COMPLETED, TR_ANNOUNCE_EVENT_STOPPED] := by
  constructor
  · rw [tier_announce_event_push_events]
    by_cases hc : TR_ANNOUNCE_EVENT_COMPLETED ∈ tier.announce_events
    · have h0 : tier.announce_events.length > 0 := List.length_pos_of_mem hc
      have hany : tier.announce_events.any (fun x => TR_ANNOUNCE_EVENT_COMPLETED == x) = true := by
        rw [List.any_eq_true]
        exact ⟨_, hc, by simp⟩
      simp only [h0, hany, hc, if_true]
      decide
    · have hany : tier.announce_events.any (fun x => TR_ANNOUNCE_EVENT_COMPLETED == x) = false := by
        rw [List.any_eq_false]
        intro x hx hxc
        have : TR_ANNOUNCE_EVENT_COMPLETED = x := by simpa using hxc
        exact hc (this ▸ hx)
      simp only [hany, hc, if_false, if_true]
      by_cases h0 : tier.announce_events.length > 0
      · simp only [h0, if_true]
        decide
      · have hnil : tier.announce_events = [] := by
          cases h : tier.announce_events with
          | nil => rfl
          | cons a l => simp [h] at h0
        simp [hnil]
  · intro t1 t2 t3 t4 t5 t6
    have h1 := tier_announce_event_push_events_of { tier with announce_events := [] }
      TR_ANNOUNCE_EVENT_NONE t1 [] rfl
    have h2 := tier_announce_event_push_events_of _ TR_ANNOUNCE_EVENT_STARTED t2 _ h1
    have h3 := tier_announce_event_push_events_of _ TR_ANNOUNCE_EVENT_NONE t3 _ h2
    have h4 := tier_announce_event_push_events_of _ TR_ANNOUNCE_EVENT_COMPLETED t4 _ h3
    have h5 := tier_announce_event_push_events_of _ TR_ANNOUNCE_EVENT_NONE t5 _ h4
    have h6 := tier_announce_event_push_events_of _ TR_ANNOUNCE_EVENT_STOPPED t6 _ h5
    rw [h6]
    decide

theorem chain_ne_of_append_left {l₁ l₂ : List tr_announce_event}
    (h : List.Chain' (fun a b => a ≠ b) (l₁ ++ l₂)) : List.Chain' (fun a b => a ≠ b) l₁ :=
  (List.chain'_append.mp h).1

theorem chain_ne_rdropWhile (q : List tr_announce_event) (e : tr_announce_event)
    (h : List.Chain' (fun a b => a ≠ b) q) :
    List.Chain' (fun a b => a ≠ b) (q.rdropWhile (fun x => x == e)) := by
  obtain ⟨t, ht⟩ := ( List.rdropWhile_prefix (fun x => x == e) q)
  rw [← ht] at h
  exact chain_ne_of_append_left h

theorem chain_ne_rdropWhile_concat (q : List tr_announce_event) (e : tr_announce_event)
    (h : List.Chain' (fun a b => a ≠ b) q) :
    List.Chain' (fun a b => a ≠ b) (q.rdropWhile (fun x => x == e) ++ [e]) := by
  rw [List.chain'_append]
  refine ⟨chain_ne_rdropWhile q e h, List.chain'_singleton _, ?_⟩
  intro x hx y hy
  simp only [List.head?_cons, Option.mem_def, Option.some.injEq] at hy
  subst hy
  intro hxe
  by_cases hl : q.rdropWhile (fun x => x == e) = []
  · simp [hl] at hx
  · have hlast := List.rdropWhile_last_not (fun x => x == e) q hl
    rw [List.getLast?_eq_getLast _ hl] at hx
    simp only [Option.mem_def, Option.some.injEq] at hx
    rw [hx] at hlast
    simp [hxe] at hlast

theorem tier_announce_event_push_chain (tier : tr_tier) (e : tr_announce_event) (at_ : Int)
    (h : List.Chain' (fun a b => a ≠ b) tier.announce_events) :
    List.Chain' (fun a b => a ≠ b) (tier_announce_event_push tier e at_).announce_events := by
  rw [tier_announce_event_push_events]
  by_cases h0 : tier.announce_events.length > 0
  · simp only [h0, if_true]
    apply chain_ne_rdropWhile_concat
    apply chain_ne_rdropWhile
    by_cases hs : e = TR_ANNOUNCE_EVENT_STOPPED
    · simp only [hs, if_true]
      split
      · exact List.chain'_singleton _
      · exact List.chain'_nil
    · simp only [hs, if_false]
      exact h
  · have hnil : tier.announce_events = [] := by
      cases hq : tier.announce_events with
      | nil => rfl
      | cons a l => simp [hq] at h0
    simp [hnil]

theorem tier_queue_run_chain (calls : List tier_queue_call) (tier tier' : tr_tier)
    (h : List.Chain' (fun a b => a ≠ b) tier.announce_events)
    (hrun : tier_queue_run tier calls = some tier') :
    List.Chain' (fun a b => a ≠ b) tier'.announce_events := by
  induction calls generalizing tier with
  | nil =>
    simp only [tier_queue_run, Option.some.injEq] at hrun
    rw [← hrun]
    exact h
  | cons c cs ih =>
    cases c with
    | push e at_ =>
      simp only [tier_queue_run] at hrun
      exact ih _ (tier_announce_event_push_chain tier e at_ h) hrun
    | pull =>
      simp only [tier_queue_run, tier_announce_event_pull] at hrun
      cases hq : tier.announce_events with
      | nil => simp [hq] at hrun
      | cons a l =>
        simp only [hq] at hrun
        apply ih _ _ hrun
        rw [tier_update_announce_priority_events]
        rw [hq] at h
        exact h.tail

/-- C4: starting from an empty announce-event queue, after any sequence of
`tier_announce_event_push` calls (any events, any times) interleaved with
`tier_announce_event_pull` calls on a non-empty queue, no two adjacent queue
entries are equal. -/
theorem tier_queue_no_adjacent_duplicates (tier tier' : tr_tier) (calls : List tier_queue_call)
    (hempty : tier.announce_events = [])
    (hrun : tier_queue_run tier calls = some tier') :
    List.Chain' (fun a b => a ≠ b) tier'.announce_events := by
  apply tier_queue_run_chain calls tier tier' _ hrun
  rw [hempty]
  exact List.chain'_nil

theorem tier_queue_no_adjacent_duplicates_witness :
    List.Chain' (fun a b => a ≠ b)
      [TR_ANNOUNCE_EVENT_STARTED, TR_ANNOUNCE_EVENT_COMPLETED, TR_ANNOUNCE_EVENT_NONE] :=
  tier_queue_no_adjacent_duplicates {}
    { announce_events :=
        [TR_ANNOUNCE_EVENT_STARTED, TR_ANNOUNCE_EVENT_COMPLETED, TR_ANNOUNCE_EVENT_NONE],
      announce_event_priority := 2, announceAt := 40 }
    [tier_queue_call.push TR_ANNOUNCE_EVENT_NONE 10,
     tier_queue_call.push TR_ANNOUNCE_EVENT_NONE 11,
     tier_queue_call.push TR_ANNOUNCE_EVENT_STARTED 20,
     tier_queue_call.push TR_ANNOUNCE_EVENT_STARTED 21,
     tier_queue_call.pull,
     tier_queue_call.push TR_ANNOUNCE_EVENT_STARTED 25,
     tier_queue_call.push TR_ANNOUNCE_EVENT_NONE 30,
     tier_queue_call.push TR_ANNOUNCE_EVENT_COMPLETED 35,
     tier_queue_call.push TR_ANNOUNCE_EVENT_COMPLETED 36,
     tier_queue_call.push TR_ANNOUNCE_EVENT_NONE 40]
    rfl (by decide)

/-! ## Scrape batching -/

theorem checkMultiscrapeMax_pos (announcer : tr_announcer) (response : tr_scrape_response)
    (h : ∀ url, 1 ≤ announcer.scrape_info url) :
    ∀ url, 1 ≤ (checkMultiscrapeMax announcer response).scrape_info url := by
  intro url
  unfold checkMultiscrapeMax
  split
  · exact h url
  · simp only
    split
    · exact h url
    · split
      · exact h url
      · split
        · simp only [Function.update]
          split
          · simp
          · exact h url
        · exact h url

theorem checkMultiscrapeMax_foldl_pos (responses : List tr_scrape_response)
    (announcer : tr_announcer) (h : ∀ url, 1 ≤ announcer.scrape_info url) :
    ∀ url, 1 ≤ (responses.foldl checkMultiscrapeMax announcer).scrape_info url := by
  induction responses generalizing announcer with
  | nil => exact h
  | cons r rs ih => exact ih _ (checkMultiscrapeMax_pos announcer r h)

theorem multiscrape_use_slot_bound (announcer : tr_announcer) (url : tr_quark)
    (info_hash : List Nat) (requests requests' : List tr_scrape_request)
    (hreq : ∀ req ∈ requests, (req.info_hash.length : Int) ≤ announcer.scrape_info req.scrape_url)
    (h : multiscrape_use_slot { scrape_url := url, multiscrape_max := announcer.scrape_info url }
      info_hash requests = some requests') :
    ∀ req ∈ requests', (req.info_hash.length : Int) ≤ announcer.scrape_info req.scrape_url := by
  induction requests generalizing requests' with
  | nil => simp [multiscrape_use_slot] at h
  | cons r rs ih =>
    have hr := hreq r (List.mem_cons_self _ _)
    have hrs : ∀ req ∈ rs, (req.info_hash.length : Int) ≤ announcer.scrape_info req.scrape_url :=
      fun q hq => hreq q (List.mem_cons_of_mem _ hq)
    unfold multiscrape_use_slot at h
    split at h
    · cases hrec : multiscrape_use_slot
          { scrape_url := url, multiscrape_max := announcer.scrape_info url } info_hash rs with
      | none => simp [hrec] at h
      | some rs' =>
        simp only [hrec, Option.map_some', Option.some.injEq] at h
        subst h
        intro req hmem
        rcases List.mem_cons.mp hmem with rfl | hmem
        · exact hr
        · exact ih rs' hrs hrec req hmem
    · split at h
      · cases hrec : multiscrape_use_slot
            { scrape_url := url, multiscrape_max := announcer.scrape_info url } info_hash rs with
        | none => simp [hrec] at h
        | some rs' =>
          simp only [hrec, Option.map_some', Option.some.injEq] at h
          subst h
          intro req hmem
          rcases List.mem_cons.mp hmem with rfl | hmem
          · exact hr
          · exact ih rs' hrs hrec req hmem
      · rename_i hlt hurl
        simp only [Option.some.injEq] at h
        subst h
        intro req hmem
        rcases List.mem_cons.mp hmem with rfl | hmem
        · simp only [List.length_append, List.length_singleton, Nat.cast_add, Nat.cast_one]
          simp only [ne_eq, Decidable.not_not] at hurl
          simp only [ge_iff_le, not_le] at hlt
          rw [← hurl]
          omega
        · exact hrs req hmem

theorem multiscrape_batch_bound (announcer : tr_announcer) (hashOf : Nat → List Nat) (now : Int)
    (hpos : ∀ url, 1 ≤ announcer.scrape_info url)
    (tiers : List tr_tier) (requests : List tr_scrape_request)
    (hdue : ∀ t ∈ tiers, tierNeedsToScrape t now = true)
    (hreq : ∀ req ∈ requests, (req.info_hash.length : Int) ≤ announcer.scrape_info req.scrape_url) :
    ∃ out, multiscrape_batch announcer hashOf now tiers requests = some out
      ∧ ∀ req ∈ out.2, (req.info_hash.length : Int) ≤ announcer.scrape_info req.scrape_url := by
  induction tiers generalizing requests with
  | nil => exact ⟨([], requests), rfl, hreq⟩
  | cons t ts ih =>
    have ht := hdue t (List.mem_cons_self _ _)
    have hts : ∀ t ∈ ts, tierNeedsToScrape t now = true :=
      fun q hq => hdue q (List.mem_cons_of_mem _ hq)
    obtain ⟨url, hinfo⟩ : ∃ url, tier_scrape_info announcer t
        = some { scrape_url := url, multiscrape_max := announcer.scrape_info url } := by
      simp only [tierNeedsToScrape, Bool.and_eq_true] at ht
      have h4 := ht.2
      unfold tier_scrape_info
      cases hct : tier_currentTracker t with
      | none => simp [hct] at h4
      | some tracker =>
        simp only [hct] at h4
        cases hsi : tracker.scrape_info with
        | none => simp [hsi] at h4
        | some url => exact ⟨url, by simp [hsi]⟩
    unfold multiscrape_batch
    simp only [hinfo]
    cases hslot : multiscrape_use_slot
        { scrape_url := url, multiscrape_max := announcer.scrape_info url } (hashOf t.tor)
        requests with
    | some requests' =>
      simp only
      obtain ⟨out, hout, hb⟩ := ih requests' hts
        (multiscrape_use_slot_bound announcer url _ requests requests' hreq hslot)
      exact ⟨(_ :: out.1, out.2), by rw [hout]; rfl, hb⟩
    | none =>
      simp only
      split
      · have hnew : ∀ req ∈ requests ++ [({ scrape_url := url, info_hash := [hashOf t.tor] } :
            tr_scrape_request)],
            (req.info_hash.length : Int) ≤ announcer.scrape_info req.scrape_url := by
          intro req hmem
          rcases List.mem_append.mp hmem with hmem | hmem
          · exact hreq req hmem
          · simp only [List.mem_singleton] at hmem
            subst hmem
            simpa using hpos url
        obtain ⟨out, hout, hb⟩ := ih _ hts hnew
        exact ⟨(_ :: out.1, out.2), by rw [hout]; rfl, hb⟩
      · obtain ⟨out, hout, hb⟩ := ih requests hts hreq
        exact ⟨(_ :: out.1, out.2), by rw [hout]; rfl, hb⟩

/-- C7: for every list of tiers due for scraping, and whatever scrape responses
have gone through `checkMultiscrapeMax` before (the only code that changes a
`multiscrape_max`, which starts at `TR_MULTISCRAPE_MAX`), `multiscrape` builds
its requests and every one of them carries at most as many info-hashes as the
`multiscrape_max` held for its scrape URL when the batch is sent. -/
theorem multiscrape_respects_max (responses : List tr_scrape_response)
    (tr_torrentInfoHash : Nat → List Nat) (now : Int) (tiers : List tr_tier)
    (hdue : ∀ t ∈ tiers, tierNeedsToScrape t now = true) :
    ∃ out, multiscrape (responses.foldl checkMultiscrapeMax tr_announcerInit)
        tr_torrentInfoHash now tiers = some out
      ∧ ∀ req ∈ out.2, (req.info_hash.length : Int)
          ≤ (responses.foldl checkMultiscrapeMax tr_announcerInit).scrape_info req.scrape_url := by
  apply multiscrape_batch_bound _ _ _ _ tiers [] hdue
  · intro req hreq
    simp at hreq
  · apply checkMultiscrapeMax_foldl_pos
    intro url
    simp [tr_announcerInit, TR_MULTISCRAPE_MAX]

theorem multiscrape_respects_max_witness :
    ∃ out, multiscrape ([tooLongResponse].foldl checkMultiscrapeMax tr_announcerInit)
        (fun tor => List.replicate 20 tor) 100 [dueTier 1, dueTier 2, dueTier 3] = some out
      ∧ ∀ req ∈ out.2, (req.info_hash.length : Int)
          ≤ ([tooLongResponse].foldl checkMultiscrapeMax tr_announcerInit).scrape_info
              req.scrape_url :=
  multiscrape_respects_max [tooLongResponse] (fun tor => List.replicate 20 tor) 100
    [dueTier 1, dueTier 2, dueTier 3] (by decide)

/-! ## Atom garbage collection -/

theorem tr_address_compare_eq_zero (a b : tr_address) : tr_address_compare a b = 0 ↔ a = b := by
  cases a with
  | mk ta aa =>
    cases b with
    | mk tb ab =>
      unfold tr_address_compare memcmp
      simp only [tr_address.mk.injEq]
      by_cases ht : ta = tb
      · subst ht
        simp only [ne_eq, not_true_eq_false, if_false, true_and]
        by_cases h1 : aa < ab
        · simp [h1]; omega
        · by_cases h2 : aa > ab
          · simp [h1, h2]; omega
          · simp [h1, h2]; omega
      · simp only [ne_eq, ht, not_false_eq_true, if_true, false_and, iff_false]
        split <;> decide

theorem getExistingHandshake_isSome (handshakes : List tr_handshake) (addr : tr_address) :
    (getExistingHandshake handshakes addr).isSome = true ↔ ∃ h ∈ handshakes, h.addr = addr := by
  unfold getExistingHandshake tr_ptrArrayFindSorted handshakeCompareToAddr
  cases handshakes with
  | nil => simp
  | cons h hs =>
    simp only [List.isEmpty_cons, Bool.false_eq_true, if_false, List.find?_isSome, beq_iff_eq,
      tr_address_compare_eq_zero]

theorem mem_qsort {α : Type} (compare : α → α → Int) (l : List α) (x : α) :
    x ∈ qsort compare l ↔ x ∈ l :=
  (List.perm_insertionSort _ l).mem_iff

/-- C8: whenever `atomPulse` prunes a swarm's pool (its size is above
`min(50, 3 x maxConnectedPeers)`), every atom of the pool that has a live peer,
an outgoing handshake in that swarm or an incoming handshake in the session is
still in the pool afterwards, whatever the number of such atoms. -/
theorem atomPulse_keeps_atoms_in_use (incomingHandshakes : List tr_handshake) (tr_now : Int)
    (tor : tr_torrent) (atom : peer_atom)
    (hprune : (tor.swarm.pool.length : Int) > min 50 (3 * (tor.maxConnectedPeers : Int)))
    (hmem : atom ∈ tor.swarm.pool)
    (huse : atom.peer ≠ none
      ∨ (∃ h ∈ tor.swarm.outgoingHandshakes, h.addr = atom.addr)
      ∨ (∃ h ∈ incomingHandshakes, h.addr = atom.addr)) :
    atom ∈ (atomPulse_torrent incomingHandshakes tr_now tor).swarm.pool := by
  have hin : peerIsInUse incomingHandshakes tor.swarm atom = true := by
    unfold peerIsInUse
    rcases huse with h | h | h
    · cases hp : atom.peer with
      | none => exact absurd hp h
      | some p => simp
    · simp [(getExistingHandshake_isSome _ _).mpr h]
    · simp [(getExistingHandshake_isSome _ _).mpr h]
  have hcap : (tor.swarm.pool.length : Int) > getMaxAtomCount tor := by
    unfold getMaxAtomCount
    rw [mul_comm]
    exact hprune
  unfold atomPulse_torrent
  simp only [hcap, if_true]
  rw [mem_qsort]
  have hkeep : atom ∈ tor.swarm.pool.filter (fun a => peerIsInUse incomingHandshakes tor.swarm a) :=
    List.mem_filter.mpr ⟨hmem, hin⟩
  split
  · exact List.mem_append_left _ hkeep
  · exact hkeep

theorem atomPulse_keeps_atoms_in_use_witness :
    ((atomPulse_torrent gcIncoming 1000 gcTorrent).swarm.pool.length : Int)
        > min 50 (3 * (gcTorrent.maxConnectedPeers : Int))
    ∧ ({ ptr := 3, addr := sampleAddr 3 } : peer_atom)
        ∈ (atomPulse_torrent gcIncoming 1000 gcTorrent).swarm.pool :=
  ⟨by decide,
   atomPulse_keeps_atoms_in_use gcIncoming 1000 gcTorrent { ptr := 3, addr := sampleAddr 3 }
    (by decide) (by decide) (Or.inr (Or.inl ⟨{ ptr := 21, addr := sampleAddr 3, torrentHash := some 1 }, by decide, rfl⟩))⟩

/-! ## Writes through atom pointers, and bad pieces -/

theorem atomAt_atomUpdate_ne (pool : List peer_atom) (p q : Nat) (f : peer_atom → peer_atom)
    (hf : ∀ a, (f a).ptr = a.ptr) (h : q ≠ p) :
    atomAt (atomUpdate pool p f) q = atomAt pool q := by
  unfold atomAt atomUpdate
  congr 1
  induction pool with
  | nil => rfl
  | cons a as ih =>
    simp only [List.map_cons, List.find?_cons]
    by_cases hap : a.ptr = p
    · have hq : ¬ a.ptr = q := fun e => h (e ▸ hap ▸ rfl)
      simp only [hap, if_true]
      have hfq : ((f a).ptr == q) = false := by
        rw [hf a, hap]
        simpa using fun e => h e.symm
      have hpq : (p == q) = false := by simpa using fun e : p = q => h e.symm
      rw [hfq, hpq]
      simpa [hap] using ih
    · simp only [hap, if_false]
      cases hq : (a.ptr == q) with
      | true => rfl
      | false => simpa using ih

theorem atomAt_atomUpdate_same (pool : List peer_atom) (p : Nat) (f : peer_atom → peer_atom)
    (hf : ∀ a, (f a).ptr = a.ptr) (hex : ∃ A ∈ pool, A.ptr = p) :
    atomAt (atomUpdate pool p f) p = f (atomAt pool p) := by
  unfold atomAt atomUpdate
  induction pool with
  | nil => simp at hex
  | cons a as ih =>
    simp only [List.map_cons, List.find?_cons]
    by_cases hap : a.ptr = p
    · have h1 : ((f a).ptr == p) = true := by rw [hf a]; simpa using hap
      have h2 : (a.ptr == p) = true := by simpa using hap
      simp [hap, h1, h2]
    · have h2 : (a.ptr == p) = false := by simpa using hap
      simp only [hap, if_false, h2]
      apply ih
      obtain ⟨A, hA, hAp⟩ := hex
      rcases List.mem_cons.mp hA with rfl | hA
      · exact absurd hAp hap
      · exact ⟨A, hA, hAp⟩

theorem atomUpdate_mem_ptr (pool : List peer_atom) (p : Nat) (f : peer_atom → peer_atom)
    (hf : ∀ a, (f a).ptr = a.ptr) (q : Nat) :
    (∃ A ∈ atomUpdate pool p f, A.ptr = q) ↔ ∃ A ∈ pool, A.ptr = q := by
  unfold atomUpdate
  constructor
  · rintro ⟨A, hA, hq⟩
    obtain ⟨B, hB, rfl⟩ := List.mem_map.mp hA
    refine ⟨B, hB, ?_⟩
    by_cases hb : B.ptr = p
    · simpa [hb, hf] using hq
    · simpa [hb] using hq
  · rintro ⟨A, hA, hq⟩
    refine ⟨_, List.mem_map.mpr ⟨A, hA, rfl⟩, ?_⟩
    by_cases hb : A.ptr = p
    · simp only [hb, if_true, hf]
      rw [← hb, hq]
    · simpa [hb] using hq

theorem banned_iff (x : Nat) : (x &&& MyflagBanned) ≠ 0 ↔ x % 2 = 1 := by
  unfold MyflagBanned
  rw [Nat.and_one_is_mod]
  omega

theorem banned_or_banned (x : Nat) : ((x ||| MyflagBanned) &&& MyflagBanned) ≠ 0 := by
  rw [banned_iff]
  simp [MyflagBanned]

theorem addStrike_peer (pool : List peer_atom) (P : tr_peer) :
    (addStrike pool P).2
      = { P with strikes := P.strikes + 1,
                 doPurge := if P.strikes + 1 ≥ MaxBadPiecesPerPeer then true else P.doPurge } := by
  unfold addStrike
  by_cases h : P.strikes + 1 ≥ MaxBadPiecesPerPeer
  · simp [h]
  · simp [h]

theorem addStrike_pool (pool : List peer_atom) (P : tr_peer) :
    (addStrike pool P).1
      = if P.strikes + 1 ≥ MaxBadPiecesPerPeer then
          atomUpdate pool P.atom (fun a => { a with flags2 := a.flags2 ||| MyflagBanned })
        else pool := by
  unfold addStrike
  by_cases h : P.strikes + 1 ≥ MaxBadPiecesPerPeer
  · simp [h]
  · simp [h]

/-- What `tr_peerMgrGotBadPiece` makes of one peer. -/
theorem gotBadPiece_peers_snd (pieceIndex : Nat) (pool : List peer_atom) (peers : List tr_peer) :
    (gotBadPiece_peers pieceIndex pool peers).2
      = peers.map (fun P => if P.blame.contains pieceIndex then (addStrike [] P).2 else P) := by
  induction peers generalizing pool with
  | nil => rfl
  | cons P Ps ih =>
    unfold gotBadPiece_peers
    by_cases hb : P.blame.contains pieceIndex = true
    · simp only [hb, if_true, List.map_cons]
      rw [ih, addStrike_peer, addStrike_peer]
    · simp only [hb, Bool.false_eq_true, if_false, List.map_cons]
      rw [ih]

theorem gotBadPiece_peers_mem_ptr (pieceIndex : Nat) (pool : List peer_atom)
    (peers : List tr_peer) (q : Nat) :
    (∃ A ∈ (gotBadPiece_peers pieceIndex pool peers).1, A.ptr = q) ↔ ∃ A ∈ pool, A.ptr = q := by
  induction peers generalizing pool with
  | nil => rfl
  | cons P Ps ih =>
    unfold gotBadPiece_peers
    by_cases hb : P.blame.contains pieceIndex = true
    · simp only [hb, if_true]
      rw [ih, addStrike_pool]
      split
      · exact atomUpdate_mem_ptr _ _ _ (by intro _; rfl) q
      · rfl
    · simp only [hb, Bool.false_eq_true, if_false]
      rw [ih]

/-- The atoms of peers that are not struck out keep their flags. -/
theorem gotBadPiece_peers_flags2_same (pieceIndex : Nat) (pool : List peer_atom)
    (peers : List tr_peer) (q : Nat)
    (h : ∀ P ∈ peers, P.atom = q →
      ¬ (P.blame.contains pieceIndex = true ∧ P.strikes + 1 ≥ MaxBadPiecesPerPeer)) :
    atomAt (gotBadPiece_peers pieceIndex pool peers).1 q = atomAt pool q := by
  induction peers generalizing pool with
  | nil => rfl
  | cons P Ps ih =>
    have hP := h P (List.mem_cons_self _ _)
    have hPs : ∀ P ∈ Ps, P.atom = q →
        ¬ (P.blame.contains pieceIndex = true ∧ P.strikes + 1 ≥ MaxBadPiecesPerPeer) :=
      fun Q hQ => h Q (List.mem_cons_of_mem _ hQ)
    unfold gotBadPiece_peers
    by_cases hb : P.blame.contains pieceIndex = true
    · simp only [hb, if_true]
      rw [ih _ hPs, addStrike_pool]
      split
      · rename_i hge
        have hne : q ≠ P.atom := fun e => hP e.symm ⟨hb, hge⟩
        exact atomAt_atomUpdate_ne _ _ _ _ (by intro _; rfl) hne
      · rfl
    · simp only [hb, Bool.false_eq_true, if_false]
      rw [ih _ hPs]

/-- The atom of a peer that is struck out is banned. -/
theorem gotBadPiece_peers_banned (pieceIndex : Nat) (pool : List peer_atom)
    (peers : List tr_peer) (P : tr_peer) (hP : P ∈ peers)
    (hex : ∃ A ∈ pool, A.ptr = P.atom)
    (hb : P.blame.contains pieceIndex = true) (hge : P.strikes + 1 ≥ MaxBadPiecesPerPeer) :
    ((atomAt (gotBadPiece_peers pieceIndex pool peers).1 P.atom).flags2 &&& MyflagBanned) ≠ 0 := by
  have key : ∀ (peers : List tr_peer) (pool : List peer_atom),
      (∃ A ∈ pool, A.ptr = P.atom) →
      (((atomAt pool P.atom).flags2 &&& MyflagBanned) ≠ 0 ∨ P ∈ peers) →
      ((atomAt (gotBadPiece_peers pieceIndex pool peers).1 P.atom).flags2 &&& MyflagBanned) ≠ 0 := by
    intro peers
    induction peers with
    | nil =>
      intro pool _ h
      rcases h with h | h
      · exact h
      · simp at h
    | cons Q Qs ih =>
      intro pool hex h
      unfold gotBadPiece_peers
      by_cases hq : Q.blame.contains pieceIndex = true
      · simp only [hq, if_true]
        rw [addStrike_pool]
        split
        · rename_i hqge
          apply ih
          · exact (atomUpdate_mem_ptr _ _ _ (by intro _; rfl) _).mpr hex
          · by_cases hQP : P.atom = Q.atom
            · left
              rw [hQP, atomAt_atomUpdate_same _ _ _ (by intro _; rfl) (hQP ▸ hex)]
              exact banned_or_banned _
            · rcases h with h | h
              · left
                rw [atomAt_atomUpdate_ne _ _ _ _ (by intro _; rfl) hQP]
                exact h
              · rcases List.mem_cons.mp h with rfl | h
                · exact absurd rfl hQP
                · exact Or.inr h
        · rename_i hqlt
          apply ih _ hex
          rcases h with h | h
          · exact Or.inl h
          · rcases List.mem_cons.mp h with rfl | h
            · exact absurd hge hqlt
            · exact Or.inr h
      · simp only [hq, Bool.false_eq_true, if_false]
        apply ih _ hex
        rcases h with h | h
        · exact Or.inl h
        · rcases List.mem_cons.mp h with rfl | h
          · exact absurd hb hq
          · exact Or.inr h
  exact key peers pool hex (Or.inr hP)

/-- C9: `tr_peerMgrGotBadPiece` adds one strike to exactly the live peers whose
blame bit for the bad piece is set; a peer whose count reaches 5 gets its atom's
banned bit and its own `doPurge` set; a peer that still has fewer than 5 strikes
keeps its `doPurge` and its atom as they were. (The peers of a swarm point to
distinct atoms of its pool.) -/
theorem tr_peerMgrGotBadPiece_strikes (s : tr_swarm) (pieceIndex : Nat)
    (hdist : (s.peers.map (fun P => P.atom)).Nodup)
    (hatoms : ∀ P ∈ s.peers, ∃ A ∈ s.pool, A.ptr = P.atom) :
    (tr_peerMgrGotBadPiece s pieceIndex).peers.length = s.peers.length
    ∧ ∀ (i : Nat) (P P' : tr_peer), s.peers[i]? = some P →
        (tr_peerMgrGotBadPiece s pieceIndex).peers[i]? = some P' →
        P'.ptr = P.ptr ∧ P'.atom = P.atom ∧ P'.blame = P.blame
        ∧ P'.strikes = (if pieceIndex ∈ P.blame then P.strikes + 1 else P.strikes)
        ∧ (pieceIndex ∈ P.blame → P'.strikes ≥ 5 →
            P'.doPurge = true
            ∧ ((atomAt (tr_peerMgrGotBadPiece s pieceIndex).pool P.atom).flags2
                &&& MyflagBanned) ≠ 0)
        ∧ (P'.strikes < 5 →
            P'.doPurge = P.doPurge
            ∧ atomAt (tr_peerMgrGotBadPiece s pieceIndex).pool P.atom = atomAt s.pool P.atom) := by
  have hpeers : (tr_peerMgrGotBadPiece s pieceIndex).peers
      = s.peers.map (fun P => if P.blame.contains pieceIndex then (addStrike [] P).2 else P) := by
    unfold tr_peerMgrGotBadPiece
    exact gotBadPiece_peers_snd pieceIndex s.pool s.peers
  have hpool : (tr_peerMgrGotBadPiece s pieceIndex).pool
      = (gotBadPiece_peers pieceIndex s.pool s.peers).1 := by
    unfold tr_peerMgrGotBadPiece
    rfl
  refine ⟨by rw [hpeers, List.length_map], ?_⟩
  intro i P P' hP hP'
  have hPmem : P ∈ s.peers := List.getElem?_mem hP
  rw [hpeers, List.getElem?_map, hP] at hP'
  simp only [Option.map_some', Option.some.injEq] at hP'
  rw [hpool]
  by_cases hb : P.blame.contains pieceIndex = true
  · have hbm : pieceIndex ∈ P.blame := by simpa using hb
    rw [if_pos hb, addStrike_peer] at hP'
    subst hP'
    refine ⟨rfl, rfl, rfl, by simp [hbm], ?_, ?_⟩
    · intro _ hge
      have hge' : P.strikes + 1 ≥ MaxBadPiecesPerPeer := hge
      refine ⟨by simp [hge'], ?_⟩
      exact gotBadPiece_peers_banned pieceIndex s.pool s.peers P hPmem (hatoms P hPmem) hb hge'
    · intro hlt
      have hlt' : ¬ P.strikes + 1 ≥ MaxBadPiecesPerPeer := by
        simp only [MaxBadPiecesPerPeer]
        simp only at hlt
        omega
      refine ⟨by simp [hlt'], ?_⟩
      apply gotBadPiece_peers_flags2_same
      intro Q hQ hQP hhit
      have hQeq : Q = P := List.inj_on_of_nodup_map hdist hQ hPmem hQP
      subst hQeq
      exact hlt' hhit.2
  · have hbm : ¬ pieceIndex ∈ P.blame := by simpa using hb
    rw [if_neg hb] at hP'
    subst hP'
    refine ⟨rfl, rfl, rfl, by simp [hbm], ?_, ?_⟩
    · intro h
      exact absurd h hbm
    · intro _
      refine ⟨rfl, ?_⟩
      apply gotBadPiece_peers_flags2_same
      intro Q hQ hQP hhit
      have hQeq : Q = P := List.inj_on_of_nodup_map hdist hQ hPmem hQP
      subst hQeq
      exact hb hhit.1

theorem tr_peerMgrGotBadPiece_strikes_witness :
    ((tr_peerMgrGotBadPiece strikeSwarm 7).peers.map (fun P => (P.strikes, P.doPurge))
        = [(5, true), (1, false), (2, false)]
      ∧ (tr_peerMgrGotBadPiece strikeSwarm 7).pool.map (fun A => A.flags2) = [1, 0, 0])
    ∧ (tr_peerMgrGotBadPiece strikeSwarm 7).peers.length = strikeSwarm.peers.length
    ∧ ∀ (i : Nat) (P P' : tr_peer), strikeSwarm.peers[i]? = some P →
        (tr_peerMgrGotBadPiece strikeSwarm 7).peers[i]? = some P' →
        P'.ptr = P.ptr ∧ P'.atom = P.atom ∧ P'.blame = P.blame
        ∧ P'.strikes = (if 7 ∈ P.blame then P.strikes + 1 else P.strikes)
        ∧ (7 ∈ P.blame → P'.strikes ≥ 5 →
            P'.doPurge = true
            ∧ ((atomAt (tr_peerMgrGotBadPiece strikeSwarm 7).pool P.atom).flags2
                &&& MyflagBanned) ≠ 0)
        ∧ (P'.strikes < 5 →
            P'.doPurge = P.doPurge
            ∧ atomAt (tr_peerMgrGotBadPiece strikeSwarm 7).pool P.atom
                = atomAt strikeSwarm.pool P.atom) :=
  ⟨by decide, tr_peerMgrGotBadPiece_strikes strikeSwarm 7 (by decide) (by decide)⟩

/-! ## Consistency of a swarm: pool, peers and statistics -/

theorem poolInv_mono {n m : Nat} {pool : List peer_atom} {peers : List tr_peer}
    {stats : tr_swarm_stats} (h : poolInv n pool peers stats) (hnm : n ≤ m) :
    poolInv m pool peers stats :=
  { h with
    atom_bound := fun A hA => Nat.lt_of_lt_of_le (h.atom_bound A hA) hnm
    peer_bound := fun P hP => Nat.lt_of_lt_of_le (h.peer_bound P hP) hnm }

theorem poolInv_map_pool {n : Nat} {pool : List peer_atom} {peers : List tr_peer}
    {stats : tr_swarm_stats} (h : poolInv n pool peers stats) (g : peer_atom → peer_atom)
    (hg : keepsLinks g) : poolInv n (pool.map g) peers stats := by
  have hptr : (pool.map g).map (fun A => A.ptr) = pool.map (fun A => A.ptr) := by
    rw [List.map_map]
    apply List.map_congr_left
    intro a _
    exact hg.ptr a
  have haddr : (pool.map g).map (fun A => A.addr) = pool.map (fun A => A.addr) := by
    rw [List.map_map]
    apply List.map_congr_left
    intro a _
    exact hg.addr a
  refine
    { atom_ptrs := by rw [hptr]; exact h.atom_ptrs
      atom_addrs := by rw [haddr]; exact h.atom_addrs
      peer_ptrs := h.peer_ptrs
      peer_atom := ?_
      atom_peer := ?_
      atom_from := ?_
      from_length := h.from_length
      count := h.count
      from_sum := h.from_sum
      atom_bound := ?_
      peer_bound := h.peer_bound }
  · intro P hP
    obtain ⟨A, hA, h1, h2⟩ := h.peer_atom P hP
    exact ⟨g A, List.mem_map.mpr ⟨A, hA, rfl⟩, by rw [hg.ptr A, h1], by rw [hg.peer A, h2]⟩
  · intro A' hA' p hp
    obtain ⟨A, hA, rfl⟩ := List.mem_map.mp hA'
    rw [hg.peer A] at hp
    obtain ⟨P, hP, h1, h2⟩ := h.atom_peer A hA p hp
    exact ⟨P, hP, h1, by rw [hg.ptr A, h2]⟩
  · intro A' hA'
    obtain ⟨A, hA, rfl⟩ := List.mem_map.mp hA'
    rw [hg.fromFirst A]
    exact h.atom_from A hA
  · intro A' hA'
    obtain ⟨A, hA, rfl⟩ := List.mem_map.mp hA'
    rw [hg.ptr A]
    exact h.atom_bound A hA

theorem keepsLinks_if (p : Nat) (f : peer_atom → peer_atom) (hf : keepsLinks f) :
    keepsLinks (fun a => if a.ptr = p then f a else a) := by
  refine ⟨?_, ?_, ?_, ?_, ?_⟩ <;> intro a <;> by_cases h : a.ptr = p
  · simp only [h, if_true]
    rw [hf.ptr a, h]
  · simp [h]
  · simp only [h, if_true]
    exact hf.addr a
  · simp [h]
  · simp only [h, if_true]
    exact hf.fromFirst a
  · simp [h]
  · simp only [h, if_true]
    exact hf.peer a
  · simp [h]
  · simp only [h, if_true]
    exact hf.ban a
  · simp [h]

theorem poolInv_atomUpdate {n : Nat} {pool : List peer_atom} {peers : List tr_peer}
    {stats : tr_swarm_stats} (h : poolInv n pool peers stats) (p : Nat)
    (f : peer_atom → peer_atom) (hf : keepsLinks f) :
    poolInv n (atomUpdate pool p f) peers stats :=
  poolInv_map_pool h _ (keepsLinks_if p f hf)

theorem poolInv_map_peers {n : Nat} {pool : List peer_atom} {peers : List tr_peer}
    {stats : tr_swarm_stats} (h : poolInv n pool peers stats) (g : tr_peer → tr_peer)
    (hg : ∀ P, (g P).ptr = P.ptr ∧ (g P).atom = P.atom) :
    poolInv n pool (peers.map g) stats := by
  have hptr : (peers.map g).map (fun P => P.ptr) = peers.map (fun P => P.ptr) := by
    rw [List.map_map]
    apply List.map_congr_left
    intro a _
    exact (hg a).1
  refine
    { atom_ptrs := h.atom_ptrs
      atom_addrs := h.atom_addrs
      peer_ptrs := by rw [hptr]; exact h.peer_ptrs
      peer_atom := ?_
      atom_peer := ?_
      atom_from := h.atom_from
      from_length := h.from_length
      count := by rw [List.length_map]; exact h.count
      from_sum := h.from_sum
      atom_bound := h.atom_bound
      peer_bound := ?_ }
  · intro P' hP'
    obtain ⟨P, hP, rfl⟩ := List.mem_map.mp hP'
    obtain ⟨A, hA, h1, h2⟩ := h.peer_atom P hP
    exact ⟨A, hA, by rw [(hg P).2, h1], by rw [(hg P).1, h2]⟩
  · intro A hA p hp
    obtain ⟨P, hP, h1, h2⟩ := h.atom_peer A hA p hp
    exact ⟨g P, List.mem_map.mpr ⟨P, hP, rfl⟩, by rw [(hg P).1, h1], by rw [(hg P).2, h2]⟩
  · intro P' hP'
    obtain ⟨P, hP, rfl⟩ := List.mem_map.mp hP'
    rw [(hg P).1]
    exact h.peer_bound P hP

theorem poolInv_perm {n : Nat} {pool pool' : List peer_atom} {peers peers' : List tr_peer}
    {stats : tr_swarm_stats} (h : poolInv n pool peers stats) (hpool : pool'.Perm pool)
    (hpeers : peers'.Perm peers) : poolInv n pool' peers' stats :=
  { atom_ptrs := ((hpool.map _).nodup_iff).mpr h.atom_ptrs
    atom_addrs := ((hpool.map _).nodup_iff).mpr h.atom_addrs
    peer_ptrs := ((hpeers.map _).nodup_iff).mpr h.peer_ptrs
    peer_atom := fun P hP => by
      obtain ⟨A, hA, h1⟩ := h.peer_atom P (hpeers.mem_iff.mp hP)
      exact ⟨A, hpool.mem_iff.mpr hA, h1⟩
    atom_peer := fun A hA p hp => by
      obtain ⟨P, hP, h1⟩ := h.atom_peer A (hpool.mem_iff.mp hA) p hp
      exact ⟨P, hpeers.mem_iff.mpr hP, h1⟩
    atom_from := fun A hA => h.atom_from A (hpool.mem_iff.mp hA)
    from_length := h.from_length
    count := by rw [hpeers.length_eq]; exact h.count
    from_sum := h.from_sum
    atom_bound := fun A hA => h.atom_bound A (hpool.mem_iff.mp hA)
    peer_bound := fun P hP => h.peer_bound P (hpeers.mem_iff.mp hP) }

theorem tr_ptrArrayInsertSorted_perm {α : Type} (compare : α → α → Int) (x : α) (l : List α) :
    (tr_ptrArrayInsertSorted compare x l).Perm (x :: l) := by
  induction l with
  | nil => exact List.Perm.refl _
  | cons y ys ih =>
    unfold tr_ptrArrayInsertSorted
    split
    · exact List.Perm.refl _
    · exact (List.Perm.cons y ih).trans (List.Perm.swap x y ys)

theorem poolInv_cons_atom {n m : Nat} {pool : List peer_atom} {peers : List tr_peer}
    {stats : tr_swarm_stats} (h : poolInv n pool peers stats) (a : peer_atom)
    (hpeer : a.peer = none) (hfresh : n ≤ a.ptr) (hm : a.ptr < m)
    (haddr : ∀ A ∈ pool, A.addr ≠ a.addr) (hfrom : a.fromFirst < TR_PEER_FROM__MAX) :
    poolInv m (a :: pool) peers stats := by
  have hnm : n ≤ m := by omega
  refine
    { atom_ptrs := ?_
      atom_addrs := ?_
      peer_ptrs := h.peer_ptrs
      peer_atom := ?_
      atom_peer := ?_
      atom_from := ?_
      from_length := h.from_length
      count := h.count
      from_sum := h.from_sum
      atom_bound := ?_
      peer_bound := fun P hP => Nat.lt_of_lt_of_le (h.peer_bound P hP) hnm }
  · rw [List.map_cons, List.nodup_cons]
    refine ⟨?_, h.atom_ptrs⟩
    intro hmem
    obtain ⟨A, hA, hAp⟩ := List.mem_map.mp hmem
    have := h.atom_bound A hA
    have hAp2 : A.ptr = a.ptr := hAp
    omega
  · rw [List.map_cons, List.nodup_cons]
    refine ⟨?_, h.atom_addrs⟩
    intro hmem
    obtain ⟨A, hA, hAp⟩ := List.mem_map.mp hmem
    exact haddr A hA hAp
  · intro P hP
    obtain ⟨A, hA, h1⟩ := h.peer_atom P hP
    exact ⟨A, List.mem_cons_of_mem _ hA, h1⟩
  · intro A hA p hp
    rcases List.mem_cons.mp hA with rfl | hA
    · rw [hpeer] at hp
      cases hp
    · exact h.atom_peer A hA p hp
  · intro A hA
    rcases List.mem_cons.mp hA with rfl | hA
    · exact hfrom
    · exact h.atom_from A hA
  · intro A hA
    rcases List.mem_cons.mp hA with rfl | hA
    · exact hm
    · exact Nat.lt_of_lt_of_le (h.atom_bound A hA) hnm

theorem atomAt_eq_of_mem {pool : List peer_atom} (hnd : (pool.map (fun A => A.ptr)).Nodup)
    {A : peer_atom} (hA : A ∈ pool) : atomAt pool A.ptr = A := by
  unfold atomAt
  induction pool with
  | nil => cases hA
  | cons a as ih =>
    rw [List.map_cons, List.nodup_cons] at hnd
    rw [List.find?_cons]
    rcases List.mem_cons.mp hA with rfl | hA
    · simp
    · have hne : (a.ptr == A.ptr) = false := by
        have : a.ptr ≠ A.ptr := fun e => hnd.1 (List.mem_map.mpr ⟨A, hA, e.symm⟩)
        simpa using this
      rw [hne]
      exact ih hnd.2 hA

theorem modify_sum (l : List Int) (i : Nat) (d : Int) (hi : i < l.length) :
    (l.modify (fun n => n + d) i).sum = l.sum + d := by
  induction l generalizing i with
  | nil => simp at hi
  | cons x xs ih =>
    cases i with
    | zero =>
      show ((x + d) :: xs).sum = (x :: xs).sum + d
      simp only [List.sum_cons]
      ring
    | succ j =>
      have hj : j < xs.length := by simpa using hi
      show (x :: xs.modify (fun n => n + d) j).sum = (x :: xs).sum + d
      simp only [List.sum_cons, ih j hj]
      ring

theorem poolInv_add_peer {n m : Nat} {pool : List peer_atom} {peers : List tr_peer}
    {stats : tr_swarm_stats} (h : poolInv n pool peers stats) (A : peer_atom) (hA : A ∈ pool)
    (hnone : A.peer = none) (P : tr_peer) (hfresh : n ≤ P.ptr) (hm : P.ptr < m)
    (hatom : P.atom = A.ptr) :
    poolInv m (atomUpdate pool A.ptr (fun a => { a with peer := some P.ptr })) (P :: peers)
      { stats with
        peerCount := stats.peerCount + 1
        peerFromCount := stats.peerFromCount.modify (fun k => k + 1) A.fromFirst } := by
  have hnm : n ≤ m := by omega
  have hptr : (atomUpdate pool A.ptr (fun a => { a with peer := some P.ptr })).map (fun A => A.ptr)
      = pool.map (fun A => A.ptr) := by
    unfold atomUpdate
    rw [List.map_map]
    apply List.map_congr_left
    intro a _
    by_cases e : a.ptr = A.ptr <;> simp [e]
  have haddr : (atomUpdate pool A.ptr (fun a => { a with peer := some P.ptr })).map
      (fun A => A.addr) = pool.map (fun A => A.addr) := by
    unfold atomUpdate
    rw [List.map_map]
    apply List.map_congr_left
    intro a _
    by_cases e : a.ptr = A.ptr <;> simp [e]
  have huniq : ∀ B ∈ pool, B.ptr = A.ptr → B = A := by
    intro B hB e
    rw [← atomAt_eq_of_mem h.atom_ptrs hB, e, atomAt_eq_of_mem h.atom_ptrs hA]
  refine
    { atom_ptrs := by rw [hptr]; exact h.atom_ptrs
      atom_addrs := by rw [haddr]; exact h.atom_addrs
      peer_ptrs := ?_
      peer_atom := ?_
      atom_peer := ?_
      atom_from := ?_
      from_length := by simpa using h.from_length
      count := by simp [h.count]
      from_sum := ?_
      atom_bound := ?_
      peer_bound := ?_ }
  · rw [List.map_cons, List.nodup_cons]
    refine ⟨?_, h.peer_ptrs⟩
    intro hmem
    obtain ⟨Q, hQ, e⟩ := List.mem_map.mp hmem
    have := h.peer_bound Q hQ
    have e2 : Q.ptr = P.ptr := e
    omega
  · intro Q hQ
    rcases List.mem_cons.mp hQ with rfl | hQ
    · refine ⟨{ A with peer := some Q.ptr }, ?_, hatom.symm, rfl⟩
      exact List.mem_map.mpr ⟨A, hA, by simp⟩
    · obtain ⟨B, hB, h1, h2⟩ := h.peer_atom Q hQ
      have hBA : B.ptr ≠ A.ptr := by
        intro e
        rw [huniq B hB e, hnone] at h2
        cases h2
      exact ⟨B, List.mem_map.mpr ⟨B, hB, by simp [hBA]⟩, h1, h2⟩
  · intro B' hB' p hp
    obtain ⟨B, hB, rfl⟩ := List.mem_map.mp hB'
    by_cases e : B.ptr = A.ptr
    · simp only [e, if_true] at hp ⊢
      cases hp
      exact ⟨P, List.mem_cons_self _ _, rfl, hatom⟩
    · simp only [e, if_false] at hp ⊢
      obtain ⟨Q, hQ, h1⟩ := h.atom_peer B hB p hp
      exact ⟨Q, List.mem_cons_of_mem _ hQ, h1⟩
  · intro B' hB'
    obtain ⟨B, hB, rfl⟩ := List.mem_map.mp hB'
    by_cases e : B.ptr = A.ptr
    · simp only [e, if_true]
      exact h.atom_from B hB
    · simp only [e, if_false]
      exact h.atom_from B hB
  · have hlt : A.fromFirst < stats.peerFromCount.length := by
      rw [h.from_length]
      exact h.atom_from A hA
    show (stats.peerFromCount.modify (fun k => k + 1) A.fromFirst).sum = stats.peerCount + 1
    rw [modify_sum _ _ _ hlt, h.from_sum]
  · intro B' hB'
    obtain ⟨B, hB, rfl⟩ := List.mem_map.mp hB'
    have := h.atom_bound B hB
    by_cases e : B.ptr = A.ptr
    · simp only [e, if_true]
      omega
    · simp only [e, if_false]
      omega
  · intro Q hQ
    rcases List.mem_cons.mp hQ with rfl | hQ
    · exact hm
    · exact Nat.lt_of_lt_of_le (h.peer_bound Q hQ) hnm

theorem swarmInv_createBitTorrentPeer {n m : Nat} {s : tr_swarm} (h : swarmInv n s)
    (A : peer_atom) (hA : A ∈ s.pool) (hnone : A.peer = none) (client : tr_quark) (ptr : Nat)
    (hfresh : n ≤ ptr) (hm : ptr < m) :
    swarmInv m (createBitTorrentPeer s A.ptr client ptr) := by
  unfold swarmInv createBitTorrentPeer
  have hat : atomAt (atomUpdate s.pool A.ptr (fun a => { a with peer := some ptr })) A.ptr
      = { A with peer := some ptr } := by
    rw [atomAt_atomUpdate_same _ _ _ (by intro _; rfl) ⟨A, hA, rfl⟩,
      atomAt_eq_of_mem h.atom_ptrs hA]
  simp only [hat]
  exact poolInv_perm
    (poolInv_add_peer h A hA hnone { ptr := ptr, atom := A.ptr, client := client } hfresh hm rfl)
    (List.Perm.refl _) (tr_ptrArrayInsertSorted_perm _ _ _)

theorem modify_sum_sub (l : List Int) (i : Nat) (d : Int) (hi : i < l.length) :
    (l.modify (fun n => n - d) i).sum = l.sum - d := by
  have e : (fun n : Int => n - d) = fun n => n + -d := by
    funext n
    exact Int.sub_eq_add_neg
  rw [e, modify_sum _ _ _ hi]
  ring

theorem eraseP_ptr_eq_erase {peers : List tr_peer} (hnd : (peers.map (fun P => P.ptr)).Nodup)
    {P : tr_peer} (hP : P ∈ peers) :
    peers.eraseP (fun p => p.ptr == P.ptr) = peers.erase P := by
  induction peers with
  | nil => cases hP
  | cons Q Qs ih =>
    rw [List.map_cons, List.nodup_cons] at hnd
    by_cases e : Q = P
    · subst e
      simp
    · rcases List.mem_cons.mp hP with rfl | hP
      · exact absurd rfl e
      · have hne : Q.ptr ≠ P.ptr := fun e2 => hnd.1 (List.mem_map.mpr ⟨P, hP, e2.symm⟩)
        have hb : (Q.ptr == P.ptr) = false := by simpa using hne
        have hb2 : (Q == P) = false := by simpa using e
        rw [List.eraseP_cons, List.erase_cons, hb, hb2]
        simp only [Bool.false_eq_true, if_false, cond_false]
        rw [ih hnd.2 hP]

theorem poolInv_remove_peer {n : Nat} {pool : List peer_atom} {peers : List tr_peer}
    {stats : tr_swarm_stats} (h : poolInv n pool peers stats) (P : tr_peer) (hP : P ∈ peers) :
    poolInv n (atomUpdate pool P.atom (fun a => { a with peer := none }))
      (tr_ptrArrayRemoveSortedPointer (fun p : tr_peer => p.ptr) peers P.ptr)
      { stats with
        peerCount := stats.peerCount - 1
        peerFromCount := stats.peerFromCount.modify (fun k => k - 1) (atomAt pool P.atom).fromFirst } := by
  obtain ⟨A, hA, hAP, hApeer⟩ := h.peer_atom P hP
  have hat : atomAt pool P.atom = A := by rw [← hAP]; exact atomAt_eq_of_mem h.atom_ptrs hA
  have her : tr_ptrArrayRemoveSortedPointer (fun p : tr_peer => p.ptr) peers P.ptr = peers.erase P :=
    eraseP_ptr_eq_erase h.peer_ptrs hP
  have hptr : (atomUpdate pool P.atom (fun a => { a with peer := none })).map (fun A => A.ptr)
      = pool.map (fun A => A.ptr) := by
    unfold atomUpdate
    rw [List.map_map]
    apply List.map_congr_left
    intro a _
    by_cases e : a.ptr = P.atom <;> simp [e]
  have haddr : (atomUpdate pool P.atom (fun a => { a with peer := none })).map
      (fun A => A.addr) = pool.map (fun A => A.addr) := by
    unfold atomUpdate
    rw [List.map_map]
    apply List.map_congr_left
    intro a _
    by_cases e : a.ptr = P.atom <;> simp [e]
  have huniq : ∀ B ∈ pool, B.ptr = P.atom → B = A := by
    intro B hB e
    rw [← atomAt_eq_of_mem h.atom_ptrs hB, e, hat]
  have hpnd : peers.Nodup := List.Nodup.of_map _ h.peer_ptrs
  have hmem : ∀ Q, Q ∈ peers.erase P ↔ Q ∈ peers ∧ Q ≠ P := by
    intro Q
    rw [hpnd.mem_erase_iff]
    exact and_comm
  have hpinj : ∀ Q ∈ peers, Q.ptr = P.ptr → Q = P := by
    intro Q hQ e
    exact List.inj_on_of_nodup_map h.peer_ptrs hQ hP e
  rw [her, hat]
  refine
    { atom_ptrs := by rw [hptr]; exact h.atom_ptrs
      atom_addrs := by rw [haddr]; exact h.atom_addrs
      peer_ptrs := (h.peer_ptrs).sublist ((List.erase_sublist P peers).map _)
      peer_atom := ?_
      atom_peer := ?_
      atom_from := ?_
      from_length := by simpa using h.from_length
      count := ?_
      from_sum := ?_
      atom_bound := ?_
      peer_bound := fun Q hQ => h.peer_bound Q ((hmem Q).mp hQ).1 }
  · intro Q hQ
    obtain ⟨hQ, hne⟩ := (hmem Q).mp hQ
    obtain ⟨B, hB, h1, h2⟩ := h.peer_atom Q hQ
    have hBA : B.ptr ≠ P.atom := by
      intro e
      rw [huniq B hB e, hApeer] at h2
      exact hne (hpinj Q hQ (Option.some.inj h2).symm)
    exact ⟨B, List.mem_map.mpr ⟨B, hB, by simp [hBA]⟩, h1, h2⟩
  · intro B' hB' p hp
    obtain ⟨B, hB, rfl⟩ := List.mem_map.mp hB'
    by_cases e : B.ptr = P.atom
    · simp only [e, if_true] at hp
      cases hp
    · simp only [e, if_false] at hp ⊢
      obtain ⟨Q, hQ, h1, h2⟩ := h.atom_peer B hB p hp
      refine ⟨Q, (hmem Q).mpr ⟨hQ, ?_⟩, h1, h2⟩
      intro eq
      rw [eq] at h2
      exact e h2.symm
  · intro B' hB'
    obtain ⟨B, hB, rfl⟩ := List.mem_map.mp hB'
    by_cases e : B.ptr = P.atom
    · simp only [e, if_true]
      exact h.atom_from B hB
    · simp only [e, if_false]
      exact h.atom_from B hB
  · show stats.peerCount - 1 = ((peers.erase P).length : Int)
    rw [List.length_erase_of_mem hP, h.count]
    have : 0 < peers.length := List.length_pos_of_mem hP
    omega
  · have hlt : A.fromFirst < stats.peerFromCount.length := by
      rw [h.from_length]
      exact h.atom_from A hA
    show (stats.peerFromCount.modify (fun k => k - 1) A.fromFirst).sum = stats.peerCount - 1
    rw [modify_sum_sub _ _ _ hlt, h.from_sum]
  · intro B' hB'
    obtain ⟨B, hB, rfl⟩ := List.mem_map.mp hB'
    have := h.atom_bound B hB
    by_cases e : B.ptr = P.atom
    · simp only [e, if_true]
      rw [← e]
      exact this
    · simp only [e, if_false]
      exact this

theorem keepsLinks_time (now : Int) : keepsLinks (fun a => { a with time := now }) :=
  ⟨fun _ => rfl, fun _ => rfl, fun _ => rfl, fun _ => rfl, fun _ h => h⟩

theorem swarmInv_removePeer {n : Nat} {s : tr_swarm} (h : swarmInv n s) (P : tr_peer)
    (hP : P ∈ s.peers) (now : Int) : swarmInv n (removePeer s P now) := by
  unfold swarmInv removePeer
  have h1 := poolInv_atomUpdate h P.atom _ (keepsLinks_time now)
  exact poolInv_remove_peer h1 P hP

theorem swarmInv_closePeer {n : Nat} {s : tr_swarm} (h : swarmInv n s) (P : tr_peer)
    (hP : P ∈ s.peers) (now : Int) : swarmInv n (closePeer s P now) := by
  unfold closePeer
  apply swarmInv_removePeer _ P _ now
  · unfold swarmInv
    dsimp only
    split
    · exact poolInv_atomUpdate h P.atom _ ⟨fun _ => rfl, fun _ => rfl, fun _ => rfl, fun _ => rfl, fun _ h => h⟩
    · exact poolInv_atomUpdate h P.atom _ ⟨fun _ => rfl, fun _ => rfl, fun _ => rfl, fun _ => rfl, fun _ h => h⟩
  · exact hP

theorem closePeer_peers (s : tr_swarm) (P : tr_peer) (now : Int) :
    (closePeer s P now).peers = s.peers.eraseP (fun p => p.ptr == P.ptr) := rfl

theorem poolStep_refl (n : Nat) (pool : List peer_atom) : poolStep n pool pool :=
  fun B hB => Or.inr ⟨B, hB, rfl, rfl, fun h => h⟩

theorem poolStep_trans {n m : Nat} {p1 p2 p3 : List peer_atom} (h12 : poolStep n p1 p2)
    (h23 : poolStep m p2 p3) (hnm : n ≤ m) : poolStep n p1 p3 := by
  intro C hC
  rcases h23 C hC with hfresh | ⟨B, hB, hp, ha, hb⟩
  · exact Or.inl (le_trans hnm hfresh)
  · rcases h12 B hB with hfresh | ⟨A, hA, hp2, ha2, hb2⟩
    · exact Or.inl (hp ▸ hfresh)
    · exact Or.inr ⟨A, hA, hp2.trans hp, ha2.trans ha, fun h => hb (hb2 h)⟩

theorem poolStep_map (n : Nat) (pool : List peer_atom) (g : peer_atom → peer_atom)
    (hg : keepsLinks g) : poolStep n pool (pool.map g) := by
  intro B hB
  obtain ⟨A, hA, rfl⟩ := List.mem_map.mp hB
  exact Or.inr ⟨A, hA, (hg.ptr A).symm, (hg.addr A).symm, hg.ban A⟩

theorem poolStep_atomUpdate (n : Nat) (pool : List peer_atom) (p : Nat)
    (f : peer_atom → peer_atom) (hf : keepsLinks f) : poolStep n pool (atomUpdate pool p f) :=
  poolStep_map n pool _ (keepsLinks_if p f hf)

theorem poolStep_subset (n : Nat) {pool pool' : List peer_atom} (h : ∀ B ∈ pool', B ∈ pool) :
    poolStep n pool pool' :=
  fun B hB => Or.inr ⟨B, h B hB, rfl, rfl, fun h => h⟩

theorem poolStep_peer (n : Nat) (pool : List peer_atom) (p : Nat) (v : Option Nat) :
    poolStep n pool (atomUpdate pool p (fun a => { a with peer := v })) := by
  intro B hB
  obtain ⟨A, hA, rfl⟩ := List.mem_map.mp hB
  refine Or.inr ⟨A, hA, ?_, ?_, ?_⟩ <;> by_cases e : A.ptr = p <;> simp [e]

theorem poolStep_insert {n : Nat} (pool : List peer_atom) (compare : peer_atom → peer_atom → Int)
    (a : peer_atom) (ha : n ≤ a.ptr) : poolStep n pool (tr_ptrArrayInsertSorted compare a pool) := by
  intro B hB
  rcases List.mem_cons.mp ((tr_ptrArrayInsertSorted_perm compare a pool).mem_iff.mp hB) with rfl | hB
  · exact Or.inl ha
  · exact Or.inr ⟨B, hB, rfl, rfl, fun h => h⟩

theorem getExistingAtom_some {s : tr_swarm} {addr : tr_address} {A : peer_atom}
    (h : getExistingAtom s addr = some A) : A ∈ s.pool ∧ A.addr = addr := by
  unfold getExistingAtom tr_ptrArrayFindSorted comparePeerAtomToAddress at h
  refine ⟨List.mem_of_find?_eq_some h, ?_⟩
  have := List.find?_some h
  simp only [beq_iff_eq] at this
  exact (tr_address_compare_eq_zero _ _).mp this

theorem getExistingAtom_none {s : tr_swarm} {addr : tr_address}
    (h : getExistingAtom s addr = none) : ∀ A ∈ s.pool, A.addr ≠ addr := by
  unfold getExistingAtom tr_ptrArrayFindSorted comparePeerAtomToAddress at h
  intro A hA e
  have := List.find?_eq_none.mp h A hA
  simp only [beq_iff_eq] at this
  exact this ((tr_address_compare_eq_zero _ _).mpr e)

theorem keepsLinks_ensure (src flags : Nat) : keepsLinks (fun a : peer_atom =>
    { a with fromBest := if src < a.fromBest then src else a.fromBest,
             flags := a.flags ||| flags }) :=
  ⟨fun _ => rfl, fun _ => rfl, fun _ => rfl, fun _ => rfl, fun _ h => h⟩

/-- What `ensureAtomExists` leaves behind: a consistent swarm, a pool that
evolved lawfully, the same peers, and an atom at the address asked for. -/
theorem ensureAtomExists_spec {n : Nat} {s : tr_swarm} (h : swarmInv n s) (addr : tr_address)
    (port flags src : Nat) (now jitter : Int) (ptr : Nat) (hfresh : n ≤ ptr)
    (hsrc : src < TR_PEER_FROM__MAX) :
    let r := ensureAtomExists s addr port flags src now jitter ptr
    swarmInv (ptr + 1) r.1 ∧ poolStep n s.pool r.1.pool ∧ r.1.peers = s.peers
      ∧ r.1.stats = s.stats ∧ r.1.outgoingHandshakes = s.outgoingHandshakes
      ∧ r.1.isRunning = s.isRunning
      ∧ (∃ A ∈ r.1.pool, A.ptr = r.2 ∧ A.addr = addr)
      ∧ (∀ A ∈ s.pool, A.addr = addr → A.ptr = r.2) := by
  intro r
  have hr : r = ensureAtomExists s addr port flags src now jitter ptr := rfl
  unfold ensureAtomExists at hr
  cases hex : getExistingAtom s addr with
  | none =>
    rw [hex] at hr
    simp only at hr
    have hno := getExistingAtom_none hex
    rw [hr]
    refine ⟨?_, poolStep_insert _ _ _ hfresh, rfl, rfl, rfl, rfl, ?_, ?_⟩
    · unfold swarmInv
      exact poolInv_perm
        (poolInv_cons_atom h _ rfl hfresh (Nat.lt_succ_self ptr) hno hsrc)
        (tr_ptrArrayInsertSorted_perm _ _ _) (List.Perm.refl _)
    · exact ⟨_, (tr_ptrArrayInsertSorted_perm _ _ _).mem_iff.mpr (List.mem_cons_self _ _),
        rfl, rfl⟩
    · intro A hA e
      exact absurd e (hno A hA)
  | some A =>
    rw [hex] at hr
    simp only at hr
    obtain ⟨hA, hAaddr⟩ := getExistingAtom_some hex
    rw [hr]
    refine ⟨?_, poolStep_atomUpdate _ _ _ _ (keepsLinks_ensure src flags), rfl, rfl, rfl, rfl,
      ?_, ?_⟩
    · unfold swarmInv
      exact poolInv_mono (poolInv_atomUpdate h _ _ (keepsLinks_ensure src flags))
        (le_trans hfresh (Nat.le_succ ptr))
    · refine ⟨_, List.mem_map.mpr ⟨A, hA, rfl⟩, ?_, ?_⟩
      · simp
      · simpa using hAaddr
    · intro B hB e
      show B.ptr = A.ptr
      have : B = A := by
        have hinj := List.inj_on_of_nodup_map h.atom_addrs hB hA
        exact hinj (e.trans hAaddr.symm)
      rw [this]

theorem removePeer_spec {n : Nat} {s : tr_swarm} (h : swarmInv n s) (P : tr_peer)
    (hP : P ∈ s.peers) (now : Int) :
    swarmInv n (removePeer s P now) ∧ poolStep n s.pool (removePeer s P now).pool
      ∧ (removePeer s P now).peers = s.peers.eraseP (fun p => p.ptr == P.ptr) :=
  ⟨swarmInv_removePeer h P hP now,
   poolStep_trans (poolStep_atomUpdate n _ _ _ (keepsLinks_time now)) (poolStep_peer n _ _ _)
     (le_refl n),
   rfl⟩

theorem closePeer_spec {n : Nat} {s : tr_swarm} (h : swarmInv n s) (P : tr_peer)
    (hP : P ∈ s.peers) (now : Int) :
    swarmInv n (closePeer s P now) ∧ poolStep n s.pool (closePeer s P now).pool
      ∧ (closePeer s P now).peers = s.peers.eraseP (fun p => p.ptr == P.ptr) := by
  refine ⟨swarmInv_closePeer h P hP now, ?_, rfl⟩
  have key : ∀ f, keepsLinks f →
      poolStep n s.pool (removePeer { s with pool := atomUpdate s.pool P.atom f } P now).pool := by
    intro f hf
    have h1 : swarmInv n { s with pool := atomUpdate s.pool P.atom f } :=
      poolInv_atomUpdate h P.atom f hf
    exact poolStep_trans (poolStep_atomUpdate n _ _ _ hf) (removePeer_spec h1 P hP now).2.1
      (le_refl n)
  unfold closePeer
  dsimp only
  split
  · exact key _ ⟨fun _ => rfl, fun _ => rfl, fun _ => rfl, fun _ => rfl, fun _ h => h⟩
  · exact key _ ⟨fun _ => rfl, fun _ => rfl, fun _ => rfl, fun _ => rfl, fun _ h => h⟩

/-- Removing, one after the other, distinct live peers of a consistent swarm. -/
theorem foldl_remove_spec {n : Nat} (step : tr_swarm → tr_peer → tr_swarm)
    (hstep : ∀ s P, swarmInv n s → P ∈ s.peers →
      swarmInv n (step s P) ∧ poolStep n s.pool (step s P).pool
        ∧ (step s P).peers = s.peers.eraseP (fun p => p.ptr == P.ptr))
    (l : List tr_peer) (hnd : (l.map (fun P => P.ptr)).Nodup) (s : tr_swarm)
    (h : swarmInv n s) (hl : ∀ Q ∈ l, Q ∈ s.peers) :
    swarmInv n (l.foldl step s) ∧ poolStep n s.pool (l.foldl step s).pool := by
  induction l generalizing s with
  | nil => exact ⟨h, poolStep_refl n _⟩
  | cons P Ps ih =>
    rw [List.map_cons, List.nodup_cons] at hnd
    obtain ⟨h1, h2, h3⟩ := hstep s P h (hl P (List.mem_cons_self _ _))
    have hl2 : ∀ Q ∈ Ps, Q ∈ (step s P).peers := by
      intro Q hQ
      rw [h3]
      have hne : ¬ ((fun p : tr_peer => p.ptr == P.ptr) Q = true) := by
        intro e
        have e2 : Q.ptr = P.ptr := by simpa using e
        exact hnd.1 (List.mem_map.mpr ⟨Q, hQ, e2⟩)
      exact (List.mem_eraseP_of_neg (p := fun p : tr_peer => p.ptr == P.ptr) (a := Q) hne).mpr
        (hl Q (List.mem_cons_of_mem _ hQ))
    obtain ⟨h4, h5⟩ := ih hnd.2 (step s P) h1 hl2
    exact ⟨h4, poolStep_trans h2 h5 (le_refl n)⟩

theorem removeAllPeers_spec {n : Nat} {s : tr_swarm} (h : swarmInv n s) (now : Int) :
    swarmInv n (removeAllPeers s now) ∧ poolStep n s.pool (removeAllPeers s now).pool :=
  foldl_remove_spec _ (fun _ P hs hP => removePeer_spec hs P hP now) s.peers h.peer_ptrs s h
    (fun _ hQ => hQ)

theorem closeBadPeers_spec {n : Nat} (uploadIdleLimit : Int → Int → Int) {tor : tr_torrent}
    (h : swarmInv n tor.swarm) (now : Int) :
    swarmInv n (closeBadPeers uploadIdleLimit tor now).swarm
      ∧ poolStep n tor.swarm.pool (closeBadPeers uploadIdleLimit tor now).swarm.pool := by
  unfold closeBadPeers getPeersToClose
  exact foldl_remove_spec _ (fun _ P hs hP => closePeer_spec hs P hP now) _
    (h.peer_ptrs.sublist ((List.filter_sublist _).map _)) tor.swarm h
    (fun Q hQ => (List.mem_filter.mp hQ).1)

theorem std_partial_sort_perm {α : Type} (compare : α → α → Int) (l : List α) (middle : Nat) :
    (std_partial_sort compare l middle).Perm l := by
  unfold std_partial_sort
  dsimp only
  rw [List.take_append_drop]
  exact List.perm_insertionSort _ l

theorem enforceTorrentPeerLimit_spec {n : Nat} {tor : tr_torrent} (h : swarmInv n tor.swarm)
    (now : Int) :
    swarmInv n (enforceTorrentPeerLimit tor now).swarm
      ∧ poolStep n tor.swarm.pool (enforceTorrentPeerLimit tor now).swarm.pool := by
  unfold enforceTorrentPeerLimit
  dsimp only
  split
  · exact ⟨h, poolStep_refl n _⟩
  · dsimp only
    rw [← List.foldl_map (fun p : tr_peer × peer_atom => p.1) (fun s P => closePeer s P now)]
    have hperm := std_partial_sort_perm ComparePeerByActivity_compare
      (tor.swarm.peers.map (fun p => (p, atomAt tor.swarm.pool p.atom))) tor.maxConnectedPeers
    have hperm2 : ((std_partial_sort ComparePeerByActivity_compare
        (tor.swarm.peers.map (fun p => (p, atomAt tor.swarm.pool p.atom)))
        tor.maxConnectedPeers).map (fun p => p.1)).Perm tor.swarm.peers := by
      have := hperm.map (fun p : tr_peer × peer_atom => p.1)
      rw [List.map_map] at this
      have hid : ((fun p : tr_peer × peer_atom => p.1) ∘
          fun p => (p, atomAt tor.swarm.pool p.atom)) = id := rfl
      rw [hid, List.map_id] at this
      exact this
    have hsub := ((List.drop_sublist tor.maxConnectedPeers
      (std_partial_sort ComparePeerByActivity_compare
        (tor.swarm.peers.map (fun p => (p, atomAt tor.swarm.pool p.atom)))
        tor.maxConnectedPeers)).map (fun p => p.1))
    apply foldl_remove_spec _ (fun _ P hs hP => closePeer_spec hs P hP now) _ _ tor.swarm h
    · intro Q hQ
      exact hperm2.mem_iff.mp (hsub.subset hQ)
    · exact (((hperm2.map (fun P => P.ptr)).nodup_iff).mpr h.peer_ptrs).sublist (hsub.map _)

theorem keepsLinks_banned :
    keepsLinks (fun a : peer_atom => { a with flags2 := a.flags2 ||| MyflagBanned }) :=
  ⟨fun _ => rfl, fun _ => rfl, fun _ => rfl, fun _ => rfl,
   fun a _ => (banned_iff _).mp (banned_or_banned a.flags2)⟩

theorem or_keeps_banned (x y : Nat) (h : x % 2 = 1) : (x ||| y) % 2 = 1 :=
  Nat.or_mod_two_eq_one.mpr (Or.inl h)

theorem and_keeps_banned (x : Nat) (h : x % 2 = 1) : (x &&& (255 - MyflagUnreachable)) % 2 = 1 :=
  Nat.and_mod_two_eq_one.mpr ⟨h, by decide⟩

theorem gotBadPiece_peers_pool {n : Nat} (pieceIndex : Nat) (peers : List tr_peer)
    (pool : List peer_atom) (live : List tr_peer) (stats : tr_swarm_stats)
    (h : poolInv n pool live stats) :
    poolInv n (gotBadPiece_peers pieceIndex pool peers).1 live stats
      ∧ poolStep n pool (gotBadPiece_peers pieceIndex pool peers).1 := by
  induction peers generalizing pool with
  | nil => exact ⟨h, poolStep_refl n _⟩
  | cons P Ps ih =>
    unfold gotBadPiece_peers
    by_cases hb : P.blame.contains pieceIndex = true
    · simp only [hb, if_true]
      have h1 : poolInv n (addStrike pool P).1 live stats
          ∧ poolStep n pool (addStrike pool P).1 := by
        rw [addStrike_pool]
        split
        · exact ⟨poolInv_atomUpdate h _ _ keepsLinks_banned,
            poolStep_atomUpdate n _ _ _ keepsLinks_banned⟩
        · exact ⟨h, poolStep_refl n _⟩
      obtain ⟨h2, h3⟩ := ih (addStrike pool P).1 h1.1
      exact ⟨h2, poolStep_trans h1.2 h3 (le_refl n)⟩
    · simp only [hb, Bool.false_eq_true, if_false]
      exact ih pool h

theorem tr_peerMgrGotBadPiece_spec {n : Nat} {s : tr_swarm} (h : swarmInv n s)
    (pieceIndex : Nat) :
    swarmInv n (tr_peerMgrGotBadPiece s pieceIndex)
      ∧ poolStep n s.pool (tr_peerMgrGotBadPiece s pieceIndex).pool := by
  have hp := gotBadPiece_peers_pool pieceIndex s.peers s.pool s.peers s.stats h
  refine ⟨?_, hp.2⟩
  show poolInv n (gotBadPiece_peers pieceIndex s.pool s.peers).1
    (gotBadPiece_peers pieceIndex s.pool s.peers).2 s.stats
  rw [gotBadPiece_peers_snd]
  apply poolInv_map_peers hp.1
  intro P
  split
  · rw [addStrike_peer]
    exact ⟨rfl, rfl⟩
  · exact ⟨rfl, rfl⟩

/-- A pool that lost atoms without a live peer is still consistent. -/
theorem poolInv_subperm {n : Nat} {pool pool' : List peer_atom} {peers : List tr_peer}
    {stats : tr_swarm_stats} (h : poolInv n pool peers stats) (hsub : pool'.Subperm pool)
    (hkeep : ∀ A ∈ pool, A.peer ≠ none → A ∈ pool') : poolInv n pool' peers stats := by
  obtain ⟨l, hperm, hsubl⟩ := hsub
  have hmem : ∀ A ∈ pool', A ∈ pool := fun A hA => hsubl.subset (hperm.mem_iff.mpr hA)
  refine
    { atom_ptrs := ((hperm.map _).nodup_iff).mp (h.atom_ptrs.sublist (hsubl.map _))
      atom_addrs := ((hperm.map _).nodup_iff).mp (h.atom_addrs.sublist (hsubl.map _))
      peer_ptrs := h.peer_ptrs
      peer_atom := ?_
      atom_peer := fun A hA p hp => h.atom_peer A (hmem A hA) p hp
      atom_from := fun A hA => h.atom_from A (hmem A hA)
      from_length := h.from_length
      count := h.count
      from_sum := h.from_sum
      atom_bound := fun A hA => h.atom_bound A (hmem A hA)
      peer_bound := h.peer_bound }
  intro P hP
  obtain ⟨A, hA, h1, h2⟩ := h.peer_atom P hP
  refine ⟨A, hkeep A hA ?_, h1, h2⟩
  rw [h2]
  exact Option.some_ne_none _

theorem atomPulse_torrent_spec {n : Nat} (incomingHandshakes : List tr_handshake) (tr_now : Int)
    {tor : tr_torrent} (h : swarmInv n tor.swarm) :
    (atomPulse_torrent incomingHandshakes tr_now tor).hash = tor.hash
      ∧ swarmInv n (atomPulse_torrent incomingHandshakes tr_now tor).swarm
      ∧ poolStep n tor.swarm.pool (atomPulse_torrent incomingHandshakes tr_now tor).swarm.pool := by
  unfold atomPulse_torrent
  dsimp only
  split
  · have hsp : ∀ k : Nat, (tor.swarm.pool.filter (fun atom =>
          peerIsInUse incomingHandshakes tor.swarm atom) ++
        (qsort (compareAtomPtrsByShelfDate tr_now) (tor.swarm.pool.filter (fun atom =>
          !peerIsInUse incomingHandshakes tor.swarm atom))).take k).Subperm tor.swarm.pool := by
      intro k
      have h1 : ((qsort (compareAtomPtrsByShelfDate tr_now) (tor.swarm.pool.filter (fun atom =>
          !peerIsInUse incomingHandshakes tor.swarm atom))).take k).Subperm
          (tor.swarm.pool.filter (fun atom => !peerIsInUse incomingHandshakes tor.swarm atom)) :=
        (List.take_sublist _ _).subperm.trans (List.perm_insertionSort _ _).subperm
      exact ((List.subperm_append_left _).mpr h1).trans
        (List.filter_append_perm (fun atom => peerIsInUse incomingHandshakes tor.swarm atom)
          tor.swarm.pool).subperm
    have hkeep : ∀ A ∈ tor.swarm.pool, A.peer ≠ none →
        A ∈ tor.swarm.pool.filter (fun atom => peerIsInUse incomingHandshakes tor.swarm atom) := by
      intro A hA hp
      refine List.mem_filter.mpr ⟨hA, ?_⟩
      unfold peerIsInUse
      cases hpe : A.peer with
      | none => exact absurd hpe hp
      | some p => simp
    refine ⟨rfl, ?_, ?_⟩
    · show poolInv n _ _ _
      dsimp only
      split
      · refine poolInv_subperm h ((List.perm_insertionSort _ _).subperm.trans (hsp _)) ?_
        intro A hA hp
        exact (mem_qsort _ _ _).mpr (List.mem_append_left _ (hkeep A hA hp))
      · refine poolInv_subperm h ((List.perm_insertionSort _ _).subperm.trans
          (List.filter_sublist _).subperm) ?_
        intro A hA hp
        exact (mem_qsort _ _ _).mpr (hkeep A hA hp)
    · apply poolStep_subset
      intro B hB
      dsimp only at hB
      have hB2 := (mem_qsort _ _ _).mp hB
      split at hB2
      · exact (hsp _).subset hB2
      · exact (List.mem_filter.mp hB2).1
  · exact ⟨rfl, h, poolStep_refl n _⟩

theorem atomAt_mem {pool : List peer_atom} {q : Nat} (h : ∃ A ∈ pool, A.ptr = q) :
    atomAt pool q ∈ pool ∧ (atomAt pool q).ptr = q := by
  unfold atomAt
  cases hf : pool.find? (fun a => a.ptr == q) with
  | none =>
    obtain ⟨A, hA, hq⟩ := h
    have := List.find?_eq_none.mp hf A hA
    simp [hq] at this
  | some B =>
    refine ⟨List.mem_of_find?_eq_some hf, ?_⟩
    have := List.find?_some hf
    simpa using this

theorem poolChain_atomUpdate {n m : Nat} {pool0 pool : List peer_atom} {peers : List tr_peer}
    {stats : tr_swarm_stats} {q : Nat} (h : poolChain n m pool0 peers stats q pool) (hnm : n ≤ m)
    (p : Nat) (f : peer_atom → peer_atom) (hf : keepsLinks f) :
    poolChain n m pool0 peers stats q (atomUpdate pool p f) :=
  ⟨poolInv_atomUpdate h.1 p f hf, poolStep_trans h.2.1 (poolStep_atomUpdate m _ _ _ hf) hnm,
   (atomUpdate_mem_ptr _ _ _ hf.ptr q).mpr h.2.2⟩

theorem poolChain_ite {n m : Nat} {pool0 pool : List peer_atom} {peers : List tr_peer}
    {stats : tr_swarm_stats} {q : Nat} (h : poolChain n m pool0 peers stats q pool) (hnm : n ≤ m)
    (c : Prop) [Decidable c] (p : Nat) (f : peer_atom → peer_atom) (hf : keepsLinks f) :
    poolChain n m pool0 peers stats q (if c then atomUpdate pool p f else pool) := by
  split
  · exact poolChain_atomUpdate h hnm p f hf
  · exact h

theorem keepsLinks_unreachable :
    keepsLinks (fun a : peer_atom => { a with flags2 := a.flags2 ||| MyflagUnreachable }) :=
  ⟨fun _ => rfl, fun _ => rfl, fun _ => rfl, fun _ => rfl, fun _ h => or_keeps_banned _ _ h⟩

theorem keepsLinks_connectable :
    keepsLinks (fun a : peer_atom =>
      { a with flags := a.flags ||| ADDED_F_CONNECTABLE,
               flags2 := a.flags2 &&& (255 - MyflagUnreachable) }) :=
  ⟨fun _ => rfl, fun _ => rfl, fun _ => rfl, fun _ => rfl, fun _ h => and_keeps_banned _ h⟩

/-- A handshake that failed, or that came in for a stopped swarm: only the atom
of the address is marked. -/
theorem on_handshake_done_swarm_failed {n : Nat} {tor : tr_torrent} (h : swarmInv n tor.swarm)
    (result : tr_handshake_result) (now jitter : Int) (client : tr_quark) (a p : Nat)
    (hfail : (!result.isConnected || !tor.swarm.isRunning) = true) (r : tr_swarm × Bool)
    (hr : r = on_handshake_done_swarm tor result now jitter client a p) :
    swarmInv n r.1 ∧ poolStep n tor.swarm.pool r.1.pool ∧ r.1.peers = tor.swarm.peers
      ∧ r.2 = false ∧ r.1.isRunning = tor.swarm.isRunning := by
  unfold on_handshake_done_swarm at hr
  lift_lets at hr
  extract_lets io ok s outgoing s0 addr port at hr
  have e1 : s0.pool = tor.swarm.pool := by
    show (if _ then _ else _ : tr_swarm).pool = _
    split <;> rfl
  have e2 : s0.peers = tor.swarm.peers := by
    show (if _ then _ else _ : tr_swarm).peers = _
    split <;> rfl
  have e3 : s0.stats = tor.swarm.stats := by
    show (if _ then _ else _ : tr_swarm).stats = _
    split <;> rfl
  have e4 : s0.isRunning = tor.swarm.isRunning := by
    show (if _ then _ else _ : tr_swarm).isRunning = _
    split <;> rfl
  have h0 : swarmInv n s0 := by
    unfold swarmInv
    rw [e1, e2, e3]
    exact h
  rw [← e1, ← e2, ← e4]
  rw [← e4] at hfail
  clear_value s0
  rw [if_pos hfail] at hr
  split at hr
  · lift_lets at hr
    extract_lets pool1 pool2 at hr
    rename_i A hA
    have hA2 := getExistingAtom_some hA
    have c0 : poolChain n n s0.pool s0.peers s0.stats A.ptr s0.pool :=
      ⟨h0, poolStep_refl n _, ⟨A, hA2.1, rfl⟩⟩
    have c1 : poolChain n n s0.pool s0.peers s0.stats A.ptr pool1 :=
      poolChain_atomUpdate c0 (le_refl n) _ _
        ⟨fun _ => rfl, fun _ => rfl, fun _ => rfl, fun _ => rfl, fun _ h => h⟩
    have c2 : poolChain n n s0.pool s0.peers s0.stats A.ptr pool2 :=
      poolChain_ite c1 (le_refl n) _ _ _ keepsLinks_unreachable
    rw [hr]
    exact ⟨c2.1, c2.2.1, rfl, rfl, rfl⟩
  · rw [hr]
    exact ⟨h0, poolStep_refl n _, rfl, rfl, rfl⟩

theorem on_handshake_done_swarm_spec {n : Nat} {tor : tr_torrent} (h : swarmInv n tor.swarm)
    (result : tr_handshake_result) (now jitter : Int) (client : tr_quark) (a p : Nat)
    (ha : n ≤ a) (hp : a < p) (r : tr_swarm × Bool)
    (hr : r = on_handshake_done_swarm tor result now jitter client a p) :
    swarmInv (p + 1) r.1 ∧ poolStep n tor.swarm.pool r.1.pool := by
  by_cases hfail : (!result.isConnected || !tor.swarm.isRunning) = true
  · have := on_handshake_done_swarm_failed h result now jitter client a p hfail r hr
    exact ⟨poolInv_mono this.1 (by omega), this.2.1⟩
  unfold on_handshake_done_swarm at hr
  lift_lets at hr
  extract_lets io ok s outgoing s0 addr port at hr
  have e1 : s0.pool = tor.swarm.pool := by
    show (if _ then _ else _ : tr_swarm).pool = _
    split <;> rfl
  have e2 : s0.peers = tor.swarm.peers := by
    show (if _ then _ else _ : tr_swarm).peers = _
    split <;> rfl
  have e3 : s0.stats = tor.swarm.stats := by
    show (if _ then _ else _ : tr_swarm).stats = _
    split <;> rfl
  have e4 : s0.isRunning = tor.swarm.isRunning := by
    show (if _ then _ else _ : tr_swarm).isRunning = _
    split <;> rfl
  have h0 : swarmInv n s0 := by
    unfold swarmInv
    rw [e1, e2, e3]
    exact h
  rw [← e1]
  rw [← e4] at hfail
  clear_value s0
  rw [if_neg hfail] at hr
  split at hr
  rename_i s1 atom hE
  lift_lets at hr
  extract_lets pool1 pool2 pool3 s2 at hr
  have hspec := ensureAtomExists_spec h0 addr port 0 TR_PEER_FROM_INCOMING now jitter a ha
    (by decide)
  simp only [hE] at hspec
  obtain ⟨hs1, hstep, hpeers, hstats, -, -, hex, -⟩ := hspec
  have hap : a + 1 ≤ p + 1 := by omega
  have hna : n ≤ a + 1 := by omega
  have c0 : poolChain n (a + 1) s0.pool s1.peers s1.stats atom s1.pool :=
    ⟨hs1, hstep, ⟨hex.choose, hex.choose_spec.1, hex.choose_spec.2.1⟩⟩
  have c1 : poolChain n (a + 1) s0.pool s1.peers s1.stats atom pool1 :=
    poolChain_atomUpdate c0 hna _ _
      ⟨fun _ => rfl, fun _ => rfl, fun _ => rfl, fun _ => rfl, fun _ h => h⟩
  have c2 : poolChain n (a + 1) s0.pool s1.peers s1.stats atom pool2 :=
    poolChain_ite c1 hna _ _ _ keepsLinks_connectable
  have c3 : poolChain n (a + 1) s0.pool s1.peers s1.stats atom pool3 :=
    poolChain_ite c2 hna _ _ _
      ⟨fun _ => rfl, fun _ => rfl, fun _ => rfl, fun _ => rfl, fun _ h => h⟩
  have hs2 : swarmInv (a + 1) s2 := c3.1
  have hs2p : poolStep n s0.pool s2.pool := c3.2.1
  split at hr
  · rw [hr]
    exact ⟨poolInv_mono hs2 hap, hs2p⟩
  · split at hr
    · rw [hr]
      exact ⟨poolInv_mono hs2 hap, hs2p⟩
    · split at hr
      · rw [hr]
        exact ⟨poolInv_mono hs2 hap, hs2p⟩
      · rename_i hnone
        have hmem : atomAt s2.pool atom ∈ s2.pool ∧ (atomAt s2.pool atom).ptr = atom :=
          atomAt_mem c3.2.2
        have hnone2 : (atomAt s2.pool atom).peer = none := not_not.mp hnone
        have hc := swarmInv_createBitTorrentPeer (m := p + 1) hs2 (atomAt s2.pool atom) hmem.1
          hnone2 client p (by omega) (Nat.lt_succ_self p)
        rw [hmem.2] at hc
        rw [hr]
        refine ⟨hc, poolStep_trans hs2p ?_ hna⟩
        exact poolStep_peer (a + 1) _ _ _

/-- A write to the atoms and a write to the peers that keep the links. -/
theorem swarm_frame {n : Nat} {s s' : tr_swarm} (h : swarmInv n s) (g : peer_atom → peer_atom)
    (k : tr_peer → tr_peer) (hpool : s'.pool = s.pool.map g) (hpeers : s'.peers = s.peers.map k)
    (hstats : s'.stats = s.stats) (hg : keepsLinks g)
    (hk : ∀ P, (k P).ptr = P.ptr ∧ (k P).atom = P.atom) :
    swarmInv n s' ∧ poolStep n s.pool s'.pool := by
  unfold swarmInv
  rw [hpool, hpeers, hstats]
  exact ⟨poolInv_map_peers (poolInv_map_pool h g hg) k hk, poolStep_map n _ g hg⟩

theorem keepsLinks_id : keepsLinks (fun a => a) :=
  ⟨fun _ => rfl, fun _ => rfl, fun _ => rfl, fun _ => rfl, fun _ h => h⟩

theorem swarm_frame_pool {n : Nat} {s s' : tr_swarm} (h : swarmInv n s) (q : Nat)
    (f : peer_atom → peer_atom) (hpool : s'.pool = atomUpdate s.pool q f)
    (hpeers : s'.peers = s.peers) (hstats : s'.stats = s.stats) (hf : keepsLinks f) :
    swarmInv n s' ∧ poolStep n s.pool s'.pool :=
  swarm_frame h _ (fun P => P) hpool (by rw [hpeers, List.map_id']) hstats
    (keepsLinks_if q f hf) (fun _ => ⟨rfl, rfl⟩)

theorem swarm_frame_peers {n : Nat} {s s' : tr_swarm} (h : swarmInv n s)
    (k : tr_peer → tr_peer) (hpool : s'.pool = s.pool) (hpeers : s'.peers = s.peers.map k)
    (hstats : s'.stats = s.stats) (hk : ∀ P, (k P).ptr = P.ptr ∧ (k P).atom = P.atom) :
    swarmInv n s' ∧ poolStep n s.pool s'.pool :=
  swarm_frame h (fun a => a) k (by rw [hpool, List.map_id']) hpeers hstats keepsLinks_id hk

theorem swarm_frame_same {n : Nat} {s s' : tr_swarm} (h : swarmInv n s)
    (hpool : s'.pool = s.pool) (hpeers : s'.peers = s.peers)
    (hstats : s'.stats = s.stats) : swarmInv n s' ∧ poolStep n s.pool s'.pool :=
  swarm_frame_peers h (fun P => P) hpool (by rw [hpeers, List.map_id']) hstats
    (fun _ => ⟨rfl, rfl⟩)

theorem peer_ite_keeps (q : Nat) (k : tr_peer → tr_peer)
    (hk : ∀ P, (k P).ptr = P.ptr ∧ (k P).atom = P.atom) (P : tr_peer) :
    (if P.ptr = q then k P else P).ptr = P.ptr ∧ (if P.ptr = q then k P else P).atom = P.atom := by
  split
  · exact hk P
  · exact ⟨rfl, rfl⟩

theorem peerCallbackFunc_spec {n : Nat} {s : tr_swarm} (h : swarmInv n s) (P : tr_peer)
    (e : tr_peer_event) (now : Int) :
    swarmInv n (peerCallbackFunc s P e now) ∧ poolStep n s.pool (peerCallbackFunc s P e now).pool := by
  cases e with
  | TR_PEER_PEER_GOT_PIECE_DATA =>
    exact swarm_frame_pool h P.atom _ rfl rfl rfl
      ⟨fun _ => rfl, fun _ => rfl, fun _ => rfl, fun _ => rfl, fun _ h => h⟩
  | TR_PEER_CLIENT_GOT_PIECE_DATA =>
    exact swarm_frame_pool h P.atom _ rfl rfl rfl
      ⟨fun _ => rfl, fun _ => rfl, fun _ => rfl, fun _ => rfl, fun _ h => h⟩
  | TR_PEER_CLIENT_GOT_PORT port =>
    exact swarm_frame_pool h P.atom _ rfl rfl rfl
      ⟨fun _ => rfl, fun _ => rfl, fun _ => rfl, fun _ => rfl, fun _ h => h⟩
  | TR_PEER_ERROR isProtocolError =>
    cases isProtocolError with
    | true =>
      exact swarm_frame_peers h _ rfl rfl rfl
        (peer_ite_keeps P.ptr (fun p => { p with doPurge := true }) (fun _ => ⟨rfl, rfl⟩))
    | false => exact ⟨h, poolStep_refl n _⟩

theorem tr_peerUpdateProgress_spec {n : Nat} {s : tr_swarm} (h : swarmInv n s) (P : tr_peer)
    (progress : Rat) :
    swarmInv n (tr_peerUpdateProgress s P progress)
      ∧ poolStep n s.pool (tr_peerUpdateProgress s P progress).pool := by
  unfold tr_peerUpdateProgress
  dsimp only
  split
  · exact swarm_frame h _ _ rfl rfl rfl
      (keepsLinks_if P.atom _ ⟨fun _ => rfl, fun _ => rfl, fun _ => rfl, fun _ => rfl, fun _ h => h⟩)
      (peer_ite_keeps P.ptr (fun p => { p with progress := max 0 (min progress 1) })
        (fun _ => ⟨rfl, rfl⟩))
  · exact swarm_frame_peers h _ rfl rfl rfl
      (peer_ite_keeps P.ptr (fun p => { p with progress := max 0 (min progress 1) })
        (fun _ => ⟨rfl, rfl⟩))

theorem tr_peerMgrSetUtpSupported_spec {n : Nat} {s : tr_swarm} (h : swarmInv n s)
    (addr : tr_address) :
    swarmInv n (tr_peerMgrSetUtpSupported s addr)
      ∧ poolStep n s.pool (tr_peerMgrSetUtpSupported s addr).pool := by
  unfold tr_peerMgrSetUtpSupported
  split
  · exact swarm_frame_pool h _ _ rfl rfl rfl
      ⟨fun _ => rfl, fun _ => rfl, fun _ => rfl, fun _ => rfl, fun _ h => h⟩
  · exact ⟨h, poolStep_refl n _⟩

theorem tr_peerMgrSetUtpFailed_spec {n : Nat} {s : tr_swarm} (h : swarmInv n s)
    (addr : tr_address) (failed : Bool) :
    swarmInv n (tr_peerMgrSetUtpFailed s addr failed)
      ∧ poolStep n s.pool (tr_peerMgrSetUtpFailed s addr failed).pool := by
  unfold tr_peerMgrSetUtpFailed
  split
  · exact swarm_frame_pool h _ _ rfl rfl rfl
      ⟨fun _ => rfl, fun _ => rfl, fun _ => rfl, fun _ => rfl, fun _ h => h⟩
  · exact ⟨h, poolStep_refl n _⟩

theorem tr_peerMgrSetSwarmIsAllSeeds_spec {n : Nat} {s : tr_swarm} (h : swarmInv n s) :
    swarmInv n (tr_peerMgrSetSwarmIsAllSeeds s)
      ∧ poolStep n s.pool (tr_peerMgrSetSwarmIsAllSeeds s).pool :=
  swarm_frame h _ (fun P => P) rfl (List.map_id' _).symm rfl
    ⟨fun _ => rfl, fun _ => rfl, fun _ => rfl, fun _ => rfl, fun _ h => h⟩ (fun _ => ⟨rfl, rfl⟩)

theorem pool_frame_trans {n : Nat} {pool0 pool : List peer_atom} {peers : List tr_peer}
    {stats : tr_swarm_stats} (h : poolInv n pool peers stats ∧ poolStep n pool0 pool) (q : Nat)
    (f : peer_atom → peer_atom) (hf : keepsLinks f) :
    poolInv n (atomUpdate pool q f) peers stats ∧ poolStep n pool0 (atomUpdate pool q f) :=
  ⟨poolInv_atomUpdate h.1 q f hf,
   poolStep_trans h.2 (poolStep_atomUpdate n _ _ _ hf) (le_refl n)⟩

theorem initiateConnection_spec {n : Nat} (isUTPEnabled : Bool) {tor : tr_torrent}
    (h : swarmInv n tor.swarm) (atom : Nat) (now : Int) (io_created : Bool) (ptr : Nat) :
    swarmInv n (initiateConnection isUTPEnabled tor atom now io_created ptr)
      ∧ poolStep n tor.swarm.pool
          (initiateConnection isUTPEnabled tor atom now io_created ptr).pool := by
  unfold initiateConnection
  dsimp only
  cases io_created with
  | true =>
    exact swarm_frame_pool h atom _ rfl rfl rfl
      ⟨fun _ => rfl, fun _ => rfl, fun _ => rfl, fun _ => rfl, fun _ h => h⟩
  | false =>
    exact pool_frame_trans
      (pool_frame_trans ⟨h, poolStep_refl n _⟩ atom
        (fun a => { a with flags2 := a.flags2 ||| MyflagUnreachable,
                           numFails := (a.numFails + 1) % 65536 })
        ⟨fun _ => rfl, fun _ => rfl, fun _ => rfl, fun _ => rfl,
         fun _ h => or_keeps_banned _ _ h⟩)
      atom (fun a => { a with lastConnectionAttemptAt := now, time := now })
      ⟨fun _ => rfl, fun _ => rfl, fun _ => rfl, fun _ => rfl, fun _ h => h⟩

theorem tr_peerMgrAddPex_spec {n : Nat} (src : Nat) (hsrc : src < TR_PEER_FROM__MAX) (now : Int)
    (pex : List tr_pex) (jitter : Int) (ptr : Nat) (s : tr_swarm) (h : swarmInv n s)
    (hfresh : n ≤ ptr) :
    swarmInv (ptr + pex.length) (tr_peerMgrAddPex s src now pex jitter ptr)
      ∧ poolStep n s.pool (tr_peerMgrAddPex s src now pex jitter ptr).pool := by
  induction pex generalizing s n ptr with
  | nil => exact ⟨poolInv_mono h hfresh, poolStep_refl n _⟩
  | cons x xs ih =>
    unfold tr_peerMgrAddPex
    have hspec := ensureAtomExists_spec h x.addr x.port x.flags src now jitter ptr hfresh hsrc
    obtain ⟨h1, h2, -⟩ := hspec
    obtain ⟨h3, h4⟩ := ih (ptr + 1) _ h1 (le_refl _)
    refine ⟨?_, poolStep_trans h2 h4 (by omega)⟩
    have e : ptr + (x :: xs).length = ptr + 1 + xs.length := by
      rw [List.length_cons]
      omega
    rw [e]
    exact h3

theorem stopSwarm_spec {n : Nat} {tor : tr_torrent} (h : swarmInv n tor.swarm) (now : Int)
    (readAnythingFromPeer : Bool) :
    swarmInv n (stopSwarm tor now readAnythingFromPeer)
      ∧ poolStep n tor.swarm.pool (stopSwarm tor now readAnythingFromPeer).pool := by
  unfold stopSwarm
  dsimp only
  have h0 : swarmInv n { tor.swarm with isRunning := false } := h
  have h1 := removeAllPeers_spec h0 now
  have key : ∀ (l : List tr_handshake) (s : tr_swarm), swarmInv n s →
      swarmInv n (l.foldl (fun s handshake =>
        (on_handshake_done_swarm { tor with swarm := s }
          { handshake := handshake, isConnected := false,
            readAnythingFromPeer := readAnythingFromPeer } now 0 0 0 0).1) s)
      ∧ poolStep n s.pool (l.foldl (fun s handshake =>
        (on_handshake_done_swarm { tor with swarm := s }
          { handshake := handshake, isConnected := false,
            readAnythingFromPeer := readAnythingFromPeer } now 0 0 0 0).1) s).pool := by
    intro l
    induction l with
    | nil => exact fun s hs => ⟨hs, poolStep_refl n _⟩
    | cons x xs ih =>
      intro s hs
      have hf := @on_handshake_done_swarm_failed n { tor with swarm := s } hs
        { handshake := x, isConnected := false, readAnythingFromPeer := readAnythingFromPeer }
        now 0 0 0 0 rfl _ rfl
      obtain ⟨h2, h3⟩ := ih _ hf.1
      exact ⟨h2, poolStep_trans hf.2.1 h3 (le_refl n)⟩
  obtain ⟨h2, h3⟩ := key _ _ h1.1
  exact ⟨h2, poolStep_trans h1.2 h3 (le_refl n)⟩

/-! ## The peer manager as a whole -/

theorem torStep_refl {n m : Nat} {t : tr_torrent} (h : swarmInv n t.swarm) (hnm : n ≤ m) :
    torStep n m t t :=
  ⟨rfl, poolInv_mono h hnm, poolStep_refl n _⟩

theorem torStep_trans {n m k : Nat} {t1 t2 t3 : tr_torrent} (h12 : torStep n m t1 t2)
    (h23 : torStep m k t2 t3) (hnm : n ≤ m) : torStep n k t1 t3 :=
  ⟨h23.1.trans h12.1, h23.2.1, poolStep_trans h12.2.2 h23.2.2 hnm⟩

theorem forall2_comp {α : Type} {R S T : α → α → Prop} (hT : ∀ a b c, R a b → S b c → T a c) :
    ∀ {l1 l2 l3 : List α}, List.Forall₂ R l1 l2 → List.Forall₂ S l2 l3 → List.Forall₂ T l1 l3
  | [], _, _, List.Forall₂.nil, h => by
    cases h
    exact List.Forall₂.nil
  | _ :: _, _, _, List.Forall₂.cons hab h12, h => by
    cases h with
    | cons hbc h23 => exact List.Forall₂.cons (hT _ _ _ hab hbc) (forall2_comp hT h12 h23)

theorem forall2_right_mem {α : Type} {R : α → α → Prop} {l1 l2 : List α}
    (h : List.Forall₂ R l1 l2) {b : α} (hb : b ∈ l2) : ∃ a ∈ l1, R a b := by
  induction h with
  | nil => cases hb
  | cons hab _ ih =>
    rcases List.mem_cons.mp hb with rfl | hb
    · exact ⟨_, List.mem_cons_self _ _, hab⟩
    · obtain ⟨a, ha, hr⟩ := ih hb
      exact ⟨a, List.mem_cons_of_mem _ ha, hr⟩

theorem forall2_getElem {α : Type} {R : α → α → Prop} {l1 l2 : List α}
    (h : List.Forall₂ R l1 l2) (i : Nat) {b : α} (hb : l2[i]? = some b) :
    ∃ a, l1[i]? = some a ∧ R a b := by
  induction h generalizing i with
  | nil => simp at hb
  | cons hab _ ih =>
    cases i with
    | zero =>
      simp only [List.getElem?_cons_zero, Option.some.injEq] at hb
      subst hb
      exact ⟨_, by simp, hab⟩
    | succ j =>
      simp only [List.getElem?_cons_succ] at hb ⊢
      exact ih j hb

theorem forall2_map_self {α : Type} {R : α → α → Prop} (g : α → α) (l : List α)
    (h : ∀ t ∈ l, R t (g t)) : List.Forall₂ R l (l.map g) := by
  induction l with
  | nil => exact List.Forall₂.nil
  | cons t ts ih =>
    exact List.Forall₂.cons (h t (List.mem_cons_self _ _))
      (ih (fun u hu => h u (List.mem_cons_of_mem _ hu)))

theorem forall2_modify {α : Type} {R : α → α → Prop} (f : α → α) (l : List α) (i : Nat)
    (hrefl : ∀ t ∈ l, R t t) (hf : ∀ t, l[i]? = some t → R t (f t)) :
    List.Forall₂ R l (l.modify f i) := by
  induction l generalizing i with
  | nil => cases i <;> exact List.Forall₂.nil
  | cons t ts ih =>
    cases i with
    | zero =>
      rw [List.modify_zero_cons]
      exact List.Forall₂.cons (hf t (by simp))
        (List.forall₂_same.mpr (fun u hu => hrefl u (List.mem_cons_of_mem _ hu)))
    | succ j =>
      rw [List.modify_succ_cons]
      exact List.Forall₂.cons (hrefl t (List.mem_cons_self _ _))
        (ih j (fun u hu => hrefl u (List.mem_cons_of_mem _ hu))
          (fun u hu => hf u (by simpa using hu)))

theorem forall2_swarmModify {R : tr_torrent → tr_torrent → Prop} (torrents : List tr_torrent)
    (hash : Nat) (f : tr_torrent → tr_swarm) (hrefl : ∀ t ∈ torrents, R t t)
    (hf : ∀ t, torrents.find? (fun t => t.hash == hash) = some t → R t { t with swarm := f t }) :
    List.Forall₂ R torrents (swarmModify torrents hash f) := by
  induction torrents with
  | nil => exact List.Forall₂.nil
  | cons t ts ih =>
    unfold swarmModify
    by_cases e : t.hash = hash
    · rw [if_pos e]
      refine List.Forall₂.cons (hf t ?_)
        (List.forall₂_same.mpr (fun u hu => hrefl u (List.mem_cons_of_mem _ hu)))
      simp [List.find?_cons, e]
    · rw [if_neg e]
      refine List.Forall₂.cons (hrefl t (List.mem_cons_self _ _))
        (ih (fun u hu => hrefl u (List.mem_cons_of_mem _ hu)) ?_)
      intro u hu
      apply hf u
      have : (t.hash == hash) = false := by simpa using e
      rw [List.find?_cons, this]
      exact hu

/-- A call that rewrites the swarm of one torrent. -/
theorem torStep_swarmModify {n m : Nat} (torrents : List tr_torrent) (hash : Nat)
    (f : tr_torrent → tr_swarm) (hinv : ∀ t ∈ torrents, swarmInv n t.swarm) (hnm : n ≤ m)
    (hf : ∀ t, torrents.find? (fun t => t.hash == hash) = some t →
      swarmInv m (f t) ∧ poolStep n t.swarm.pool (f t).pool) :
    List.Forall₂ (torStep n m) torrents (swarmModify torrents hash f) :=
  forall2_swarmModify torrents hash f (fun t ht => torStep_refl (hinv t ht) hnm)
    (fun t ht => ⟨rfl, (hf t ht).1, (hf t ht).2⟩)

theorem torStep_swarmModify_same {n : Nat} (torrents : List tr_torrent) (hash : Nat)
    (f : tr_torrent → tr_swarm) (hinv : ∀ t ∈ torrents, swarmInv n t.swarm)
    (hf : ∀ t, swarmInv n t.swarm → swarmInv n (f t) ∧ poolStep n t.swarm.pool (f t).pool) :
    List.Forall₂ (torStep n n) torrents (swarmModify torrents hash f) :=
  torStep_swarmModify torrents hash f hinv (le_refl n)
    (fun t ht => hf t (hinv t (List.mem_of_find?_eq_some ht)))

/-- Closing, one after the other, distinct live peers spread over the torrents
of a session. -/
theorem foldl_session_close {n : Nat} (now : Int) (l : List (Nat × tr_peer × peer_atom))
    (ts0 ts : List tr_torrent) (h : List.Forall₂ (torStep n n) ts0 ts)
    (hpw : l.Pairwise (fun x y => x.1 = y.1 → x.2.1.ptr ≠ y.2.1.ptr))
    (hl : ∀ x ∈ l, ∃ t, ts[x.1]? = some t ∧ x.2.1 ∈ t.swarm.peers) :
    List.Forall₂ (torStep n n) ts0
      (l.foldl (fun torrents p => torrents.modify
        (fun tor => { tor with swarm := closePeer tor.swarm p.2.1 now }) p.1) ts) := by
  induction l generalizing ts with
  | nil => exact h
  | cons x xs ih =>
    rw [List.foldl_cons]
    rw [List.pairwise_cons] at hpw
    obtain ⟨t, ht, hP⟩ := hl x (List.mem_cons_self _ _)
    have hinv : ∀ u ∈ ts, swarmInv n u.swarm := by
      intro u hu
      obtain ⟨_, _, hr⟩ := forall2_right_mem h hu
      exact hr.2.1
    apply ih
    · refine forall2_comp (R := torStep n n) (S := torStep n n) (T := torStep n n)
        (fun a b c hab hbc => torStep_trans hab hbc (le_refl n)) h
        (forall2_modify (R := torStep n n) _ ts x.1
          (fun u hu => torStep_refl (hinv u hu) (le_refl n)) ?_)
      intro u hu
      rw [ht] at hu
      cases hu
      have hc := closePeer_spec (hinv t (List.getElem?_mem ht)) x.2.1 hP now
      exact ⟨rfl, hc.1, hc.2.1⟩
    · exact hpw.2
    · intro y hy
      obtain ⟨u, hu, hQ⟩ := hl y (List.mem_cons_of_mem _ hy)
      rw [List.getElem?_modify, hu]
      by_cases e : x.1 = y.1
      · refine ⟨{ u with swarm := closePeer u.swarm x.2.1 now }, by simp [e], ?_⟩
        have hut : u = t := by
          rw [e] at ht
          rw [ht] at hu
          exact (Option.some.inj hu).symm
        subst hut
        show y.2.1 ∈ (closePeer u.swarm x.2.1 now).peers
        rw [closePeer_peers]
        have hne : ¬ ((fun p : tr_peer => p.ptr == x.2.1.ptr) y.2.1 = true) := by
          intro e2
          have e3 : y.2.1.ptr = x.2.1.ptr := by simpa using e2
          exact hpw.1 y hy e e3.symm
        exact (List.mem_eraseP_of_neg (p := fun p : tr_peer => p.ptr == x.2.1.ptr) (a := y.2.1)
          hne).mpr hQ
      · exact ⟨u, by simp [e], hQ⟩

theorem session_peers_pairwise (torrents : List tr_torrent)
    (hinv : ∀ t ∈ torrents, (t.swarm.peers.map (fun P => P.ptr)).Nodup) :
    ((torrents.enum.map (fun tor =>
      tor.2.swarm.peers.map (fun p => (tor.1, p, atomAt tor.2.swarm.pool p.atom)))).flatten).Pairwise
      (fun x y => x.1 = y.1 → x.2.1.ptr ≠ y.2.1.ptr) := by
  rw [List.pairwise_flatten]
  constructor
  · intro l hl
    obtain ⟨tor, htor, rfl⟩ := List.mem_map.mp hl
    rw [List.pairwise_map]
    have hnd := hinv tor.2 (List.getElem?_mem (List.mk_mem_enum_iff_getElem?.mp htor))
    have hpw : tor.2.swarm.peers.Pairwise (fun p q => p.ptr ≠ q.ptr) :=
      List.pairwise_map.mp hnd
    refine List.Pairwise.imp ?_ hpw
    intro a b hne _
    exact hne
  · rw [List.pairwise_map]
    have hnd : (torrents.enum.map Prod.fst).Nodup := by
      rw [List.enum_map_fst]
      exact List.nodup_range _
    have hpw : torrents.enum.Pairwise (fun a b => a.1 ≠ b.1) := List.pairwise_map.mp hnd
    refine hpw.imp ?_
    intro a b hab x hx y hy e
    obtain ⟨p, _, rfl⟩ := List.mem_map.mp hx
    obtain ⟨q, _, rfl⟩ := List.mem_map.mp hy
    exact absurd e hab

theorem session_peers_mem (torrents : List tr_torrent) (x : Nat × tr_peer × peer_atom)
    (hx : x ∈ (torrents.enum.map (fun tor =>
      tor.2.swarm.peers.map (fun p => (tor.1, p, atomAt tor.2.swarm.pool p.atom)))).flatten) :
    ∃ t, torrents[x.1]? = some t ∧ x.2.1 ∈ t.swarm.peers := by
  obtain ⟨l, hl, hxl⟩ := List.mem_flatten.mp hx
  obtain ⟨tor, htor, rfl⟩ := List.mem_map.mp hl
  obtain ⟨p, hp, rfl⟩ := List.mem_map.mp hxl
  exact ⟨tor.2, List.mk_mem_enum_iff_getElem?.mp htor, hp⟩

theorem enforceSessionPeerLimit_spec {n : Nat} (torrents : List tr_torrent) (peerLimit : Nat)
    (now : Int) (hinv : ∀ t ∈ torrents, swarmInv n t.swarm) :
    List.Forall₂ (torStep n n) torrents (enforceSessionPeerLimit torrents peerLimit now) := by
  have hrefl : List.Forall₂ (torStep n n) torrents torrents :=
    List.forall₂_same.mpr (fun t ht => torStep_refl (hinv t ht) (le_refl n))
  unfold enforceSessionPeerLimit
  dsimp only
  split
  · exact hrefl
  · have hperm := std_partial_sort_perm
      (fun a b : Nat × tr_peer × peer_atom => ComparePeerByActivity_compare a.2 b.2)
      ((torrents.enum.map (fun tor =>
        tor.2.swarm.peers.map (fun p => (tor.1, p, atomAt tor.2.swarm.pool p.atom)))).flatten)
      peerLimit
    have hsub := List.drop_sublist peerLimit (std_partial_sort
      (fun a b : Nat × tr_peer × peer_atom => ComparePeerByActivity_compare a.2 b.2)
      ((torrents.enum.map (fun tor =>
        tor.2.swarm.peers.map (fun p => (tor.1, p, atomAt tor.2.swarm.pool p.atom)))).flatten)
      peerLimit)
    apply foldl_session_close now _ torrents torrents hrefl
    · refine List.Pairwise.sublist hsub ?_
      refine (hperm.pairwise_iff ?_).mpr
        (session_peers_pairwise torrents (fun t ht => (hinv t ht).peer_ptrs))
      intro x y hxy e
      exact fun e2 => hxy e.symm e2.symm
    · intro x hx
      exact session_peers_mem torrents x (hperm.mem_iff.mp (hsub.subset hx))

theorem mgrInv_refl_step {manager : tr_peerMgr} (h : mgrInv manager) {m : Nat}
    (hm : manager.next_ptr ≤ m) :
    List.Forall₂ (torStep manager.next_ptr m) manager.torrents manager.torrents :=
  List.forall₂_same.mpr (fun t ht => torStep_refl (h t ht) hm)

theorem on_handshake_done_spec {manager : tr_peerMgr} (h : mgrInv manager)
    (result : tr_handshake_result) (now jitter : Int) (client : tr_quark) (r : tr_peerMgr × Bool)
    (hr : r = on_handshake_done manager result now jitter client) :
    manager.next_ptr ≤ r.1.next_ptr
      ∧ List.Forall₂ (torStep manager.next_ptr r.1.next_ptr) manager.torrents r.1.torrents := by
  unfold on_handshake_done at hr
  lift_lets at hr
  extract_lets io s incoming m0 at hr
  have e1 : m0.torrents = manager.torrents := by
    show (if _ then _ else _ : tr_peerMgr).torrents = _
    split <;> rfl
  have e2 : m0.next_ptr = manager.next_ptr := by
    show (if _ then _ else _ : tr_peerMgr).next_ptr = _
    split <;> rfl
  have hsdef : s = (match io.torrentHash with
      | some hash => getExistingSwarm manager hash
      | none => none) := rfl
  clear_value m0 s
  split at hr
  · rw [hr]
    show manager.next_ptr ≤ m0.next_ptr ∧ List.Forall₂ _ _ m0.torrents
    rw [e1, e2]
    exact ⟨le_refl _, mgrInv_refl_step h (le_refl _)⟩
  · rename_i tor
    rw [hr]
    show manager.next_ptr ≤ m0.next_ptr + 2
      ∧ List.Forall₂ (torStep manager.next_ptr (m0.next_ptr + 2)) _ (swarmModify m0.torrents _ _)
    rw [e1, e2]
    refine ⟨by omega, ?_⟩
    have hfind : manager.torrents.find? (fun t => t.hash == tor.hash) = some tor := by
      have : ∃ hash, manager.torrents.find? (fun t => t.hash == hash) = some tor := by
        cases hth : io.torrentHash with
        | none =>
          rw [hth] at hsdef
          cases hsdef
        | some hash =>
          rw [hth] at hsdef
          exact ⟨hash, hsdef.symm⟩
      obtain ⟨hash, hf⟩ := this
      have hh := List.find?_some hf
      have hh2 : tor.hash = hash := by simpa using hh
      rw [hh2]
      exact hf
    apply torStep_swarmModify _ _ _ h (by omega)
    intro t ht
    rw [hfind] at ht
    cases ht
    have := on_handshake_done_swarm_spec (h tor (List.mem_of_find?_eq_some hfind)) result now
      jitter client manager.next_ptr (manager.next_ptr + 1) (le_refl _) (Nat.lt_succ_self _) _ rfl
    exact this

theorem tr_peerMgrAddIncoming_spec {manager : tr_peerMgr} (h : mgrInv manager)
    (addr : tr_address) (port : Nat) (isUtp : Bool) :
    manager.next_ptr ≤ (tr_peerMgrAddIncoming manager addr port isUtp).next_ptr
      ∧ List.Forall₂
          (torStep manager.next_ptr (tr_peerMgrAddIncoming manager addr port isUtp).next_ptr)
          manager.torrents (tr_peerMgrAddIncoming manager addr port isUtp).torrents := by
  unfold tr_peerMgrAddIncoming
  split
  · exact ⟨le_refl _, mgrInv_refl_step h (le_refl _)⟩
  · split
    · exact ⟨le_refl _, mgrInv_refl_step h (le_refl _)⟩
    · exact ⟨Nat.le_succ _, mgrInv_refl_step h (Nat.le_succ _)⟩

/-- Every call into the peer manager leaves each torrent in place, its swarm
consistent and its pool lawfully evolved. -/
theorem peerMgr_step_spec (uploadIdleLimit : Int → Int → Int) {manager : tr_peerMgr}
    (h : mgrInv manager) (c : peerMgr_call) :
    manager.next_ptr ≤ (peerMgr_step uploadIdleLimit manager c).next_ptr
      ∧ List.Forall₂
          (torStep manager.next_ptr (peerMgr_step uploadIdleLimit manager c).next_ptr)
          manager.torrents (peerMgr_step uploadIdleLimit manager c).torrents := by
  have hmem : ∀ {hash : Nat} {t : tr_torrent},
      manager.torrents.find? (fun t => t.hash == hash) = some t → swarmInv manager.next_ptr t.swarm :=
    fun ht => h _ (List.mem_of_find?_eq_some ht)
  cases c with
  | addPex hash src pex now jitter =>
    simp only [peerMgr_step]
    split
    · rename_i hsrc
      refine ⟨Nat.le_add_right _ _, torStep_swarmModify _ _ _ h (Nat.le_add_right _ _) ?_⟩
      intro t ht
      exact tr_peerMgrAddPex_spec src hsrc now pex jitter _ t.swarm (hmem ht) (le_refl _)
    · exact ⟨le_refl _, mgrInv_refl_step h (le_refl _)⟩
  | addIncoming addr port isUtp => exact tr_peerMgrAddIncoming_spec h addr port isUtp
  | handshakeDone ptr torrentHash isConnected readAnythingFromPeer now jitter client =>
    simp only [peerMgr_step]
    split
    · exact on_handshake_done_spec h _ now jitter client _ rfl
    · exact ⟨le_refl _, mgrInv_refl_step h (le_refl _)⟩
  | peerEvent hash peer e now =>
    refine ⟨le_refl _, torStep_swarmModify_same _ _ _ h ?_⟩
    intro t ht
    dsimp only
    split
    · exact peerCallbackFunc_spec ht _ e now
    · exact ⟨ht, poolStep_refl _ _⟩
  | blame hash peer pieceIndex =>
    refine ⟨le_refl _, torStep_swarmModify_same _ _ _ h ?_⟩
    intro t ht
    exact swarm_frame_peers ht _ rfl rfl rfl
      (peer_ite_keeps peer (fun p => { p with blame := pieceIndex :: p.blame })
        (fun _ => ⟨rfl, rfl⟩))
  | updateProgress hash peer progress =>
    refine ⟨le_refl _, torStep_swarmModify_same _ _ _ h ?_⟩
    intro t ht
    dsimp only
    split
    · exact tr_peerUpdateProgress_spec ht _ progress
    · exact ⟨ht, poolStep_refl _ _⟩
  | gotBadPiece hash pieceIndex =>
    exact ⟨le_refl _, torStep_swarmModify_same _ _ _ h
      (fun t ht => tr_peerMgrGotBadPiece_spec ht pieceIndex)⟩
  | startTorrent hash =>
    exact ⟨le_refl _, torStep_swarmModify_same _ _ _ h
      (fun t ht => swarm_frame_same ht rfl rfl rfl)⟩
  | stopTorrent hash now readAnythingFromPeer =>
    exact ⟨le_refl _, torStep_swarmModify_same _ _ _ h
      (fun t ht => stopSwarm_spec ht now readAnythingFromPeer)⟩
  | removeAllPeers hash now =>
    exact ⟨le_refl _, torStep_swarmModify_same _ _ _ h
      (fun t ht => removeAllPeers_spec ht now)⟩
  | closeBadPeers hash now =>
    exact ⟨le_refl _, torStep_swarmModify_same _ _ _ h
      (fun t ht => closeBadPeers_spec uploadIdleLimit ht now)⟩
  | enforceTorrentPeerLimit hash now =>
    exact ⟨le_refl _, torStep_swarmModify_same _ _ _ h
      (fun t ht => enforceTorrentPeerLimit_spec ht now)⟩
  | enforceSessionPeerLimit now =>
    exact ⟨le_refl _, enforceSessionPeerLimit_spec _ _ now h⟩
  | initiateConnection hash atom now io_created =>
    refine ⟨Nat.le_succ _, torStep_swarmModify _ _ _ h (Nat.le_succ _) ?_⟩
    intro t ht
    have hinv := hmem ht
    have hmono : ∀ s' : tr_swarm,
        swarmInv manager.next_ptr s' ∧ poolStep manager.next_ptr t.swarm.pool s'.pool →
        swarmInv (manager.next_ptr + 1) s' ∧ poolStep manager.next_ptr t.swarm.pool s'.pool :=
      fun s' hs => ⟨poolInv_mono hs.1 (Nat.le_succ _), hs.2⟩
    apply hmono
    dsimp only
    split
    · split
      · exact initiateConnection_spec _ hinv atom now io_created _
      · exact ⟨hinv, poolStep_refl _ _⟩
    · exact ⟨hinv, poolStep_refl _ _⟩
  | atomPulse now =>
    refine ⟨le_refl _, forall2_map_self _ _ ?_⟩
    intro t ht
    exact atomPulse_torrent_spec _ now (h t ht)
  | setUtpSupported hash addr =>
    exact ⟨le_refl _, torStep_swarmModify_same _ _ _ h
      (fun t ht => tr_peerMgrSetUtpSupported_spec ht addr)⟩
  | setUtpFailed hash addr failed =>
    exact ⟨le_refl _, torStep_swarmModify_same _ _ _ h
      (fun t ht => tr_peerMgrSetUtpFailed_spec ht addr failed)⟩
  | setSwarmIsAllSeeds hash =>
    exact ⟨le_refl _, torStep_swarmModify_same _ _ _ h
      (fun t ht => tr_peerMgrSetSwarmIsAllSeeds_spec ht)⟩
  | onBlocklistChanged blocklist =>
    refine ⟨le_refl _, forall2_map_self _ _ ?_⟩
    intro t ht
    have := poolInv_map_pool (h t ht) (fun a => { a with blocklisted := -1 })
      ⟨fun _ => rfl, fun _ => rfl, fun _ => rfl, fun _ => rfl, fun _ h => h⟩
    exact ⟨rfl, this, poolStep_map _ _ _
      ⟨fun _ => rfl, fun _ => rfl, fun _ => rfl, fun _ => rfl, fun _ h => h⟩⟩
  | cacheBlocklisted hash atom =>
    refine ⟨le_refl _, torStep_swarmModify_same _ _ _ h ?_⟩
    intro t ht
    exact swarm_frame_pool ht atom _ rfl rfl rfl
      ⟨fun _ => rfl, fun _ => rfl, fun _ => rfl, fun _ => rfl, fun _ h => h⟩

theorem mgrInv_of_step {manager manager' : tr_peerMgr} {n : Nat}
    (h : List.Forall₂ (torStep n manager'.next_ptr) manager.torrents manager'.torrents) :
    mgrInv manager' := by
  intro t ht
  obtain ⟨_, _, hr⟩ := forall2_right_mem h ht
  exact hr.2.1

/-- Every sequence of calls leaves each torrent in place, its swarm consistent
and its pool lawfully evolved. -/
theorem peerMgr_run_spec (uploadIdleLimit : Int → Int → Int) (calls : List peerMgr_call)
    (manager : tr_peerMgr) (h : mgrInv manager) :
    manager.next_ptr ≤ (peerMgr_run uploadIdleLimit manager calls).next_ptr
      ∧ List.Forall₂
          (torStep manager.next_ptr (peerMgr_run uploadIdleLimit manager calls).next_ptr)
          manager.torrents (peerMgr_run uploadIdleLimit manager calls).torrents := by
  induction calls generalizing manager with
  | nil => exact ⟨le_refl _, mgrInv_refl_step h (le_refl _)⟩
  | cons c cs ih =>
    have h1 := peerMgr_step_spec uploadIdleLimit h c
    have h2 := ih (peerMgr_step uploadIdleLimit manager c) (mgrInv_of_step h1.2)
    exact ⟨le_trans h1.1 h2.1,
      forall2_comp
        (R := torStep manager.next_ptr (peerMgr_step uploadIdleLimit manager c).next_ptr)
        (S := torStep (peerMgr_step uploadIdleLimit manager c).next_ptr
          (peerMgr_run uploadIdleLimit manager (c :: cs)).next_ptr)
        (T := torStep manager.next_ptr (peerMgr_run uploadIdleLimit manager (c :: cs)).next_ptr)
        (fun _ _ _ hab hbc => torStep_trans hab hbc h1.1) h1.2 h2.2⟩

theorem swarmInv_swarmNew (n : Nat) : swarmInv n swarmNew :=
  { atom_ptrs := List.nodup_nil
    atom_addrs := List.nodup_nil
    peer_ptrs := List.nodup_nil
    peer_atom := fun _ hP => by cases hP
    atom_peer := fun _ hA => by cases hA
    atom_from := fun _ hA => by cases hA
    from_length := by decide
    count := rfl
    from_sum := by decide
    atom_bound := fun _ hA => by cases hA
    peer_bound := fun _ hP => by cases hP }

theorem mgrInv_of_new {manager : tr_peerMgr}
    (hnew : ∀ tor ∈ manager.torrents, tor.swarm = swarmNew) : mgrInv manager := by
  intro t ht
  rw [hnew t ht]
  exact swarmInv_swarmNew _

/-- The states reached from a session of new swarms are consistent. -/
theorem mgrInv_run (uploadIdleLimit : Int → Int → Int) {manager : tr_peerMgr}
    (hnew : ∀ tor ∈ manager.torrents, tor.swarm = swarmNew) (calls : List peerMgr_call) :
    mgrInv (peerMgr_run uploadIdleLimit manager calls) :=
  mgrInv_of_step (peerMgr_run_spec uploadIdleLimit calls manager (mgrInv_of_new hnew)).2

theorem statsOk_of_swarmInv {n : Nat} {s : tr_swarm} (h : swarmInv n s) : statsOk s :=
  ⟨h.count, h.from_sum⟩

theorem backrefOk_of_swarmInv {n : Nat} {s : tr_swarm} (h : swarmInv n s) : backrefOk s := by
  intro A hA
  cases hp : A.peer with
  | none => exact Or.inl rfl
  | some p =>
    obtain ⟨P, hP, h1, h2⟩ := h.atom_peer A hA p hp
    exact Or.inr ⟨P, hP, by rw [h1], h2⟩

/-- C5: in every state that a session of new swarms reaches by calls into the
peer manager, each swarm has `stats.peerCount` equal to the number of its live
peers and the sum of `stats.peerFromCount` equal to `stats.peerCount`, and both
equations still hold after the completion of a handshake (which may install a
peer), after `removePeer` or `closePeer` of any live peer, after
`removeAllPeers`, after `enforceTorrentPeerLimit`, and in every swarm after
`enforceSessionPeerLimit`. -/
theorem swarm_stats_preserved (uploadIdleLimit : Int → Int → Int) (manager : tr_peerMgr)
    (hnew : ∀ tor ∈ manager.torrents, tor.swarm = swarmNew) (calls : List peerMgr_call) :
    ∀ tor ∈ (peerMgr_run uploadIdleLimit manager calls).torrents,
      statsOk tor.swarm
      ∧ (∀ (result : tr_handshake_result) (now jitter : Int) (client : tr_quark),
          statsOk (on_handshake_done_swarm tor result now jitter client
            (peerMgr_run uploadIdleLimit manager calls).next_ptr
            ((peerMgr_run uploadIdleLimit manager calls).next_ptr + 1)).1)
      ∧ (∀ peer ∈ tor.swarm.peers, ∀ now : Int,
          statsOk (removePeer tor.swarm peer now) ∧ statsOk (closePeer tor.swarm peer now))
      ∧ (∀ now : Int, statsOk (removeAllPeers tor.swarm now))
      ∧ (∀ now : Int, statsOk (enforceTorrentPeerLimit tor now).swarm)
      ∧ (∀ (peerLimit : Nat) (now : Int),
          ∀ tor' ∈ enforceSessionPeerLimit
            (peerMgr_run uploadIdleLimit manager calls).torrents peerLimit now,
            statsOk tor'.swarm) := by
  intro tor htor
  have hm := mgrInv_run uploadIdleLimit hnew calls
  have h := hm tor htor
  refine ⟨statsOk_of_swarmInv h, ?_, ?_, ?_, ?_, ?_⟩
  · intro result now jitter client
    exact statsOk_of_swarmInv (on_handshake_done_swarm_spec h result now jitter client _ _
      (le_refl _) (Nat.lt_succ_self _) _ rfl).1
  · intro peer hpeer now
    exact ⟨statsOk_of_swarmInv (swarmInv_removePeer h peer hpeer now),
      statsOk_of_swarmInv (swarmInv_closePeer h peer hpeer now)⟩
  · intro now
    exact statsOk_of_swarmInv (removeAllPeers_spec h now).1
  · intro now
    exact statsOk_of_swarmInv (enforceTorrentPeerLimit_spec h now).1
  · intro peerLimit now tor' htor'
    obtain ⟨_, _, hr⟩ := forall2_right_mem (enforceSessionPeerLimit_spec _ peerLimit now hm) htor'
    exact statsOk_of_swarmInv hr.2.1

theorem swarm_stats_preserved_witness :
    (∀ tor ∈ banManager.torrents, tor.swarm = swarmNew)
    ∧ ∀ tor ∈ (peerMgr_run banIdle banManager banCalls).torrents,
      statsOk tor.swarm
      ∧ (∀ (result : tr_handshake_result) (now jitter : Int) (client : tr_quark),
          statsOk (on_handshake_done_swarm tor result now jitter client
            (peerMgr_run banIdle banManager banCalls).next_ptr
            ((peerMgr_run banIdle banManager banCalls).next_ptr + 1)).1)
      ∧ (∀ peer ∈ tor.swarm.peers, ∀ now : Int,
          statsOk (removePeer tor.swarm peer now) ∧ statsOk (closePeer tor.swarm peer now))
      ∧ (∀ now : Int, statsOk (removeAllPeers tor.swarm now))
      ∧ (∀ now : Int, statsOk (enforceTorrentPeerLimit tor now).swarm)
      ∧ (∀ (peerLimit : Nat) (now : Int),
          ∀ tor' ∈ enforceSessionPeerLimit
            (peerMgr_run banIdle banManager banCalls).torrents peerLimit now,
            statsOk tor'.swarm) :=
  ⟨by decide, swarm_stats_preserved banIdle banManager (by decide) banCalls⟩

/-- C6: in every state that a session of new swarms reaches by calls into the
peer manager, each atom of each pool has no live peer, or a live peer of the
swarm whose `atom` is that atom; and in such a state this still holds after
`createBitTorrentPeer` installs a new peer for an atom without one, after
`removePeer` of a live peer, and after the atom pulse has pruned the pool. -/
theorem atom_peer_backref (uploadIdleLimit : Int → Int → Int) (manager : tr_peerMgr)
    (hnew : ∀ tor ∈ manager.torrents, tor.swarm = swarmNew) (calls : List peerMgr_call) :
    ∀ tor ∈ (peerMgr_run uploadIdleLimit manager calls).torrents,
      backrefOk tor.swarm
      ∧ (∀ A ∈ tor.swarm.pool, A.peer = none → ∀ (client : tr_quark) (ptr : Nat),
          (peerMgr_run uploadIdleLimit manager calls).next_ptr ≤ ptr →
          backrefOk (createBitTorrentPeer tor.swarm A.ptr client ptr))
      ∧ (∀ peer ∈ tor.swarm.peers, ∀ now : Int, backrefOk (removePeer tor.swarm peer now))
      ∧ (∀ now : Int, backrefOk (atomPulse_torrent
          (peerMgr_run uploadIdleLimit manager calls).incomingHandshakes now tor).swarm) := by
  intro tor htor
  have h := mgrInv_run uploadIdleLimit hnew calls tor htor
  refine ⟨backrefOk_of_swarmInv h, ?_, ?_, ?_⟩
  · intro A hA hnone client ptr hptr
    exact backrefOk_of_swarmInv
      (swarmInv_createBitTorrentPeer h A hA hnone client ptr hptr (Nat.lt_succ_self ptr))
  · intro peer hpeer now
    exact backrefOk_of_swarmInv (swarmInv_removePeer h peer hpeer now)
  · intro now
    exact backrefOk_of_swarmInv (atomPulse_torrent_spec _ now h).2.1

theorem atom_peer_backref_witness :
    (∀ tor ∈ banManager.torrents, tor.swarm = swarmNew)
    ∧ ∀ tor ∈ (peerMgr_run banIdle banManager forgetCalls).torrents,
      backrefOk tor.swarm
      ∧ (∀ A ∈ tor.swarm.pool, A.peer = none → ∀ (client : tr_quark) (ptr : Nat),
          (peerMgr_run banIdle banManager forgetCalls).next_ptr ≤ ptr →
          backrefOk (createBitTorrentPeer tor.swarm A.ptr client ptr))
      ∧ (∀ peer ∈ tor.swarm.peers, ∀ now : Int, backrefOk (removePeer tor.swarm peer now))
      ∧ (∀ now : Int, backrefOk (atomPulse_torrent
          (peerMgr_run banIdle banManager forgetCalls).incomingHandshakes now tor).swarm) :=
  ⟨by decide, atom_peer_backref banIdle banManager (by decide) forgetCalls⟩

/-! ## Banned addresses -/

/-- C14: for two atoms with the same `flags2` (so the same unreachable flag) and
the same last piece-data time, at the same current time, the atom with no more
failures has no longer a reconnect interval, whatever the two values of
`numFails` (a 16-bit counter) are. -/
theorem getReconnectIntervalSecs_mono (a b : peer_atom) (now : Int)
    (hflags : a.flags2 = b.flags2) (hdata : a.piece_data_time = b.piece_data_time)
    (hfails : a.numFails ≤ b.numFails) :
    getReconnectIntervalSecs a now ≤ getReconnectIntervalSecs b now := by
  unfold getReconnectIntervalSecs
  simp only [hflags, hdata]
  generalize a.numFails = m at hfails ⊢
  generalize b.numFails = n at hfails ⊢
  cases hu : (b.flags2 &&& MyflagUnreachable != 0) with
  | true =>
    simp only [Bool.not_true, Bool.false_and, Bool.false_eq_true, if_false, if_true]
    rcases m with _ | _ | _ | _ | m <;> rcases n with _ | _ | _ | _ | n <;>
      first
      | (exfalso; omega)
      | decide
      | exact le_refl _
      | (change _ ≤ (60 * 120 : Int); decide)
  | false =>
    simp only [Bool.not_false, Bool.true_and, Bool.false_eq_true, if_false]
    split
    · exact le_refl _
    · rcases m with _ | _ | _ | _ | _ | _ | m <;> rcases n with _ | _ | _ | _ | _ | _ | n <;>
        first
        | (exfalso; omega)
        | decide
        | exact le_refl _
        | (change _ ≤ (60 * 120 : Int); decide)

theorem getReconnectIntervalSecs_mono_witness :
    (({ ptr := 1, addr := sampleAddr 1, flags2 := MyflagUnreachable, numFails := 2 } : peer_atom).flags2
        = ({ ptr := 1, addr := sampleAddr 1, flags2 := MyflagUnreachable, numFails := 65535 } : peer_atom).flags2)
    ∧ getReconnectIntervalSecs
        { ptr := 1, addr := sampleAddr 1, flags2 := MyflagUnreachable, numFails := 2 } 1000
      ≤ getReconnectIntervalSecs
        { ptr := 1, addr := sampleAddr 1, flags2 := MyflagUnreachable, numFails := 65535 } 1000 :=
  ⟨rfl, getReconnectIntervalSecs_mono _ _ 1000 rfl rfl (by decide)⟩

/-- C15, as stated, fails: an atom without failures that is flagged unreachable
waits two minutes, and one that sent piece data in the last ten seconds waits
`MinimumReconnectIntervalSecs`. -/
theorem getReconnectIntervalSecs_zero_fails_nonzero :
    getReconnectIntervalSecs
        { ptr := 1, addr := sampleAddr 1, numFails := 0, flags2 := MyflagUnreachable } 1000 = 120
    ∧ getReconnectIntervalSecs
        { ptr := 1, addr := sampleAddr 1, numFails := 0, piece_data_time := 995 } 1000 = 5 := by
  decide

/-- C15, amended: an atom with `numFails = 0` that is not flagged unreachable
and whose last piece data is more than `2 * MinimumReconnectIntervalSecs`
seconds old has a reconnect interval of 0 seconds. -/
theorem getReconnectIntervalSecs_zero_fails (atom : peer_atom) (now : Int)
    (hfails : atom.numFails = 0) (hreach : atom.flags2 &&& MyflagUnreachable = 0)
    (hdata : now - atom.piece_data_time > MinimumReconnectIntervalSecs * 2) :
    getReconnectIntervalSecs atom now = 0 := by
  unfold getReconnectIntervalSecs
  have hle : ¬ (now - atom.piece_data_time ≤ MinimumReconnectIntervalSecs * 2) := not_le.mpr hdata
  simp [hfails, hreach, hle]

theorem getReconnectIntervalSecs_zero_fails_witness :
    ({ ptr := 1, addr := sampleAddr 1 } : peer_atom).numFails = 0
    ∧ getReconnectIntervalSecs { ptr := 1, addr := sampleAddr 1 } 1000 = 0 :=
  ⟨rfl, getReconnectIntervalSecs_zero_fails _ 1000 rfl (by decide) (by decide)⟩

/-- C20, as stated, fails: on a torrent that allows PEX, a seed peer of a seeding
torrent is closed once 30 seconds have passed since its atom's time stamp,
although only one of the two conditions holds. -/
theorem shouldPeerBeClosed_seed_not_both :
    seedPeer.doPurge = false
    ∧ tr_peerIsSeed (seedingTorrent true).swarm.pool seedPeer = true
    ∧ shouldPeerBeClosed banIdle (seedingTorrent true) seedPeer 1 130 = true
    ∧ ¬ (130 - (atomAt (seedingTorrent true).swarm.pool seedPeer.atom).time ≥ 30
        ∧ (seedingTorrent true).allowsPex = false) := by
  decide

/-- C20, amended: for a peer that is not flagged `doPurge`, is a seed, and
belongs to a torrent we are seeding, `shouldPeerBeClosed` returns true exactly
when at least one holds: at least 30 seconds have passed since the atom's time
stamp, or the torrent disallows PEX. -/
theorem shouldPeerBeClosed_seed (uploadIdleLimit : Int → Int → Int) (tor : tr_torrent)
    (peer : tr_peer) (peerCount : Int) (now : Int) (hpurge : peer.doPurge = false)
    (hseeding : tor.isSeed = true) (hseed : tr_peerIsSeed tor.swarm.pool peer = true) :
    shouldPeerBeClosed uploadIdleLimit tor peer peerCount now = true
      ↔ (now - (atomAt tor.swarm.pool peer.atom).time ≥ 30 ∨ tor.allowsPex = false) := by
  unfold shouldPeerBeClosed
  simp only [hpurge, hseeding, hseed, Bool.false_eq_true, if_false, Bool.and_self, if_true,
    Bool.or_eq_true, Bool.not_eq_true', decide_eq_true_eq]
  exact or_comm

theorem shouldPeerBeClosed_seed_witness :
    seedPeer.doPurge = false
    ∧ (seedingTorrent false).isSeed = true
    ∧ tr_peerIsSeed (seedingTorrent false).swarm.pool seedPeer = true
    ∧ (shouldPeerBeClosed banIdle (seedingTorrent false) seedPeer 1 100 = true
      ↔ (100 - (atomAt (seedingTorrent false).swarm.pool seedPeer.atom).time ≥ 30
        ∨ (seedingTorrent false).allowsPex = false)) :=
  ⟨rfl, rfl, by decide,
    shouldPeerBeClosed_seed banIdle (seedingTorrent false) seedPeer 1 100 rfl rfl (by decide)⟩

/-! ## Lowering the multiscrape maximum -/

/-- C17, as stated, fails: when the stored maximum (27) is already below the
number of rows of the failed request (32), because another response of the same
batch lowered it, a too-long error leaves it as it is. -/
theorem checkMultiscrapeMax_lowered_once :
    multiscrape_too_big (cstr "Request-URI Too Long") = true
    ∧ (checkMultiscrapeMax { scrape_info := fun _ => 27 }
        { tooLongResponse with rows := List.replicate 32 {} }).scrape_info 9 = 27 := by
  decide

theorem multiscrape_too_big_iff (errmsg : List Nat) :
    multiscrape_too_big errmsg = true
      ↔ (tr_strvContains errmsg (cstr "Bad Request") = true
        ∨ tr_strvContains errmsg (cstr "GET string too long") = true
        ∨ tr_strvContains errmsg (cstr "Request-URI Too Long") = true) := by
  unfold multiscrape_too_big TooLongErrors
  simp only [List.any_cons, List.any_nil, Bool.or_false, Bool.or_eq_true]

/-- C17, amended: when a scrape response's error message contains "Bad Request",
"GET string too long" or "Request-URI Too Long", and the `multiscrape_max`
stored for the response's scrape URL is not already below the response's row
count, that maximum is lowered by 5 but never below 1 (32 becomes 27 for a
request of 32 info-hashes); in every other case, and for every other URL, the
stored maximum is left unchanged. -/
theorem checkMultiscrapeMax_spec (announcer : tr_announcer) (response : tr_scrape_response)
    (url : tr_quark) :
    (checkMultiscrapeMax announcer response).scrape_info url
      = (if (tr_strvContains response.errmsg (cstr "Bad Request") = true
              ∨ tr_strvContains response.errmsg (cstr "GET string too long") = true
              ∨ tr_strvContains response.errmsg (cstr "Request-URI Too Long") = true)
            ∧ url = response.scrape_url ∧ url ≠ TR_KEY_NONE
            ∧ (response.rows.length : Int) ≤ announcer.scrape_info url
          then max 1 (announcer.scrape_info url - 5)
          else announcer.scrape_info url)
    ∧ (checkMultiscrapeMax { scrape_info := fun _ => 32 }
        { tooLongResponse with rows := List.replicate 32 {} }).scrape_info 9 = 27 := by
  refine ⟨?_, by decide⟩
  have hiff := multiscrape_too_big_iff response.errmsg
  by_cases hC : (tr_strvContains response.errmsg (cstr "Bad Request") = true
      ∨ tr_strvContains response.errmsg (cstr "GET string too long") = true
      ∨ tr_strvContains response.errmsg (cstr "Request-URI Too Long") = true)
      ∧ url = response.scrape_url ∧ url ≠ TR_KEY_NONE
      ∧ (response.rows.length : Int) ≤ announcer.scrape_info url
  · rw [if_pos hC]
    obtain ⟨herr, hurl, hnone, hle⟩ := hC
    have hbig := hiff.mpr herr
    subst hurl
    unfold checkMultiscrapeMax tr_announcerGetScrapeInfo TrMultiscrapeStep
    simp only [hbig, not_true_eq_false, if_false, if_neg hnone, if_neg (not_lt.mpr hle)]
    split
    · simp
    · rename_i hsame
      exact not_not.mp hsame
  · rw [if_neg hC]
    unfold checkMultiscrapeMax tr_announcerGetScrapeInfo TrMultiscrapeStep
    split
    · rfl
    · rename_i hbig
      have herr := hiff.mp (not_not.mp hbig)
      by_cases hnone : response.scrape_url = TR_KEY_NONE
      · simp only [if_pos hnone]
      · simp only [if_neg hnone]
        split
        · rfl
        · rename_i hrows
          split
          · have hurl : url ≠ response.scrape_url := by
              intro e
              apply hC
              refine ⟨herr, e, ?_, ?_⟩
              · rw [e]
                exact hnone
              · rw [e]
                exact not_lt.mp hrows
            exact Function.update_noteq hurl _ _
          · rfl

/-! ## The per-torrent peer limit -/

theorem ranksStrictlyBetter_iff (a b : tr_peer × peer_atom) :
    ranksStrictlyBetter a b ↔ ComparePeerByActivity_compare a b < 0 := by
  unfold ranksStrictlyBetter ComparePeerByActivity_compare
  cases ha : a.1.doPurge <;> cases hb : b.1.doPurge <;>
    simp only [ne_eq, not_true_eq_false, not_false_eq_true, if_true, if_false,
      Bool.false_eq_true, reduceCtorEq, and_self, and_false, false_and, true_and, or_false,
      false_or, true_or, gt_iff_lt] <;>
    first
    | decide
    | (split_ifs <;> constructor <;> intro h <;> omega)

theorem ComparePeerByActivity_total (a b : tr_peer × peer_atom) :
    ¬ ComparePeerByActivity_compare b a < 0 ∨ ¬ ComparePeerByActivity_compare a b < 0 := by
  rw [← ranksStrictlyBetter_iff, ← ranksStrictlyBetter_iff]
  unfold ranksStrictlyBetter
  cases ha : a.1.doPurge <;> cases hb : b.1.doPurge <;> simp <;> omega

theorem ComparePeerByActivity_trans (a b c : tr_peer × peer_atom)
    (hab : ¬ ComparePeerByActivity_compare b a < 0)
    (hbc : ¬ ComparePeerByActivity_compare c b < 0) :
    ¬ ComparePeerByActivity_compare c a < 0 := by
  rw [← ranksStrictlyBetter_iff] at hab hbc ⊢
  unfold ranksStrictlyBetter at hab hbc ⊢
  cases ha : a.1.doPurge <;> cases hb : b.1.doPurge <;> cases hc : c.1.doPurge <;>
    simp [ha, hb, hc] at hab hbc ⊢ <;> omega

theorem foldl_closePeer_peers (now : Int) (l : List tr_peer) (s : tr_swarm) :
    (l.foldl (fun s P => closePeer s P now) s).peers
      = l.foldl (fun ps P => ps.eraseP (fun p => p.ptr == P.ptr)) s.peers := by
  induction l generalizing s with
  | nil => rfl
  | cons P Ps ih =>
    rw [List.foldl_cons, List.foldl_cons, ih, closePeer_peers]

/-- Taking distinct members out of a list of distinct peers. -/
theorem foldl_eraseP_peers (l ps : List tr_peer) (hps : (ps.map (fun P => P.ptr)).Nodup)
    (hl : (l.map (fun P => P.ptr)).Nodup) (hsub : ∀ Q ∈ l, Q ∈ ps) :
    (l.foldl (fun ps P => ps.eraseP (fun p => p.ptr == P.ptr)) ps).length + l.length = ps.length
      ∧ ∀ P, P ∈ l.foldl (fun ps P => ps.eraseP (fun p => p.ptr == P.ptr)) ps
          ↔ P ∈ ps ∧ P ∉ l := by
  induction l generalizing ps with
  | nil => exact ⟨rfl, fun P => ⟨fun h => ⟨h, List.not_mem_nil P⟩, fun h => h.1⟩⟩
  | cons Q Qs ih =>
    rw [List.map_cons, List.nodup_cons] at hl
    have hQ : Q ∈ ps := hsub Q (List.mem_cons_self _ _)
    have hnd : ps.Nodup := List.Nodup.of_map _ hps
    rw [List.foldl_cons, eraseP_ptr_eq_erase hps hQ]
    have hps2 : ((ps.erase Q).map (fun P => P.ptr)).Nodup :=
      hps.sublist ((List.erase_sublist Q ps).map _)
    have hsub2 : ∀ R ∈ Qs, R ∈ ps.erase Q := by
      intro R hR
      refine (hnd.mem_erase_iff).mpr ⟨?_, hsub R (List.mem_cons_of_mem _ hR)⟩
      intro e
      exact hl.1 (List.mem_map.mpr ⟨R, hR, by rw [e]⟩)
    obtain ⟨h1, h2⟩ := ih (ps.erase Q) hps2 hl.2 hsub2
    constructor
    · rw [List.length_erase_of_mem hQ] at h1
      have : 0 < ps.length := List.length_pos_of_mem hQ
      rw [List.length_cons]
      omega
    · intro P
      rw [h2 P, hnd.mem_erase_iff, List.mem_cons]
      constructor
      · rintro ⟨⟨hne, hP⟩, hnot⟩
        exact ⟨hP, fun h => h.elim hne hnot⟩
      · rintro ⟨hP, hnot⟩
        exact ⟨⟨fun e => hnot (Or.inl e), hP⟩, fun h => hnot (Or.inr h)⟩

theorem std_partial_sort_split {α : Type} (compare : α → α → Int)
    (htotal : ∀ a b, ¬ compare b a < 0 ∨ ¬ compare a b < 0)
    (htrans : ∀ a b c, ¬ compare b a < 0 → ¬ compare c b < 0 → ¬ compare c a < 0)
    (l : List α) (middle : Nat) :
    ∀ x ∈ (std_partial_sort compare l middle).take middle,
      ∀ y ∈ (std_partial_sort compare l middle).drop middle, ¬ compare y x < 0 := by
  haveI : IsTotal α (fun a b => ¬ compare b a < 0) := ⟨htotal⟩
  haveI : IsTrans α (fun a b => ¬ compare b a < 0) := ⟨htrans⟩
  have hsorted := List.sorted_insertionSort (fun a b => ¬ compare b a < 0) l
  unfold std_partial_sort
  dsimp only
  rw [List.take_append_drop]
  intro x hx y hy
  have := List.pairwise_append.mp
    ((List.take_append_drop middle (l.insertionSort (fun a b => ¬ compare b a < 0))).symm ▸ hsorted)
  exact this.2.2 x hx y hy

/-- What `enforceTorrentPeerLimit` leaves of a consistent swarm over its limit. -/
theorem enforceTorrentPeerLimit_peers {n : Nat} {tor : tr_torrent} (h : swarmInv n tor.swarm)
    (now : Int) (hover : tor.maxConnectedPeers < tor.swarm.peers.length) :
    (enforceTorrentPeerLimit tor now).swarm.peers.length = tor.maxConnectedPeers
    ∧ (∀ P ∈ (enforceTorrentPeerLimit tor now).swarm.peers, P ∈ tor.swarm.peers)
    ∧ ∀ P ∈ (enforceTorrentPeerLimit tor now).swarm.peers, ∀ Q ∈ tor.swarm.peers,
        Q ∉ (enforceTorrentPeerLimit tor now).swarm.peers →
        ¬ ranksStrictlyBetter (Q, atomAt tor.swarm.pool Q.atom) (P, atomAt tor.swarm.pool P.atom) := by
  unfold enforceTorrentPeerLimit
  dsimp only
  rw [if_neg (not_le.mpr hover)]
  dsimp only
  rw [← List.foldl_map (fun p : tr_peer × peer_atom => p.1) (fun s P => closePeer s P now),
    foldl_closePeer_peers]
  generalize hS : std_partial_sort ComparePeerByActivity_compare
    (tor.swarm.peers.map (fun p => (p, atomAt tor.swarm.pool p.atom))) tor.maxConnectedPeers = S
  have hperm : S.Perm (tor.swarm.peers.map (fun p => (p, atomAt tor.swarm.pool p.atom))) := by
    rw [← hS]
    exact std_partial_sort_perm _ _ _
  have hcross := std_partial_sort_split ComparePeerByActivity_compare ComparePeerByActivity_total
    ComparePeerByActivity_trans
    (tor.swarm.peers.map (fun p => (p, atomAt tor.swarm.pool p.atom))) tor.maxConnectedPeers
  rw [hS] at hcross
  have hperm2 : (S.map (fun p => p.1)).Perm tor.swarm.peers := by
    have := hperm.map (fun p : tr_peer × peer_atom => p.1)
    rw [List.map_map] at this
    have hid : ((fun p : tr_peer × peer_atom => p.1) ∘
        fun p => (p, atomAt tor.swarm.pool p.atom)) = id := rfl
    rw [hid, List.map_id] at this
    exact this
  have hsub := (List.drop_sublist tor.maxConnectedPeers S).map (fun p => p.1)
  have hpair : ∀ y ∈ S, y = (y.1, atomAt tor.swarm.pool y.1.atom) := by
    intro y hy
    obtain ⟨p, _, rfl⟩ := List.mem_map.mp (hperm.mem_iff.mp hy)
    rfl
  have hlen : S.length = tor.swarm.peers.length := by
    rw [hperm.length_eq, List.length_map]
  obtain ⟨h1, h2⟩ := foldl_eraseP_peers ((S.drop tor.maxConnectedPeers).map (fun p => p.1))
    tor.swarm.peers h.peer_ptrs
    ((((hperm2.map (fun P => P.ptr)).nodup_iff).mpr h.peer_ptrs).sublist (hsub.map _))
    (fun Q hQ => hperm2.mem_iff.mp (hsub.subset hQ))
  refine ⟨?_, fun P hP => ((h2 P).mp hP).1, ?_⟩
  · rw [List.length_map, List.length_drop, hlen] at h1
    omega
  · intro P hP Q hQ hQout
    obtain ⟨hPin, hPnot⟩ := (h2 P).mp hP
    have hQl : Q ∈ (S.drop tor.maxConnectedPeers).map (fun p => p.1) := by
      by_contra hc
      exact hQout ((h2 Q).mpr ⟨hQ, hc⟩)
    obtain ⟨y, hy, hyQ⟩ := List.mem_map.mp hQl
    have hyS : y ∈ S := (List.drop_sublist _ _).subset hy
    have hxS : (P, atomAt tor.swarm.pool P.atom) ∈ S :=
      hperm.mem_iff.mpr (List.mem_map.mpr ⟨P, hPin, rfl⟩)
    have hxtake : (P, atomAt tor.swarm.pool P.atom) ∈ S.take tor.maxConnectedPeers := by
      rw [← List.take_append_drop tor.maxConnectedPeers S] at hxS
      rcases List.mem_append.mp hxS with hx | hx
      · exact hx
      · exact absurd (List.mem_map.mpr ⟨_, hx, rfl⟩) hPnot
    have hc := hcross _ hxtake y hy
    rw [hpair y hyS, hyQ] at hc
    rw [ranksStrictlyBetter_iff]
    exact hc

/-- C11: in every state that a session of new swarms reaches by calls into the
peer manager, `enforceTorrentPeerLimit` leaves a torrent at or under its peer
limit unchanged; on a torrent with more live peers than its limit, exactly
`limit` of its peers remain, and no closed peer ranks strictly better than a
surviving peer in the order: not flagged `doPurge` before flagged, then more
recent piece-data time, then more recent atom time. -/
theorem enforceTorrentPeerLimit_keeps_best (uploadIdleLimit : Int → Int → Int)
    (manager : tr_peerMgr) (hnew : ∀ tor ∈ manager.torrents, tor.swarm = swarmNew)
    (calls : List peerMgr_call) (now : Int) :
    ∀ tor ∈ (peerMgr_run uploadIdleLimit manager calls).torrents,
      (tor.swarm.peers.length ≤ tor.maxConnectedPeers → enforceTorrentPeerLimit tor now = tor)
      ∧ (tor.maxConnectedPeers < tor.swarm.peers.length →
          (enforceTorrentPeerLimit tor now).swarm.peers.length = tor.maxConnectedPeers
          ∧ (∀ P ∈ (enforceTorrentPeerLimit tor now).swarm.peers, P ∈ tor.swarm.peers)
          ∧ ∀ P ∈ (enforceTorrentPeerLimit tor now).swarm.peers, ∀ Q ∈ tor.swarm.peers,
              Q ∉ (enforceTorrentPeerLimit tor now).swarm.peers →
              ¬ ranksStrictlyBetter (Q, atomAt tor.swarm.pool Q.atom)
                  (P, atomAt tor.swarm.pool P.atom)) := by
  intro tor htor
  constructor
  · intro hle
    unfold enforceTorrentPeerLimit
    dsimp only
    rw [if_pos hle]
  · intro hover
    exact enforceTorrentPeerLimit_peers (mgrInv_run uploadIdleLimit hnew calls tor htor) now hover

theorem enforceTorrentPeerLimit_keeps_best_witness :
    (∀ tor ∈ banManager.torrents, tor.swarm = swarmNew)
    ∧ (peerMgr_run banIdle banManager crowdCalls).torrents.map
        (fun tor => (tor.maxConnectedPeers, tor.swarm.peers.length)) = [(1, 2)]
    ∧ ∀ tor ∈ (peerMgr_run banIdle banManager crowdCalls).torrents,
      (tor.swarm.peers.length ≤ tor.maxConnectedPeers → enforceTorrentPeerLimit tor 1100 = tor)
      ∧ (tor.maxConnectedPeers < tor.swarm.peers.length →
          (enforceTorrentPeerLimit tor 1100).swarm.peers.length = tor.maxConnectedPeers
          ∧ (∀ P ∈ (enforceTorrentPeerLimit tor 1100).swarm.peers, P ∈ tor.swarm.peers)
          ∧ ∀ P ∈ (enforceTorrentPeerLimit tor 1100).swarm.peers, ∀ Q ∈ tor.swarm.peers,
              Q ∉ (enforceTorrentPeerLimit tor 1100).swarm.peers →
              ¬ ranksStrictlyBetter (Q, atomAt tor.swarm.pool Q.atom)
                  (P, atomAt tor.swarm.pool P.atom)) :=
  ⟨by decide, by decide,
    enforceTorrentPeerLimit_keeps_best banIdle banManager (by decide) crowdCalls 1100⟩

/-! ## Outgoing handshakes and live peers -/

/-- C18, as stated, fails: in a tier of two trackers the first tracker fails for
the first time; its count becomes 1 and the index moves to 1, but the event is
requeued for `now + getRetryInterval` of the tracker that is now current, which
has not failed: at once, not after the 20 seconds of a first failure. -/
theorem on_announce_error_uses_next_tracker :
    (on_announce_error twoTrackerTier (cstr "Could not connect to tracker")
        TR_ANNOUNCE_EVENT_STARTED 1000 7).map
      (fun tier => (tier.trackers.map (fun t => t.consecutiveFailures), tier.currentTrackerIndex,
        tier.announce_events, tier.announceAt))
      = some ([1, 0], 1, [TR_ANNOUNCE_EVENT_STARTED], 1000)
    ∧ 1000 + getRetryInterval { consecutiveFailures := 1 } 7 = 1020 := by
  decide

theorem tier_announce_event_push_frame (tier : tr_tier) (e : tr_announce_event) (at_ : Int) :
    (tier_announce_event_push tier e at_).trackers = tier.trackers
    ∧ (tier_announce_event_push tier e at_).currentTracker = tier.currentTracker
    ∧ (tier_announce_event_push tier e at_).currentTrackerIndex = tier.currentTrackerIndex
    ∧ (tier_announce_event_push tier e at_).isAnnouncing = tier.isAnnouncing
    ∧ (tier_announce_event_push tier e at_).isScraping = tier.isScraping
    ∧ (tier_announce_event_push tier e at_).announceAt = at_ := by
  unfold tier_announce_event_push tier_announce_remove_trailing tier_update_announce_priority
  dsimp only
  split_ifs <;> exact ⟨rfl, rfl, rfl, rfl, rfl, rfl⟩

theorem tier_announce_event_push_last (tier : tr_tier) (e : tr_announce_event) (at_ : Int) :
    (tier_announce_event_push tier e at_).announce_events.getLast? = some e := by
  rw [tier_announce_event_push_events]
  simp

/-- C18, amended: when an announce fails on a tier whose current tracker is the
`i`-th of its trackers, that tracker's `consecutiveFailures` increases by one,
the tier's current tracker index becomes `(i + 1) mod tracker_count`, and the
same event is put back on the tier's queue with
`announceAt = now + getRetryInterval(next)`, where `next` is the tracker that is
now current; in a tier with a single tracker that is the failing tracker with
its new count. -/
theorem on_announce_error_spec (tier : tr_tier) (err : List Nat) (e : tr_announce_event)
    (now rand : Int) (i : Nat) (hcur : tier.currentTracker = some i)
    (hidx : tier.currentTrackerIndex = i) (hi : i < tier.trackers.length) :
    ∃ tier' next, on_announce_error tier err e now rand = some tier'
      ∧ tier'.trackers = tier.trackers.modify
          (fun t => { t with consecutiveFailures := t.consecutiveFailures + 1 }) i
      ∧ tier'.currentTrackerIndex = ((i + 1) % tier.trackers.length : Nat)
      ∧ tier_currentTracker tier' = some next
      ∧ tier'.trackers[(i + 1) % tier.trackers.length]? = some next
      ∧ tier'.announceAt = now + getRetryInterval next rand
      ∧ tier'.announce_events.getLast? = some e
      ∧ (tier.trackers.length = 1 → ∃ failing, tier.trackers[i]? = some failing
          ∧ next.consecutiveFailures = failing.consecutiveFailures + 1) := by
  have hlen : 0 < tier.trackers.length := Nat.lt_of_le_of_lt (Nat.zero_le i) hi
  have hmod : Int.tmod ((i : Int) + 1) (tier.trackers.length : Int)
      = (((i + 1) % tier.trackers.length : Nat) : Int) := by
    rw [Int.tmod_eq_emod (by omega) (by omega)]
    push_cast
    rfl
  have hlt : (i + 1) % tier.trackers.length
      < (tier.trackers.modify
          (fun t : tr_tracker => { t with consecutiveFailures := t.consecutiveFailures + 1 })
          i).length := by
    rw [List.length_modify]
    exact Nat.mod_lt _ hlen
  obtain ⟨next, hnext⟩ : ∃ next, (tier.trackers.modify
      (fun t : tr_tracker => { t with consecutiveFailures := t.consecutiveFailures + 1 })
      i)[(i + 1) % tier.trackers.length]? = some next :=
    ⟨_, List.getElem?_eq_getElem hlt⟩
  have hcur2 : tier_currentTracker (tierIncrementTracker
      { tier with
        trackers := tier.trackers.modify
          (fun t : tr_tracker => { t with consecutiveFailures := t.consecutiveFailures + 1 }) i
        lastAnnounceStr := tr_strlcpy err 128 }) = some next := by
    unfold tier_currentTracker tierIncrementTracker
    simp only [hcur, hidx, List.length_modify, hmod, reduceCtorEq, if_false, Int.toNat_ofNat]
    exact hnext
  refine ⟨tier_announce_event_push (tierIncrementTracker
      { tier with
        trackers := tier.trackers.modify
          (fun t : tr_tracker => { t with consecutiveFailures := t.consecutiveFailures + 1 }) i
        lastAnnounceStr := tr_strlcpy err 128 }) e (now + getRetryInterval next rand), next,
    ?_, ?_, ?_, ?_, ?_, ?_, ?_, ?_⟩
  · unfold on_announce_error
    have hc := hcur2
    simp only [hcur] at hc ⊢
    rw [hc]
  · rw [(tier_announce_event_push_frame _ _ _).1]
    rfl
  · rw [(tier_announce_event_push_frame _ _ _).2.2.1]
    unfold tierIncrementTracker
    simp only [hcur, hidx, List.length_modify, hmod, reduceCtorEq, if_false]
  · unfold tier_currentTracker at hcur2 ⊢
    rw [(tier_announce_event_push_frame _ _ _).1, (tier_announce_event_push_frame _ _ _).2.1]
    exact hcur2
  · rw [(tier_announce_event_push_frame _ _ _).1]
    exact hnext
  · exact (tier_announce_event_push_frame _ _ _).2.2.2.2.2
  · exact tier_announce_event_push_last _ _ _
  · intro hone
    have hi0 : i = 0 := by omega
    subst hi0
    obtain ⟨failing, hfailing⟩ : ∃ failing, tier.trackers[0]? = some failing :=
      ⟨_, List.getElem?_eq_getElem hlen⟩
    refine ⟨failing, hfailing, ?_⟩
    rw [hone] at hnext
    simp only [Nat.zero_add, Nat.mod_self, List.getElem?_modify_eq, hfailing,
      Option.map_eq_map, Option.map_some', Option.some.injEq] at hnext
    rw [← hnext]

theorem on_announce_error_spec_witness :
    twoTrackerTier.currentTracker = some 0
    ∧ ∃ tier' next, on_announce_error twoTrackerTier (cstr "Tracker did not respond")
          TR_ANNOUNCE_EVENT_STARTED 1000 7 = some tier'
      ∧ tier'.trackers = twoTrackerTier.trackers.modify
          (fun t => { t with consecutiveFailures := t.consecutiveFailures + 1 }) 0
      ∧ tier'.currentTrackerIndex = ((0 + 1) % twoTrackerTier.trackers.length : Nat)
      ∧ tier_currentTracker tier' = some next
      ∧ tier'.trackers[(0 + 1) % twoTrackerTier.trackers.length]? = some next
      ∧ tier'.announceAt = 1000 + getRetryInterval next 7
      ∧ tier'.announce_events.getLast? = some TR_ANNOUNCE_EVENT_STARTED
      ∧ (twoTrackerTier.trackers.length = 1 → ∃ failing, twoTrackerTier.trackers[0]? = some failing
          ∧ next.consecutiveFailures = failing.consecutiveFailures + 1) :=
  ⟨rfl, on_announce_error_spec twoTrackerTier (cstr "Tracker did not respond")
    TR_ANNOUNCE_EVENT_STARTED 1000 7 0 rfl rfl (by decide)⟩

/-! ## Pending stops -/

/-- Of two stops with different volumes, the one with the smaller volume is
held first, whichever is inserted first. -/
theorem std_set_insert_stops_ascending (a b : tr_announce_request)
    (h : (a.up + a.down) % 2 ^ 64 < (b.up + b.down) % 2 ^ 64) :
    std_set_insert StopsCompare_less b (std_set_insert StopsCompare_less a []) = [a, b]
    ∧ std_set_insert StopsCompare_less a (std_set_insert StopsCompare_less b []) = [a, b] := by
  have hab : StopsCompare_less a b = true := by
    simp only [StopsCompare_less, StopsCompare_compare, decide_eq_true_eq]
    rw [if_pos h]
    decide
  have hba : StopsCompare_less b a = false := by
    simp only [StopsCompare_less, StopsCompare_compare, decide_eq_false_iff_not]
    rw [if_neg (by omega), if_pos h]
    decide
  simp [std_set_insert, hab, hba]

/-- C19, on the code: torrent 1 (60 bytes up, 40 down) and torrent 2 (5 bytes
up) are removed while running, in either order; `flushCloseMessages` then sends
the stop of torrent 2, with volume 5, before the stop of torrent 1, with volume
100: the stops are held and sent by ascending volume. -/
theorem flushCloseMessages_smallest_volume_first :
    (((tr_announcerRemoveTorrent tr_announcerInit stopsSession 1 (some [runningTier 1 60 40])).bind
        (fun announcer =>
          tr_announcerRemoveTorrent announcer stopsSession 2 (some [runningTier 2 5 0]))).map
      (fun announcer => (flushCloseMessages announcer).2.map
        (fun stop => (stop.info_hash.head?, stop.event, stop.up + stop.down)))
      = some [(some 2, TR_ANNOUNCE_EVENT_STOPPED, 5), (some 1, TR_ANNOUNCE_EVENT_STOPPED, 100)])
    ∧ (((tr_announcerRemoveTorrent tr_announcerInit stopsSession 2 (some [runningTier 2 5 0])).bind
        (fun announcer =>
          tr_announcerRemoveTorrent announcer stopsSession 1 (some [runningTier 1 60 40]))).map
      (fun announcer => (flushCloseMessages announcer).2.map
        (fun stop => (stop.info_hash.head?, stop.event, stop.up + stop.down)))
      = some [(some 2, TR_ANNOUNCE_EVENT_STOPPED, 5), (some 1, TR_ANNOUNCE_EVENT_STOPPED, 100)]) := by
  constructor <;> decide

/-! ## Announces and scrapes in flight -/

/-- C12, counterexample: the first upkeep pulse after a torrent is added and
started finds its tier due for a scrape and an announce and starts both; and a
tier whose announce, started by the pulse at time 105, is still unanswered at
time 110 has its scrape started by that pulse. In both states the tier has
`isAnnouncing` and `isScraping` set. -/
theorem tier_announcing_and_scraping :
    ((scrapeAndAnnounceMore tr_announcerInit stopsSession id 100 [startedTier]).map
        (fun r => r.1.map (fun tier => (tier.isAnnouncing, tier.isScraping)))
      = some [(true, true)])
    ∧ (((scrapeAndAnnounceMore tr_announcerInit stopsSession id 105 [queuedTier]).map
        (fun r => r.1.map (fun tier => (tier.isAnnouncing, tier.isScraping)))
      = some [(true, false)])
      ∧ (((scrapeAndAnnounceMore tr_announcerInit stopsSession id 105 [queuedTier]).bind
          (fun r => scrapeAndAnnounceMore tr_announcerInit stopsSession id 110 r.1)).map
        (fun r => r.1.map (fun tier => (tier.isAnnouncing, tier.isScraping)))
      = some [(true, true)])) := by
  refine ⟨?_, ?_, ?_⟩ <;> decide
theorem multiscrape_batch_frame (announcer : tr_announcer) (hashOf : Nat → List Nat) (now : Int)
    (tiers : List tr_tier) (requests : List tr_scrape_request)
    (hdue : ∀ t ∈ tiers, tierNeedsToScrape t now = true) :
    ∃ out, multiscrape_batch announcer hashOf now tiers requests = some out
      ∧ List.Forall₂ (fun t t' : tr_tier =>
          t' = t ∨ t' = { t with isScraping := true, lastScrapeStartTime := now }) tiers out.1 := by
  induction tiers generalizing requests with
  | nil => exact ⟨([], requests), rfl, List.Forall₂.nil⟩
  | cons t ts ih =>
    have ht := hdue t (List.mem_cons_self _ _)
    have hts : ∀ t ∈ ts, tierNeedsToScrape t now = true :=
      fun q hq => hdue q (List.mem_cons_of_mem _ hq)
    obtain ⟨url, hinfo⟩ : ∃ url, tier_scrape_info announcer t
        = some { scrape_url := url, multiscrape_max := announcer.scrape_info url } := by
      simp only [tierNeedsToScrape, Bool.and_eq_true] at ht
      have h4 := ht.2
      unfold tier_scrape_info
      cases hct : tier_currentTracker t with
      | none => simp [hct] at h4
      | some tracker =>
        simp only [hct] at h4
        cases hsi : tracker.scrape_info with
        | none => simp [hsi] at h4
        | some url => exact ⟨url, by simp [hsi]⟩
    unfold multiscrape_batch
    simp only [hinfo]
    cases hslot : multiscrape_use_slot
        { scrape_url := url, multiscrape_max := announcer.scrape_info url } (hashOf t.tor)
        requests with
    | some requests' =>
      simp only
      obtain ⟨out, hout, hb⟩ := ih requests' hts
      exact ⟨(_ :: out.1, out.2), by rw [hout]; rfl, List.Forall₂.cons (Or.inr rfl) hb⟩
    | none =>
      simp only
      split
      · obtain ⟨out, hout, hb⟩ := ih _ hts
        exact ⟨(_ :: out.1, out.2), by rw [hout]; rfl, List.Forall₂.cons (Or.inr rfl) hb⟩
      · obtain ⟨out, hout, hb⟩ := ih requests hts
        exact ⟨(_ :: out.1, out.2), by rw [hout]; rfl, List.Forall₂.cons (Or.inl rfl) hb⟩

theorem foldl_set_length {α : Type} (ps : List (Nat × α)) (l : List α) :
    (ps.foldl (fun ts p => ts.set p.1 p.2) l).length = l.length := by
  induction ps generalizing l with
  | nil => rfl
  | cons p ps ih => simp only [List.foldl_cons]; rw [ih]; exact List.length_set ..

theorem foldl_set_frame {α : Type} (ps : List (Nat × α)) (l : List α) (j : Nat)
    (h : ∀ p ∈ ps, p.1 ≠ j) :
    (ps.foldl (fun ts p => ts.set p.1 p.2) l)[j]? = l[j]? := by
  induction ps generalizing l with
  | nil => rfl
  | cons p ps ih =>
    simp only [List.foldl_cons]
    rw [ih _ (fun q hq => h q (List.mem_cons_of_mem _ hq))]
    exact List.getElem?_set_ne (h p (List.mem_cons_self _ _))

theorem foldl_set_rel {α : Type} (R : α → α → Prop) (l0 : List α) (ps : List (Nat × α))
    (hps : ∀ p ∈ ps, ∃ t, l0[p.1]? = some t ∧ R t p.2) (l : List α)
    (hl : ∀ (j : Nat) (t : α), l0[j]? = some t → ∃ t1, l[j]? = some t1 ∧ (t1 = t ∨ R t t1)) :
    ∀ (j : Nat) (t : α), l0[j]? = some t →
      ∃ t1, (ps.foldl (fun (ts : List α) (p : Nat × α) => ts.set p.1 p.2) l)[j]? = some t1
        ∧ (t1 = t ∨ R t t1) := by
  induction ps generalizing l with
  | nil => exact hl
  | cons p ps ih =>
    simp only [List.foldl_cons]
    apply ih (fun q hq => hps q (List.mem_cons_of_mem _ hq))
    intro j t hj
    obtain ⟨t1, h1, hR⟩ := hl j t hj
    by_cases hp : p.1 = j
    · obtain ⟨t0, h0, hR0⟩ := hps p (List.mem_cons_self _ _)
      rw [hp, hj] at h0
      cases h0
      have hlt : j < l.length := by
        by_contra hge
        have hnone : l[j]? = none := List.getElem?_eq_none (Nat.le_of_not_lt hge)
        rw [hnone] at h1
        cases h1
      refine ⟨p.2, ?_, Or.inr hR0⟩
      rw [hp, List.getElem?_set_self hlt]
    · exact ⟨t1, by rw [List.getElem?_set_ne hp]; exact h1, hR⟩

theorem zip_filterMap_rel {α : Type} (R : α → α → Prop) (l0 : List α) (idx : List Nat)
    (out : List α) (h : List.Forall₂ R (idx.filterMap (fun i => l0[i]?)) out)
    (hv : ∀ i ∈ idx, i < l0.length) :
    ∀ p ∈ idx.zip out, ∃ t, l0[p.1]? = some t ∧ R t p.2 := by
  induction idx generalizing out with
  | nil => intro p hp; simp at hp
  | cons i idx ih =>
    have hi : i < l0.length := hv i (List.mem_cons_self _ _)
    have hget : l0[i]? = some l0[i] := List.getElem?_eq_getElem hi
    rw [List.filterMap_cons, hget] at h
    cases h with
    | cons hR hrest =>
      intro p hp
      simp only [List.zip_cons_cons, List.mem_cons] at hp
      rcases hp with rfl | hp
      · exact ⟨_, hget, hR⟩
      · exact ih _ hrest (fun k hk => hv k (List.mem_cons_of_mem _ hk)) p hp

theorem tier_currentTracker_congr (a b : tr_tier) (h1 : a.currentTracker = b.currentTracker)
    (h2 : a.trackers = b.trackers) : tier_currentTracker a = tier_currentTracker b := by
  unfold tier_currentTracker
  rw [h1, h2]

theorem tierAnnounce_some (announcer : tr_announcer) (session : announcer_session) (now : Int)
    (tier : tr_tier) (hq : tier.announce_events ≠ [])
    (hc : (tier_currentTracker tier).isSome = true) :
    ∃ r, tierAnnounce announcer session now tier = some r := by
  unfold tierAnnounce tier_announce_event_pull
  cases he : tier.announce_events with
  | nil => exact absurd he hq
  | cons e rest =>
    simp only
    have hcur : tier_currentTracker (tier_update_announce_priority
        { tier with announce_events := rest }) = tier_currentTracker tier :=
      tier_currentTracker_congr _ _ rfl rfl
    unfold announce_request_new
    rw [hcur]
    cases hct : tier_currentTracker tier with
    | none => rw [hct] at hc; cases hc
    | some tracker => exact ⟨_, rfl⟩

theorem scrapeAndAnnounceMore_announce_frame (announcer : tr_announcer)
    (session : announcer_session) (now : Int) (sel : List Nat) (tiers : List tr_tier)
    (hnd : sel.Nodup)
    (hsel : ∀ i ∈ sel, ∃ t, tiers[i]? = some t ∧ t.announce_events ≠ []
      ∧ (tier_currentTracker t).isSome = true) :
    ∃ r, scrapeAndAnnounceMore_announce announcer session now sel tiers = some r
      ∧ r.1.length = tiers.length ∧ ∀ j, j ∉ sel → r.1[j]? = tiers[j]? := by
  induction sel generalizing tiers with
  | nil => exact ⟨(tiers, []), rfl, rfl, fun _ _ => rfl⟩
  | cons i sel ih =>
    obtain ⟨t, hti, hq, hc⟩ := hsel i (List.mem_cons_self _ _)
    obtain ⟨⟨t2, req⟩, hann⟩ := tierAnnounce_some announcer session now t hq hc
    have hnd2 := (List.nodup_cons.mp hnd)
    have hsel2 : ∀ k ∈ sel, ∃ t, (tiers.set i t2)[k]? = some t ∧ t.announce_events ≠ []
        ∧ (tier_currentTracker t).isSome = true := by
      intro k hk
      obtain ⟨tk, h1, h2, h3⟩ := hsel k (List.mem_cons_of_mem _ hk)
      have hne : i ≠ k := fun h => hnd2.1 (h ▸ hk)
      exact ⟨tk, by rw [List.getElem?_set_ne hne]; exact h1, h2, h3⟩
    obtain ⟨r, hr, hlen, hframe⟩ := ih (tiers.set i t2) hnd2.2 hsel2
    refine ⟨(r.1, req :: r.2), ?_, ?_, ?_⟩
    · unfold scrapeAndAnnounceMore_announce
      simp only [hti, hann, hr, Option.map_some']
    · rw [hlen, List.length_set]
    · intro j hj
      simp only [List.mem_cons, not_or] at hj
      rw [hframe j hj.2, List.getElem?_set_ne (fun h => hj.1 h.symm)]
/-- C12, amended: an upkeep pulse over tiers whose announces have a tracker to
go to runs to its end; it leaves a tier untouched whose scrape was in flight when
the pulse began, and it changes `isAnnouncing` only by setting it on a tier that
had neither `isAnnouncing` nor `isScraping` set when the pulse began. -/
theorem scrapeAndAnnounceMore_guards (announcer : tr_announcer) (session : announcer_session)
    (addr : Nat → Nat) (now : Int) (tiers : List tr_tier)
    (hcur : ∀ t ∈ tiers, tierNeedsToAnnounce t now = true →
      (tier_currentTracker t).isSome = true) :
    ∃ r, scrapeAndAnnounceMore announcer session addr now tiers = some r
      ∧ ∀ (i : Nat) (t : tr_tier), tiers[i]? = some t →
        ∃ t', r.1[i]? = some t'
          ∧ (t.isScraping = true → t' = t)
          ∧ (t'.isAnnouncing ≠ t.isAnnouncing →
              t.isAnnouncing = false ∧ t.isScraping = false ∧ t'.isAnnouncing = true) := by
  have hmemA : ∀ i, i ∈ (List.range tiers.length).filter
      (fun i => (tiers[i]?).any (fun tier => tierNeedsToAnnounce tier now)) →
      ∃ t, tiers[i]? = some t ∧ tierNeedsToAnnounce t now = true := by
    intro i hi
    obtain ⟨h1, h2⟩ := List.mem_filter.mp hi
    have hlt : i < tiers.length := List.mem_range.mp h1
    rw [List.getElem?_eq_getElem hlt] at h2
    exact ⟨_, List.getElem?_eq_getElem hlt, by simpa using h2⟩
  have hmemS : ∀ i, i ∈ (List.range tiers.length).filter
      (fun i => (tiers[i]?).any (fun tier => tierNeedsToScrape tier now)) →
      ∃ t, tiers[i]? = some t ∧ tierNeedsToScrape t now = true := by
    intro i hi
    obtain ⟨h1, h2⟩ := List.mem_filter.mp hi
    have hlt : i < tiers.length := List.mem_range.mp h1
    rw [List.getElem?_eq_getElem hlt] at h2
    exact ⟨_, List.getElem?_eq_getElem hlt, by simpa using h2⟩
  unfold scrapeAndAnnounceMore
  lift_lets
  intro announce_me scrape_me
  have hdue : ∀ t ∈ scrape_me.filterMap (fun i => tiers[i]?), tierNeedsToScrape t now = true := by
    intro t ht
    obtain ⟨i, hi, hti⟩ := List.mem_filterMap.mp ht
    obtain ⟨t2, h2, h3⟩ := hmemS i hi
    rw [h2] at hti
    cases hti
    exact h3
  obtain ⟨out, hout, hrel⟩ := multiscrape_batch_frame announcer session.tr_torrentInfoHash now
    (scrape_me.filterMap (fun i => tiers[i]?)) [] hdue
  have hms : multiscrape announcer session.tr_torrentInfoHash now
      (scrape_me.filterMap (fun i => tiers[i]?)) = some (out.1, out.2) := hout
  simp -zeta only [hms]
  lift_lets
  intro ts1 compare sel
  have hzip := zip_filterMap_rel _ tiers scrape_me out.1 hrel
    (fun i hi => List.mem_range.mp (List.mem_filter.mp hi).1)
  have hb : ∀ (j : Nat) (t : tr_tier), tiers[j]? = some t → ∃ t1, ts1[j]? = some t1
      ∧ (t1 = t ∨ (t1 = t ∨ t1 = { t with isScraping := true, lastScrapeStartTime := now })) :=
    foldl_set_rel _ tiers (scrape_me.zip out.1) hzip tiers (fun j t hj => ⟨t, hj, Or.inl rfl⟩)
  have hc : ∀ j, j ∉ scrape_me → ts1[j]? = tiers[j]? := by
    intro j hj
    apply foldl_set_frame
    intro p hp h
    exact hj (h ▸ (List.of_mem_zip hp).1)
  have hselsub : ∀ i ∈ sel, i ∈ announce_me := by
    intro i hi
    by_cases hlen : announce_me.length > MaxAnnouncesPerUpkeep
    · have h1 : sel = (std_partial_sort compare announce_me MaxAnnouncesPerUpkeep).take
          MaxAnnouncesPerUpkeep := if_pos hlen
      rw [h1] at hi
      exact (std_partial_sort_perm compare announce_me MaxAnnouncesPerUpkeep).subset
        (List.mem_of_mem_take hi)
    · have h1 : sel = announce_me := if_neg hlen
      rw [h1] at hi
      exact hi
  have hndA : announce_me.Nodup := List.Nodup.filter _ (List.nodup_range _)
  have hnd : sel.Nodup := by
    by_cases hlen : announce_me.length > MaxAnnouncesPerUpkeep
    · have h1 : sel = (std_partial_sort compare announce_me MaxAnnouncesPerUpkeep).take
          MaxAnnouncesPerUpkeep := if_pos hlen
      rw [h1]
      exact List.Nodup.sublist (List.take_sublist _ _)
        ((std_partial_sort_perm compare announce_me MaxAnnouncesPerUpkeep).nodup_iff.mpr hndA)
    · have h1 : sel = announce_me := if_neg hlen
      rw [h1]
      exact hndA
  have hsel : ∀ i ∈ sel, ∃ t, ts1[i]? = some t ∧ t.announce_events ≠ []
      ∧ (tier_currentTracker t).isSome = true := by
    intro i hi
    obtain ⟨t, ht, hneed⟩ := hmemA i (hselsub i hi)
    obtain ⟨t1, ht1, hR⟩ := hb i t ht
    have htr := hcur t (List.getElem?_mem ht) hneed
    have hq : t.announce_events ≠ [] := by
      simp only [tierNeedsToAnnounce, Bool.and_eq_true, decide_eq_true_eq] at hneed
      intro h
      rw [h] at hneed
      exact absurd hneed.2 (by decide)
    refine ⟨t1, ht1, ?_⟩
    rcases hR with rfl | rfl | rfl
    · exact ⟨hq, htr⟩
    · exact ⟨hq, htr⟩
    · exact ⟨hq, (tier_currentTracker_congr _ t rfl rfl).symm ▸ htr⟩
  obtain ⟨r, hr, hlen, hframe⟩ := scrapeAndAnnounceMore_announce_frame announcer session now sel
    ts1 hnd hsel
  refine ⟨(r.1, out.2, r.2), by simp only [hr], ?_⟩
  intro i t ht
  have hlt : i < tiers.length := by
    by_contra hge
    have hnone : tiers[i]? = none := List.getElem?_eq_none (Nat.le_of_not_lt hge)
    rw [hnone] at ht
    cases ht
  have hlen1 : ts1.length = tiers.length := foldl_set_length _ _
  have hlt2 : i < r.1.length := by rw [hlen, hlen1]; exact hlt
  refine ⟨r.1[i], List.getElem?_eq_getElem hlt2, ?_, ?_⟩
  · intro hs
    have hnS : i ∉ scrape_me := by
      intro hi
      obtain ⟨t2, h2, h3⟩ := hmemS i hi
      rw [ht] at h2
      cases h2
      simp [tierNeedsToScrape, hs] at h3
    have hnA : i ∉ sel := by
      intro hi
      obtain ⟨t2, h2, h3⟩ := hmemA i (hselsub i hi)
      rw [ht] at h2
      cases h2
      simp [tierNeedsToAnnounce, hs] at h3
    have h1 := hframe i hnA
    rw [hc i hnS, ht, List.getElem?_eq_getElem hlt2] at h1
    exact Option.some.inj h1
  · intro hne
    have hin : i ∈ sel := by
      by_contra hnA
      have h1 := hframe i hnA
      obtain ⟨t1, ht1, hR⟩ := hb i t ht
      rw [ht1, List.getElem?_eq_getElem hlt2] at h1
      have h2 : r.1[i] = t1 := Option.some.inj h1
      apply hne
      rw [h2]
      rcases hR with rfl | rfl | rfl <;> rfl
    obtain ⟨t2, h2, h3⟩ := hmemA i (hselsub i hin)
    rw [ht] at h2
    cases h2
    simp only [tierNeedsToAnnounce, Bool.and_eq_true, Bool.not_eq_true', decide_eq_true_eq] at h3
    have hA : t.isAnnouncing = false := h3.1.1.1.1
    have hS : t.isScraping = false := h3.1.1.1.2
    refine ⟨hA, hS, ?_⟩
    rw [hA] at hne
    cases hv : (r.1[i]).isAnnouncing with
    | true => rfl
    | false => exact absurd hv hne

/-- The pulse at time 105 over a tier that is being scraped and a tier with an
announce queued: the first is left as it is, the second is announced. -/
theorem scrapeAndAnnounceMore_guards_witness :
    (∀ t ∈ [{ queuedTier with isScraping := true }, queuedTier],
        tierNeedsToAnnounce t 105 = true → (tier_currentTracker t).isSome = true)
    ∧ ∃ r, scrapeAndAnnounceMore tr_announcerInit stopsSession id 105
          [{ queuedTier with isScraping := true }, queuedTier] = some r
      ∧ ∀ (i : Nat) (t : tr_tier),
        [{ queuedTier with isScraping := true }, queuedTier][i]? = some t →
        ∃ t', r.1[i]? = some t'
          ∧ (t.isScraping = true → t' = t)
          ∧ (t'.isAnnouncing ≠ t.isAnnouncing →
              t.isAnnouncing = false ∧ t.isScraping = false ∧ t'.isAnnouncing = true) :=
  ⟨by decide, scrapeAndAnnounceMore_guards tr_announcerInit stopsSession id 105
    [{ queuedTier with isScraping := true }, queuedTier] (by decide)⟩

/-! ## The optimistic unchoke -/

theorem rechokeUploads_expire_frame (s : tr_swarm) :
    (rechokeUploads_expire s).peers = s.peers ∧ (rechokeUploads_expire s).pool = s.pool := by
  unfold rechokeUploads_expire
  split <;> exact ⟨rfl, rfl⟩

theorem rechokeUploads_collect_spec (env : rechoke_env) (s : tr_swarm) (peers : List tr_peer)
    (choke : List ChokeData) (calls : List (Nat × Bool)) :
    (∀ d ∈ (rechokeUploads_collect env s peers choke calls).1,
        d ∈ choke ∨ ∃ peer ∈ peers, d.msgs = peer.ptr ∧ some peer.ptr ≠ s.optimistic)
    ∧ (∀ c ∈ (rechokeUploads_collect env s peers choke calls).2,
        c ∈ calls ∨ ∃ peer ∈ peers, c.1 = peer.ptr
          ∧ (tr_peerIsSeed s.pool peer = true ∨ env.tr_torrentIsPieceTransferAllowed = false))
    ∧ (∀ d ∈ choke, d ∈ (rechokeUploads_collect env s peers choke calls).1)
    ∧ (∀ peer ∈ peers, tr_peerIsSeed s.pool peer = false →
        env.tr_torrentIsPieceTransferAllowed = true → some peer.ptr ≠ s.optimistic →
        peer.ptr ∈ (rechokeUploads_collect env s peers choke calls).1.map (fun d => d.msgs)) := by
  induction peers generalizing choke calls with
  | nil =>
    refine ⟨fun d hd => Or.inl hd, fun c hc => Or.inl hc, fun d hd => hd, ?_⟩
    intro peer hp
    cases hp
  | cons peer peers ih =>
    unfold rechokeUploads_collect
    by_cases hseed : tr_peerIsSeed s.pool peer = true
    · rw [if_pos hseed]
      obtain ⟨h1, h2, h3, h4⟩ := ih choke (calls ++ [(peer.ptr, true)])
      refine ⟨?_, ?_, h3, ?_⟩
      · intro d hd
        rcases h1 d hd with h | ⟨q, hq, h⟩
        · exact Or.inl h
        · exact Or.inr ⟨q, List.mem_cons_of_mem _ hq, h⟩
      · intro c hc
        rcases h2 c hc with h | ⟨q, hq, h⟩
        · rcases List.mem_append.mp h with h | h
          · exact Or.inl h
          · rw [List.mem_singleton] at h
            exact Or.inr ⟨peer, List.mem_cons_self _ _, by rw [h], Or.inl hseed⟩
        · exact Or.inr ⟨q, List.mem_cons_of_mem _ hq, h⟩
      · intro q hq hns hallowed hopt
        rcases List.mem_cons.mp hq with rfl | hq
        · rw [hseed] at hns
          cases hns
        · exact h4 q hq hns hallowed hopt
    · rw [if_neg hseed]
      by_cases hall : (!env.tr_torrentIsPieceTransferAllowed) = true
      · rw [if_pos hall]
        have hall2 : env.tr_torrentIsPieceTransferAllowed = false := by simpa using hall
        obtain ⟨h1, h2, h3, h4⟩ := ih choke (calls ++ [(peer.ptr, true)])
        refine ⟨?_, ?_, h3, ?_⟩
        · intro d hd
          rcases h1 d hd with h | ⟨q, hq, h⟩
          · exact Or.inl h
          · exact Or.inr ⟨q, List.mem_cons_of_mem _ hq, h⟩
        · intro c hc
          rcases h2 c hc with h | ⟨q, hq, h⟩
          · rcases List.mem_append.mp h with h | h
            · exact Or.inl h
            · rw [List.mem_singleton] at h
              exact Or.inr ⟨peer, List.mem_cons_self _ _, by rw [h], Or.inr hall2⟩
          · exact Or.inr ⟨q, List.mem_cons_of_mem _ hq, h⟩
        · intro q hq hns hallowed hopt
          rw [hall2] at hallowed
          cases hallowed
      · rw [if_neg hall]
        by_cases hopt : some peer.ptr ≠ s.optimistic
        · rw [if_pos hopt]
          dsimp only
          obtain ⟨h1, h2, h3, h4⟩ := ih (choke ++ [ChokeData.mk (env.is_peer_interested peer.ptr)
            (env.is_peer_choked peer.ptr) true (getRate env s.pool peer.atom)
            (tr_rand_int_weak env choke.length INT_MAX) peer.ptr]) calls
          refine ⟨?_, ?_, ?_, ?_⟩
          · intro d hd
            rcases h1 d hd with h | ⟨q, hq, h⟩
            · rcases List.mem_append.mp h with h | h
              · exact Or.inl h
              · rw [List.mem_singleton] at h
                exact Or.inr ⟨peer, List.mem_cons_self _ _, by rw [h], hopt⟩
            · exact Or.inr ⟨q, List.mem_cons_of_mem _ hq, h⟩
          · intro c hc
            rcases h2 c hc with h | ⟨q, hq, h⟩
            · exact Or.inl h
            · exact Or.inr ⟨q, List.mem_cons_of_mem _ hq, h⟩
          · intro d hd
            exact h3 d (List.mem_append_left _ hd)
          · intro q hq hns hallowed hoptq
            rcases List.mem_cons.mp hq with rfl | hq
            · exact List.mem_map.mpr ⟨_, h3 _ (List.mem_append_right _ (List.mem_singleton_self _)),
                rfl⟩
            · exact h4 q hq hns hallowed hoptq
        · rw [if_neg hopt]
          obtain ⟨h1, h2, h3, h4⟩ := ih choke calls
          refine ⟨?_, ?_, h3, ?_⟩
          · intro d hd
            rcases h1 d hd with h | ⟨q, hq, h⟩
            · exact Or.inl h
            · exact Or.inr ⟨q, List.mem_cons_of_mem _ hq, h⟩
          · intro c hc
            rcases h2 c hc with h | ⟨q, hq, h⟩
            · exact Or.inl h
            · exact Or.inr ⟨q, List.mem_cons_of_mem _ hq, h⟩
          · intro q hq hns hallowed hoptq
            rcases List.mem_cons.mp hq with rfl | hq
            · exact absurd hoptq hopt
            · exact h4 q hq hns hallowed hoptq

theorem rechokeUploads_unchoke_msgs (isMaxedOut : Bool) (slots : Int) (choke : List ChokeData)
    (unchokedInterested : Int) :
    ∀ d ∈ (rechokeUploads_unchoke isMaxedOut slots choke unchokedInterested).1,
      ∃ d0 ∈ choke, d.msgs = d0.msgs := by
  induction choke generalizing unchokedInterested with
  | nil => intro d hd; cases hd
  | cons c choke ih =>
    unfold rechokeUploads_unchoke
    split
    · intro d hd
      rcases List.mem_cons.mp hd with rfl | hd
      · exact ⟨c, List.mem_cons_self _ _, rfl⟩
      · obtain ⟨d0, h0, h⟩ := ih _ d hd
        exact ⟨d0, List.mem_cons_of_mem _ h0, h⟩
    · intro d hd
      exact ⟨d, hd, rfl⟩

theorem modify_unchoke_msgs (choke : List ChokeData) (c : Nat) :
    ∀ d ∈ choke.modify (fun d : ChokeData => { d with isChoked := false }) c,
      ∃ d0 ∈ choke, d.msgs = d0.msgs := by
  intro d hd
  obtain ⟨m, hm⟩ := List.mem_iff_getElem?.mp hd
  rw [List.getElem?_modify] at hm
  cases h0 : choke[m]? with
  | none => rw [h0] at hm; cases hm
  | some d0 =>
    rw [h0] at hm
    have hd0 : d0 ∈ choke := List.getElem?_mem h0
    simp only [Option.map_eq_map, Option.map_some', Option.some.injEq] at hm
    refine ⟨d0, hd0, ?_⟩
    rw [← hm]
    split <;> rfl

/-- What a call of `rechokeUploads` does when it begins with an optimistic peer
whose scaler has not run out. -/
theorem rechokeUploads_immune (env : rechoke_env) (s : tr_swarm) (P : Nat)
    (hopt : s.optimistic = some P) (hpos : 0 < s.optimisticUnchokeTimeScaler) :
    (rechokeUploads env s).1.optimistic = some P
    ∧ (rechokeUploads env s).1.optimisticUnchokeTimeScaler = s.optimisticUnchokeTimeScaler - 1
    ∧ ((∀ peer ∈ s.peers, peer.ptr = P → tr_peerIsSeed s.pool peer = false) →
        env.tr_torrentIsPieceTransferAllowed = true →
        ∀ c ∈ (rechokeUploads env s).2, c.1 ≠ P) := by
  have hexp : rechokeUploads_expire s
      = { s with optimisticUnchokeTimeScaler := s.optimisticUnchokeTimeScaler - 1 } := by
    unfold rechokeUploads_expire
    rw [if_pos hpos]
  have hnone : ¬ ((rechokeUploads_expire s).optimistic = none
      ∧ env.isBandwidthMaxedOut = false
      ∧ (rechokeUploads_unchoke env.isBandwidthMaxedOut env.uploadSlotsPerTorrent
          (qsort compareChoke (rechokeUploads_collect env (rechokeUploads_expire s)
            (rechokeUploads_expire s).peers [] []).1) 0).2
        < (rechokeUploads_collect env (rechokeUploads_expire s)
            (rechokeUploads_expire s).peers [] []).1.length) := by
    intro h
    rw [hexp] at h
    have h1 := h.1
    simp only [hopt] at h1
    cases h1
  unfold rechokeUploads
  dsimp only
  rw [if_neg hnone]
  dsimp only
  refine ⟨by rw [hexp]; exact hopt, by rw [hexp], ?_⟩
  intro hns hallowed c hc hcP
  obtain ⟨h1, h2, -, -⟩ := rechokeUploads_collect_spec env (rechokeUploads_expire s)
    (rechokeUploads_expire s).peers [] []
  have hpeers := (rechokeUploads_expire_frame s).1
  have hpool := (rechokeUploads_expire_frame s).2
  have hoptE : (rechokeUploads_expire s).optimistic = some P := by rw [hexp]; exact hopt
  rcases List.mem_append.mp hc with hc | hc
  · rcases h2 c hc with h | ⟨peer, hp, hptr, hwhy⟩
    · cases h
    · rw [hpeers] at hp
      rw [hpool] at hwhy
      rcases hwhy with hseed | hall
      · rw [hns peer hp (by rw [← hptr]; exact hcP)] at hseed
        cases hseed
      · rw [hallowed] at hall
        cases hall
  · obtain ⟨d, hd, hdc⟩ := List.mem_map.mp hc
    obtain ⟨d0, hd0, hmsgs⟩ := rechokeUploads_unchoke_msgs _ _ _ _ d hd
    have hd1 : d0 ∈ (rechokeUploads_collect env (rechokeUploads_expire s)
        (rechokeUploads_expire s).peers [] []).1 :=
      (List.perm_insertionSort _ _).subset hd0
    rcases h1 d0 hd1 with h | ⟨peer, hp, hptr, hne⟩
    · cases h
    · apply hne
      rw [hoptE, ← hptr, ← hmsgs]
      rw [← hdc] at hcP
      exact congrArg some hcP

/-- What the call of `rechokeUploads` does that selects the optimistic peer. -/
theorem rechokeUploads_selects (env : rechoke_env) (s : tr_swarm) (P : Nat)
    (hnone : (rechokeUploads_expire s).optimistic = none)
    (hsel : (rechokeUploads env s).1.optimistic = some P) :
    (rechokeUploads env s).1.optimisticUnchokeTimeScaler = OptimisticUnchokeMultiplier
    ∧ (P, false) ∈ (rechokeUploads env s).2 := by
  unfold rechokeUploads at hsel ⊢
  dsimp only at hsel ⊢
  split at hsel
  · rename_i hcond
    split at hsel
    · rename_i hn
      split at hsel
      · rename_i entry hentry
        dsimp only at hsel
        rw [if_pos hcond, if_pos hn]
        simp only [hentry]
        refine ⟨trivial, ?_⟩
        apply List.mem_append_right
        apply List.mem_map.mpr
        refine ⟨{ entry with isChoked := false }, ?_, ?_⟩
        · apply List.getElem?_mem
          rw [List.getElem?_modify_eq, hentry]
          rfl
        · have hP : entry.msgs = P := Option.some.inj hsel
          rw [← hP]
      · rw [hnone] at hsel
        cases hsel
    · rw [hnone] at hsel
      cases hsel
  · rw [hnone] at hsel
    cases hsel

/-- What a call of `rechokeUploads` does when it begins with an optimistic peer
whose scaler has run out. -/
theorem rechokeUploads_expired (env : rechoke_env) (s : tr_swarm) (P : Nat)
    (hzero : s.optimisticUnchokeTimeScaler = 0) :
    (rechokeUploads_expire s).optimistic = none
    ∧ ∀ peer ∈ s.peers, peer.ptr = P → tr_peerIsSeed s.pool peer = false →
        env.tr_torrentIsPieceTransferAllowed = true →
        P ∈ (rechokeUploads_candidates env s).map (fun d => d.msgs) := by
  have hexp : rechokeUploads_expire s = { s with optimistic := none } := by
    unfold rechokeUploads_expire
    rw [if_neg (by rw [hzero]; decide)]
  refine ⟨by rw [hexp], ?_⟩
  intro peer hp hptr hns hallowed
  obtain ⟨-, -, -, h4⟩ := rechokeUploads_collect_spec env (rechokeUploads_expire s) s.peers [] []
  have h := h4 peer hp (by rw [(rechokeUploads_expire_frame s).2]; exact hns) hallowed
    (by rw [hexp]; intro h; cases h)
  rw [hptr] at h
  exact h
/-- C16: let `s k` be the swarm when its rechoke number `k` begins and `e k`
what that call reads, the optimistic peer and its scaler being left alone between
the calls. If rechoke `N` selects peer `P` as the optimistic unchoke (unchoking
it), then at each of the rechokes `N + 1` to `N + 4` the peer `P` is the swarm's
optimistic peer before and after the call, and the call makes no `set_choke` on
`P`, whatever the rates, provided `P` is not a seed and piece transfer to peers
is allowed; and rechoke `N + 5` begins by clearing the optimistic peer, and `P`
is among the entries that it ranks. -/
theorem optimistic_unchoke_immune (P N : Nat) (e : Nat → rechoke_env) (s : Nat → tr_swarm)
    (hnone : (rechokeUploads_expire (s N)).optimistic = none)
    (hsel : (rechokeUploads (e N) (s N)).1.optimistic = some P)
    (hkept : ∀ k, N ≤ k → k < N + 5 → optimisticKept (rechokeUploads (e k) (s k)).1 (s (k + 1))) :
    (P, false) ∈ (rechokeUploads (e N) (s N)).2
    ∧ (∀ k, N + 1 ≤ k → k ≤ N + 4 →
        (s k).optimistic = some P
        ∧ (rechokeUploads (e k) (s k)).1.optimistic = some P
        ∧ ((∀ peer ∈ (s k).peers, peer.ptr = P → tr_peerIsSeed (s k).pool peer = false) →
            (e k).tr_torrentIsPieceTransferAllowed = true →
            ∀ c ∈ (rechokeUploads (e k) (s k)).2, c.1 ≠ P))
    ∧ (rechokeUploads_expire (s (N + 5))).optimistic = none
    ∧ (∀ peer ∈ (s (N + 5)).peers, peer.ptr = P →
        tr_peerIsSeed (s (N + 5)).pool peer = false →
        (e (N + 5)).tr_torrentIsPieceTransferAllowed = true →
        P ∈ (rechokeUploads_candidates (e (N + 5)) (s (N + 5))).map (fun d => d.msgs)) := by
  obtain ⟨hfour, hcall⟩ := rechokeUploads_selects (e N) (s N) P hnone hsel
  have hinv : ∀ j, j < 5 → (s (N + 1 + j)).optimistic = some P
      ∧ (s (N + 1 + j)).optimisticUnchokeTimeScaler = 4 - (j : Int) := by
    intro j
    induction j with
    | zero =>
      intro _
      obtain ⟨h1, h2⟩ := hkept N (Nat.le_refl _) (by omega)
      refine ⟨by rw [Nat.add_zero, h1]; exact hsel, ?_⟩
      rw [Nat.add_zero, h2, hfour]
      rfl
    | succ j ih =>
      intro hj
      obtain ⟨ho, hs⟩ := ih (by omega)
      obtain ⟨h1, h2, -⟩ := rechokeUploads_immune (e (N + 1 + j)) (s (N + 1 + j)) P ho
        (by rw [hs]; omega)
      obtain ⟨k1, k2⟩ := hkept (N + 1 + j) (by omega) (by omega)
      refine ⟨by rw [← Nat.add_assoc, k1]; exact h1, ?_⟩
      rw [← Nat.add_assoc, k2, h2, hs]
      push_cast
      ring
  refine ⟨hcall, ?_, ?_⟩
  · intro k hk1 hk2
    obtain ⟨j, rfl⟩ : ∃ j, k = N + 1 + j := ⟨k - (N + 1), by omega⟩
    obtain ⟨ho, hs⟩ := hinv j (by omega)
    obtain ⟨h1, -, h3⟩ := rechokeUploads_immune (e (N + 1 + j)) (s (N + 1 + j)) P ho
      (by rw [hs]; omega)
    exact ⟨ho, h1, h3⟩
  · obtain ⟨ho, hs⟩ := hinv 3 (by omega)
    obtain ⟨-, h2, -⟩ := rechokeUploads_immune (e (N + 1 + 3)) (s (N + 1 + 3)) P ho
      (by rw [hs]; decide)
    obtain ⟨-, k2⟩ := hkept (N + 1 + 3) (by omega) (by omega)
    have hzero : (s (N + 5)).optimisticUnchokeTimeScaler = 0 := by
      have h5 : N + 1 + 3 + 1 = N + 5 := by omega
      rw [h5] at k2
      rw [k2, h2, hs]
      decide
    exact rechokeUploads_expired (e (N + 5)) (s (N + 5)) P hzero

/-- The sample swarm, rechoked six times in a row: peer 11 is selected at
rechoke 0. -/
theorem optimistic_unchoke_immune_witness :
    (rechokeUploads_expire (chokeRun 0)).optimistic = none
    ∧ (rechokeUploads chokeEnv (chokeRun 0)).1.optimistic = some 11
    ∧ ((11, false) ∈ (rechokeUploads chokeEnv (chokeRun 0)).2
      ∧ (∀ k, 0 + 1 ≤ k → k ≤ 0 + 4 →
          (chokeRun k).optimistic = some 11
          ∧ (rechokeUploads chokeEnv (chokeRun k)).1.optimistic = some 11
          ∧ ((∀ peer ∈ (chokeRun k).peers, peer.ptr = 11 →
                tr_peerIsSeed (chokeRun k).pool peer = false) →
              chokeEnv.tr_torrentIsPieceTransferAllowed = true →
              ∀ c ∈ (rechokeUploads chokeEnv (chokeRun k)).2, c.1 ≠ 11))
      ∧ (rechokeUploads_expire (chokeRun (0 + 5))).optimistic = none
      ∧ (∀ peer ∈ (chokeRun (0 + 5)).peers, peer.ptr = 11 →
          tr_peerIsSeed (chokeRun (0 + 5)).pool peer = false →
          chokeEnv.tr_torrentIsPieceTransferAllowed = true →
          11 ∈ (rechokeUploads_candidates chokeEnv (chokeRun (0 + 5))).map (fun d => d.msgs))) :=
  ⟨by decide, by decide, optimistic_unchoke_immune 11 0 (fun _ => chokeEnv) chokeRun (by decide)
    (by decide) (fun _ _ _ => ⟨rfl, rfl⟩)⟩

/-! ## Datagrams of invalid length -/

theorem is_tau_response_message_iff (action msglen : Nat) :
    is_tau_response_message action msglen = true
      ↔ (action = 0 ∧ msglen = 16) ∨ (action = 1 ∧ 20 ≤ msglen) ∨ (action = 2 ∧ 20 ≤ msglen)
        ∨ (action = 3 ∧ 8 ≤ msglen) := by
  unfold is_tau_response_message TAU_ACTION_CONNECT TAU_ACTION_ANNOUNCE TAU_ACTION_SCRAPE
    TAU_ACTION_ERROR
  split_ifs with h0 h1 h2 h3
  · subst h0; simp
  · subst h1; simp
  · subst h2; simp
  · subst h3; simp
  · constructor
    · intro h; cases h
    · intro h; omega

/-- C21: `tau_handle_message` returns false, with no callback or other effect
and the transport (its trackers and their requests) unchanged, for every message
shorter than 8 bytes and for every message whose length is not valid for the
action in its first four bytes: exactly 16 bytes for action 0, at least 20 for
actions 1 and 2, at least 8 for action 3, and no length for any other action. -/
theorem tau_handle_message_rejects_invalid_length (env : tau_env)
    (announcer_udp : Option tr_announcer_udp) (msg : List Nat)
    (h : msg.length < 8
      ∨ ¬ ((ntoh (slice 0 4 msg) = 0 ∧ msg.length = 16)
          ∨ (ntoh (slice 0 4 msg) = 1 ∧ 20 ≤ msg.length)
          ∨ (ntoh (slice 0 4 msg) = 2 ∧ 20 ≤ msg.length)
          ∨ (ntoh (slice 0 4 msg) = 3 ∧ 8 ≤ msg.length))) :
    tau_handle_message env announcer_udp msg = some (false, announcer_udp, []) := by
  unfold tau_handle_message
  cases announcer_udp with
  | none => rfl
  | some tau =>
    dsimp only
    by_cases hshort : msg.length < 4 * 2
    · rw [if_pos hshort]
    · rw [if_neg hshort]
      have hbad : ¬ ((ntoh (slice 0 4 msg) = 0 ∧ msg.length = 16)
          ∨ (ntoh (slice 0 4 msg) = 1 ∧ 20 ≤ msg.length)
          ∨ (ntoh (slice 0 4 msg) = 2 ∧ 20 ≤ msg.length)
          ∨ (ntoh (slice 0 4 msg) = 3 ∧ 8 ≤ msg.length)) := by
        rcases h with h | h
        · exact absurd h hshort
        · exact h
      have hread : evbuffer_read_ntoh_32 msg = (ntoh (slice 0 4 msg), msg.drop 4) := by
        rw [evbuffer_read_ntoh_32_of_le _ (by omega)]
        rfl
      rw [hread]
      dsimp only
      have hfalse : is_tau_response_message (ntoh (slice 0 4 msg)) msg.length = false := by
        cases hv : is_tau_response_message (ntoh (slice 0 4 msg)) msg.length with
        | false => rfl
        | true => exact absurd ((is_tau_response_message_iff _ _).mp hv) hbad
      rw [hfalse]
      rfl

/-- An announce response cut to 16 bytes, under the transaction id of a sent
request, is dropped: the request stays pending and hears nothing. -/
theorem tau_handle_message_rejects_invalid_length_witness :
    ((announceReply.take 16).length < 8
      ∨ ¬ ((ntoh (slice 0 4 (announceReply.take 16)) = 0 ∧ (announceReply.take 16).length = 16)
          ∨ (ntoh (slice 0 4 (announceReply.take 16)) = 1 ∧ 20 ≤ (announceReply.take 16).length)
          ∨ (ntoh (slice 0 4 (announceReply.take 16)) = 2 ∧ 20 ≤ (announceReply.take 16).length)
          ∨ (ntoh (slice 0 4 (announceReply.take 16)) = 3 ∧ 8 ≤ (announceReply.take 16).length)))
    ∧ tau_handle_message exampleEnv (some { trackers := [plainTracker] }) (announceReply.take 16)
        = some (false, some { trackers := [plainTracker] }, []) :=
  ⟨Or.inr (by decide), tau_handle_message_rejects_invalid_length exampleEnv
    (some { trackers := [plainTracker] }) (announceReply.take 16) (Or.inr (by decide))⟩

/-! ## Candidate scores -/

theorem addValToKey_eq (value width addme k : Nat) (hv : value < 2 ^ k) (hk : k + width ≤ 64)
    (ha : addme < 2 ^ width) :
    addValToKey value width addme = value * 2 ^ width + addme
      ∧ addValToKey value width addme < 2 ^ (k + width) := by
  have hlt : value * 2 ^ width + addme < 2 ^ (k + width) := by
    rw [Nat.pow_add]
    have h1 : (value + 1) * 2 ^ width ≤ 2 ^ k * 2 ^ width := Nat.mul_le_mul_right _ hv
    rw [Nat.add_mul, Nat.one_mul] at h1
    omega
  have hle : 2 ^ (k + width) ≤ 2 ^ 64 := Nat.pow_le_pow_right (by decide) hk
  have hsmall : value * 2 ^ width < 2 ^ 64 := by omega
  have heq : addValToKey value width addme = value * 2 ^ width + addme := by
    unfold addValToKey
    dsimp only
    rw [Nat.shiftLeft_eq, Nat.mod_eq_of_lt hsmall, Nat.mul_comm value,
      ← Nat.mul_add_lt_is_or ha]
  exact ⟨heq, by rw [heq]; exact hlt⟩

theorem cons_lt_cons_nat (a b : Nat) (l1 l2 : List Nat) :
    (a :: l1 < b :: l2) ↔ a < b ∨ (a = b ∧ l1 < l2) := by
  constructor
  · intro h
    cases h with
    | cons h => exact Or.inr ⟨rfl, h⟩
    | rel hab => exact Or.inl hab
  · rintro (h | ⟨rfl, h⟩)
    · exact List.Lex.rel h
    · exact List.Lex.cons h

theorem nil_lt_nil_nat : ¬ (([] : List Nat) < []) := by
  intro h
  cases h

theorem getPeerCandidateScore_eq (tor : tr_torrent) (atom : peer_atom) (salt : Nat) (now : Int)
    (h0 : 0 ≤ atom.lastConnectionAttemptAt) (h32 : atom.lastConnectionAttemptAt < 2 ^ 32)
    (hfrom : atom.fromBest < 16) :
    ∃ f t r n s c d : Nat, peerCandidateFields tor atom salt now
        = [f, t, r, n, s, c, d, atom.fromBest, salt % 256]
      ∧ f < 2 ∧ t < 2 ^ 32 ∧ r < 16 ∧ n < 2 ∧ s < 2 ∧ c < 2 ∧ d < 2
      ∧ getPeerCandidateScore tor atom salt now
        = (((((((f * 2 ^ 32 + t) * 2 ^ 4 + r) * 2 ^ 1 + n) * 2 ^ 1 + s) * 2 ^ 1 + c) * 2 ^ 1 + d)
            * 2 ^ 4 + atom.fromBest) * 2 ^ 8 + salt % 256 := by
  have ht : (atom.lastConnectionAttemptAt % 2 ^ 64).toNat = atom.lastConnectionAttemptAt.toNat := by
    rw [Int.emod_eq_of_lt h0 (by omega)]
  have ht32 : atom.lastConnectionAttemptAt.toNat < 2 ^ 32 := by omega
  refine ⟨_, _, _, _, _, _, _, rfl, ?_, ht32, ?_, ?_, ?_, ?_, ?_, ?_⟩
  · split <;> omega
  · split <;> omega
  · split <;> omega
  · split <;> omega
  · split <;> omega
  · split <;> omega
  · unfold getPeerCandidateScore
    dsimp only
    rw [ht]
    have e1 := addValToKey_eq 0 1
      (if decide (atom.lastConnectionAt < atom.lastConnectionAttemptAt) = true then 1 else 0) 0
      (by decide) (by decide) (by split <;> decide)
    have e2 := addValToKey_eq _ 32 atom.lastConnectionAttemptAt.toNat _ e1.2 (by decide) ht32
    have e3 := addValToKey_eq _ 4 (match tor.priority with
      | tr_priority_t.TR_PRI_HIGH => 0
      | tr_priority_t.TR_PRI_NORMAL => 1
      | tr_priority_t.TR_PRI_LOW => 2) _ e2.2 (by decide) (by split <;> decide)
    have e4 := addValToKey_eq _ 1 (if torrentWasRecentlyStarted tor now = true then 0 else 1) _
      e3.2 (by decide) (by split <;> decide)
    have e5 := addValToKey_eq _ 1 (if tor.isSeed = true then 1 else 0) _ e4.2 (by decide)
      (by split <;> decide)
    have e6 := addValToKey_eq _ 1 (if (atom.flags &&& ADDED_F_CONNECTABLE) ≠ 0 then 0 else 1) _
      e5.2 (by decide) (by split <;> decide)
    have e7 := addValToKey_eq _ 1 (if (atom.flags &&& ADDED_F_SEED_FLAG) = 0 then 0 else 1) _
      e6.2 (by decide) (by split <;> decide)
    have e8 := addValToKey_eq _ 4 atom.fromBest _ e7.2 (by decide) hfrom
    have e9 := addValToKey_eq _ 8 (salt % 256) _ e8.2 (by decide) (Nat.mod_lt _ (by decide))
    rw [e9.1, e8.1, e7.1, e6.1, e5.1, e4.1, e3.1, e2.1, e1.1]
    simp [torrentWasRecentlyStarted]
/-- C22: `getPeerCandidateScore` is the number whose bits are, from the most
significant, the fields of widths 1, 32, 4, 1, 1, 1, 1, 4 and 8; so for two
candidates whose `lastConnectionAttemptAt` is a time below `2 ^ 32` and whose
best source is below 16, one score is smaller than the other exactly when its
list of fields is lexicographically smaller. -/
theorem getPeerCandidateScore_lt_iff (torA torB : tr_torrent) (atomA atomB : peer_atom)
    (saltA saltB : Nat) (now : Int)
    (hA0 : 0 ≤ atomA.lastConnectionAttemptAt) (hA32 : atomA.lastConnectionAttemptAt < 2 ^ 32)
    (hB0 : 0 ≤ atomB.lastConnectionAttemptAt) (hB32 : atomB.lastConnectionAttemptAt < 2 ^ 32)
    (hAfrom : atomA.fromBest < 16) (hBfrom : atomB.fromBest < 16) :
    (getPeerCandidateScore torA atomA saltA now < getPeerCandidateScore torB atomB saltB now
      ↔ peerCandidateFields torA atomA saltA now < peerCandidateFields torB atomB saltB now)
    ∧ ∃ f t r n s c d : Nat,
        peerCandidateFields torA atomA saltA now = [f, t, r, n, s, c, d, atomA.fromBest, saltA % 256]
        ∧ getPeerCandidateScore torA atomA saltA now
          = f * 2 ^ 52 + t * 2 ^ 20 + r * 2 ^ 16 + n * 2 ^ 15 + s * 2 ^ 14 + c * 2 ^ 13 + d * 2 ^ 12
            + atomA.fromBest * 2 ^ 8 + saltA % 256 := by
  obtain ⟨f, t, r, n, s, c, d, hf, h1, h2, h3, h4, h5, h6, h7, hs⟩ :=
    getPeerCandidateScore_eq torA atomA saltA now hA0 hA32 hAfrom
  obtain ⟨f', t', r', n', s', c', d', hf', h1', h2', h3', h4', h5', h6', h7', hs'⟩ :=
    getPeerCandidateScore_eq torB atomB saltB now hB0 hB32 hBfrom
  have hsa : saltA % 256 < 256 := Nat.mod_lt _ (by decide)
  have hsb : saltB % 256 < 256 := Nat.mod_lt _ (by decide)
  refine ⟨?_, f, t, r, n, s, c, d, hf, ?_⟩
  · rw [hf, hf', hs, hs']
    simp only [cons_lt_cons_nat, nil_lt_nil_nat]
    norm_num at h2 h2' ⊢
    omega
  · rw [hs]
    ring

/-- Two candidates of one torrent at time 600: the one whose last attempt
succeeded has the smaller score. -/
theorem getPeerCandidateScore_lt_iff_witness :
    0 ≤ connectedAtom.lastConnectionAttemptAt ∧ connectedAtom.lastConnectionAttemptAt < 2 ^ 32
    ∧ 0 ≤ triedAtom.lastConnectionAttemptAt ∧ triedAtom.lastConnectionAttemptAt < 2 ^ 32
    ∧ connectedAtom.fromBest < 16 ∧ triedAtom.fromBest < 16
    ∧ ((getPeerCandidateScore scoredTorrent connectedAtom 7 600
          < getPeerCandidateScore scoredTorrent triedAtom 3 600
        ↔ peerCandidateFields scoredTorrent connectedAtom 7 600
          < peerCandidateFields scoredTorrent triedAtom 3 600)
      ∧ ∃ f t r n s c d : Nat,
          peerCandidateFields scoredTorrent connectedAtom 7 600
            = [f, t, r, n, s, c, d, connectedAtom.fromBest, 7 % 256]
          ∧ getPeerCandidateScore scoredTorrent connectedAtom 7 600
            = f * 2 ^ 52 + t * 2 ^ 20 + r * 2 ^ 16 + n * 2 ^ 15 + s * 2 ^ 14 + c * 2 ^ 13
              + d * 2 ^ 12 + connectedAtom.fromBest * 2 ^ 8 + 7 % 256) :=
  ⟨by decide, by decide, by decide, by decide, by decide, by decide,
    getPeerCandidateScore_lt_iff scoredTorrent scoredTorrent connectedAtom triedAtom 7 3 600
      (by decide) (by decide) (by decide) (by decide) (by decide) (by decide)⟩

/-! ## The sources of an atom when a handshake completes -/

theorem atomAt_sources_atomUpdate (pool : List peer_atom) (p q : Nat) (f : peer_atom → peer_atom)
    (hf : ∀ a, (f a).ptr = a.ptr ∧ (f a).fromFirst = a.fromFirst ∧ (f a).fromBest = a.fromBest) :
    (atomAt (atomUpdate pool p f) q).fromFirst = (atomAt pool q).fromFirst
    ∧ (atomAt (atomUpdate pool p f) q).fromBest = (atomAt pool q).fromBest := by
  unfold atomAt atomUpdate
  induction pool with
  | nil => exact ⟨rfl, rfl⟩
  | cons a as ih =>
    simp only [List.map_cons, List.find?_cons]
    have hptr : (if a.ptr = p then f a else a).ptr = a.ptr := by
      by_cases e : a.ptr = p
      · simp only [e, if_true]
        rw [(hf a).1, e]
      · simp only [e, if_false]
    rw [hptr]
    by_cases hq : (a.ptr == q) = true
    · simp only [hq, Option.getD_some]
      by_cases e : a.ptr = p
      · simp only [e, if_true]
        exact ⟨(hf a).2.1, (hf a).2.2⟩
      · simp only [e, if_false]
        exact ⟨trivial, trivial⟩
    · have hq2 : (a.ptr == q) = false := by simpa using hq
      simp only [hq2]
      exact ih

theorem atomAt_sources_ite (pool : List peer_atom) (c : Prop) [Decidable c] (p q : Nat)
    (f : peer_atom → peer_atom)
    (hf : ∀ a, (f a).ptr = a.ptr ∧ (f a).fromFirst = a.fromFirst ∧ (f a).fromBest = a.fromBest) :
    (atomAt (if c then atomUpdate pool p f else pool) q).fromFirst = (atomAt pool q).fromFirst
    ∧ (atomAt (if c then atomUpdate pool p f else pool) q).fromBest = (atomAt pool q).fromBest := by
  split
  · exact atomAt_sources_atomUpdate pool p q f hf
  · exact ⟨rfl, rfl⟩

theorem ensureAtomExists_existing_sources {n : Nat} {s : tr_swarm} (h : swarmInv n s)
    (A : peer_atom) (hA : A ∈ s.pool) (port flags src : Nat) (now jitter : Int) (ptr : Nat) :
    (ensureAtomExists s A.addr port flags src now jitter ptr).2 = A.ptr
    ∧ (atomAt (ensureAtomExists s A.addr port flags src now jitter ptr).1.pool A.ptr).fromFirst
        = A.fromFirst
    ∧ (atomAt (ensureAtomExists s A.addr port flags src now jitter ptr).1.pool A.ptr).fromBest
        = (if src < A.fromBest then src else A.fromBest) := by
  unfold ensureAtomExists
  cases hex : getExistingAtom s A.addr with
  | none => exact absurd rfl (getExistingAtom_none hex A hA)
  | some B =>
    obtain ⟨hB, hBaddr⟩ := getExistingAtom_some hex
    have hBA : B = A := List.inj_on_of_nodup_map h.atom_addrs hB hA hBaddr
    subst hBA
    dsimp only
    rw [atomAt_atomUpdate_same _ _ _ (by intro _; rfl) ⟨B, hA, rfl⟩,
      atomAt_eq_of_mem h.atom_ptrs hB]
    exact ⟨rfl, rfl, rfl⟩

/-- A handshake that completes, whatever its direction, at the address of an
atom of a running swarm, leaves the atom's first source as it was and makes its
best source `TR_PEER_FROM_INCOMING`. -/
theorem on_handshake_done_swarm_outgoing_sources {n : Nat} {tor : tr_torrent}
    (h : swarmInv n tor.swarm) (result : tr_handshake_result) (now jitter : Int)
    (client : tr_quark) (a p : Nat) (A : peer_atom) (hA : A ∈ tor.swarm.pool)
    (haddr : result.handshake.addr = A.addr)
    (hok : result.isConnected = true) (hrun : tor.swarm.isRunning = true)
    (r : tr_swarm × Bool) (hr : r = on_handshake_done_swarm tor result now jitter client a p) :
    (atomAt r.1.pool A.ptr).fromFirst = A.fromFirst
    ∧ (atomAt r.1.pool A.ptr).fromBest = TR_PEER_FROM_INCOMING := by
  unfold on_handshake_done_swarm at hr
  lift_lets at hr
  extract_lets io ok s outgoing s0 addr port at hr
  have e1 : s0.pool = tor.swarm.pool := by
    show (if _ then _ else _ : tr_swarm).pool = _
    split <;> rfl
  have e2 : s0.peers = tor.swarm.peers := by
    show (if _ then _ else _ : tr_swarm).peers = _
    split <;> rfl
  have e3 : s0.stats = tor.swarm.stats := by
    show (if _ then _ else _ : tr_swarm).stats = _
    split <;> rfl
  have e4 : s0.isRunning = tor.swarm.isRunning := by
    show (if _ then _ else _ : tr_swarm).isRunning = _
    split <;> rfl
  have h0 : swarmInv n s0 := by
    unfold swarmInv
    rw [e1, e2, e3]
    exact h
  rw [← e1] at hA
  have hnofail : ¬ ((!ok || !s0.isRunning) = true) := by
    rw [e4, hrun]
    show ¬ ((!result.isConnected || !true) = true)
    rw [hok]
    decide
  clear_value s0
  rw [if_neg hnofail] at hr
  have hex := ensureAtomExists_existing_sources h0 A hA port 0 TR_PEER_FROM_INCOMING now jitter a
  have haddr2 : addr = A.addr := haddr
  rw [← haddr2] at hex
  split at hr
  rename_i s1 atom hE
  rw [hE] at hex
  obtain ⟨hatom, hfirst, hbest⟩ := hex
  simp only at hatom hfirst hbest
  have hbest0 : (atomAt s1.pool A.ptr).fromBest = TR_PEER_FROM_INCOMING := by
    rw [hbest]
    unfold TR_PEER_FROM_INCOMING
    split
    · rfl
    · omega
  lift_lets at hr
  extract_lets pool1 pool2 pool3 s2 at hr
  have q1 : (atomAt pool1 A.ptr).fromFirst = (atomAt s1.pool A.ptr).fromFirst
      ∧ (atomAt pool1 A.ptr).fromBest = (atomAt s1.pool A.ptr).fromBest :=
    atomAt_sources_atomUpdate _ _ _ _ (by intro _; exact ⟨rfl, rfl, rfl⟩)
  have q2 : (atomAt pool2 A.ptr).fromFirst = (atomAt pool1 A.ptr).fromFirst
      ∧ (atomAt pool2 A.ptr).fromBest = (atomAt pool1 A.ptr).fromBest :=
    atomAt_sources_ite _ _ _ _ _ (by intro _; exact ⟨rfl, rfl, rfl⟩)
  have q3 : (atomAt pool3 A.ptr).fromFirst = (atomAt pool2 A.ptr).fromFirst
      ∧ (atomAt pool3 A.ptr).fromBest = (atomAt pool2 A.ptr).fromBest :=
    atomAt_sources_ite _ _ _ _ _ (by intro _; exact ⟨rfl, rfl, rfl⟩)
  have hp3 : (atomAt s2.pool A.ptr).fromFirst = A.fromFirst
      ∧ (atomAt s2.pool A.ptr).fromBest = TR_PEER_FROM_INCOMING := by
    show (atomAt pool3 A.ptr).fromFirst = _ ∧ (atomAt pool3 A.ptr).fromBest = _
    rw [q3.1, q3.2, q2.1, q2.2, q1.1, q1.2, hfirst, hbest0]
    exact ⟨rfl, rfl⟩
  split at hr
  · rw [hr]
    exact hp3
  · split at hr
    · rw [hr]
      exact hp3
    · split at hr
      · rw [hr]
        exact hp3
      · rw [hr]
        unfold createBitTorrentPeer
        dsimp only
        have q4 := atomAt_sources_atomUpdate s2.pool atom A.ptr
          (fun a : peer_atom => { a with peer := some p }) (by intro _; exact ⟨rfl, rfl, rfl⟩)
        rw [q4.1, q4.2]
        exact hp3

/-- C24, as stated, fails: a torrent is stopped and started again before the
tier announces; the queue holds `stopped` followed by `started`. -/
theorem tier_queue_stopped_not_last :
    (tier_queue_run {} [tier_queue_call.push TR_ANNOUNCE_EVENT_STOPPED 100,
        tier_queue_call.push TR_ANNOUNCE_EVENT_STARTED 101]).map (fun tier => tier.announce_events)
      = some [TR_ANNOUNCE_EVENT_STOPPED, TR_ANNOUNCE_EVENT_STARTED] := by
  decide

theorem stopped_prefix_ok (q q' : List tr_announce_event) (hpre : q' <+: q)
    (h : ∀ pre post, q = pre ++ TR_ANNOUNCE_EVENT_STOPPED :: post →
      (pre = [] ∨ pre = [TR_ANNOUNCE_EVENT_COMPLETED]) ∧ TR_ANNOUNCE_EVENT_STOPPED ∉ post) :
    ∀ pre post, q' = pre ++ TR_ANNOUNCE_EVENT_STOPPED :: post →
      (pre = [] ∨ pre = [TR_ANNOUNCE_EVENT_COMPLETED]) ∧ TR_ANNOUNCE_EVENT_STOPPED ∉ post := by
  intro pre post hq
  obtain ⟨suffix, hs⟩ := hpre
  have := h pre (post ++ suffix) (by rw [← hs, hq]; simp)
  exact ⟨this.1, fun hin => this.2 (List.mem_append_left _ hin)⟩

theorem stopped_concat_ok (q : List tr_announce_event) (e : tr_announce_event)
    (he : e ≠ TR_ANNOUNCE_EVENT_STOPPED)
    (h : ∀ pre post, q = pre ++ TR_ANNOUNCE_EVENT_STOPPED :: post →
      (pre = [] ∨ pre = [TR_ANNOUNCE_EVENT_COMPLETED]) ∧ TR_ANNOUNCE_EVENT_STOPPED ∉ post) :
    ∀ pre post, q ++ [e] = pre ++ TR_ANNOUNCE_EVENT_STOPPED :: post →
      (pre = [] ∨ pre = [TR_ANNOUNCE_EVENT_COMPLETED]) ∧ TR_ANNOUNCE_EVENT_STOPPED ∉ post := by
  intro pre post hq
  rcases List.eq_nil_or_concat post with hnil | ⟨post', x, hx⟩
  · subst hnil
    have h1 : (q ++ [e]).getLast? = (pre ++ [TR_ANNOUNCE_EVENT_STOPPED]).getLast? := by rw [hq]
    simp at h1
    exact absurd h1 he
  · rw [List.concat_eq_append] at hx
    subst hx
    have h2 : q ++ [e] = (pre ++ TR_ANNOUNCE_EVENT_STOPPED :: post') ++ [x] := by
      rw [hq]; simp
    obtain ⟨h3, h4⟩ := List.append_inj' h2 rfl
    have hx : e = x := by simpa using h4
    subst hx
    obtain ⟨hp, hn⟩ := h pre post' h3
    refine ⟨hp, ?_⟩
    intro hin
    rcases List.mem_append.mp hin with hin | hin
    · exact hn hin
    · exact he (List.mem_singleton.mp hin).symm

theorem tier_announce_event_push_stopped_ok (tier : tr_tier) (e : tr_announce_event) (at_ : Int)
    (h : ∀ pre post, tier.announce_events = pre ++ TR_ANNOUNCE_EVENT_STOPPED :: post →
      (pre = [] ∨ pre = [TR_ANNOUNCE_EVENT_COMPLETED]) ∧ TR_ANNOUNCE_EVENT_STOPPED ∉ post) :
    ∀ pre post, (tier_announce_event_push tier e at_).announce_events
        = pre ++ TR_ANNOUNCE_EVENT_STOPPED :: post →
      (pre = [] ∨ pre = [TR_ANNOUNCE_EVENT_COMPLETED]) ∧ TR_ANNOUNCE_EVENT_STOPPED ∉ post := by
  rw [tier_announce_event_push_events]
  by_cases hs : e = TR_ANNOUNCE_EVENT_STOPPED
  · subst hs
    have hval : (if tier.announce_events.length > 0 then
          ((if TR_ANNOUNCE_EVENT_STOPPED = TR_ANNOUNCE_EVENT_STOPPED then
              (if tier.announce_events.any (fun x => TR_ANNOUNCE_EVENT_COMPLETED == x)
                then [TR_ANNOUNCE_EVENT_COMPLETED] else [])
            else tier.announce_events).rdropWhile
              (fun x => x == TR_ANNOUNCE_EVENT_NONE)).rdropWhile
                (fun x => x == TR_ANNOUNCE_EVENT_STOPPED)
         else tier.announce_events) = []
        ∨ (if tier.announce_events.length > 0 then
          ((if TR_ANNOUNCE_EVENT_STOPPED = TR_ANNOUNCE_EVENT_STOPPED then
              (if tier.announce_events.any (fun x => TR_ANNOUNCE_EVENT_COMPLETED == x)
                then [TR_ANNOUNCE_EVENT_COMPLETED] else [])
            else tier.announce_events).rdropWhile
              (fun x => x == TR_ANNOUNCE_EVENT_NONE)).rdropWhile
                (fun x => x == TR_ANNOUNCE_EVENT_STOPPED)
         else tier.announce_events) = [TR_ANNOUNCE_EVENT_COMPLETED] := by
      by_cases h0 : tier.announce_events.length > 0
      · rw [if_pos h0, if_pos rfl]
        split
        · exact Or.inr (by decide)
        · exact Or.inl (by decide)
      · rw [if_neg h0]
        exact Or.inl (List.length_eq_zero.mp (by omega))
    intro pre post hq
    rcases hval with hv | hv
    · rw [hv] at hq
      rcases pre with _ | ⟨x, pre⟩
      · simp at hq
        exact ⟨Or.inl rfl, by rw [hq]; simp⟩
      · have := congrArg List.length hq
        simp at this
    · rw [hv] at hq
      rcases pre with _ | ⟨x, pre⟩
      · simp at hq
      · rcases pre with _ | ⟨y, pre⟩
        · simp at hq
          obtain ⟨hx, hpost⟩ := hq
          exact ⟨Or.inr (by rw [← hx]), by rw [hpost]; simp⟩
        · have := congrArg List.length hq
          simp at this
  · apply stopped_concat_ok _ _ hs
    by_cases h0 : tier.announce_events.length > 0
    · rw [if_pos h0, if_neg hs]
      apply stopped_prefix_ok tier.announce_events _ _ h
      exact (List.rdropWhile_prefix _ _).trans (List.rdropWhile_prefix _ _)
    · rw [if_neg h0]
      exact h

/-- C24, amended: starting from an empty announce-event queue, after any
sequence of pushes (interleaved with pulls on a non-empty queue), the queue holds
at most one `stopped` event, and what stands before it is nothing or a single
`completed` event, everything else queued before it having been dropped; what
follows it are the events pushed after it; and right after a push of `stopped`
that event is the last element. -/
theorem tier_queue_stopped_clears (tier tier' : tr_tier) (calls : List tier_queue_call)
    (hempty : tier.announce_events = [])
    (hrun : tier_queue_run tier calls = some tier') :
    (∀ pre post, tier'.announce_events = pre ++ TR_ANNOUNCE_EVENT_STOPPED :: post →
      (pre = [] ∨ pre = [TR_ANNOUNCE_EVENT_COMPLETED]) ∧ TR_ANNOUNCE_EVENT_STOPPED ∉ post)
    ∧ ∀ announceAt : Int,
        (tier_announce_event_push tier' TR_ANNOUNCE_EVENT_STOPPED announceAt).announce_events.getLast?
          = some TR_ANNOUNCE_EVENT_STOPPED := by
  constructor
  · have key : ∀ (calls : List tier_queue_call) (tier tier' : tr_tier),
        (∀ pre post, tier.announce_events = pre ++ TR_ANNOUNCE_EVENT_STOPPED :: post →
          (pre = [] ∨ pre = [TR_ANNOUNCE_EVENT_COMPLETED]) ∧ TR_ANNOUNCE_EVENT_STOPPED ∉ post) →
        tier_queue_run tier calls = some tier' →
        ∀ pre post, tier'.announce_events = pre ++ TR_ANNOUNCE_EVENT_STOPPED :: post →
          (pre = [] ∨ pre = [TR_ANNOUNCE_EVENT_COMPLETED]) ∧ TR_ANNOUNCE_EVENT_STOPPED ∉ post := by
      intro calls
      induction calls with
      | nil =>
        intro tier tier' h hrun
        simp only [tier_queue_run, Option.some.injEq] at hrun
        rw [← hrun]
        exact h
      | cons c calls ih =>
        intro tier tier' h hrun
        cases c with
        | push e at_ =>
          simp only [tier_queue_run] at hrun
          exact ih _ _ (tier_announce_event_push_stopped_ok tier e at_ h) hrun
        | pull =>
          simp only [tier_queue_run, tier_announce_event_pull] at hrun
          cases hq : tier.announce_events with
          | nil => simp [hq] at hrun
          | cons a l =>
            simp only [hq] at hrun
            apply ih _ _ _ hrun
            rw [tier_update_announce_priority_events]
            intro pre post hl
            have h1 := h (a :: pre) post (by rw [hq]; simp at hl; simp [hl])
            rcases h1.1 with h2 | h2
            · cases h2
            · simp at h2
              exact ⟨Or.inl h2.2, h1.2⟩
    apply key calls tier tier' _ hrun
    intro pre post hq
    rw [hempty] at hq
    simp at hq
  · intro announceAt
    rw [tier_announce_event_push_events]
    simp

/-- A torrent is started, completes, is stopped and started again: the queue is
`completed`, `stopped`, `started`. -/
theorem tier_queue_stopped_clears_witness :
    ({} : tr_tier).announce_events = []
    ∧ tier_queue_run {} restartCalls = some restartedTier
    ∧ ((∀ pre post, restartedTier.announce_events = pre ++ TR_ANNOUNCE_EVENT_STOPPED :: post →
        (pre = [] ∨ pre = [TR_ANNOUNCE_EVENT_COMPLETED]) ∧ TR_ANNOUNCE_EVENT_STOPPED ∉ post)
      ∧ ∀ announceAt : Int,
          (tier_announce_event_push restartedTier
            TR_ANNOUNCE_EVENT_STOPPED announceAt).announce_events.getLast?
            = some TR_ANNOUNCE_EVENT_STOPPED) :=
  ⟨rfl, by decide, tier_queue_stopped_clears {} restartedTier restartCalls rfl (by decide)⟩
/-- C25, as stated, fails: a manual announce on a tier with an empty queue
pushes `none`, which is then the last (and only) element. -/
theorem tier_queue_none_last :
    (tier_queue_run {} [tier_queue_call.push TR_ANNOUNCE_EVENT_NONE 100]).map
        (fun tier => tier.announce_events.getLast?)
      = some (some TR_ANNOUNCE_EVENT_NONE) := by
  decide

theorem none_prefix_ok (q q' : List tr_announce_event) (hpre : q' <+: q)
    (h : ∀ pre post, q = pre ++ TR_ANNOUNCE_EVENT_NONE :: post → post = []) :
    ∀ pre post, q' = pre ++ TR_ANNOUNCE_EVENT_NONE :: post → post = [] := by
  intro pre post hq
  obtain ⟨suffix, hs⟩ := hpre
  have := h pre (post ++ suffix) (by rw [← hs, hq]; simp)
  exact (List.append_eq_nil.mp this).1

theorem rdropWhile_none_free (q : List tr_announce_event)
    (h : ∀ pre post, q = pre ++ TR_ANNOUNCE_EVENT_NONE :: post → post = []) :
    TR_ANNOUNCE_EVENT_NONE ∉ q.rdropWhile (fun x => x == TR_ANNOUNCE_EVENT_NONE) := by
  intro hin
  obtain ⟨pre, post, hq⟩ := List.append_of_mem hin
  have hpost := none_prefix_ok q _ (List.rdropWhile_prefix _ _) h pre post hq
  subst hpost
  have hne : q.rdropWhile (fun x => x == TR_ANNOUNCE_EVENT_NONE) ≠ [] := by
    rw [hq]; simp
  have hlast := List.rdropWhile_last_not (fun x => x == TR_ANNOUNCE_EVENT_NONE) q hne
  apply hlast
  simp only [hq, List.getLast_append_singleton]
  rfl

theorem tier_announce_event_push_none_ok (tier : tr_tier) (e : tr_announce_event) (at_ : Int)
    (h : ∀ pre post, tier.announce_events = pre ++ TR_ANNOUNCE_EVENT_NONE :: post → post = []) :
    ∀ pre post, (tier_announce_event_push tier e at_).announce_events
        = pre ++ TR_ANNOUNCE_EVENT_NONE :: post → post = [] := by
  rw [tier_announce_event_push_events]
  have hfree : ∀ base : List tr_announce_event, TR_ANNOUNCE_EVENT_NONE ∉ base →
      ∀ pre post, base ++ [e] = pre ++ TR_ANNOUNCE_EVENT_NONE :: post → post = [] := by
    intro base hb pre post hq
    rcases List.eq_nil_or_concat post with hnil | ⟨post', x, hx⟩
    · exact hnil
    · rw [List.concat_eq_append] at hx
      subst hx
      have h2 : base ++ [e] = (pre ++ TR_ANNOUNCE_EVENT_NONE :: post') ++ [x] := by
        rw [hq]; simp
      obtain ⟨h3, -⟩ := List.append_inj' h2 rfl
      exact absurd (by rw [h3]; simp) hb
  by_cases h0 : tier.announce_events.length > 0
  · rw [if_pos h0]
    apply hfree
    intro hin
    have hin2 := (List.rdropWhile_prefix _ _).subset hin
    revert hin2
    by_cases hs : e = TR_ANNOUNCE_EVENT_STOPPED
    · rw [if_pos hs]
      split
      · decide
      · decide
    · rw [if_neg hs]
      exact rdropWhile_none_free _ h
  · rw [if_neg h0]
    have hnil : tier.announce_events = [] := List.length_eq_zero.mp (by omega)
    rw [hnil]
    apply hfree
    simp

/-- C25, amended: starting from an empty announce-event queue, after any
sequence of pushes (interleaved with pulls on a non-empty queue), a `none` event
in the queue is its last element: no `none` is followed by another event. -/
theorem tier_queue_none_only_last (tier tier' : tr_tier) (calls : List tier_queue_call)
    (hempty : tier.announce_events = [])
    (hrun : tier_queue_run tier calls = some tier') :
    ∀ pre post, tier'.announce_events = pre ++ TR_ANNOUNCE_EVENT_NONE :: post → post = [] := by
  have key : ∀ (calls : List tier_queue_call) (tier tier' : tr_tier),
      (∀ pre post, tier.announce_events = pre ++ TR_ANNOUNCE_EVENT_NONE :: post → post = []) →
      tier_queue_run tier calls = some tier' →
      ∀ pre post, tier'.announce_events = pre ++ TR_ANNOUNCE_EVENT_NONE :: post → post = [] := by
    intro calls
    induction calls with
    | nil =>
      intro tier tier' h hrun
      simp only [tier_queue_run, Option.some.injEq] at hrun
      rw [← hrun]
      exact h
    | cons c calls ih =>
      intro tier tier' h hrun
      cases c with
      | push e at_ =>
        simp only [tier_queue_run] at hrun
        exact ih _ _ (tier_announce_event_push_none_ok tier e at_ h) hrun
      | pull =>
        simp only [tier_queue_run, tier_announce_event_pull] at hrun
        cases hq : tier.announce_events with
        | nil => simp [hq] at hrun
        | cons a l =>
          simp only [hq] at hrun
          apply ih _ _ _ hrun
          rw [tier_update_announce_priority_events]
          intro pre post hl
          exact h (a :: pre) post (by rw [hq]; simp at hl; simp [hl])
  apply key calls tier tier' _ hrun
  intro pre post hq
  rw [hempty] at hq
  simp at hq

/-- A torrent is started, announced by hand, completes, and is announced by hand
again: the first `none` is dropped when `completed` is pushed, the second is the
last element. -/
theorem tier_queue_none_only_last_witness :
    ({} : tr_tier).announce_events = []
    ∧ tier_queue_run {} manualCalls = some manualTier
    ∧ ∀ pre post, manualTier.announce_events = pre ++ TR_ANNOUNCE_EVENT_NONE :: post →
        post = [] :=
  ⟨rfl, by decide, tier_queue_none_only_last {} manualTier manualCalls rfl (by decide)⟩

/-! ## Lowering the multiscrape maximum once for a batch -/

/-- C26, on the code: seventy torrents share a scrape URL whose maximum is 64, so
one upkeep builds a request of 64 info-hashes and a request of 6; the tracker
fails both with "Bad Request". `checkMultiscrapeMax` lowers the maximum to 59 for
the first response and to 54 for the second: twice for the one batch. -/
theorem checkMultiscrapeMax_lowered_twice_for_batch :
    (multiscrape tr_announcerInit (fun tor => [tor]) 100 (List.replicate 70 (dueTier 1))).map
        (fun r => r.2.map (fun req => (req.scrape_url, req.info_hash.length)))
      = some [(9, 64), (9, 6)]
    ∧ tr_announcerInit.scrape_info 9 = 64
    ∧ (checkMultiscrapeMax tr_announcerInit (badRequestResponse 64)).scrape_info 9 = 59
    ∧ (checkMultiscrapeMax (checkMultiscrapeMax tr_announcerInit (badRequestResponse 64))
        (badRequestResponse 6)).scrape_info 9 = 54 := by
  refine ⟨?_, ?_, ?_, ?_⟩ <;> decide
/-! ## Addresses of different families -/

/-- C27, on the code: for every IPv4 address `a` and every IPv6 address `b`,
`tr_address_compare(a, b)` is 1 and `tr_address_compare(b, a)` is -1: the IPv4
address is ordered after the IPv6 address. -/
theorem tr_address_compare_ipv4_after_ipv6 (a b : tr_address) (ha : a.type = TR_AF_INET)
    (hb : b.type = TR_AF_INET6) :
    tr_address_compare a b = 1 ∧ tr_address_compare b a = -1 := by
  unfold tr_address_compare
  rw [ha, hb]
  constructor
  · rw [if_pos (by decide), if_pos rfl]
  · rw [if_pos (by decide), if_neg (by decide)]

/-- The addresses 192.0.2.1 and 2001:db8::1. -/
theorem tr_address_compare_ipv4_after_ipv6_witness :
    ({ type := TR_AF_INET, addr := 0xc0000201 } : tr_address).type = TR_AF_INET
    ∧ ({ type := TR_AF_INET6, addr := 0x20010db8000000000000000000000001 } : tr_address).type
        = TR_AF_INET6
    ∧ tr_address_compare { type := TR_AF_INET, addr := 0xc0000201 }
        { type := TR_AF_INET6, addr := 0x20010db8000000000000000000000001 } = 1
    ∧ tr_address_compare { type := TR_AF_INET6, addr := 0x20010db8000000000000000000000001 }
        { type := TR_AF_INET, addr := 0xc0000201 } = -1 :=
  ⟨rfl, rfl, tr_address_compare_ipv4_after_ipv6 _ _ rfl rfl⟩

/-! ## The next manual announce -/

theorem tr_announcerNextManualAnnounce_foldl (tiers : List tr_tier) (ret : Int)
    (hret : ret = -1) (h : ∀ tier ∈ tiers, tier.isRunning = true → -1 ≤ tier.manualAnnounceAllowedAt) :
    tiers.foldl (fun ret tier =>
      if tier.isRunning then min ret tier.manualAnnounceAllowedAt else ret) ret = -1 := by
  induction tiers generalizing ret with
  | nil => exact hret
  | cons t ts ih =>
    simp only [List.foldl_cons]
    apply ih
    · subst hret
      split
      · rename_i hr
        exact min_eq_left (h t (List.mem_cons_self _ _) hr)
      · rfl
    · exact fun q hq => h q (List.mem_cons_of_mem _ hq)

/-- C28, on the code: whatever tiers the torrent has, as long as no running
tier's `manualAnnounceAllowedAt` lies before time -1 (times are not negative),
`tr_announcerNextManualAnnounce` returns -1, the value of `~(time_t)0` that the
minimum starts from, and not the earliest time of a running tier. -/
theorem tr_announcerNextManualAnnounce_minus_one (tt : Option (List tr_tier))
    (h : ∀ tiers, tt = some tiers →
      ∀ tier ∈ tiers, tier.isRunning = true → -1 ≤ tier.manualAnnounceAllowedAt) :
    tr_announcerNextManualAnnounce tt = -1 := by
  unfold tr_announcerNextManualAnnounce
  cases tt with
  | none => rfl
  | some tiers => exact tr_announcerNextManualAnnounce_foldl tiers (-1) rfl (h tiers rfl)

/-- A torrent with two running tiers that allow a manual announce from times
1000 and 2000 on: the result is -1, not 1000. -/
theorem tr_announcerNextManualAnnounce_minus_one_witness :
    (∀ tiers, some [manualTierAt 1000, manualTierAt 2000] = some tiers →
      ∀ tier ∈ tiers, tier.isRunning = true → -1 ≤ tier.manualAnnounceAllowedAt)
    ∧ tr_announcerNextManualAnnounce (some [manualTierAt 1000, manualTierAt 2000]) = -1 :=
  ⟨by intro tiers h; cases h; decide,
    tr_announcerNextManualAnnounce_minus_one (some [manualTierAt 1000, manualTierAt 2000])
      (by intro tiers h; cases h; decide)⟩

/-! ## Quarks -/

set_option maxRecDepth 100000 in
theorem quarks_are_sorted_holds : quarks_are_sorted = true := by
  decide

set_option maxRecDepth 100000 in
theorem my_static_length : my_static.length = TR_N_KEYS := by
  decide

theorem quarks_are_sorted_from_pairwise (l : List (List Nat))
    (h : quarks_are_sorted_from l = true) : l.Pairwise (fun a b => a < b) := by
  rw [← List.chain'_iff_pairwise]
  induction l with
  | nil => exact List.chain'_nil
  | cons a l ih =>
    cases l with
    | nil => exact List.chain'_singleton a
    | cons b rest =>
      unfold quarks_are_sorted_from at h
      by_cases hge : a ≥ b
      · rw [if_pos hge] at h
        cases h
      · rw [if_neg hge] at h
        exact List.Chain'.cons (lt_of_not_ge hge) (ih h)

theorem std_lower_bound_sorted (l : List (List Nat)) (hs : l.Pairwise (fun a b => a < b))
    (i : Nat) (hi : i < l.length) : std_lower_bound l l[i] = i := by
  unfold std_lower_bound
  rw [List.findIdx_eq hi]
  refine ⟨by simp, ?_⟩
  intro j hji
  have hlt : l[j] < l[i] := List.pairwise_iff_getElem.mp hs j i (by omega) hi hji
  simp [hlt]

theorem tr_quark_lookup_static (my_runtime : List (List Nat)) (i : Nat) (hi : i < my_static.length) :
    tr_quark_lookup my_runtime my_static[i] = some i := by
  unfold tr_quark_lookup
  dsimp only
  rw [std_lower_bound_sorted my_static
    (quarks_are_sorted_from_pairwise my_static quarks_are_sorted_holds) i hi]
  rw [if_pos ⟨by omega, List.getElem?_eq_getElem hi⟩]

theorem tr_quark_lookup_some (my_runtime : List (List Nat)) (key : List Nat) (q : tr_quark)
    (h : tr_quark_lookup my_runtime key = some q) :
    tr_quark_get_string_view my_runtime q = some key := by
  unfold tr_quark_lookup at h
  dsimp only at h
  unfold tr_quark_get_string_view
  split at h
  · rename_i hs
    cases h
    have hlt : std_lower_bound my_static key < TR_N_KEYS := by
      have hle : std_lower_bound my_static key ≤ my_static.length := List.findIdx_le_length _
      rw [← my_static_length]
      omega
    rw [if_pos hlt]
    exact hs.2
  · split at h
    · rename_i hr
      cases h
      have hlt : std_find my_runtime key < my_runtime.length := by
        have hle : std_find my_runtime key ≤ my_runtime.length := List.findIdx_le_length _
        omega
      rw [if_neg (Nat.not_lt.mpr (Nat.le_add_right _ _)), Nat.add_sub_cancel_left,
        List.getElem?_eq_getElem hlt]
      have hp := @List.findIdx_getElem _ (fun x => decide (x = key)) my_runtime hlt
      simp only [decide_eq_true_eq] at hp
      exact congrArg some hp
    · cases h

theorem tr_quark_lookup_added (my_runtime : List (List Nat)) (key : List Nat)
    (h : tr_quark_lookup my_runtime key = none) :
    tr_quark_lookup (my_runtime ++ [key]) key = some (TR_N_KEYS + my_runtime.length) := by
  unfold tr_quark_lookup at h ⊢
  dsimp only at h ⊢
  split at h
  · cases h
  · rename_i hs
    rw [if_neg hs]
    split at h
    · cases h
    · rename_i hr
      have hlen : std_find my_runtime key = my_runtime.length := by
        by_contra hne
        exact hr hne
      have hfind : std_find (my_runtime ++ [key]) key = my_runtime.length := by
        unfold std_find at hlen ⊢
        rw [List.findIdx_append, hlen, if_neg (Nat.lt_irrefl _)]
        simp [List.findIdx_cons]
      rw [hfind, if_pos (by simp)]

theorem tr_quark_new_of_lookup (my_runtime : List (List Nat)) (key : List Nat) (q : tr_quark)
    (h : tr_quark_lookup my_runtime key = some q) :
    tr_quark_new my_runtime key = (q, my_runtime) := by
  unfold tr_quark_new
  rw [h]

/-- C30: for every byte string `s` and whatever keys have been added before,
`tr_quark_new(s)` returns a quark whose string view is `s`; a second call
returns the same quark and leaves the table of added keys as it is;
`tr_quark_lookup(s)` then returns that quark; and the `i`-th predefined key
resolves to `i`, its index in the static table, without adding an entry. -/
theorem tr_quark_new_spec (my_runtime : List (List Nat)) (s : List Nat) :
    tr_quark_get_string_view (tr_quark_new my_runtime s).2 (tr_quark_new my_runtime s).1 = some s
    ∧ tr_quark_new (tr_quark_new my_runtime s).2 s = tr_quark_new my_runtime s
    ∧ tr_quark_lookup (tr_quark_new my_runtime s).2 s = some (tr_quark_new my_runtime s).1
    ∧ ∀ (i : Nat) (hi : i < my_static.length),
        tr_quark_new my_runtime my_static[i] = (i, my_runtime)
        ∧ tr_quark_lookup my_runtime my_static[i] = some i
        ∧ tr_quark_get_string_view my_runtime i = some my_static[i] := by
  have hlookup : tr_quark_lookup (tr_quark_new my_runtime s).2 s
      = some (tr_quark_new my_runtime s).1 := by
    unfold tr_quark_new
    cases h : tr_quark_lookup my_runtime s with
    | some q => exact h
    | none => exact tr_quark_lookup_added my_runtime s h
  refine ⟨tr_quark_lookup_some _ _ _ hlookup, ?_, hlookup, ?_⟩
  · exact tr_quark_new_of_lookup _ _ _ hlookup
  · intro i hi
    have hl := tr_quark_lookup_static my_runtime i hi
    exact ⟨tr_quark_new_of_lookup _ _ _ hl, hl, tr_quark_lookup_some _ _ _ hl⟩

/-! ## Response callbacks of the UDP transport -/

theorem tau_invoked_append (k : Bool × Nat) (a b : List tau_effect) :
    tau_invoked k (a ++ b) = tau_invoked k a + tau_invoked k b := by
  unfold tau_invoked
  exact List.countP_append _ _ _

theorem tau_invoked_nil (k : Bool × Nat) : tau_invoked k [] = 0 := rfl

theorem tau_invoked_sendto (k : Bool × Nat) (env : tau_env) (tracker : tau_tracker)
    (buf : List Nat) : tau_invoked k (tau_sendto env tracker buf) = 0 := by
  unfold tau_sendto
  split
  · split <;> rfl
  · split <;> rfl
  · rfl

theorem tau_invoked_announce_finished (k : Bool × Nat) (req : tau_announce_request) :
    tau_invoked k (tau_announce_request_finished req) = tau_pending_announces k [req] := by
  unfold tau_announce_request_finished tau_pending_announces tau_invoked
  cases hc : req.callback with
  | none => cases k.1 <;> simp [hc]
  | some cb =>
    cases hk : k.1 <;> simp [hc, tau_callback_is, hk, List.countP_cons]

theorem tau_invoked_scrape_finished (k : Bool × Nat) (req : tau_scrape_request) :
    tau_invoked k (tau_scrape_request_finished req) = tau_pending_scrapes k [req] := by
  unfold tau_scrape_request_finished tau_pending_scrapes tau_invoked
  cases hc : req.callback with
  | none => cases k.1 <;> simp [hc]
  | some cb =>
    cases hk : k.1 <;> simp [hc, tau_callback_is, hk, List.countP_cons]

theorem tau_pending_announces_cons (k : Bool × Nat) (req : tau_announce_request)
    (reqs : List tau_announce_request) :
    tau_pending_announces k (req :: reqs)
      = tau_pending_announces k [req] + tau_pending_announces k reqs := by
  unfold tau_pending_announces
  cases k.1
  · simp only [Bool.false_eq_true, if_false, List.countP_cons, List.countP_nil]
    omega
  · rfl

theorem tau_pending_scrapes_cons (k : Bool × Nat) (req : tau_scrape_request)
    (reqs : List tau_scrape_request) :
    tau_pending_scrapes k (req :: reqs)
      = tau_pending_scrapes k [req] + tau_pending_scrapes k reqs := by
  unfold tau_pending_scrapes
  cases k.1
  · rfl
  · simp only [if_true, List.countP_cons, List.countP_nil]
    omega

theorem tau_pending_announces_append (k : Bool × Nat) (a b : List tau_announce_request) :
    tau_pending_announces k (a ++ b) = tau_pending_announces k a + tau_pending_announces k b := by
  unfold tau_pending_announces
  cases k.1
  · simp only [Bool.false_eq_true, if_false, List.countP_append]
  · rfl

theorem tau_pending_scrapes_append (k : Bool × Nat) (a b : List tau_scrape_request) :
    tau_pending_scrapes k (a ++ b) = tau_pending_scrapes k a + tau_pending_scrapes k b := by
  unfold tau_pending_scrapes
  cases k.1
  · rfl
  · simp only [if_true, List.countP_append]

theorem tau_invoked_announce_fail (k : Bool × Nat) (req : tau_announce_request)
    (did_connect did_timeout : Bool) (errmsg : Option (List Nat)) :
    tau_invoked k (tau_announce_request_fail req did_connect did_timeout errmsg).2
      = tau_pending_announces k [req] := by
  unfold tau_announce_request_fail
  dsimp only
  rw [tau_invoked_announce_finished]
  rfl

theorem tau_invoked_scrape_fail (k : Bool × Nat) (req : tau_scrape_request)
    (did_connect did_timeout : Bool) (errmsg : Option (List Nat)) :
    tau_invoked k (tau_scrape_request_fail req did_connect did_timeout errmsg).2
      = tau_pending_scrapes k [req] := by
  unfold tau_scrape_request_fail
  dsimp only
  rw [tau_invoked_scrape_finished]
  rfl

theorem tau_invoked_fail_announces (k : Bool × Nat) (reqs : List tau_announce_request)
    (did_connect did_timeout : Bool) (errmsg : Option (List Nat)) :
    tau_invoked k (reqs.map
        (fun req => (tau_announce_request_fail req did_connect did_timeout errmsg).2)).flatten
      = tau_pending_announces k reqs := by
  induction reqs with
  | nil => cases hk : k.1 <;> simp [tau_invoked, tau_pending_announces, hk]
  | cons req reqs ih =>
    rw [List.map_cons, List.flatten_cons, tau_invoked_append, ih, tau_invoked_announce_fail,
      ← tau_pending_announces_cons]

theorem tau_invoked_fail_scrapes (k : Bool × Nat) (reqs : List tau_scrape_request)
    (did_connect did_timeout : Bool) (errmsg : Option (List Nat)) :
    tau_invoked k (reqs.map
        (fun req => (tau_scrape_request_fail req did_connect did_timeout errmsg).2)).flatten
      = tau_pending_scrapes k reqs := by
  induction reqs with
  | nil => cases hk : k.1 <;> simp [tau_invoked, tau_pending_scrapes, hk]
  | cons req reqs ih =>
    rw [List.map_cons, List.flatten_cons, tau_invoked_append, ih, tau_invoked_scrape_fail,
      ← tau_pending_scrapes_cons]

theorem tau_pending_announces_nil (k : Bool × Nat) : tau_pending_announces k [] = 0 := by
  unfold tau_pending_announces
  split <;> rfl

theorem tau_pending_scrapes_nil (k : Bool × Nat) : tau_pending_scrapes k [] = 0 := by
  unfold tau_pending_scrapes
  split <;> rfl

theorem tau_tracker_fail_all_spec (k : Bool × Nat) (tracker : tau_tracker)
    (did_connect did_timeout : Bool) (errmsg : Option (List Nat)) :
    tau_invoked k (tau_tracker_fail_all tracker did_connect did_timeout errmsg).2
        + tau_tracker_pending k (tau_tracker_fail_all tracker did_connect did_timeout errmsg).1
      = tau_tracker_pending k tracker
    ∧ (tau_tracker_fail_all tracker did_connect did_timeout errmsg).1.connecting_at
      = tracker.connecting_at := by
  unfold tau_tracker_fail_all tau_tracker_pending
  dsimp only
  rw [tau_invoked_append, tau_invoked_fail_scrapes, tau_invoked_fail_announces,
    tau_pending_announces_nil, tau_pending_scrapes_nil]
  exact ⟨by omega, rfl⟩

theorem tau_tracker_timeout_announces_spec (k : Bool × Nat) (cancel_all : Bool) (now : Int)
    (reqs : List tau_announce_request) :
    tau_invoked k (tau_tracker_timeout_announces cancel_all now reqs).2
        + tau_pending_announces k (tau_tracker_timeout_announces cancel_all now reqs).1
      = tau_pending_announces k reqs := by
  induction reqs with
  | nil => simp only [tau_tracker_timeout_announces, tau_invoked_nil, Nat.zero_add]
  | cons req reqs ih =>
    unfold tau_tracker_timeout_announces
    dsimp only
    rw [tau_pending_announces_cons k req reqs]
    split
    · dsimp only
      rw [tau_invoked_append, tau_invoked_announce_fail]
      omega
    · dsimp only
      rw [tau_pending_announces_cons k req]
      omega

theorem tau_tracker_timeout_scrapes_spec (k : Bool × Nat) (cancel_all : Bool) (now : Int)
    (reqs : List tau_scrape_request) :
    tau_invoked k (tau_tracker_timeout_scrapes cancel_all now reqs).2
        + tau_pending_scrapes k (tau_tracker_timeout_scrapes cancel_all now reqs).1
      = tau_pending_scrapes k reqs := by
  induction reqs with
  | nil => simp only [tau_tracker_timeout_scrapes, tau_invoked_nil, Nat.zero_add]
  | cons req reqs ih =>
    unfold tau_tracker_timeout_scrapes
    dsimp only
    rw [tau_pending_scrapes_cons k req reqs]
    split
    · dsimp only
      rw [tau_invoked_append, tau_invoked_scrape_fail]
      omega
    · dsimp only
      rw [tau_pending_scrapes_cons k req]
      omega

theorem tau_pending_announces_one (k : Bool × Nat) (req : tau_announce_request) :
    tau_pending_announces k [req] = if !k.1 && req.callback == some k.2 then 1 else 0 := by
  unfold tau_pending_announces
  cases k.1
  · simp only [Bool.false_eq_true, if_false, List.countP_cons, List.countP_nil, Bool.not_false,
      Bool.true_and]
    split <;> simp_all
  · rfl

theorem tau_pending_scrapes_one (k : Bool × Nat) (req : tau_scrape_request) :
    tau_pending_scrapes k [req] = if k.1 && req.callback == some k.2 then 1 else 0 := by
  unfold tau_pending_scrapes
  cases k.1
  · rfl
  · simp only [if_true, List.countP_cons, List.countP_nil, Bool.true_and]
    split <;> simp_all

theorem tau_tracker_send_announces_spec (k : Bool × Nat) (env : tau_env) (tracker : tau_tracker)
    (now : Int) (reqs : List tau_announce_request) :
    tau_invoked k (tau_tracker_send_announces env tracker now reqs).2 = 0
    ∧ tau_pending_announces k (tau_tracker_send_announces env tracker now reqs).1
      = tau_pending_announces k reqs := by
  induction reqs with
  | nil => exact ⟨rfl, rfl⟩
  | cons req reqs ih =>
    unfold tau_tracker_send_announces
    dsimp only
    rw [tau_pending_announces_cons k req reqs]
    split
    · split
      · rename_i hnone
        dsimp only
        rw [tau_invoked_append, tau_invoked_sendto, ih.1, ih.2]
        refine ⟨rfl, ?_⟩
        rw [tau_pending_announces_one]
        have hnone2 : req.callback = none := hnone
        simp [hnone2]
      · dsimp only
        rw [tau_invoked_append, tau_invoked_sendto, ih.1, tau_pending_announces_cons, ih.2]
        refine ⟨rfl, ?_⟩
        rw [tau_pending_announces_one, tau_pending_announces_one]
    · dsimp only
      rw [tau_pending_announces_cons k req, ih.2]
      exact ⟨ih.1, rfl⟩

theorem tau_tracker_send_scrapes_spec (k : Bool × Nat) (env : tau_env) (tracker : tau_tracker)
    (now : Int) (reqs : List tau_scrape_request) :
    tau_invoked k (tau_tracker_send_scrapes env tracker now reqs).2 = 0
    ∧ tau_pending_scrapes k (tau_tracker_send_scrapes env tracker now reqs).1
      = tau_pending_scrapes k reqs := by
  induction reqs with
  | nil => exact ⟨rfl, rfl⟩
  | cons req reqs ih =>
    unfold tau_tracker_send_scrapes
    dsimp only
    rw [tau_pending_scrapes_cons k req reqs]
    split
    · split
      · rename_i hnone
        dsimp only
        rw [tau_invoked_append, tau_invoked_sendto, ih.1, ih.2]
        refine ⟨rfl, ?_⟩
        rw [tau_pending_scrapes_one]
        have hnone2 : req.callback = none := hnone
        simp [hnone2]
      · dsimp only
        rw [tau_invoked_append, tau_invoked_sendto, ih.1, tau_pending_scrapes_cons, ih.2]
        refine ⟨rfl, ?_⟩
        rw [tau_pending_scrapes_one, tau_pending_scrapes_one]
    · dsimp only
      rw [tau_pending_scrapes_cons k req, ih.2]
      exact ⟨ih.1, rfl⟩

theorem tau_tracker_send_reqs_spec (k : Bool × Nat) (env : tau_env) (tracker : tau_tracker) :
    tau_invoked k (tau_tracker_send_reqs env tracker).2
        + tau_tracker_pending k (tau_tracker_send_reqs env tracker).1
      = tau_tracker_pending k tracker := by
  unfold tau_tracker_send_reqs tau_tracker_pending
  dsimp only
  rw [tau_invoked_append, (tau_tracker_send_announces_spec k env tracker env.tr_time _).1,
    (tau_tracker_send_announces_spec k env tracker env.tr_time _).2,
    (tau_tracker_send_scrapes_spec k env _ env.tr_time _).1,
    (tau_tracker_send_scrapes_spec k env _ env.tr_time _).2]
  omega
theorem on_tracker_connection_response_factor
    (upkeep : tau_tracker → Option (tau_tracker × List tau_effect))
    (env : tau_env) (tracker : tau_tracker) (action : Nat) (buf : Option (List Nat)) :
    ∃ p : tau_tracker × List tau_effect,
      (∀ k, tau_invoked k p.2 + tau_tracker_pending k p.1 = tau_tracker_pending k tracker)
      ∧ p.1.connecting_at = 0
      ∧ on_tracker_connection_response upkeep env tracker action buf
        = match upkeep p.1 with
          | some q => some (q.1, p.2 ++ q.2)
          | none => none := by
  unfold on_tracker_connection_response
  lift_lets
  intro now t0 buflen errmsg
  by_cases hc : action = TAU_ACTION_CONNECT
  · rw [if_pos hc]
    refine ⟨({ t0 with
        connection_id := (evbuffer_read_ntoh_64 (buf.getD [])).1,
        connection_expiration_time := now + TauConnectionTtlSecs }, []), fun k => ?_, rfl, ?_⟩
    · rw [tau_invoked_nil]
      exact Nat.zero_add _
    · dsimp only
      split <;> (rename_i hq; rw [hq])
  · rw [if_neg hc]
    refine ⟨tau_tracker_fail_all t0 true false (some errmsg), fun k => ?_, ?_, ?_⟩
    · exact (tau_tracker_fail_all_spec k t0 true false (some errmsg)).1
    · exact (tau_tracker_fail_all_spec (false, 0) t0 true false (some errmsg)).2
    · split
      rename_i heq
      rw [heq]
      dsimp only
      split <;> (rename_i hq; rw [hq])

theorem on_tracker_connection_response_spec (k : Bool × Nat)
    (upkeep : tau_tracker → Option (tau_tracker × List tau_effect))
    (hup : ∀ t r, upkeep t = some r →
      tau_invoked k r.2 + tau_tracker_pending k r.1 = tau_tracker_pending k t)
    (env : tau_env) (tracker : tau_tracker) (action : Nat) (buf : Option (List Nat))
    (r : tau_tracker × List tau_effect)
    (h : on_tracker_connection_response upkeep env tracker action buf = some r) :
    tau_invoked k r.2 + tau_tracker_pending k r.1 = tau_tracker_pending k tracker := by
  obtain ⟨p, hp, -, heq⟩ := on_tracker_connection_response_factor upkeep env tracker action buf
  rw [heq] at h
  cases hq : upkeep p.1 with
  | none => rw [hq] at h; cases h
  | some q =>
    rw [hq] at h
    cases h
    have h1 := hup _ _ hq
    have h2 := hp k
    dsimp only
    rw [tau_invoked_append]
    omega

theorem on_tracker_connection_response_total
    (upkeep : tau_tracker → Option (tau_tracker × List tau_effect))
    (hup : ∀ t, t.connecting_at = 0 → ∃ r, upkeep t = some r)
    (env : tau_env) (tracker : tau_tracker) (action : Nat) (buf : Option (List Nat)) :
    ∃ r, on_tracker_connection_response upkeep env tracker action buf = some r := by
  obtain ⟨p, -, hp, heq⟩ := on_tracker_connection_response_factor upkeep env tracker action buf
  obtain ⟨q, hq⟩ := hup _ hp
  rw [heq, hq]
  exact ⟨_, rfl⟩

theorem tau_tracker_timeout_reqs_factor
    (upkeep : tau_tracker → Option (tau_tracker × List tau_effect))
    (env : tau_env) (tracker : tau_tracker) (r : tau_tracker × List tau_effect)
    (h : (if tracker.connecting_at ≠ 0 ∧ tracker.connecting_at + TauRequestTtl < env.time then
        on_tracker_connection_response upkeep env tracker TAU_ACTION_ERROR none
      else some (tracker, [])) = some r) :
    ∃ r2, tau_tracker_timeout_reqs upkeep env tracker = some r2
      ∧ (r2.1.addr = r.1.addr
        ∧ r2.1.connection_expiration_time = r.1.connection_expiration_time)
      ∧ ∀ k, tau_invoked k r2.2 + tau_tracker_pending k r2.1
          = tau_invoked k r.2 + tau_tracker_pending k r.1 := by
  unfold tau_tracker_timeout_reqs
  lift_lets
  intro now cancel_all r0
  have hr0 : r0 = some r := h
  rw [hr0]
  refine ⟨_, rfl, ⟨rfl, rfl⟩, fun k => ?_⟩
  have h1 := tau_tracker_timeout_announces_spec k cancel_all now r.1.announces
  have h2 := tau_tracker_timeout_scrapes_spec k cancel_all now r.1.scrapes
  simp only [tau_invoked_append, tau_tracker_pending]
  omega

theorem tau_tracker_timeout_reqs_spec (k : Bool × Nat)
    (upkeep : tau_tracker → Option (tau_tracker × List tau_effect))
    (hup : ∀ t r, upkeep t = some r →
      tau_invoked k r.2 + tau_tracker_pending k r.1 = tau_tracker_pending k t)
    (env : tau_env) (tracker : tau_tracker) (r : tau_tracker × List tau_effect)
    (h : tau_tracker_timeout_reqs upkeep env tracker = some r) :
    tau_invoked k r.2 + tau_tracker_pending k r.1 = tau_tracker_pending k tracker := by
  cases h0 : (if tracker.connecting_at ≠ 0 ∧ tracker.connecting_at + TauRequestTtl < env.time then
        on_tracker_connection_response upkeep env tracker TAU_ACTION_ERROR none
      else some (tracker, [])) with
  | none =>
    unfold tau_tracker_timeout_reqs at h
    lift_lets at h
    extract_lets now cancel_all r0 at h
    have hr0 : r0 = none := h0
    rw [hr0] at h
    cases h
  | some r1 =>
    obtain ⟨r2, hr2, -, hk⟩ := tau_tracker_timeout_reqs_factor upkeep env tracker r1 h0
    rw [h] at hr2
    cases hr2
    rw [hk k]
    split at h0
    · exact on_tracker_connection_response_spec k upkeep hup env tracker _ _ r1 h0
    · cases h0
      rw [tau_invoked_nil]
      exact Nat.zero_add _

theorem tau_tracker_timeout_reqs_total
    (upkeep : tau_tracker → Option (tau_tracker × List tau_effect))
    (env : tau_env) (tracker : tau_tracker)
    (hup : tracker.connecting_at ≠ 0 → ∀ t, t.connecting_at = 0 → ∃ r, upkeep t = some r) :
    ∃ r, tau_tracker_timeout_reqs upkeep env tracker = some r := by
  have h0 : ∃ r1, (if tracker.connecting_at ≠ 0
        ∧ tracker.connecting_at + TauRequestTtl < env.time then
        on_tracker_connection_response upkeep env tracker TAU_ACTION_ERROR none
      else some (tracker, [])) = some r1 := by
    split
    · rename_i hc
      exact on_tracker_connection_response_total upkeep (hup hc.1) env tracker _ _
    · exact ⟨_, rfl⟩
  obtain ⟨r1, h1⟩ := h0
  obtain ⟨r2, hr2, -⟩ := tau_tracker_timeout_reqs_factor upkeep env tracker r1 h1
  exact ⟨r2, hr2⟩
theorem tau_tracker_upkeep_ex_spec (k : Bool × Nat) (fuel : Nat) :
    ∀ (env : tau_env) (tracker : tau_tracker) (timeout_reqs : Bool)
      (r : tau_tracker × List tau_effect),
      tau_tracker_upkeep_ex fuel env tracker timeout_reqs = some r →
      tau_invoked k r.2 + tau_tracker_pending k r.1 = tau_tracker_pending k tracker := by
  induction fuel with
  | zero =>
    intro env tracker timeout_reqs r h
    cases h
  | succ fuel ih =>
    intro env tracker timeout_reqs r h
    unfold tau_tracker_upkeep_ex at h
    lift_lets at h
    extract_lets now closing t1 t2 buf0 buf1 buf2 buf3 r1 at h
    have ht1 : tau_tracker_pending k t1 = tau_tracker_pending k tracker := by
      show tau_tracker_pending k (if _ then _ else _) = _
      split <;> rfl
    rw [← ht1]
    split at h
    · cases h
      rw [tau_invoked_nil]
      exact Nat.zero_add _
    · split at h
      · cases h
        exact Nat.zero_add _
      · split at h
        · cases h
          dsimp only
          rw [tau_invoked_sendto]
          exact Nat.zero_add _
        · have hr1 : ∀ q, r1 = some q →
              tau_invoked k q.2 + tau_tracker_pending k q.1 = tau_tracker_pending k t1 := by
            intro q hq
            by_cases hb : timeout_reqs = true
            · have hq2 : tau_tracker_timeout_reqs
                  (fun t => tau_tracker_upkeep_ex fuel env t true) env t1 = some q := by
                rw [← hq]
                show _ = (if timeout_reqs = true then _ else _)
                rw [if_pos hb]
              exact tau_tracker_timeout_reqs_spec k _ (fun t r hr => ih env t true r hr) env t1 q hq2
            · have hq2 : some (t1, ([] : List tau_effect)) = some q := by
                rw [← hq]
                show _ = (if timeout_reqs = true then _ else _)
                rw [if_neg hb]
              cases hq2
              exact Nat.zero_add _
          clear_value r1
          split at h
          · cases h
          · rename_i x q e1
            have h1 := hr1 (q, e1) rfl
            split at h
            · have h2 := tau_tracker_send_reqs_spec k env q
              generalize tau_tracker_send_reqs env q = s at h h2
              cases h
              dsimp only at h1 ⊢
              rw [tau_invoked_append]
              omega
            · cases h
              exact h1
theorem tau_tracker_upkeep_ex_succ_total (fuel : Nat) (env : tau_env) (tracker : tau_tracker)
    (timeout_reqs : Bool)
    (hfuel : tracker.connecting_at ≠ 0 → ∀ t : tau_tracker, t.connecting_at = 0 →
      ∃ r, tau_tracker_upkeep_ex fuel env t true = some r) :
    ∃ r, tau_tracker_upkeep_ex (fuel + 1) env tracker timeout_reqs = some r := by
  unfold tau_tracker_upkeep_ex
  lift_lets
  intro now closing t1 t2 buf0 buf1 buf2 buf3 r1
  have ht1 : t1.connecting_at = tracker.connecting_at := by
    show (if _ then _ else _ : tau_tracker).connecting_at = _
    split <;> rfl
  have hr1 : ∃ q, r1 = some q := by
    show ∃ q, (if timeout_reqs = true then _ else _) = some q
    split
    · exact tau_tracker_timeout_reqs_total _ env t1 (fun hc => hfuel (ht1 ▸ hc))
    · exact ⟨_, rfl⟩
  clear_value r1
  obtain ⟨q, hq⟩ := hr1
  subst hq
  split
  · exact ⟨_, rfl⟩
  · split
    · exact ⟨_, rfl⟩
    · split
      · exact ⟨_, rfl⟩
      · dsimp only
        split
        · exact ⟨_, rfl⟩
        · exact ⟨_, rfl⟩

theorem tau_tracker_upkeep_ex_one_total (env : tau_env) (tracker : tau_tracker)
    (timeout_reqs : Bool) (h : tracker.connecting_at = 0) :
    ∃ r, tau_tracker_upkeep_ex 1 env tracker timeout_reqs = some r :=
  tau_tracker_upkeep_ex_succ_total 0 env tracker timeout_reqs (fun hc => absurd h hc)

theorem tau_tracker_upkeep_ex_total (env : tau_env) (tracker : tau_tracker)
    (timeout_reqs : Bool) :
    ∃ r, tau_tracker_upkeep_ex 2 env tracker timeout_reqs = some r :=
  tau_tracker_upkeep_ex_succ_total 1 env tracker timeout_reqs
    (fun _ t ht => tau_tracker_upkeep_ex_one_total env t true ht)

theorem tau_tracker_upkeep_total (env : tau_env) (tracker : tau_tracker) :
    ∃ r, tau_tracker_upkeep env tracker = some r :=
  tau_tracker_upkeep_ex_total env tracker true

theorem tau_tracker_upkeep_spec (k : Bool × Nat) (env : tau_env) (tracker : tau_tracker)
    (r : tau_tracker × List tau_effect) (h : tau_tracker_upkeep env tracker = some r) :
    tau_invoked k r.2 + tau_tracker_pending k r.1 = tau_tracker_pending k tracker :=
  tau_tracker_upkeep_ex_spec k 2 env tracker true r h
theorem tau_invoked_on_announce_response (k : Bool × Nat) (req : tau_announce_request)
    (action : Nat) (buf : List Nat) :
    tau_invoked k (on_announce_response req action buf).2 = tau_pending_announces k [req] := by
  unfold on_announce_response
  lift_lets
  intro buflen r0 request src errmsg
  by_cases hc : action = TAU_ACTION_ANNOUNCE ∧ buflen ≥ 3 * 4
  · rw [if_pos hc]
    show tau_invoked k (tau_announce_request_finished _) = _
    rw [tau_invoked_announce_finished]
    rfl
  · rw [if_neg hc]
    rw [tau_invoked_announce_fail]
    rfl

theorem tau_invoked_on_scrape_response (k : Bool × Nat) (req : tau_scrape_request)
    (action : Nat) (buf : List Nat) :
    tau_invoked k (on_scrape_response req action buf).2 = tau_pending_scrapes k [req] := by
  unfold on_scrape_response
  lift_lets
  intro r0 request src request1 buflen errmsg
  by_cases hc : action = TAU_ACTION_SCRAPE
  · rw [if_pos hc]
    show tau_invoked k (tau_scrape_request_finished _) = _
    rw [tau_invoked_scrape_finished]
    rfl
  · rw [if_neg hc]
    rw [tau_invoked_scrape_fail]
    rfl

theorem removeFirst_perm {α : Type} (p : α → Bool) (l : List α) (x : α) (l2 : List α)
    (h : removeFirst p l = some (x, l2)) : l.Perm (x :: l2) := by
  induction l generalizing x l2 with
  | nil => cases h
  | cons a l ih =>
    unfold removeFirst at h
    split at h
    · cases h
      exact List.Perm.refl _
    · split at h
      · rename_i y ys hy
        cases h
        exact ((ih _ _ hy).cons a).trans (List.Perm.swap _ _ _)
      · cases h

theorem removeFirst_pending_announces (k : Bool × Nat) (p : tau_announce_request → Bool)
    (l : List tau_announce_request) (x : tau_announce_request) (l2 : List tau_announce_request)
    (h : removeFirst p l = some (x, l2)) :
    tau_pending_announces k l = tau_pending_announces k [x] + tau_pending_announces k l2 := by
  rw [← tau_pending_announces_cons]
  unfold tau_pending_announces
  rw [(removeFirst_perm p l x l2 h).countP_eq]

theorem removeFirst_pending_scrapes (k : Bool × Nat) (p : tau_scrape_request → Bool)
    (l : List tau_scrape_request) (x : tau_scrape_request) (l2 : List tau_scrape_request)
    (h : removeFirst p l = some (x, l2)) :
    tau_pending_scrapes k l = tau_pending_scrapes k [x] + tau_pending_scrapes k l2 := by
  rw [← tau_pending_scrapes_cons]
  unfold tau_pending_scrapes
  rw [(removeFirst_perm p l x l2 h).countP_eq]

theorem tau_pending_some (k : Bool × Nat) (tau : tr_announcer_udp) :
    tau_pending k (some tau) = (tau.trackers.map (tau_tracker_pending k)).sum := rfl

theorem tau_trackers_pending_append (k : Bool × Nat) (a b : List tau_tracker) :
    ((a ++ b).map (tau_tracker_pending k)).sum
      = (a.map (tau_tracker_pending k)).sum + (b.map (tau_tracker_pending k)).sum := by
  rw [List.map_append, List.sum_append]

theorem tau_trackers_pending_cons (k : Bool × Nat) (a : tau_tracker) (b : List tau_tracker) :
    ((a :: b).map (tau_tracker_pending k)).sum
      = tau_tracker_pending k a + (b.map (tau_tracker_pending k)).sum := by
  rw [List.map_cons, List.sum_cons]

theorem tau_handle_message_trackers_spec (k : Bool × Nat) (env : tau_env)
    (action_id transaction_id : Nat) (buf : List Nat) (rest : List tau_tracker) :
    ∀ (pre : List tau_tracker),
      ∃ r, tau_handle_message_trackers env action_id transaction_id buf pre rest = some r
        ∧ tau_invoked k r.2.2 + (r.2.1.map (tau_tracker_pending k)).sum
          = ((pre ++ rest).map (tau_tracker_pending k)).sum := by
  induction rest with
  | nil =>
    intro pre
    refine ⟨_, rfl, ?_⟩
    rw [List.append_nil]
    exact Nat.zero_add _
  | cons tracker rest ih =>
    intro pre
    unfold tau_handle_message_trackers
    split
    · obtain ⟨q, hq⟩ := on_tracker_connection_response_total (tau_tracker_upkeep env)
        (fun t _ => tau_tracker_upkeep_total env t) env tracker action_id (some buf)
      have hk := on_tracker_connection_response_spec k (tau_tracker_upkeep env)
        (tau_tracker_upkeep_spec k env) env tracker action_id (some buf) q hq
      rw [hq]
      refine ⟨_, rfl, ?_⟩
      dsimp only
      rw [tau_trackers_pending_append, tau_trackers_pending_append, tau_trackers_pending_cons,
        tau_trackers_pending_cons]
      omega
    · split
      · rename_i req reqs hreq
        refine ⟨_, rfl, ?_⟩
        have h1 := removeFirst_pending_announces k _ _ _ _ hreq
        dsimp only
        rw [tau_invoked_on_announce_response, tau_trackers_pending_append,
          tau_trackers_pending_append, tau_trackers_pending_cons, tau_trackers_pending_cons]
        unfold tau_tracker_pending
        dsimp only
        omega
      · split
        · rename_i req reqs hreq
          refine ⟨_, rfl, ?_⟩
          have h1 := removeFirst_pending_scrapes k _ _ _ _ hreq
          dsimp only
          rw [tau_invoked_on_scrape_response, tau_trackers_pending_append,
            tau_trackers_pending_append, tau_trackers_pending_cons, tau_trackers_pending_cons]
          unfold tau_tracker_pending
          dsimp only
          omega
        · obtain ⟨r, hr, hk⟩ := ih (pre ++ [tracker])
          refine ⟨r, hr, ?_⟩
          rw [hk, List.append_assoc]
          rfl

theorem tau_handle_message_spec (k : Bool × Nat) (env : tau_env)
    (announcer_udp : Option tr_announcer_udp) (msg : List Nat) :
    ∃ r, tau_handle_message env announcer_udp msg = some r
      ∧ tau_invoked k r.2.2 + tau_pending k r.2.1 = tau_pending k announcer_udp := by
  unfold tau_handle_message
  cases announcer_udp with
  | none => exact ⟨_, rfl, rfl⟩
  | some tau =>
    dsimp only
    split
    · exact ⟨_, rfl, Nat.zero_add _⟩
    · split
      · exact ⟨_, rfl, Nat.zero_add _⟩
      · obtain ⟨r, hr, hk⟩ := tau_handle_message_trackers_spec k env
          (evbuffer_read_ntoh_32 msg).1 (evbuffer_read_ntoh_32 (evbuffer_read_ntoh_32 msg).2).1
          (evbuffer_read_ntoh_32 (evbuffer_read_ntoh_32 msg).2).2 tau.trackers []
        rw [hr]
        exact ⟨_, rfl, hk⟩
theorem tau_trackers_foreach_spec (k : Bool × Nat)
    (f : tau_tracker → Option (tau_tracker × List tau_effect))
    (htotal : ∀ t, ∃ r, f t = some r)
    (hf : ∀ t r, f t = some r →
      tau_invoked k r.2 + tau_tracker_pending k r.1 = tau_tracker_pending k t)
    (trackers : List tau_tracker) :
    ∃ r, tau_trackers_foreach f trackers = some r
      ∧ tau_invoked k r.2 + (r.1.map (tau_tracker_pending k)).sum
        = (trackers.map (tau_tracker_pending k)).sum := by
  induction trackers with
  | nil => exact ⟨_, rfl, rfl⟩
  | cons tracker trackers ih =>
    obtain ⟨q, hq⟩ := htotal tracker
    obtain ⟨r, hr, hk⟩ := ih
    have h1 := hf tracker q hq
    unfold tau_trackers_foreach
    rw [hq, hr]
    refine ⟨_, rfl, ?_⟩
    dsimp only
    rw [tau_invoked_append, tau_trackers_pending_cons, tau_trackers_pending_cons]
    omega

theorem tau_on_dns_at_spec (k : Bool × Nat)
    (f : tau_tracker → Option (tau_tracker × List tau_effect))
    (htotal : ∀ t, ∃ r, f t = some r)
    (hf : ∀ t r, f t = some r →
      tau_invoked k r.2 + tau_tracker_pending k r.1 = tau_tracker_pending k t)
    (key : Nat) (trackers : List tau_tracker) :
    ∃ r, tau_on_dns_at f key trackers = some r
      ∧ tau_invoked k r.2 + (r.1.map (tau_tracker_pending k)).sum
        = (trackers.map (tau_tracker_pending k)).sum := by
  induction trackers with
  | nil => exact ⟨_, rfl, rfl⟩
  | cons tracker trackers ih =>
    unfold tau_on_dns_at
    split
    · obtain ⟨q, hq⟩ := htotal tracker
      have h1 := hf tracker q hq
      rw [hq]
      refine ⟨_, rfl, ?_⟩
      dsimp only
      rw [tau_trackers_pending_cons, tau_trackers_pending_cons]
      omega
    · obtain ⟨r, hr, hk⟩ := ih
      rw [hr]
      refine ⟨_, rfl, ?_⟩
      dsimp only
      rw [tau_trackers_pending_cons, tau_trackers_pending_cons]
      omega

theorem tau_session_with_tracker_spec (k : Bool × Nat)
    (f : tau_tracker → Option (tau_tracker × List tau_effect)) (n : Nat)
    (htotal : ∀ t, ∃ r, f t = some r)
    (hf : ∀ t r, f t = some r →
      tau_invoked k r.2 + tau_tracker_pending k r.1 = tau_tracker_pending k t + n)
    (key host : Nat) (port : Int) (trackers : List tau_tracker) :
    ∃ r, tau_session_with_tracker f key host port trackers = some r
      ∧ tau_invoked k r.2 + (r.1.map (tau_tracker_pending k)).sum
        = (trackers.map (tau_tracker_pending k)).sum + n := by
  induction trackers with
  | nil =>
    unfold tau_session_with_tracker
    obtain ⟨q, hq⟩ := htotal { key := key, host := host, port := port }
    have h1 := hf _ q hq
    have h0 : tau_tracker_pending k { key := key, host := host, port := port } = 0 := by
      unfold tau_tracker_pending
      rw [tau_pending_announces_nil, tau_pending_scrapes_nil]
    rw [hq]
    refine ⟨_, rfl, ?_⟩
    dsimp only
    rw [tau_trackers_pending_cons]
    simp only [List.map_nil, List.sum_nil]
    omega
  | cons tracker trackers ih =>
    unfold tau_session_with_tracker
    split
    · obtain ⟨q, hq⟩ := htotal tracker
      have h1 := hf tracker q hq
      rw [hq]
      refine ⟨_, rfl, ?_⟩
      dsimp only
      rw [tau_trackers_pending_cons, tau_trackers_pending_cons]
      omega
    · obtain ⟨r, hr, hk⟩ := ih
      rw [hr]
      refine ⟨_, rfl, ?_⟩
      dsimp only
      rw [tau_trackers_pending_cons, tau_trackers_pending_cons]
      omega

theorem tau_tracker_on_dns_spec (k : Bool × Nat) (env : tau_env) (errcode : Int)
    (addr : tr_address_type) (strerror : List Nat) (tracker : tau_tracker) :
    ∃ r, tau_tracker_on_dns env errcode addr strerror tracker = some r
      ∧ tau_invoked k r.2 + tau_tracker_pending k r.1 = tau_tracker_pending k tracker := by
  unfold tau_tracker_on_dns
  lift_lets
  intro t0 errmsg t1
  split
  · exact ⟨_, rfl, (tau_tracker_fail_all_spec k t0 false false (some errmsg)).1⟩
  · obtain ⟨r, hr⟩ := tau_tracker_upkeep_total env t1
    exact ⟨r, hr, tau_tracker_upkeep_spec k env t1 r hr⟩

theorem tau_handed_cons (k : Bool × Nat) (c : tau_env × tau_call)
    (calls : List (tau_env × tau_call)) :
    tau_handed k (c :: calls) = tau_handed k [c] + tau_handed k calls := by
  obtain ⟨env, call⟩ := c
  cases call with
  | announce parsed request callback transaction_id =>
    cases parsed <;> simp only [tau_handed, Nat.add_zero, Nat.zero_add]
  | scrape parsed request callback transaction_id =>
    cases parsed <;> simp only [tau_handed, Nat.add_zero, Nat.zero_add]
  | _ => simp only [tau_handed, Nat.zero_add]

theorem tau_pending_getD (k : Bool × Nat) (announcer_udp : Option tr_announcer_udp) :
    ((announcer_udp.getD {}).trackers.map (tau_tracker_pending k)).sum
      = tau_pending k announcer_udp := by
  cases announcer_udp <;> rfl

theorem tau_step_spec (k : Bool × Nat) (announcer_udp : Option tr_announcer_udp) (env : tau_env)
    (call : tau_call) :
    ∃ r, tau_step announcer_udp env call = some r
      ∧ tau_invoked k r.2 + tau_pending k r.1
        ≤ tau_pending k announcer_udp + tau_handed k [(env, call)] := by
  cases call with
  | close =>
    unfold tau_step tr_tracker_udp_close
    cases announcer_udp with
    | none => exact ⟨_, rfl, Nat.le_refl _⟩
    | some tau => exact ⟨_, rfl, Nat.zero_le _⟩
  | upkeep =>
    unfold tau_step tr_tracker_udp_upkeep
    cases announcer_udp with
    | none => exact ⟨_, rfl, Nat.le_refl _⟩
    | some tau =>
      obtain ⟨r, hr, hk⟩ := tau_trackers_foreach_spec k (tau_tracker_upkeep env)
        (tau_tracker_upkeep_total env) (tau_tracker_upkeep_spec k env) tau.trackers
      dsimp only
      rw [hr]
      exact ⟨_, rfl, Nat.le_of_eq hk⟩
  | message msg =>
    obtain ⟨r, hr, hk⟩ := tau_handle_message_spec k env announcer_udp msg
    unfold tau_step
    dsimp only
    rw [hr]
    exact ⟨_, rfl, Nat.le_of_eq (by simpa only [tau_handed, Nat.add_zero] using hk)⟩
  | on_dns key errcode addr strerror =>
    unfold tau_step
    cases announcer_udp with
    | none => exact ⟨_, rfl, Nat.le_refl _⟩
    | some tau =>
      obtain ⟨r, hr, hk⟩ := tau_on_dns_at_spec k (tau_tracker_on_dns env errcode addr strerror)
        (fun t => (tau_tracker_on_dns_spec k env errcode addr strerror t).imp (fun _ h => h.1))
        (fun t r hr => by
          obtain ⟨r2, hr2, hk2⟩ := tau_tracker_on_dns_spec k env errcode addr strerror t
          rw [hr] at hr2
          cases hr2
          exact hk2)
        key tau.trackers
      dsimp only
      rw [hr]
      exact ⟨_, rfl, Nat.le_of_eq hk⟩
  | start_shutdown =>
    unfold tau_step tr_tracker_udp_start_shutdown
    cases announcer_udp with
    | none => exact ⟨_, rfl, Nat.le_refl _⟩
    | some tau =>
      obtain ⟨r, hr, hk⟩ := tau_trackers_foreach_spec k
        (fun tracker => tau_tracker_upkeep env { tracker with close_at := env.time + 3 })
        (fun t => tau_tracker_upkeep_total env _)
        (fun t r hr => tau_tracker_upkeep_spec k env { t with close_at := env.time + 3 } r hr)
        tau.trackers
      dsimp only
      rw [hr]
      exact ⟨_, rfl, Nat.le_of_eq hk⟩
  | announce parsed request callback transaction_id =>
    unfold tau_step tr_tracker_udp_announce
    cases parsed with
    | none =>
      refine ⟨_, rfl, Nat.le_of_eq ?_⟩
      dsimp only
      rw [tau_invoked_nil, tau_pending_some, tau_pending_getD]
      simp only [tau_handed, Nat.add_zero, Nat.zero_add]
    | some p =>
      obtain ⟨key, host, port⟩ := p
      obtain ⟨r, hr, hk⟩ := tau_session_with_tracker_spec k
        (fun tracker => tau_tracker_upkeep_ex 2 env
          { tracker with announces := tracker.announces
              ++ [tau_announce_request_new env request callback transaction_id] } false)
        (if !k.1 && callback == some k.2 then 1 else 0)
        (fun t => tau_tracker_upkeep_ex_total env _ false)
        (fun t r hr => by
          rw [tau_tracker_upkeep_ex_spec k 2 env _ false r hr]
          unfold tau_tracker_pending
          dsimp only
          rw [tau_pending_announces_append, tau_pending_announces_one]
          show _ + (if !k.1 && callback == some k.2 then 1 else 0) + _ = _
          omega)
        key host port (announcer_udp.getD {}).trackers
      dsimp only
      rw [hr]
      refine ⟨_, rfl, Nat.le_of_eq ?_⟩
      rw [tau_pending_getD] at hk
      simp only [tau_handed, Nat.add_zero]
      exact hk
  | scrape parsed request callback transaction_id =>
    unfold tau_step tr_tracker_udp_scrape
    cases parsed with
    | none =>
      refine ⟨_, rfl, Nat.le_of_eq ?_⟩
      dsimp only
      rw [tau_invoked_nil, tau_pending_some, tau_pending_getD]
      simp only [tau_handed, Nat.add_zero, Nat.zero_add]
    | some p =>
      obtain ⟨key, host, port⟩ := p
      obtain ⟨r, hr, hk⟩ := tau_session_with_tracker_spec k
        (fun tracker => tau_tracker_upkeep_ex 2 env
          { tracker with scrapes := tracker.scrapes
              ++ [tau_scrape_request_new env request callback transaction_id] } false)
        (if k.1 && callback == some k.2 then 1 else 0)
        (fun t => tau_tracker_upkeep_ex_total env _ false)
        (fun t r hr => by
          rw [tau_tracker_upkeep_ex_spec k 2 env _ false r hr]
          unfold tau_tracker_pending
          dsimp only
          rw [tau_pending_scrapes_append, tau_pending_scrapes_one]
          show _ + (_ + (if k.1 && callback == some k.2 then 1 else 0)) = _
          omega)
        key host port (announcer_udp.getD {}).trackers
      dsimp only
      rw [hr]
      refine ⟨_, rfl, Nat.le_of_eq ?_⟩
      rw [tau_pending_getD] at hk
      simp only [tau_handed, Nat.add_zero]
      exact hk

theorem tau_run_spec (k : Bool × Nat) (calls : List (tau_env × tau_call)) :
    ∀ announcer_udp : Option tr_announcer_udp,
      ∃ r, tau_run announcer_udp calls = some r
        ∧ tau_invoked k r.2 + tau_pending k r.1
          ≤ tau_pending k announcer_udp + tau_handed k calls := by
  induction calls with
  | nil =>
    intro announcer_udp
    exact ⟨_, rfl, Nat.le_of_eq (Nat.zero_add _)⟩
  | cons c calls ih =>
    intro announcer_udp
    obtain ⟨env, call⟩ := c
    obtain ⟨q, hq, hk1⟩ := tau_step_spec k announcer_udp env call
    obtain ⟨r, hr, hk2⟩ := ih q.1
    unfold tau_run
    rw [hq]
    dsimp only
    rw [hr]
    refine ⟨_, rfl, ?_⟩
    dsimp only
    rw [tau_invoked_append, tau_handed_cons]
    omega
theorem tau_run_announceCalls :
    (tau_run none announceCalls).map
        (fun r => (tau_invoked (false, 5) r.2, tau_pending (false, 5) r.1, r.2.length))
      = some (1, 0, 4) := by
  decide

/-- C29: whatever the transport holds and whatever calls follow (upkeep ticks,
datagrams, DNS results, the shutdown, the close, requests handed in), the calls
return, and for every response callback the number of its invocations plus the
number of pending requests that hold it afterwards is at most the number of
pending requests that held it before plus the number of requests handed in with
it: each invocation takes its request out of the pending queue. So a callback
held by at most one request is invoked at most once (response, failure or
timeout alike), after that invocation no pending request holds it, and no later
call that hands in no request for it (a repeated datagram with the same
transaction id among them) invokes it again. -/
theorem tau_callback_invoked_at_most_once (announcer_udp : Option tr_announcer_udp)
    (calls : List (tau_env × tau_call)) (k : Bool × Nat) :
    ∃ r, tau_run announcer_udp calls = some r
      ∧ tau_invoked k r.2 + tau_pending k r.1
        ≤ tau_pending k announcer_udp + tau_handed k calls
      ∧ (tau_pending k announcer_udp + tau_handed k calls ≤ 1 →
          tau_invoked k r.2 ≤ 1
          ∧ (tau_invoked k r.2 = 1 →
              tau_pending k r.1 = 0
              ∧ ∀ more : List (tau_env × tau_call), tau_handed k more = 0 →
                  ∃ r2, tau_run r.1 more = some r2 ∧ tau_invoked k r2.2 = 0)) := by
  obtain ⟨r, hr, hk⟩ := tau_run_spec k calls announcer_udp
  refine ⟨r, hr, hk, fun h1 => ⟨by omega, fun h2 => ⟨by omega, fun more hm => ?_⟩⟩⟩
  obtain ⟨r2, hr2, hk2⟩ := tau_run_spec k more r.1
  exact ⟨r2, hr2, by omega⟩

end Transmission
